import Mathlib

/-!
# ppup1090: Mode S decoder, CPR decoder and aircraft tracker

A shallow embedding of `mode_s.c`, `interactive.c` and, of `ppup1090.c`, the Beast reader
`decodeBinMessage` and the frame scan of `modesReadFromClient`.

Conventions of the embedding:

* unsigned C values (`unsigned char`, `uint32_t`, `uint64_t`, and the `int` bit-flag words,
  which only ever hold bits 0..15) are `Nat`; wrap-around is written out with `%` where the
  C arithmetic can wrap;
* signed C values are `Int`;
* a `double` is a `ℚ`.  In the CPR decoders every operation whose result one of their
  tests reads (the candidate latitudes of `decodeCPR`, and all of `decodeCPRrelative`) is
  the exact operation followed by the rounding `ext.rnd`, of which nothing is assumed;
  the remaining `double` arithmetic (the longitude that `decodeCPR` stores) is exact;
* a byte buffer is a `List Nat`, `msg[i]` is `byteAt msg i`;
* the two linked lists (`Modes.aircrafts`, `Modes.pDF`) are Lean lists, head first; a
  pointer to a record of a list is the record's address field or its position in the list;
* a `char *` that walks an input buffer is the list of the bytes from the pointer on, or,
  in the frame scan, a position in the client buffer;
* a loop whose number of iterations is not fixed takes a bound on its iterations as first
  argument; the bound is shown never to be used up;
* the wall clock `time(NULL)`, the millisecond clock `mstime()` and the outcome of taking the
  frame-log lock are inputs of the operation that reads them;
* functions that live in `mode_ac.c` or in libm, the rounding of `double` operations and
  the value of `abs(INT_MIN)`, which C leaves undefined, are taken as parameters (`Ext`).
-/

namespace Ppup1090

/-! ## Constants of `ppup1090.h` -/

def MODEAC_MSG_BYTES : Nat := 2
def MODEAC_MSG_FLAG : Nat := 1 <<< 0
def MODEAC_MSG_MODES_HIT : Nat := 1 <<< 1
def MODEAC_MSG_MODEA_HIT : Nat := 1 <<< 2
def MODEAC_MSG_MODEC_HIT : Nat := 1 <<< 3
def MODEAC_MSG_MODEA_ONLY : Nat := 1 <<< 4
def MODEAC_MSG_MODEC_OLD : Nat := 1 <<< 5

def MODES_LONG_MSG_BYTES : Nat := 14
def MODES_SHORT_MSG_BYTES : Nat := 7
def MODES_LONG_MSG_BITS : Nat := MODES_LONG_MSG_BYTES * 8
def MODES_SHORT_MSG_BITS : Nat := MODES_SHORT_MSG_BYTES * 8

def MODES_ICAO_CACHE_LEN : Nat := 1024
def MODES_ICAO_CACHE_TTL : Nat := 60
def MODES_UNIT_FEET : Nat := 0
def MODES_UNIT_METERS : Nat := 1

def MODES_USER_LATLON_VALID : Nat := 1 <<< 0

def MODES_ACFLAGS_LATLON_VALID : Nat := 1 <<< 0
def MODES_ACFLAGS_ALTITUDE_VALID : Nat := 1 <<< 1
def MODES_ACFLAGS_HEADING_VALID : Nat := 1 <<< 2
def MODES_ACFLAGS_SPEED_VALID : Nat := 1 <<< 3
def MODES_ACFLAGS_VERTRATE_VALID : Nat := 1 <<< 4
def MODES_ACFLAGS_SQUAWK_VALID : Nat := 1 <<< 5
def MODES_ACFLAGS_CALLSIGN_VALID : Nat := 1 <<< 6
def MODES_ACFLAGS_EWSPEED_VALID : Nat := 1 <<< 7
def MODES_ACFLAGS_NSSPEED_VALID : Nat := 1 <<< 8
def MODES_ACFLAGS_AOG : Nat := 1 <<< 9
def MODES_ACFLAGS_LLEVEN_VALID : Nat := 1 <<< 10
def MODES_ACFLAGS_LLODD_VALID : Nat := 1 <<< 11
def MODES_ACFLAGS_AOG_VALID : Nat := 1 <<< 12
def MODES_ACFLAGS_FS_VALID : Nat := 1 <<< 13
def MODES_ACFLAGS_NSEWSPD_VALID : Nat := 1 <<< 14
def MODES_ACFLAGS_LATLON_REL_OK : Nat := 1 <<< 15

def MODES_ACFLAGS_LLEITHER_VALID : Nat := MODES_ACFLAGS_LLEVEN_VALID ||| MODES_ACFLAGS_LLODD_VALID
def MODES_ACFLAGS_LLBOTH_VALID : Nat := MODES_ACFLAGS_LLEVEN_VALID ||| MODES_ACFLAGS_LLODD_VALID

def MODES_USER_LATITUDE_DFLT : ℚ := 0
def MODES_USER_LONGITUDE_DFLT : ℚ := 0

/-- The C expression `x & ~m` on a 32-bit flag word. -/
def clearBits (x m : Nat) : Nat := x &&& (0xFFFFFFFF ^^^ m)

/-- The C expression `msg[i]` on a byte buffer. -/
def byteAt (msg : List Nat) (i : Nat) : Nat := msg.getD i 0

/-! ## `mode_s.c`: checksum -/

def modes_checksum_table : List Nat := [
  0x3935ea, 0x1c9af5, 0xf1b77e, 0x78dbbf, 0xc397db, 0x9e31e9, 0xb0e2f0, 0x587178,
  0x2c38bc, 0x161c5e, 0x0b0e2f, 0xfa7d13, 0x82c48d, 0xbe9842, 0x5f4c21, 0xd05c14,
  0x682e0a, 0x341705, 0xe5f186, 0x72f8c3, 0xc68665, 0x9cb936, 0x4e5c9b, 0xd8d449,
  0x939020, 0x49c810, 0x24e408, 0x127204, 0x093902, 0x049c81, 0xfdb444, 0x7eda22,
  0x3f6d11, 0xe04c8c, 0x702646, 0x381323, 0xe3f395, 0x8e03ce, 0x4701e7, 0xdc7af7,
  0x91c77f, 0xb719bb, 0xa476d9, 0xadc168, 0x56e0b4, 0x2b705a, 0x15b82d, 0xf52612,
  0x7a9309, 0xc2b380, 0x6159c0, 0x30ace0, 0x185670, 0x0c2b38, 0x06159c, 0x030ace,
  0x018567, 0xff38b7, 0x80665f, 0xbfc92b, 0xa01e91, 0xaff54c, 0x57faa6, 0x2bfd53,
  0xea04ad, 0x8af852, 0x457c29, 0xdd4410, 0x6ea208, 0x375104, 0x1ba882, 0x0dd441,
  0xf91024, 0x7c8812, 0x3e4409, 0xe0d800, 0x706c00, 0x383600, 0x1c1b00, 0x0e0d80,
  0x0706c0, 0x038360, 0x01c1b0, 0x00e0d8, 0x00706c, 0x003836, 0x001c1b, 0xfff409,
  0x000000, 0x000000, 0x000000, 0x000000, 0x000000, 0x000000, 0x000000, 0x000000,
  0x000000, 0x000000, 0x000000, 0x000000, 0x000000, 0x000000, 0x000000, 0x000000,
  0x000000, 0x000000, 0x000000, 0x000000, 0x000000, 0x000000, 0x000000, 0x000000]

/-- The `for (j = 0; j < bits; j++)` loop of `modesChecksum`.  The first argument counts the
iterations still to run; the state is `j`, `crc`, `theByte`, the read position `p` of `msg`
and the position `t` of `pCRCTable`.  Returns the final `crc` and `p`. -/
def modesChecksumLoop (msg : List Nat) : Nat → Nat → Nat → Nat → Nat → Nat → Nat × Nat
  | 0, _, crc, _, p, _ => (crc, p)
  | n + 1, j, crc, theByte, p, t =>
    let theByte1 := if j &&& 7 = 0 then byteAt msg p else theByte
    let p1 := if j &&& 7 = 0 then p + 1 else p
    let crc1 := if theByte1 &&& 0x80 ≠ 0 then crc ^^^ modes_checksum_table.getD t 0 else crc
    modesChecksumLoop msg n (j + 1) crc1 ((theByte1 <<< 1) % 256) p1 (t + 1)

def modesChecksum (msg : List Nat) (bits : Nat) : Nat :=
  let offset := if bits = 112 then 0 else 112 - 56
  let theByte := byteAt msg 0
  let r := modesChecksumLoop msg (bits - 24) 0 0 theByte 0 offset
  let crc := r.1
  let p := r.2
  let rem := (byteAt msg p <<< 16) ||| (byteAt msg (p + 1) <<< 8) ||| byteAt msg (p + 2)
  (crc ^^^ rem) &&& 0x00FFFFFF

def modesMessageLenByType (type : Nat) : Nat :=
  if type &&& 0x10 ≠ 0 then MODES_LONG_MSG_BITS else MODES_SHORT_MSG_BITS

/-! ## `mode_s.c`: cache of recently seen ICAO addresses -/

/-- The array `Modes.icao_cache`: slot `h` holds an address at index `2h` and a time at `2h+1`. -/
abbrev IcaoCache := Nat → Nat

def ICAOCacheHashAddress (a : Nat) : Nat :=
  let a1 := (((a >>> 16) ^^^ a) * 0x45d9f3b) % 2 ^ 32
  let a2 := (((a1 >>> 16) ^^^ a1) * 0x45d9f3b) % 2 ^ 32
  let a3 := (a2 >>> 16) ^^^ a2
  a3 &&& (MODES_ICAO_CACHE_LEN - 1)

/-- Here `now` is the value of `time(NULL)`; the store truncates it to `uint32_t`. -/
def addRecentlySeenICAOAddr (cache : IcaoCache) (now : Nat) (addr : Nat) : IcaoCache :=
  let h := ICAOCacheHashAddress addr
  Function.update (Function.update cache (h * 2) addr) (h * 2 + 1) (now % 2 ^ 32)

/-- Here `now` is the value of `time(NULL)`, converted to `uint64_t`; the cache words are
`uint32_t`, and `tn - t` is a `uint64_t` subtraction. -/
def ICAOAddressWasRecentlySeen (cache : IcaoCache) (now : Nat) (addr : Nat) : Nat :=
  let h := ICAOCacheHashAddress addr
  let a := cache (h * 2)
  let t := cache (h * 2 + 1)
  let tn := now % 2 ^ 64
  if a ≠ 0 ∧ a = addr ∧ (tn + 2 ^ 64 - t) % 2 ^ 64 ≤ MODES_ICAO_CACHE_TTL then 1 else 0

/-! ## `mode_s.c`: field decoders -/

def decodeID13Field (ID13Field : Nat) : Nat :=
  let hexGillham := 0
  let hexGillham := if ID13Field &&& 0x1000 ≠ 0 then hexGillham ||| 0x0010 else hexGillham
  let hexGillham := if ID13Field &&& 0x0800 ≠ 0 then hexGillham ||| 0x1000 else hexGillham
  let hexGillham := if ID13Field &&& 0x0400 ≠ 0 then hexGillham ||| 0x0020 else hexGillham
  let hexGillham := if ID13Field &&& 0x0200 ≠ 0 then hexGillham ||| 0x2000 else hexGillham
  let hexGillham := if ID13Field &&& 0x0100 ≠ 0 then hexGillham ||| 0x0040 else hexGillham
  let hexGillham := if ID13Field &&& 0x0080 ≠ 0 then hexGillham ||| 0x4000 else hexGillham
  let hexGillham := if ID13Field &&& 0x0020 ≠ 0 then hexGillham ||| 0x0100 else hexGillham
  let hexGillham := if ID13Field &&& 0x0010 ≠ 0 then hexGillham ||| 0x0001 else hexGillham
  let hexGillham := if ID13Field &&& 0x0008 ≠ 0 then hexGillham ||| 0x0200 else hexGillham
  let hexGillham := if ID13Field &&& 0x0004 ≠ 0 then hexGillham ||| 0x0002 else hexGillham
  let hexGillham := if ID13Field &&& 0x0002 ≠ 0 then hexGillham ||| 0x0400 else hexGillham
  let hexGillham := if ID13Field &&& 0x0001 ≠ 0 then hexGillham ||| 0x0004 else hexGillham
  hexGillham

/-- What the sources take from outside `mode_s.c` and `interactive.c`: the function
`ModeAToModeC` of `mode_ac.c`, `atan2Deg ew ns` for `(int)(atan2(ew, ns) * 180.0 / M_PI)`,
the rounding of the `double` operations of the CPR decoders, and the value of
`abs(INT_MIN)`, which C leaves undefined. -/
structure Ext where
  ModeAToModeC : Nat → Int
  atan2Deg : Int → Int → Int
  /-- The rounding of a `double` operation: the value stored for the exact result. -/
  rnd : ℚ → ℚ
  /-- The value returned by `abs(INT_MIN)`. -/
  absIntMin : Int

/-- Returns the altitude and the value written to `*unit`. -/
def decodeAC13Field (ext : Ext) (AC13Field : Nat) : Int × Nat :=
  let m_bit := AC13Field &&& 0x0040
  let q_bit := AC13Field &&& 0x0010
  if m_bit = 0 then
    if q_bit ≠ 0 then
      let n := ((AC13Field &&& 0x1F80) >>> 2) ||| ((AC13Field &&& 0x0020) >>> 1) |||
        (AC13Field &&& 0x000F)
      (((n : Int) * 25) - 1000, MODES_UNIT_FEET)
    else
      let n := ext.ModeAToModeC (decodeID13Field AC13Field)
      let n := if n < -12 then 0 else n
      (100 * n, MODES_UNIT_FEET)
  else
    (0, MODES_UNIT_METERS)

/-- Returns the altitude and the value written to `*unit`. -/
def decodeAC12Field (ext : Ext) (AC12Field : Nat) : Int × Nat :=
  let q_bit := AC12Field &&& 0x10
  if q_bit ≠ 0 then
    let n := ((AC12Field &&& 0x0FE0) >>> 1) ||| (AC12Field &&& 0x000F)
    (((n : Int) * 25) - 1000, MODES_UNIT_FEET)
  else
    let n := ((AC12Field &&& 0x0FC0) <<< 1) ||| (AC12Field &&& 0x003F)
    let n := ext.ModeAToModeC (decodeID13Field n)
    let n := if n < -12 then 0 else n
    (100 * n, MODES_UNIT_FEET)

def decodeMovementField (movement : Nat) : Nat :=
  if movement > 123 then 199
  else if movement > 108 then ((movement - 108) * 5) + 100
  else if movement > 93 then ((movement - 93) * 2) + 70
  else if movement > 38 then (movement - 38) + 15
  else if movement > 12 then ((movement - 11) >>> 1) + 2
  else if movement > 8 then ((movement - 6) >>> 2) + 1
  else 0

/-! ## `mode_s.c`: the message record and its decoder -/

structure modesMessage where
  msg : List Nat
  msgbits : Nat
  msgtype : Nat
  crcok : Nat
  crc : Nat
  addr : Nat
  timestampMsg : Nat
  signalLevel : Nat
  ca : Nat
  iid : Nat
  metype : Nat
  mesub : Nat
  heading : Int
  raw_latitude : Nat
  raw_longitude : Nat
  fLat : ℚ
  fLon : ℚ
  flight : List Char
  ew_velocity : Int
  ns_velocity : Int
  vert_rate : Int
  velocity : Int
  fs : Nat
  modeA : Nat
  altitude : Int
  unit : Nat
  bFlags : Nat
  deriving DecidableEq

/-- The record after `memset(&mm, 0, sizeof(mm))`. -/
def modesMessage.zero : modesMessage where
  msg := List.replicate MODES_LONG_MSG_BYTES 0
  msgbits := 0
  msgtype := 0
  crcok := 0
  crc := 0
  addr := 0
  timestampMsg := 0
  signalLevel := 0
  ca := 0
  iid := 0
  metype := 0
  mesub := 0
  heading := 0
  raw_latitude := 0
  raw_longitude := 0
  fLat := 0
  fLon := 0
  flight := List.replicate 16 (Char.ofNat 0)
  ew_velocity := 0
  ns_velocity := 0
  vert_rate := 0
  velocity := 0
  fs := 0
  modeA := 0
  altitude := 0
  unit := 0
  bFlags := 0

def ais_charset : List Char :=
  "?ABCDEFGHIJKLMNOPQRSTUVWXYZ????? ???????????????0123456789??????".toList

/-- The eight assignments `mm->flight[k] = ais_charset[chars & 0x3F]` and the terminator, as
written twice in `decodeModesMessage` (ME types 1..4 and Comm-B BDS 2,0). -/
def decodeFlight (msg : List Nat) (flight : List Char) : List Char :=
  let chars := (byteAt msg 5 <<< 16) ||| (byteAt msg 6 <<< 8) ||| byteAt msg 7
  let flight := flight.set 3 (ais_charset.getD (chars &&& 0x3F) '?')
  let chars := chars >>> 6
  let flight := flight.set 2 (ais_charset.getD (chars &&& 0x3F) '?')
  let chars := chars >>> 6
  let flight := flight.set 1 (ais_charset.getD (chars &&& 0x3F) '?')
  let chars := chars >>> 6
  let flight := flight.set 0 (ais_charset.getD (chars &&& 0x3F) '?')
  let chars := (byteAt msg 8 <<< 16) ||| (byteAt msg 9 <<< 8) ||| byteAt msg 10
  let flight := flight.set 7 (ais_charset.getD (chars &&& 0x3F) '?')
  let chars := chars >>> 6
  let flight := flight.set 6 (ais_charset.getD (chars &&& 0x3F) '?')
  let chars := chars >>> 6
  let flight := flight.set 5 (ais_charset.getD (chars &&& 0x3F) '?')
  let chars := chars >>> 6
  let flight := flight.set 4 (ais_charset.getD (chars &&& 0x3F) '?')
  flight.set 8 (Char.ofNat 0)

/-- Lines 268..317 of `decodeModesMessage`: local copy, DF, length, syndrome, and the
per-DF CRC verdict with its cache traffic.  `now` is the value of `time(NULL)`. -/
def decodeModesHeader (cache : IcaoCache) (now : Nat) (mm : modesMessage) (msg : List Nat) :
    modesMessage × IcaoCache :=
  let msg := msg.take MODES_LONG_MSG_BYTES
  let msgtype := byteAt msg 0 >>> 3
  let msgbits := modesMessageLenByType msgtype
  let crc := modesChecksum msg msgbits
  let mm := { mm with msg := msg, msgtype := msgtype, msgbits := msgbits, crc := crc }
  let addr := (byteAt msg 1 <<< 16) ||| (byteAt msg 2 <<< 8) ||| byteAt msg 3
  let ca := byteAt msg 0 &&& 0x07
  if msgtype = 11 then
    let mm := { mm with iid := crc, addr := addr, ca := ca }
    if 0 = crc then
      ({ mm with crcok := 1 }, addRecentlySeenICAOAddr cache now addr)
    else if crc < 80 then
      let crcok := ICAOAddressWasRecentlySeen cache now addr
      if crcok ≠ 0 then
        ({ mm with crcok := crcok }, addRecentlySeenICAOAddr cache now addr)
      else ({ mm with crcok := crcok }, cache)
    else ({ mm with crcok := 0 }, cache)
  else if msgtype = 17 then
    let mm := { mm with addr := addr, ca := ca }
    if 0 = crc then
      ({ mm with crcok := 1 }, addRecentlySeenICAOAddr cache now addr)
    else ({ mm with crcok := 0 }, cache)
  else if msgtype = 18 then
    let mm := { mm with addr := addr, ca := ca }
    if 0 = crc then
      ({ mm with crcok := 1 }, addRecentlySeenICAOAddr cache now addr)
    else ({ mm with crcok := 0 }, cache)
  else
    ({ mm with addr := crc, crcok := ICAOAddressWasRecentlySeen cache now crc }, cache)

/-- The vertical-rate part of the airborne velocity message: the new `vert_rate` and the
flag bits it adds, or `none` when the raw field is zero. -/
def decodeVertRate (msg : List Nat) : Option Int :=
  let vert_rate := ((byteAt msg 8 &&& 0x07) <<< 6) ||| (byteAt msg 9 >>> 2)
  if vert_rate ≠ 0 then
    let vr : Int := (vert_rate : Int) - 1
    let vr := if byteAt msg 8 &&& 0x08 ≠ 0 then 0 - vr else vr
    some (vr * 64)
  else none

/-- The vertical rate of the airborne velocity message (subtypes 1..4). -/
def decodeVelocityVert (mm : modesMessage) (msg : List Nat) (mesub : Nat) : modesMessage :=
  if mesub ≥ 1 ∧ mesub ≤ 4 then
    match decodeVertRate msg with
    | some vr =>
      { mm with vert_rate := vr, bFlags := mm.bFlags ||| MODES_ACFLAGS_VERTRATE_VALID }
    | none => mm
  else mm

/-- The speed and heading of the airborne velocity message: ground speed vector for
subtypes 1 and 2, air speed and heading for subtypes 3 and 4. -/
def decodeVelocitySpeed (ext : Ext) (mm : modesMessage) (msg : List Nat) (mesub : Nat) :
    modesMessage :=
  if mesub = 1 ∨ mesub = 2 then
    let ew_raw := ((byteAt msg 5 &&& 0x03) <<< 8) ||| byteAt msg 6
    let ew_vel : Int := (ew_raw : Int) - 1
    let ns_raw := ((byteAt msg 7 &&& 0x7F) <<< 3) ||| (byteAt msg 8 >>> 5)
    let ns_vel : Int := (ns_raw : Int) - 1
    let ns_vel := if mesub = 2 then ns_vel * 4 else ns_vel
    let ew_vel := if mesub = 2 then ew_vel * 4 else ew_vel
    let ew_vel := if ew_raw ≠ 0 ∧ byteAt msg 5 &&& 0x04 ≠ 0 then 0 - ew_vel else ew_vel
    let ns_vel := if ns_raw ≠ 0 ∧ byteAt msg 7 &&& 0x80 ≠ 0 then 0 - ns_vel else ns_vel
    let flagsEW := if ew_raw ≠ 0 then MODES_ACFLAGS_EWSPEED_VALID else 0
    let flagsNS := if ns_raw ≠ 0 then MODES_ACFLAGS_NSSPEED_VALID else 0
    let mm := { mm with
      bFlags := mm.bFlags ||| flagsEW ||| flagsNS,
      ew_velocity := if ew_raw ≠ 0 then ew_vel else mm.ew_velocity,
      ns_velocity := if ns_raw ≠ 0 then ns_vel else mm.ns_velocity }
    if ew_raw ≠ 0 ∧ ns_raw ≠ 0 then
      let velocity : Int := Nat.sqrt ((ns_vel * ns_vel) + (ew_vel * ew_vel)).toNat
      let heading := ext.atan2Deg ew_vel ns_vel
      let heading := if heading < 0 then heading + 360 else heading
      { mm with
        bFlags := mm.bFlags ||| (MODES_ACFLAGS_SPEED_VALID ||| MODES_ACFLAGS_HEADING_VALID |||
          MODES_ACFLAGS_NSEWSPD_VALID),
        velocity := velocity,
        heading := if velocity ≠ 0 then heading else mm.heading }
    else mm
  else if mesub = 3 ∨ mesub = 4 then
    let airspeed := ((byteAt msg 7 &&& 0x7f) <<< 3) ||| (byteAt msg 8 >>> 5)
    let airspeed1 := if mesub = 4 then (airspeed - 1) <<< 2 else airspeed - 1
    let hdgOk := byteAt msg 5 &&& 0x04 ≠ 0
    let flagsSpeed := if airspeed ≠ 0 then MODES_ACFLAGS_SPEED_VALID else 0
    let flagsHdg := if hdgOk then MODES_ACFLAGS_HEADING_VALID else 0
    { mm with
      bFlags := mm.bFlags ||| flagsSpeed ||| flagsHdg,
      velocity := if airspeed ≠ 0 then (airspeed1 : Int) else mm.velocity,
      heading :=
        if hdgOk then (((((byteAt msg 5 &&& 0x03) <<< 8) ||| byteAt msg 6) * 45) >>> 7 : Nat)
        else mm.heading }
  else mm

/-- The airborne velocity message (ME type 19) of `decodeModesMessage`. -/
def decodeVelocity (ext : Ext) (mm : modesMessage) (msg : List Nat) (mesub : Nat) :
    modesMessage :=
  decodeVelocitySpeed ext
    (decodeVelocityVert { mm with bFlags := mm.bFlags ||| MODES_ACFLAGS_AOG_VALID } msg mesub)
    msg mesub

/-- The position message (ME types 5..22 other than 19) of `decodeModesMessage`. -/
def decodePosition (ext : Ext) (mm : modesMessage) (msg : List Nat) (metype : Nat) :
    modesMessage :=
  let mm := { mm with
    raw_latitude := ((byteAt msg 6 &&& 3) <<< 15) ||| (byteAt msg 7 <<< 7) |||
      (byteAt msg 8 >>> 1),
    raw_longitude := ((byteAt msg 8 &&& 1) <<< 16) ||| (byteAt msg 9 <<< 8) ||| byteAt msg 10,
    bFlags := mm.bFlags |||
      (if byteAt msg 6 &&& 0x04 ≠ 0 then MODES_ACFLAGS_LLODD_VALID
       else MODES_ACFLAGS_LLEVEN_VALID) }
  if metype ≥ 9 then
    let AC12Field := ((byteAt msg 5 <<< 4) ||| (byteAt msg 6 >>> 4)) &&& 0x0FFF
    if AC12Field ≠ 0 then
      let r := decodeAC12Field ext AC12Field
      { mm with
        bFlags := mm.bFlags ||| MODES_ACFLAGS_AOG_VALID ||| MODES_ACFLAGS_ALTITUDE_VALID,
        altitude := r.1, unit := r.2 }
    else { mm with bFlags := mm.bFlags ||| MODES_ACFLAGS_AOG_VALID }
  else
    let movement := ((byteAt msg 4 <<< 4) ||| (byteAt msg 5 >>> 4)) &&& 0x007F
    let moveOk := movement ≠ 0 ∧ movement < 125
    let hdgOk := byteAt msg 5 &&& 0x08 ≠ 0
    let flagsSpeed := if moveOk then MODES_ACFLAGS_SPEED_VALID else 0
    let flagsHdg := if hdgOk then MODES_ACFLAGS_HEADING_VALID else 0
    { mm with
      bFlags := mm.bFlags ||| (MODES_ACFLAGS_AOG_VALID ||| MODES_ACFLAGS_AOG) |||
        flagsSpeed ||| flagsHdg,
      velocity := if moveOk then (decodeMovementField movement : Nat) else mm.velocity,
      heading :=
        if hdgOk then
          (((((byteAt msg 5 <<< 4) ||| (byteAt msg 6 >>> 4)) &&& 0x007F) * 45) >>> 4 : Nat)
        else mm.heading }

/-- A squawk field found in an extended squitter (ME type 23 subtype 7, ME type 28
subtype 1) or in DF 5/21: sets `SQUAWK_VALID` and `modeA` when the field is non-zero. -/
def decodeSquawk (mm : modesMessage) (ID13Field : Nat) : modesMessage :=
  if ID13Field ≠ 0 then
    { mm with
      bFlags := mm.bFlags ||| MODES_ACFLAGS_SQUAWK_VALID,
      modeA := decodeID13Field ID13Field }
  else mm

/-- Lines 373..522 of `decodeModesMessage`: the extended squitter of DF 17 and of DF 18 with
CF 0, 1 or 6. -/
def decodeExtendedSquitter (ext : Ext) (mm : modesMessage) (msg : List Nat) : modesMessage :=
  let metype := byteAt msg 4 >>> 3
  let mesub := if metype = 29 then (byteAt msg 4 &&& 6) >>> 1 else byteAt msg 4 &&& 7
  let mm := { mm with metype := metype, mesub := mesub }
  if metype ≥ 1 ∧ metype ≤ 4 then
    { mm with
      bFlags := mm.bFlags ||| MODES_ACFLAGS_CALLSIGN_VALID,
      flight := decodeFlight msg mm.flight }
  else if metype = 19 then
    decodeVelocity ext mm msg mesub
  else if metype ≥ 5 ∧ metype ≤ 22 then
    decodePosition ext mm msg metype
  else if metype = 23 then
    if mesub = 7 then
      decodeSquawk mm ((((byteAt msg 5 <<< 8) ||| byteAt msg 6) &&& 0xFFF1) >>> 3)
    else mm
  else if metype = 24 then mm
  else if metype = 28 then
    if mesub = 1 then
      decodeSquawk mm (((byteAt msg 5 <<< 8) ||| byteAt msg 6) &&& 0x1FFF)
    else mm
  else mm

/-- Lines 323..330: the VS bit of DF 0 and DF 16. -/
def decodeVS (mm : modesMessage) : modesMessage :=
  if mm.msgtype = 0 ∨ mm.msgtype = 16 then
    if byteAt mm.msg 0 &&& 0x04 ≠ 0 then
      { mm with bFlags := mm.bFlags ||| (MODES_ACFLAGS_AOG_VALID ||| MODES_ACFLAGS_AOG) }
    else { mm with bFlags := mm.bFlags ||| MODES_ACFLAGS_AOG_VALID }
  else mm

/-- Lines 332..339: the capability field of DF 11 and DF 17. -/
def decodeCA (mm : modesMessage) : modesMessage :=
  if mm.msgtype = 11 ∨ mm.msgtype = 17 then
    if mm.ca = 4 then
      { mm with bFlags := mm.bFlags ||| (MODES_ACFLAGS_AOG_VALID ||| MODES_ACFLAGS_AOG) }
    else if mm.ca = 5 then
      { mm with bFlags := mm.bFlags ||| MODES_ACFLAGS_AOG_VALID }
    else mm
  else mm

/-- Lines 341..348: the Gillham encoded squawk of DF 5 and DF 21. -/
def decodeDF5Squawk (mm : modesMessage) : modesMessage :=
  if mm.msgtype = 5 ∨ mm.msgtype = 21 then
    decodeSquawk mm (((byteAt mm.msg 2 <<< 8) ||| byteAt mm.msg 3) &&& 0x1FFF)
  else mm

/-- Lines 350..358: the 13 bit altitude of DF 0, 4, 16 and 20. -/
def decodeAltitude13 (ext : Ext) (mm : modesMessage) : modesMessage :=
  if mm.msgtype = 0 ∨ mm.msgtype = 4 ∨ mm.msgtype = 16 ∨ mm.msgtype = 20 then
    let AC13Field := ((byteAt mm.msg 2 <<< 8) ||| byteAt mm.msg 3) &&& 0x1FFF
    if AC13Field ≠ 0 then
      let r := decodeAC13Field ext AC13Field
      { mm with
        bFlags := mm.bFlags ||| MODES_ACFLAGS_ALTITUDE_VALID,
        altitude := r.1, unit := r.2 }
    else mm
  else mm

/-- Lines 360..370: the flight status of DF 4, 5, 20 and 21. -/
def decodeFS (mm : modesMessage) : modesMessage :=
  if mm.msgtype = 4 ∨ mm.msgtype = 20 ∨ mm.msgtype = 5 ∨ mm.msgtype = 21 then
    let fs := byteAt mm.msg 0 &&& 7
    let flagsAOG :=
      if fs ≤ 3 then
        (if fs &&& 1 ≠ 0 then MODES_ACFLAGS_AOG_VALID ||| MODES_ACFLAGS_AOG
         else MODES_ACFLAGS_AOG_VALID)
      else 0
    { mm with bFlags := mm.bFlags ||| MODES_ACFLAGS_FS_VALID ||| flagsAOG, fs := fs }
  else mm

/-- Lines 372..522: the squitters of DF 17 and of DF 18 with CF 0, 1 or 6. -/
def decodeSquitter (ext : Ext) (mm : modesMessage) : modesMessage :=
  if mm.msgtype = 17 ∨ (mm.msgtype = 18 ∧ (mm.ca = 0 ∨ mm.ca = 1 ∨ mm.ca = 6)) then
    decodeExtendedSquitter ext mm mm.msg
  else mm

/-- Lines 524..546: the Comm-B aircraft identification of DF 20 and DF 21. -/
def decodeCommB (mm : modesMessage) : modesMessage :=
  if mm.msgtype = 20 ∨ mm.msgtype = 21 then
    if byteAt mm.msg 4 = 0x20 then
      { mm with
        bFlags := mm.bFlags ||| MODES_ACFLAGS_CALLSIGN_VALID,
        flight := decodeFlight mm.msg mm.flight }
    else mm
  else mm

/-- The function `decodeModesMessage(mm, msg)`: returns the record and the ICAO cache it leaves.
`now` is the value of `time(NULL)` seen by the cache functions. -/
def decodeModesMessage (ext : Ext) (cache : IcaoCache) (now : Nat) (mm : modesMessage)
    (msg : List Nat) : modesMessage × IcaoCache :=
  let r := decodeModesHeader cache now mm msg
  if r.1.crcok = 0 then r
  else
    (decodeCommB (decodeSquitter ext (decodeFS (decodeAltitude13 ext (decodeDF5Squawk
      (decodeCA (decodeVS r.1)))))), r.2)

/-! ## `ppup1090.h`: aircraft records, frame log and the global state -/

/-- The record `struct aircraft`.  The `next` link is the position in the list `Modes.aircrafts`;
`ptr` is the identity of the allocation (the address `malloc` returned). -/
structure aircraft where
  ptr : Nat
  addr : Nat
  flight : List Char
  signalLevel : List Nat
  altitude : Int
  speed : Int
  track : Int
  vert_rate : Int
  seen : Nat
  seenLatLon : Nat
  timestamp : Nat
  timestampLatLon : Nat
  messages : Nat
  modeA : Nat
  modeC : Int
  modeAcount : Nat
  modeCcount : Nat
  modeACflags : Nat
  odd_cprlat : Nat
  odd_cprlon : Nat
  even_cprlat : Nat
  even_cprlon : Nat
  odd_cprtime : Nat
  even_cprtime : Nat
  lat : ℚ
  lon : ℚ
  bFlags : Nat
  deriving DecidableEq

/-- The record `struct stDF`; `pAircraft` holds the `ptr` of the aircraft record. -/
structure stDF where
  pAircraft : Nat
  seen : Nat
  llTimestamp : Nat
  addr : Nat
  msg : List Nat
  deriving DecidableEq

/-- The fields of the global `Modes` read or written by the decoder and the tracker.
`heapNext` is the identity the next `malloc` of an aircraft record returns.  `nDF` is the
table of per-DF counters that `useModesMessage` increments; the header does not declare
it, so its counters are taken as unbounded. -/
structure ModesState where
  icao_cache : IcaoCache
  mode_ac : Nat
  interactive_display_ttl : Int
  interactive_delete_ttl : Int
  fUserLat : ℚ
  fUserLon : ℚ
  bUserFlags : Nat
  aircrafts : List aircraft
  last_cleanup_time : Nat
  pDF : List stDF
  heapNext : Nat
  nDF : Nat → Nat

/-! ## `mode_s.c`: CPR decoding -/

def cprModFunction (a b : Int) : Int :=
  let res := Int.tmod a b
  if res < 0 then res + b else res

def cprNLFunction (lat : ℚ) : Int :=
  let lat := if lat < 0 then -lat else lat
  if lat < 10.47047130 then 59
  else if lat < 14.82817437 then 58
  else if lat < 18.18626357 then 57
  else if lat < 21.02939493 then 56
  else if lat < 23.54504487 then 55
  else if lat < 25.82924707 then 54
  else if lat < 27.93898710 then 53
  else if lat < 29.91135686 then 52
  else if lat < 31.77209708 then 51
  else if lat < 33.53993436 then 50
  else if lat < 35.22899598 then 49
  else if lat < 36.85025108 then 48
  else if lat < 38.41241892 then 47
  else if lat < 39.92256684 then 46
  else if lat < 41.38651832 then 45
  else if lat < 42.80914012 then 44
  else if lat < 44.19454951 then 43
  else if lat < 45.54626723 then 42
  else if lat < 46.86733252 then 41
  else if lat < 48.16039128 then 40
  else if lat < 49.42776439 then 39
  else if lat < 50.67150166 then 38
  else if lat < 51.89342469 then 37
  else if lat < 53.09516153 then 36
  else if lat < 54.27817472 then 35
  else if lat < 55.44378444 then 34
  else if lat < 56.59318756 then 33
  else if lat < 57.72747354 then 32
  else if lat < 58.84763776 then 31
  else if lat < 59.95459277 then 30
  else if lat < 61.04917774 then 29
  else if lat < 62.13216659 then 28
  else if lat < 63.20427479 then 27
  else if lat < 64.26616523 then 26
  else if lat < 65.31845310 then 25
  else if lat < 66.36171008 then 24
  else if lat < 67.39646774 then 23
  else if lat < 68.42322022 then 22
  else if lat < 69.44242631 then 21
  else if lat < 70.45451075 then 20
  else if lat < 71.45986473 then 19
  else if lat < 72.45884545 then 18
  else if lat < 73.45177442 then 17
  else if lat < 74.43893416 then 16
  else if lat < 75.42056257 then 15
  else if lat < 76.39684391 then 14
  else if lat < 77.36789461 then 13
  else if lat < 78.33374083 then 12
  else if lat < 79.29428225 then 11
  else if lat < 80.24923213 then 10
  else if lat < 81.19801349 then 9
  else if lat < 82.13956981 then 8
  else if lat < 83.07199445 then 7
  else if lat < 83.99173563 then 6
  else if lat < 84.89166191 then 5
  else if lat < 85.75541621 then 4
  else if lat < 86.53536998 then 3
  else if lat < 87.00000000 then 2
  else 1

def cprNFunction (lat : ℚ) (fflag : Nat) : Int :=
  let nl := cprNLFunction lat - (if fflag ≠ 0 then 1 else 0)
  if nl < 1 then 1 else nl

def cprDlonFunction (lat : ℚ) (fflag : Nat) (surface : Nat) : ℚ :=
  (if surface ≠ 0 then 90 else 360) / (cprNFunction lat fflag : ℚ)

/-- The C conversion `(int) x` of a `double`: truncation toward zero. -/
def truncQ (x : ℚ) : Int := if 0 ≤ x then ⌊x⌋ else ⌈x⌉

/-- The C conversion `(int) x` of a `time_t`: the low 32 bits of `x`, read as a two's
complement number. -/
def castInt (x : Int) : Int :=
  let d : Int := x % 2 ^ 32
  if d ≥ 2 ^ 31 then d - 2 ^ 32 else d

/-- Lines 683..697 of `decodeCPR`: the reference position `(surface_rlat, surface_rlon)`,
or `none` where the function gives up for want of one.  Airborne decodes keep the defaults.
`now` is the value of `time(NULL)`. -/
def cprReference (M : ModesState) (now : Nat) (a : aircraft) (surface : Nat) :
    Option (ℚ × ℚ) :=
  if surface ≠ 0 then
    if a.bFlags &&& MODES_ACFLAGS_LATLON_VALID ≠ 0 ∧
        castInt ((now : Int) - (a.seenLatLon : Int)) < M.interactive_display_ttl then
      some (a.lat, a.lon)
    else if M.bUserFlags &&& MODES_USER_LATLON_VALID ≠ 0 then
      some (M.fUserLat, M.fUserLon)
    else none
  else some (MODES_USER_LATITUDE_DFLT, MODES_USER_LONGITUDE_DFLT)

/-- Lines 670..703 of `decodeCPR`: the candidate latitudes `rlat0` (even sample) and `rlat1`
(odd sample), after the move to the reference quadrant (surface) or the wrap of values
from 270 upwards (airborne). -/
def cprLatitudes (ext : Ext) (a : aircraft) (surface : Nat) (surface_rlat : ℚ) : ℚ × ℚ :=
  let AirDlat0 : ℚ := ext.rnd ((if surface ≠ 0 then 90 else 360) / 60)
  let AirDlat1 : ℚ := ext.rnd ((if surface ≠ 0 then 90 else 360) / 59)
  let lat0 : ℚ := a.even_cprlat
  let lat1 : ℚ := a.odd_cprlat
  let j : Int :=
    ⌊ext.rnd (ext.rnd (ext.rnd (ext.rnd (59 * lat0) - ext.rnd (60 * lat1)) / 131072) + 1 / 2)⌋
  let rlat0 :=
    ext.rnd (AirDlat0 * ext.rnd ((cprModFunction j 60 : ℚ) + ext.rnd (lat0 / 131072)))
  let rlat1 :=
    ext.rnd (AirDlat1 * ext.rnd ((cprModFunction j 59 : ℚ) + ext.rnd (lat1 / 131072)))
  if surface ≠ 0 then
    (ext.rnd (rlat0 + ext.rnd ((⌊ext.rnd (surface_rlat / 90)⌋ : ℚ) * 90)),
      ext.rnd (rlat1 + ext.rnd ((⌊ext.rnd (surface_rlat / 90)⌋ : ℚ) * 90)))
  else
    (if rlat0 ≥ 270 then ext.rnd (rlat0 - 360) else rlat0,
      if rlat1 ≥ 270 then ext.rnd (rlat1 - 360) else rlat1)

/-- Lines 713..732 of `decodeCPR`: the longitude computed from the chosen latitude, in exact
arithmetic. -/
def cprLongitude (a : aircraft) (fflag surface : Nat) (rlat0 rlat1 surface_rlon : ℚ) : ℚ :=
  let lon0 : ℚ := a.even_cprlon
  let lon1 : ℚ := a.odd_cprlon
  let lon : ℚ :=
    if fflag ≠ 0 then
      let ni := cprNFunction rlat1 1
      let m : Int := ⌊(((lon0 * ((cprNLFunction rlat1 : ℚ) - 1)) -
        (lon1 * (cprNLFunction rlat1 : ℚ))) / 131072) + 1 / 2⌋
      cprDlonFunction rlat1 1 surface * ((cprModFunction m ni : ℚ) + lon1 / 131072)
    else
      let ni := cprNFunction rlat0 0
      let m : Int := ⌊(((lon0 * ((cprNLFunction rlat0 : ℚ) - 1)) -
        (lon1 * (cprNLFunction rlat0 : ℚ))) / 131072) + 1 / 2⌋
      cprDlonFunction rlat0 0 surface * ((cprModFunction m ni : ℚ) + lon0 / 131072)
  if surface ≠ 0 then lon + (⌊surface_rlon / 90⌋ : ℚ) * 90
  else if lon > 180 then lon - 360
  else lon

/-- The function `decodeCPR(a, fflag, surface)`: the return code and the aircraft record it
leaves. -/
def decodeCPR (ext : Ext) (M : ModesState) (now : Nat) (a : aircraft) (fflag surface : Nat) :
    Int × aircraft :=
  match cprReference M now a surface with
  | none => (-1, a)
  | some ref =>
    let rlat := cprLatitudes ext a surface ref.1
    if rlat.1 < -90 ∨ rlat.1 > 90 ∨ rlat.2 < -90 ∨ rlat.2 > 90 then (-1, a)
    else if cprNLFunction rlat.1 ≠ cprNLFunction rlat.2 then (-1, a)
    else
      (0, { a with
        lon := cprLongitude a fflag surface rlat.1 rlat.2 ref.2,
        lat := if fflag ≠ 0 then rlat.2 else rlat.1,
        seenLatLon := a.seen,
        timestampLatLon := a.timestamp,
        bFlags := a.bFlags ||| (MODES_ACFLAGS_LATLON_VALID ||| MODES_ACFLAGS_LATLON_REL_OK) })

/-- Lines 762..770 of `decodeCPRrelative`: the reference `(latr, lonr)`. -/
def cprRelativeReference (M : ModesState) (a : aircraft) : Option (ℚ × ℚ) :=
  if a.bFlags &&& MODES_ACFLAGS_LATLON_REL_OK ≠ 0 then some (a.lat, a.lon)
  else if M.bUserFlags &&& MODES_USER_LATLON_VALID ≠ 0 then some (M.fUserLat, M.fUserLon)
  else none

/-- Lines 772..778 of `decodeCPRrelative`: the quotient of the latitude cell size
`AirDlat`. -/
def cprRelativeDlat (fflag surface : Nat) : ℚ :=
  if fflag ≠ 0 then (if surface ≠ 0 then 90 else 360) / 59
  else (if surface ≠ 0 then 90 else 360) / 60

/-- The index computation shared by the latitude and the longitude half of
`decodeCPRrelative`: `Dl * (j + v/131072)` with
`j = floor(r/Dl) + trunc(0.5 + cprModFunction((int)r, (int)Dl)/Dl - v/131072)`. -/
def cprRelativeCell (ext : Ext) (r Dl v : ℚ) : ℚ :=
  let j : Int := truncQ (ext.rnd ((⌊ext.rnd (r / Dl)⌋ : ℚ) +
    (truncQ (ext.rnd (ext.rnd (1 / 2 +
      ext.rnd ((cprModFunction (truncQ r) (truncQ Dl) : ℚ) / Dl)) -
        ext.rnd (v / 131072))) : ℚ)))
  ext.rnd (Dl * ext.rnd ((j : ℚ) + ext.rnd (v / 131072)))

/-- Lines 772..819 of `decodeCPRrelative`: the decode against the reference `ref`. -/
def decodeCPRrelativeAt (ext : Ext) (a : aircraft) (fflag surface : Nat) (ref : ℚ × ℚ) :
    Int × aircraft :=
  let AirDlat : ℚ := ext.rnd (cprRelativeDlat fflag surface)
  let lat : ℚ := if fflag ≠ 0 then a.odd_cprlat else a.even_cprlat
  let lon : ℚ := if fflag ≠ 0 then a.odd_cprlon else a.even_cprlon
  let rlat0 := cprRelativeCell ext ref.1 AirDlat lat
  let rlat := if rlat0 ≥ 270 then ext.rnd (rlat0 - 360) else rlat0
  let aBad := { a with bFlags := clearBits a.bFlags MODES_ACFLAGS_LATLON_REL_OK }
  if rlat < -90 ∨ rlat > 90 then (-1, aBad)
  else if |ext.rnd (rlat - a.lat)| > ext.rnd (AirDlat / 2) then (-1, aBad)
  else
    let AirDlon := ext.rnd (cprDlonFunction rlat fflag surface)
    let rlon0 := cprRelativeCell ext ref.2 AirDlon lon
    let rlon := if rlon0 > 180 then ext.rnd (rlon0 - 360) else rlon0
    if |ext.rnd (rlon - a.lon)| > ext.rnd (AirDlon / 2) then (-1, aBad)
    else
      (0, { a with
        lat := rlat,
        lon := rlon,
        seenLatLon := a.seen,
        timestampLatLon := a.timestamp,
        bFlags := a.bFlags ||| (MODES_ACFLAGS_LATLON_VALID ||| MODES_ACFLAGS_LATLON_REL_OK) })

/-- The function `decodeCPRrelative(a, fflag, surface)`: the return code and the aircraft record. -/
def decodeCPRrelative (ext : Ext) (M : ModesState) (a : aircraft) (fflag surface : Nat) :
    Int × aircraft :=
  match cprRelativeReference M a with
  | none => (-1, a)
  | some ref => decodeCPRrelativeAt ext a fflag surface ref

/-! ### The decoders with `cprModFunction` as a parameter -/

/-- The candidate latitudes of `decodeCPR` (`cprLatitudes`), with the two calls of
`cprModFunction` of lines 679 and 680 made through `md`. -/
def cprLatitudesWith (md : Int → Int → Int) (ext : Ext) (a : aircraft) (surface : Nat)
    (surface_rlat : ℚ) : ℚ × ℚ :=
  let AirDlat0 : ℚ := ext.rnd ((if surface ≠ 0 then 90 else 360) / 60)
  let AirDlat1 : ℚ := ext.rnd ((if surface ≠ 0 then 90 else 360) / 59)
  let lat0 : ℚ := a.even_cprlat
  let lat1 : ℚ := a.odd_cprlat
  let j : Int :=
    ⌊ext.rnd (ext.rnd (ext.rnd (ext.rnd (59 * lat0) - ext.rnd (60 * lat1)) / 131072) + 1 / 2)⌋
  let rlat0 :=
    ext.rnd (AirDlat0 * ext.rnd ((md j 60 : ℚ) + ext.rnd (lat0 / 131072)))
  let rlat1 :=
    ext.rnd (AirDlat1 * ext.rnd ((md j 59 : ℚ) + ext.rnd (lat1 / 131072)))
  if surface ≠ 0 then
    (ext.rnd (rlat0 + ext.rnd ((⌊ext.rnd (surface_rlat / 90)⌋ : ℚ) * 90)),
      ext.rnd (rlat1 + ext.rnd ((⌊ext.rnd (surface_rlat / 90)⌋ : ℚ) * 90)))
  else
    (if rlat0 ≥ 270 then ext.rnd (rlat0 - 360) else rlat0,
      if rlat1 ≥ 270 then ext.rnd (rlat1 - 360) else rlat1)

/-- The longitude of `decodeCPR` (`cprLongitude`), with the two calls of `cprModFunction` of
lines 718 and 724 made through `md`. -/
def cprLongitudeWith (md : Int → Int → Int) (a : aircraft) (fflag surface : Nat)
    (rlat0 rlat1 surface_rlon : ℚ) : ℚ :=
  let lon0 : ℚ := a.even_cprlon
  let lon1 : ℚ := a.odd_cprlon
  let lon : ℚ :=
    if fflag ≠ 0 then
      let ni := cprNFunction rlat1 1
      let m : Int := ⌊(((lon0 * ((cprNLFunction rlat1 : ℚ) - 1)) -
        (lon1 * (cprNLFunction rlat1 : ℚ))) / 131072) + 1 / 2⌋
      cprDlonFunction rlat1 1 surface * ((md m ni : ℚ) + lon1 / 131072)
    else
      let ni := cprNFunction rlat0 0
      let m : Int := ⌊(((lon0 * ((cprNLFunction rlat0 : ℚ) - 1)) -
        (lon1 * (cprNLFunction rlat0 : ℚ))) / 131072) + 1 / 2⌋
      cprDlonFunction rlat0 0 surface * ((md m ni : ℚ) + lon0 / 131072)
  if surface ≠ 0 then lon + (⌊surface_rlon / 90⌋ : ℚ) * 90
  else if lon > 180 then lon - 360
  else lon

/-- The function `decodeCPR(a, fflag, surface)` with every call of `cprModFunction` made through
`md`. -/
def decodeCPRWith (md : Int → Int → Int) (ext : Ext) (M : ModesState) (now : Nat)
    (a : aircraft) (fflag surface : Nat) : Int × aircraft :=
  match cprReference M now a surface with
  | none => (-1, a)
  | some ref =>
    let rlat := cprLatitudesWith md ext a surface ref.1
    if rlat.1 < -90 ∨ rlat.1 > 90 ∨ rlat.2 < -90 ∨ rlat.2 > 90 then (-1, a)
    else if cprNLFunction rlat.1 ≠ cprNLFunction rlat.2 then (-1, a)
    else
      (0, { a with
        lon := cprLongitudeWith md a fflag surface rlat.1 rlat.2 ref.2,
        lat := if fflag ≠ 0 then rlat.2 else rlat.1,
        seenLatLon := a.seen,
        timestampLatLon := a.timestamp,
        bFlags := a.bFlags ||| (MODES_ACFLAGS_LATLON_VALID ||| MODES_ACFLAGS_LATLON_REL_OK) })

/-- The index computation of `decodeCPRrelative` (`cprRelativeCell`), with the call of
`cprModFunction` of line 784 or 803 made through `md`. -/
def cprRelativeCellWith (md : Int → Int → Int) (ext : Ext) (r Dl v : ℚ) : ℚ :=
  let j : Int := truncQ (ext.rnd ((⌊ext.rnd (r / Dl)⌋ : ℚ) +
    (truncQ (ext.rnd (ext.rnd (1 / 2 +
      ext.rnd ((md (truncQ r) (truncQ Dl) : ℚ) / Dl)) -
        ext.rnd (v / 131072))) : ℚ)))
  ext.rnd (Dl * ext.rnd ((j : ℚ) + ext.rnd (v / 131072)))

/-- Lines 772..819 of `decodeCPRrelative` (`decodeCPRrelativeAt`) with every call of
`cprModFunction` made through `md`. -/
def decodeCPRrelativeAtWith (md : Int → Int → Int) (ext : Ext) (a : aircraft)
    (fflag surface : Nat) (ref : ℚ × ℚ) : Int × aircraft :=
  let AirDlat : ℚ := ext.rnd (cprRelativeDlat fflag surface)
  let lat : ℚ := if fflag ≠ 0 then a.odd_cprlat else a.even_cprlat
  let lon : ℚ := if fflag ≠ 0 then a.odd_cprlon else a.even_cprlon
  let rlat0 := cprRelativeCellWith md ext ref.1 AirDlat lat
  let rlat := if rlat0 ≥ 270 then ext.rnd (rlat0 - 360) else rlat0
  let aBad := { a with bFlags := clearBits a.bFlags MODES_ACFLAGS_LATLON_REL_OK }
  if rlat < -90 ∨ rlat > 90 then (-1, aBad)
  else if |ext.rnd (rlat - a.lat)| > ext.rnd (AirDlat / 2) then (-1, aBad)
  else
    let AirDlon := ext.rnd (cprDlonFunction rlat fflag surface)
    let rlon0 := cprRelativeCellWith md ext ref.2 AirDlon lon
    let rlon := if rlon0 > 180 then ext.rnd (rlon0 - 360) else rlon0
    if |ext.rnd (rlon - a.lon)| > ext.rnd (AirDlon / 2) then (-1, aBad)
    else
      (0, { a with
        lat := rlat,
        lon := rlon,
        seenLatLon := a.seen,
        timestampLatLon := a.timestamp,
        bFlags := a.bFlags ||| (MODES_ACFLAGS_LATLON_VALID ||| MODES_ACFLAGS_LATLON_REL_OK) })

/-- The function `decodeCPRrelative(a, fflag, surface)` with every call of `cprModFunction` made
through `md`. -/
def decodeCPRrelativeWith (md : Int → Int → Int) (ext : Ext) (M : ModesState) (a : aircraft)
    (fflag surface : Nat) : Int × aircraft :=
  match cprRelativeReference M a with
  | none => (-1, a)
  | some ref => decodeCPRrelativeAtWith md ext a fflag surface ref

/-! ## `interactive.c`: the frame log -/

/-- The function `interactiveCreateDF(a, mm)` on the list `Modes.pDF`; `lockOk` tells whether
`pthread_mutex_lock` succeeded. -/
def interactiveCreateDF (pDF : List stDF) (lockOk : Bool) (a : aircraft) (mm : modesMessage) :
    List stDF :=
  let e : stDF :=
    { seen := a.seen, llTimestamp := mm.timestampMsg, addr := mm.addr, pAircraft := a.ptr,
      msg := mm.msg.take MODES_LONG_MSG_BYTES }
  if lockOk then e :: pDF else pDF

/-- The `while (pDF)` loop of `interactiveRemoveStaleDF`: `kept` are the entries already
passed (from the head to `prev`), the second list starts at `pDF`.  At the first stale
entry the list is cut (`prev->pNext = NULL`, or `Modes.pDF = NULL`) and the rest is freed. -/
def removeStaleDFLoop (now : Nat) (ttl : Int) : List stDF → List stDF → List stDF
  | kept, [] => kept
  | kept, e :: next =>
    if ((now : Int) - (e.seen : Int)) > ttl then kept
    else removeStaleDFLoop now ttl (kept ++ [e]) next

/-- The function `interactiveRemoveStaleDF(now)`; `lockOk` tells whether `pthread_mutex_trylock`
obtained the lock. -/
def interactiveRemoveStaleDF (M : ModesState) (now : Nat) (lockOk : Bool) : List stDF :=
  if lockOk then removeStaleDFLoop now M.interactive_delete_ttl [] M.pDF else M.pDF

/-- The loop `while (pDF)` of `interactiveFindDF`: the first entry of the list with the
address, or `none` for `NULL`. -/
def findDFLoop : List stDF → Nat → Option stDF
  | [], _ => none
  | e :: next, addr => if e.addr = addr then some e else findDFLoop next addr

/-- The function `interactiveFindDF(addr)` on the list `Modes.pDF`; `lockOk` tells whether
`pthread_mutex_lock` succeeded. -/
def interactiveFindDF (pDF : List stDF) (lockOk : Bool) (addr : Nat) : Option stDF :=
  if lockOk then findDFLoop pDF addr else none

/-! ## `interactive.c`: the aircraft list -/

/-- The record after `memset(a, 0, sizeof(*a))`, allocated at `ptr`. -/
def aircraft.zero (ptr : Nat) : aircraft where
  ptr := ptr
  addr := 0
  flight := List.replicate 16 (Char.ofNat 0)
  signalLevel := List.replicate 8 0
  altitude := 0
  speed := 0
  track := 0
  vert_rate := 0
  seen := 0
  seenLatLon := 0
  timestamp := 0
  timestampLatLon := 0
  messages := 0
  modeA := 0
  modeC := 0
  modeAcount := 0
  modeCcount := 0
  modeACflags := 0
  odd_cprlat := 0
  odd_cprlon := 0
  even_cprlat := 0
  even_cprlon := 0
  odd_cprtime := 0
  even_cprtime := 0
  lat := 0
  lon := 0
  bFlags := 0

/-- The function `interactiveCreateAircraft(mm)`: the new record, allocated at `ptr`, and the
message record, which the Mode A/C case (DF 32) writes to. -/
def interactiveCreateAircraft (ext : Ext) (ptr : Nat) (mm : modesMessage) :
    aircraft × modesMessage :=
  let a := { aircraft.zero ptr with
    addr := mm.addr, lat := 0, lon := 0, signalLevel := List.replicate 8 mm.signalLevel }
  if mm.msgtype = 32 then
    let modeC := ext.ModeAToModeC (mm.modeA ||| mm.fs)
    if modeC < -12 then
      ({ a with modeACflags := MODEAC_MSG_FLAG ||| MODEAC_MSG_MODEA_ONLY }, mm)
    else
      ({ a with modeACflags := MODEAC_MSG_FLAG },
       { mm with altitude := modeC * 100, bFlags := mm.bFlags ||| MODES_ACFLAGS_ALTITUDE_VALID })
  else (a, mm)

/-- The function `interactiveFindAircraft(addr)` on the list `Modes.aircrafts`. -/
def interactiveFindAircraft : List aircraft → Nat → Option aircraft
  | [], _ => none
  | a :: next, addr => if a.addr = addr then some a else interactiveFindAircraft next addr

/-- The writes through the pointer that `interactiveFindAircraft(addr)` returned: the first
record of the list with that address is replaced by its new value `a1`. -/
def writeAircraft (addr : Nat) (a1 : aircraft) : List aircraft → List aircraft
  | [] => []
  | a :: next => if a.addr = addr then a1 :: next else a :: writeAircraft addr a1 next

/-- Lines 291..294 of `interactiveReceiveData`; `now` is the value of `time(NULL)`. -/
def receiveSeen (now : Nat) (a : aircraft) (mm : modesMessage) : aircraft :=
  { a with
    signalLevel := a.signalLevel.set (a.messages &&& 7) mm.signalLevel,
    seen := now,
    timestamp := mm.timestampMsg,
    messages := a.messages + 1 }

/-- Lines 296..299. -/
def receiveCallsign (a : aircraft) (mm : modesMessage) : aircraft :=
  if mm.bFlags &&& MODES_ACFLAGS_CALLSIGN_VALID ≠ 0 then { a with flight := mm.flight } else a

/-- Lines 301..313; the division of `int`s truncates toward zero. -/
def receiveAltitude (a : aircraft) (mm : modesMessage) : aircraft :=
  if mm.bFlags &&& MODES_ACFLAGS_ALTITUDE_VALID ≠ 0 then
    let changed := a.modeCcount ≠ 0 ∧ a.altitude ≠ mm.altitude
    { a with
      modeCcount := if changed then 0 else a.modeCcount,
      modeACflags :=
        if changed then clearBits a.modeACflags MODEAC_MSG_MODEC_HIT else a.modeACflags,
      altitude := mm.altitude,
      modeC := Int.tdiv (mm.altitude + 49) 100 }
  else a

/-- Lines 315..322. -/
def receiveSquawk (a : aircraft) (mm : modesMessage) : aircraft :=
  if mm.bFlags &&& MODES_ACFLAGS_SQUAWK_VALID ≠ 0 then
    let changed := a.modeA ≠ mm.modeA
    { a with
      modeAcount := if changed then 0 else a.modeAcount,
      modeACflags :=
        if changed then clearBits a.modeACflags MODEAC_MSG_MODEA_HIT else a.modeACflags,
      modeA := mm.modeA }
  else a

/-- Lines 324..337: heading, speed and vertical rate. -/
def receiveMotion (a : aircraft) (mm : modesMessage) : aircraft :=
  { a with
    track := if mm.bFlags &&& MODES_ACFLAGS_HEADING_VALID ≠ 0 then mm.heading else a.track,
    speed := if mm.bFlags &&& MODES_ACFLAGS_SPEED_VALID ≠ 0 then mm.velocity else a.speed,
    vert_rate :=
      if mm.bFlags &&& MODES_ACFLAGS_VERTRATE_VALID ≠ 0 then mm.vert_rate else a.vert_rate }

/-- Lines 339..342: a change of the air/ground state drops both CPR halves. -/
def receiveAOG (a : aircraft) (mm : modesMessage) : aircraft :=
  if mm.bFlags &&& MODES_ACFLAGS_AOG_VALID ≠ 0 ∧
      (a.bFlags ^^^ mm.bFlags) &&& MODES_ACFLAGS_AOG ≠ 0 then
    { a with bFlags := clearBits a.bFlags (MODES_ACFLAGS_LLBOTH_VALID ||| MODES_ACFLAGS_AOG) }
  else a

/-- The C expression `(int)(x - y)` on two `uint64_t`: the difference modulo `2^64`, cut to
its low 32 bits and read as a two's complement number. -/
def castDiffInt (x y : Nat) : Int :=
  let d : Nat := ((x + 2 ^ 64 - y) % 2 ^ 64) % 2 ^ 32
  if d ≥ 2 ^ 31 then (d : Int) - 2 ^ 32 else (d : Int)

/-- The C library `abs` on `int`; `abs(INT_MIN)` is undefined in C and left to `ext`. -/
def absInt (ext : Ext) (x : Int) : Int :=
  if x = -(2 ^ 31) then ext.absIntMin else if x < 0 then -x else x

/-- The condition of line 359 of `interactiveReceiveData`, under which `decodeCPR` is
called: both halves are flagged and
`abs((int)(a->even_cprtime - a->odd_cprtime)) <= 10000`. -/
def globalCPRCondition (ext : Ext) (a : aircraft) (mm : modesMessage) : Bool :=
  decide ((mm.bFlags ||| a.bFlags) &&& MODES_ACFLAGS_LLEITHER_VALID = MODES_ACFLAGS_LLBOTH_VALID
    ∧ absInt ext (castDiffInt a.even_cprtime a.odd_cprtime) ≤ 10000)

/-- Lines 348..356: the raw sample is stored in its half; `ms` is the value of `mstime()`. -/
def receiveCPRSample (ms : Nat) (a : aircraft) (mm : modesMessage) : aircraft :=
  if mm.bFlags &&& MODES_ACFLAGS_LLODD_VALID ≠ 0 then
    { a with odd_cprlat := mm.raw_latitude, odd_cprlon := mm.raw_longitude, odd_cprtime := ms }
  else
    { a with even_cprlat := mm.raw_latitude, even_cprlon := mm.raw_longitude,
             even_cprtime := ms }

/-- Lines 344..376: a new CPR sample, the global decode and the relative decode. -/
def receiveCPR (ext : Ext) (M : ModesState) (now ms : Nat) (a : aircraft)
    (mm : modesMessage) : aircraft × modesMessage :=
  if mm.bFlags &&& MODES_ACFLAGS_LLEITHER_VALID ≠ 0 then
    let fflag := mm.bFlags &&& MODES_ACFLAGS_LLODD_VALID
    let surface := mm.bFlags &&& MODES_ACFLAGS_AOG
    let a := receiveCPRSample ms a mm
    let g : Bool × aircraft :=
      if globalCPRCondition ext a mm then
        let r := decodeCPR ext M now a fflag surface
        (decide (r.1 = 0), r.2)
      else (false, a)
    let l : Bool × aircraft :=
      if g.1 then g
      else
        let r := decodeCPRrelative ext M g.2 fflag surface
        (decide (r.1 = 0), r.2)
    if l.1 then
      (l.2, { mm with
        bFlags := mm.bFlags ||| MODES_ACFLAGS_LATLON_VALID, fLat := l.2.lat, fLon := l.2.lon })
    else (l.2, mm)
  else (a, mm)

/-- Lines 378..397: the flag merge and the Mode A/C (DF 32) reset. -/
def receiveFlags (a : aircraft) (mm : modesMessage) : aircraft :=
  let a := { a with bFlags := a.bFlags ||| mm.bFlags }
  if mm.msgtype = 32 ∧
      a.modeACflags &&& (MODEAC_MSG_MODEC_HIT ||| MODEAC_MSG_MODEC_OLD) = MODEAC_MSG_MODEC_OLD
  then
    { a with modeACflags := clearBits a.modeACflags MODEAC_MSG_MODEC_OLD, messages := 1 }
  else a

/-- Lines 291..397 of `interactiveReceiveData`: what one message does to its aircraft record
`a` and to the message record. -/
def receiveUpdate (ext : Ext) (M : ModesState) (now ms : Nat) (a : aircraft)
    (mm : modesMessage) : aircraft × modesMessage :=
  let a := receiveAOG (receiveMotion (receiveSquawk (receiveAltitude (receiveCallsign
    (receiveSeen now a mm) mm) mm) mm) mm) mm
  let r := receiveCPR ext M now ms a mm
  (receiveFlags r.1 r.2, r.2)

/-- Lines 399..403: the frame is logged unless it is a Mode A/C reply of a record with at
most 15 messages. -/
def receiveLog (pDF : List stDF) (lockOk : Bool) (a : aircraft) (mm : modesMessage) :
    List stDF :=
  if mm.msgtype < 32 ∨ a.messages > 15 then interactiveCreateDF pDF lockOk a mm else pDF

/-- The function `interactiveReceiveData(mm)`: the global state and message record it leaves and the
record it returns (`none` for `NULL`).  `now` is `time(NULL)`, `ms` is `mstime()`, `lockOk`
the outcome of taking the frame-log lock.  The head reordering of lines 280..288 is
guarded by `0 &&` and never runs. -/
def interactiveReceiveData (ext : Ext) (M : ModesState) (now ms : Nat) (lockOk : Bool)
    (mm : modesMessage) : ModesState × modesMessage × Option aircraft :=
  if mm.crcok = 0 then (M, mm, none)
  else
    match interactiveFindAircraft M.aircrafts mm.addr with
    | none =>
      let c := interactiveCreateAircraft ext M.heapNext mm
      let r := receiveUpdate ext M now ms c.1 c.2
      ({ M with
          aircrafts := r.1 :: M.aircrafts,
          heapNext := M.heapNext + 1,
          pDF := receiveLog M.pDF lockOk r.1 r.2 }, r.2, some r.1)
    | some a =>
      let r := receiveUpdate ext M now ms a mm
      ({ M with
          aircrafts := writeAircraft mm.addr r.1 M.aircrafts,
          pDF := receiveLog M.pDF lockOk r.1 r.2 }, r.2, some r.1)

/-- The `while (a)` loop of `interactiveRemoveStaleAircrafts`: `kept` are the records
already passed and left in the list (from the head to `prev`), the second list starts at
`a`.  A stale record is unlinked (`prev->next = a->next`, or `Modes.aircrafts = a->next`)
and freed; a fresh one becomes `prev`. -/
def removeStaleLoop (now : Nat) (ttl : Int) : List aircraft → List aircraft → List aircraft
  | kept, [] => kept
  | kept, a :: next =>
    if ((now : Int) - (a.seen : Int)) > ttl then removeStaleLoop now ttl kept next
    else removeStaleLoop now ttl (kept ++ [a]) next

/-- The function `interactiveRemoveStaleAircrafts()`; `now` is `time(NULL)`, `lockOk` the outcome of
`pthread_mutex_trylock` inside `interactiveRemoveStaleDF`. -/
def interactiveRemoveStaleAircrafts (M : ModesState) (now : Nat) (lockOk : Bool) :
    ModesState :=
  if M.last_cleanup_time ≠ now then
    { M with
      last_cleanup_time := now,
      pDF := interactiveRemoveStaleDF M now lockOk,
      aircrafts := removeStaleLoop now M.interactive_delete_ttl [] M.aircrafts }
  else M

/-! ## `interactive.c`: matching Mode A/C records with Mode S aircraft -/

/-- The record at position `i` of the list `Modes.aircrafts`, counted from its head (the
all-zero record past the end of the list). -/
def aircraftAt (L : List aircraft) (i : Nat) : aircraft := L.getD i (aircraft.zero 0)

/-- The write through a pointer to the record at position `i` of the list. -/
def writeAt (L : List aircraft) (i : Nat) (f : aircraft → aircraft) : List aircraft :=
  L.set i (f (aircraftAt L i))

/-- The assignment `p->modeAcount = v`. -/
def setModeAcount (v : Nat) (a : aircraft) : aircraft := { a with modeAcount := v }

/-- The assignment `p->modeCcount = v`. -/
def setModeCcount (v : Nat) (a : aircraft) : aircraft := { a with modeCcount := v }

/-- The assignment `p->modeACflags |= v`. -/
def orModeACflags (v : Nat) (a : aircraft) : aircraft :=
  { a with modeACflags := a.modeACflags ||| v }

/-- Lines 204..215 of `interactiveUpdateAircraftModeA`: the squawk match of the record `a`
(at position `ia`) against the record `b` (at position `ib`). -/
def updateModeASquawk (L : List aircraft) (ia ib : Nat) : List aircraft :=
  if (aircraftAt L ia).bFlags &&& (aircraftAt L ib).bFlags &&&
        MODES_ACFLAGS_SQUAWK_VALID ≠ 0 ∧
      (aircraftAt L ia).modeA = (aircraftAt L ib).modeA then
    let L1 := writeAt L ib (setModeAcount (aircraftAt L ia).messages)
    let L2 := writeAt L1 ib (orModeACflags MODEAC_MSG_MODEA_HIT)
    let L3 := writeAt L2 ia (orModeACflags MODEAC_MSG_MODEA_HIT)
    if (aircraftAt L3 ib).modeAcount > 0 ∧
        ((aircraftAt L3 ib).modeCcount > 1 ∨
          (aircraftAt L3 ia).modeACflags &&& MODEAC_MSG_MODEA_ONLY ≠ 0) then
      writeAt L3 ia (orModeACflags MODEAC_MSG_MODES_HIT)
    else L3
  else L

/-- Lines 217..230 of `interactiveUpdateAircraftModeA`: the altitude match of the record
`a` (at position `ia`) against the record `b` (at position `ib`). -/
def updateModeCAltitude (L : List aircraft) (ia ib : Nat) : List aircraft :=
  if (aircraftAt L ia).bFlags &&& (aircraftAt L ib).bFlags &&&
        MODES_ACFLAGS_ALTITUDE_VALID ≠ 0 ∧
      ((aircraftAt L ia).modeC = (aircraftAt L ib).modeC ∨
       (aircraftAt L ia).modeC = (aircraftAt L ib).modeC + 1 ∨
       (aircraftAt L ia).modeC + 1 = (aircraftAt L ib).modeC) then
    let L1 := writeAt L ib (setModeCcount (aircraftAt L ia).messages)
    let L2 := writeAt L1 ib (orModeACflags MODEAC_MSG_MODEC_HIT)
    let L3 := writeAt L2 ia (orModeACflags MODEAC_MSG_MODEC_HIT)
    if (aircraftAt L3 ib).modeAcount > 0 ∧ (aircraftAt L3 ib).modeCcount > 1 then
      writeAt L3 ia (orModeACflags (MODEAC_MSG_MODES_HIT ||| MODEAC_MSG_MODEC_OLD))
    else L3
  else L

/-- The body of the `while (b)` loop of `interactiveUpdateAircraftModeA` for the record `b`
at position `ib`. -/
def updateModeAStep (ia : Nat) (L : List aircraft) (ib : Nat) : List aircraft :=
  if (aircraftAt L ib).modeACflags &&& MODEAC_MSG_FLAG = 0 then
    updateModeCAltitude (updateModeASquawk L ia ib) ia ib
  else L

/-- The function `interactiveUpdateAircraftModeA(a)` on the list `Modes.aircrafts`; `a` points at
the record at position `ia` of the list, as at its call in
`interactiveUpdateAircraftModeS`.  The loop visits the records from the head on. -/
def interactiveUpdateAircraftModeA (L : List aircraft) (ia : Nat) : List aircraft :=
  (List.range L.length).foldl (updateModeAStep ia) L

/-! ## `mode_s.c`, `ppup1090.c`: the reader of Beast binary frames -/

/-- The function `useModesMessage(mm)`: the global state and message record it leaves and the
aircraft record `interactiveReceiveData` returned (`none` when it was not called or
returned `NULL`). -/
def useModesMessage (ext : Ext) (M : ModesState) (now ms : Nat) (lockOk : Bool)
    (mm : modesMessage) : ModesState × modesMessage × Option aircraft :=
  if mm.crcok ≠ 0 then
    let M1 :=
      if mm.msgtype < 33 then
        { M with nDF := fun d => if d = mm.msgtype then M.nDF d + 1 else M.nDF d }
      else M
    interactiveReceiveData ext M1 now ms lockOk mm
  else (M, mm, none)

/-- One read `ch = *p++; if (0x1A == ch) {p++;}` of `decodeBinMessage`: the byte read and
the advanced pointer.  The pointer is the list of the bytes from `p` on; a read past the
end of the buffer yields 0. -/
def readEscaped (p : List Nat) : Nat × List Nat :=
  let ch := p.headD 0
  (ch, if 0x1A = ch then p.drop 2 else p.drop 1)

/-- The loops `for (j = 0; j < n; j++) { ... = ch = *p++; if (0x1A == ch) {p++;} }` of
`decodeBinMessage`: the `n` bytes stored, in the order read, and the advanced pointer. -/
def readEscapedBytes : Nat → List Nat → List Nat × List Nat
  | 0, p => ([], p)
  | n + 1, p =>
    let r := readEscaped p
    let rest := readEscapedBytes n r.2
    (r.1 :: rest.1, rest.2)

/-- The value of the `uint64_t` `mm.timestampMsg` after `memset` and the writes
`ptr[5-j] = ch` of the six bytes read, on a little-endian host: the first byte read is
the most significant of six. -/
def timestampOfBytes (bytes : List Nat) : Nat := bytes.foldl (fun acc b => acc * 256 + b) 0

/-- The message length `decodeBinMessage` draws from the type byte (lines 165..171); 0 when
the frame is skipped. -/
def binMessageLen (mode_ac : Nat) (ch : Nat) : Nat :=
  if ch = 0x31 ∧ mode_ac ≠ 0 then MODEAC_MSG_BYTES
  else if ch = 0x32 then MODES_SHORT_MSG_BYTES
  else if ch = 0x33 then MODES_LONG_MSG_BYTES
  else 0

/-- Lines 160..188 of `decodeBinMessage`: the message length, the record `mm` with the
timestamp and the signal level, and the local array `msg`.  `stack` is what the 14 bytes of
the uninitialised array `msg` held; the bytes past the message length keep it. -/
def readBinMessage (mode_ac : Nat) (stack : List Nat) (p : List Nat) :
    Nat × modesMessage × List Nat :=
  let t := readEscaped p
  let msgLen := binMessageLen mode_ac t.1
  let ts := readEscapedBytes 6 t.2
  let sl := readEscaped ts.2
  let data := readEscapedBytes msgLen sl.2
  (msgLen,
   { modesMessage.zero with timestampMsg := timestampOfBytes ts.1, signalLevel := sl.1 },
   data.1 ++ (stack.take MODES_LONG_MSG_BYTES).drop msgLen)

/-- The function `decodeBinMessage(p)`: the global state it leaves and the record `mm` at its end
(`none` when the type byte is skipped).  `decodeModeAMessage` belongs to a file that is not
part of the sources and is a parameter; `now`, `ms` and `lockOk` are as in
`interactiveReceiveData`. -/
def decodeBinMessage (ext : Ext) (decodeModeAMessage : modesMessage → Nat → modesMessage)
    (M : ModesState) (now ms : Nat) (lockOk : Bool) (stack : List Nat) (p : List Nat) :
    ModesState × Option modesMessage :=
  let r := readBinMessage M.mode_ac stack p
  if r.1 ≠ 0 then
    if r.1 = MODEAC_MSG_BYTES then
      let mm := decodeModeAMessage r.2.1 ((byteAt r.2.2 0 <<< 8) ||| byteAt r.2.2 1)
      let u := useModesMessage ext M now ms lockOk mm
      (u.1, some u.2.1)
    else
      let d := decodeModesMessage ext M.icao_cache now r.2.1 r.2.2
      let u := useModesMessage ext { M with icao_cache := d.2 } now ms lockOk d.1
      (u.1, some u.2.1)
  else (M, none)

/-! ## `ppup1090.c`: the frame scan of `modesReadFromClient` -/

/-- The call `memchr(e, (char) 0x1a, left)` on the client buffer: the position of the first
byte `0x1A` among `buf[e] .. buf[e + left - 1]`, or `none` for `NULL`. -/
def memchr1A (buf : List Nat) : Nat → Nat → Option Nat
  | _, 0 => none
  | e, left + 1 => if byteAt buf e = 0x1A then some e else memchr1A buf (e + 1) left

/-- The distance from the type byte to the end of an unescaped Beast frame, as set in lines
272..282 of `modesReadFromClient`; `none` when the byte is not a valid type. -/
def beastFrameLen (ch : Nat) : Option Nat :=
  if ch = 0x31 then some (MODEAC_MSG_BYTES + 8)
  else if ch = 0x32 then some (MODES_SHORT_MSG_BYTES + 8)
  else if ch = 0x33 then some (MODES_LONG_MSG_BYTES + 8)
  else none

/-- The loop `for (p = s; p < e; p++) { if (0x1A == *p) { p++; e++; if (e > end) break; } }`
of `modesReadFromClient` (lines 284..291), with pointers as positions in the buffer and
`endp` the position `&c->buf[c->buflen]`.  The first argument is `e - p`, the number of
iterations left, which every iteration lowers by one.  Returns the final `e`. -/
def scanEscapes (buf : List Nat) (endp : Nat) : Nat → Nat → Nat → Nat
  | 0, _, e => e
  | r + 1, p, e =>
    if 0x1A = byteAt buf p then
      if e + 1 > endp then e + 1 else scanEscapes buf endp r (p + 2) (e + 1)
    else scanEscapes buf endp r (p + 1) e

/-- The loop `while (left && ((s = memchr(e, (char) 0x1a, left)) != NULL))` of
`modesReadFromClient` (lines 270..304).  The handler stands for `decodeBinMessage`, which is
passed the pointer `s` to the type byte (here the bytes of the buffer from `s` on) and
always returns 0.  The state is `e`, `left`, the state of the handler and `fullmsg`; the
result is the state of the handler, `fullmsg` and the final `e`.  Every iteration that goes
on moves `e` forward, so the first argument, a bound on the iterations, is never used up
when it exceeds `left`. -/
def scanFrames {σ : Type} (handler : σ → List Nat → σ) (buf : List Nat) (endp : Nat) :
    Nat → Nat → Nat → σ → Bool → σ × Bool × Nat
  | 0, e, _, st, fullmsg => (st, fullmsg, e)
  | fuel + 1, e, left, st, fullmsg =>
    if left = 0 then (st, fullmsg, e)
    else
      match memchr1A buf e left with
      | none => (st, fullmsg, e)
      | some i =>
        match beastFrameLen (byteAt buf (i + 1)) with
        | none => scanFrames handler buf endp fuel (i + 1) (endp - (i + 1)) st fullmsg
        | some n =>
          if scanEscapes buf endp n (i + 1) (i + 1 + n) > endp then (st, fullmsg, i)
          else
            scanFrames handler buf endp fuel (scanEscapes buf endp n (i + 1) (i + 1 + n))
              (endp - scanEscapes buf endp n (i + 1) (i + 1 + n)) (handler st (buf.drop (i + 1)))
              true

/-- Lines 261..312 of `modesReadFromClient`, after `read` has stored bytes: the buffer holds
`buflen` bytes and the terminator `buf[buflen] = 0`.  Returns the state of the handler, the
buffer after the `memmove` and the new `buflen` that it leaves when a message was
processed, and `fullmsg`. -/
def scanClientBuffer {σ : Type} (handler : σ → List Nat → σ) (st : σ) (buf : List Nat)
    (buflen : Nat) : σ × List Nat × Nat × Bool :=
  let r := scanFrames handler buf buflen (buflen + 1) 0 buflen st false
  if r.2.1 then
    (r.1, (buf.drop r.2.2).take (buflen - r.2.2) ++ buf.drop (buflen - r.2.2),
      buflen - r.2.2, true)
  else (r.1, buf, buflen, false)

/-- The scan of `modesReadFromClient` with `decodeBinMessage` as the handler; the clock
values, the lock outcome and the content of the uninitialised array are taken to be the same
for all messages of one scan. -/
def modesReadFromClientScan (ext : Ext)
    (decodeModeAMessage : modesMessage → Nat → modesMessage) (now ms : Nat) (lockOk : Bool)
    (stack : List Nat) (M : ModesState) (buf : List Nat) (buflen : Nat) :
    ModesState × List Nat × Nat × Bool :=
  scanClientBuffer
    (fun M p => (decodeBinMessage ext decodeModeAMessage M now ms lockOk stack p).1) M buf buflen

/-- The outcome of one evaluation of the loop of lines 270..304 of `modesReadFromClient`:
the loop condition fails (`done`), the body runs and leaves the loop with `break` on an
incomplete frame (`stop`), or the body runs and the loop goes on (`next`) with the new `e`,
`left`, handler state and `fullmsg`. -/
inductive ScanStep (σ : Type) where
  | done (st : σ) (fullmsg : Bool) (e : Nat)
  | stop (st : σ) (fullmsg : Bool) (e : Nat)
  | next (e left : Nat) (st : σ) (fullmsg : Bool)

/-- One evaluation of the loop `while (left && ((s = memchr(e, (char) 0x1a, left)) != NULL))`
of `modesReadFromClient` (lines 270..304), from the state `e`, `left`, handler state and
`fullmsg`. -/
def scanIteration {σ : Type} (handler : σ → List Nat → σ) (buf : List Nat) (endp : Nat)
    (e left : Nat) (st : σ) (fullmsg : Bool) : ScanStep σ :=
  if left = 0 then ScanStep.done st fullmsg e
  else
    match memchr1A buf e left with
    | none => ScanStep.done st fullmsg e
    | some i =>
      match beastFrameLen (byteAt buf (i + 1)) with
      | none => ScanStep.next (i + 1) (endp - (i + 1)) st fullmsg
      | some n =>
        if scanEscapes buf endp n (i + 1) (i + 1 + n) > endp then ScanStep.stop st fullmsg i
        else
          ScanStep.next (scanEscapes buf endp n (i + 1) (i + 1 + n))
            (endp - scanEscapes buf endp n (i + 1) (i + 1 + n)) (handler st (buf.drop (i + 1)))
            true

/-- The number of times the body of the loop runs, counted over at most `fuel` evaluations
of the loop. -/
def scanBodyRuns {σ : Type} (handler : σ → List Nat → σ) (buf : List Nat) (endp : Nat) :
    Nat → Nat → Nat → σ → Bool → Nat
  | 0, _, _, _, _ => 0
  | fuel + 1, e, left, st, fullmsg =>
    match scanIteration handler buf endp e left st fullmsg with
    | ScanStep.done _ _ _ => 0
    | ScanStep.stop _ _ _ => 1
    | ScanStep.next e1 left1 st1 fullmsg1 =>
      1 + scanBodyRuns handler buf endp fuel e1 left1 st1 fullmsg1

/-! ## Sequences of received messages -/

/-- One frame fed through `decodeModesMessage`, on a zeroed message record, and then
`interactiveReceiveData`, as `decodeBinMessage` and `useModesMessage` chain them. -/
def receiveFrame (ext : Ext) (M : ModesState) (now ms : Nat) (frame : List Nat) :
    ModesState × modesMessage × Option aircraft :=
  interactiveReceiveData ext
    { M with icao_cache := (decodeModesMessage ext M.icao_cache now modesMessage.zero frame).2 }
    now ms true (decodeModesMessage ext M.icao_cache now modesMessage.zero frame).1

/-- One call of `interactiveReceiveData`: the values of `time(NULL)` and `mstime()` it sees,
the outcome of taking the frame-log lock, and the message. -/
structure ReceiveEvent where
  now : Nat
  ms : Nat
  lockOk : Bool
  mm : modesMessage

/-- A sequence of calls of `interactiveReceiveData`, from the state `M` on. -/
def runReceive (ext : Ext) (M : ModesState) : List ReceiveEvent → ModesState
  | [] => M
  | e :: es => runReceive ext (interactiveReceiveData ext M e.now e.ms e.lockOk e.mm).1 es

/-- The signal samples `s_0, s_1, ..` of the CRC-valid messages of the address `A` in a
sequence of calls, in the order received. -/
def samplesOf (A : Nat) (evs : List ReceiveEvent) : List Nat :=
  (evs.filter (fun e => decide (e.mm.crcok ≠ 0 ∧ e.mm.addr = A))).map
    (fun e => e.mm.signalLevel)

/-- One call of the tracker in a single-threaded run: `interactiveReceiveData` on a message,
with the values of `time(NULL)` and `mstime()` it sees, or
`interactiveRemoveStaleAircrafts`, with the value of `time(NULL)` it sees. -/
inductive TrackerEvent where
  | receive (now ms : Nat) (mm : modesMessage)
  | sweep (now : Nat)

/-- The value of `time(NULL)` an event sees. -/
def TrackerEvent.time : TrackerEvent → Nat
  | TrackerEvent.receive now _ _ => now
  | TrackerEvent.sweep now => now

/-- One event of a single-threaded run; the frame-log lock is always obtained. -/
def trackerStep (ext : Ext) (M : ModesState) : TrackerEvent → ModesState
  | TrackerEvent.receive now ms mm => (interactiveReceiveData ext M now ms true mm).1
  | TrackerEvent.sweep now => interactiveRemoveStaleAircrafts M now true

/-- A single-threaded run: the events in their order, from the state `M` on. -/
def trackerRun (ext : Ext) (M : ModesState) (evs : List TrackerEvent) : ModesState :=
  evs.foldl (trackerStep ext) M

/-! ## The operations in the words of the specification -/

/-- Message bit `i` of a frame, the most significant bit of byte 0 first. -/
def msgBit (msg : List Nat) (i : Nat) : Bool := (byteAt msg (i / 8)).testBit (7 - i % 8)

/-- One term of the checksum as the specification words it: the table row `offset + i`
is XORed in when message bit `i` is set. -/
def checksumSpecStep (msg : List Nat) (offset acc i : Nat) : Nat :=
  if msgBit msg i then acc ^^^ modes_checksum_table.getD (offset + i) 0 else acc

/-- The checksum as the specification words it: the XOR of the table rows of the set bits
among the first `bits - 24`, XORed with the big-endian value of the last three bytes and
masked to 24 bits. -/
def checksumSpec (msg : List Nat) (bits : Nat) : Nat :=
  let offset := if bits = 112 then 0 else 56
  let crc := (List.range (bits - 24)).foldl (checksumSpecStep msg offset) 0
  let n := msg.length
  let rem := byteAt msg (n - 3) * 65536 + byteAt msg (n - 2) * 256 + byteAt msg (n - 1)
  (crc ^^^ rem) &&& 0xFFFFFF

/-- Bit `k` of `x`, as 0 or 1. -/
def bitOf (x k : Nat) : Nat := (x >>> k) &&& 1

/-- The identity field in the words of the specification: the bits of the identity `x`
(hex digits A, B, C, D) interleaved as `C1 A1 C2 A2 C4 A4 X B1 D1 B2 D2 B4 D4` from bit 12
down to bit 0, with `X = 0`. -/
def encodeID13 (x : Nat) : Nat :=
  (bitOf x 4 <<< 12) ||| (bitOf x 12 <<< 11) ||| (bitOf x 5 <<< 10) ||| (bitOf x 13 <<< 9) |||
  (bitOf x 6 <<< 8) ||| (bitOf x 14 <<< 7) ||| (0 <<< 6) ||| (bitOf x 8 <<< 5) |||
  (bitOf x 0 <<< 4) ||| (bitOf x 9 <<< 3) ||| (bitOf x 1 <<< 2) ||| (bitOf x 10 <<< 1) |||
  bitOf x 2

/-- An identity of four hexadecimal digits, each in 0..7. -/
def validIdentity (x : Nat) : Prop :=
  x < 0x10000 ∧ x / 4096 % 16 ≤ 7 ∧ x / 256 % 16 ≤ 7 ∧ x / 16 % 16 ≤ 7 ∧ x % 16 ≤ 7

/-- The 13-bit altitude field in the words of the specification: `N` with `M = 0` at bit 6
and `Q = 1` at bit 4, the upper 6 bits of `N` in bits 12..7, the next bit in bit 5 and the
low 4 bits in bits 3..0. -/
def encodeAC13 (N : Nat) : Nat :=
  ((N >>> 5) <<< 7) ||| (0 <<< 6) ||| (((N >>> 4) &&& 1) <<< 5) ||| (1 <<< 4) ||| (N &&& 0xF)

/-- The integer `N` in the words of the specification: the 11 bits left of a 13-bit field
after removing the M bit (bit 6) and the Q bit (bit 4). -/
def stripQM (f : Nat) : Nat := (f / 128) * 32 + (f / 32 % 2) * 16 + f % 16

/-- The 13-bit field in the words of the specification: the 12-bit field `f` with `M = 0`
inserted at bit 6. -/
def insertM (f : Nat) : Nat := ((f &&& 0xFC0) <<< 1) ||| (f &&& 0x3F)

/-- The value of the `n` message bits that start at bit `lo`, first bit most significant. -/
def msgField (msg : List Nat) (lo : Nat) : Nat → Nat
  | 0 => 0
  | n + 1 => msgField msg lo n * 2 + (msgBit msg (lo + n)).toNat

/-- The Beast escaping in the words of the specification: every literal `0x1A` is
doubled. -/
def beastEscape : List Nat → List Nat
  | [] => []
  | b :: bs => if b = 0x1A then 0x1A :: 0x1A :: beastEscape bs else b :: beastEscape bs

/-- The six bytes of a 48-bit timestamp, most significant first. -/
def bigEndian48 (T : Nat) : List Nat :=
  [T / 2 ^ 40 % 256, T / 2 ^ 32 % 256, T / 2 ^ 24 % 256, T / 2 ^ 16 % 256, T / 2 ^ 8 % 256,
   T % 256]

/-- One mixing round of the cache hash in the words of the specification:
`((x >> 16) ^ x) * 0x45d9f3b` in 32-bit wrap-around arithmetic. -/
def hashRound (x : Nat) : Nat := (((x >>> 16) ^^^ x) * 0x45d9f3b) % 2 ^ 32

/-- The cache hash in the words of the specification: two mixing rounds, then
`(x >> 16) ^ x`, reduced to 10 bits. -/
def hashSpec (a : Nat) : Nat :=
  ((hashRound (hashRound a) >>> 16) ^^^ hashRound (hashRound a)) % 2 ^ 10

/-- The message `m` with the 24-bit value `A` XORed, most significant byte first, into its
last three bytes. -/
def xorTrailer (m : List Nat) (A : Nat) : List Nat :=
  m.take (m.length - 3) ++
    [byteAt m (m.length - 3) ^^^ (A >>> 16) % 256,
     byteAt m (m.length - 2) ^^^ (A >>> 8) % 256,
     byteAt m (m.length - 1) ^^^ A % 256]

/-- The XOR of the table rows of the set bits among the first `n` bits of a message, for
the table offset `off`. -/
def checksumRows (msg : List Nat) (off n : Nat) : Nat :=
  (List.range' 0 n).foldl (checksumSpecStep msg off) 0

/-- One step of the long division of a polynomial over GF(2), held as the bits of `v`
(bit `k` is the coefficient of `x^k`), by the generator `0x1FFF409` of degree 24: when the
coefficient of `x^k` is set, the generator multiplied by `x^(k - 24)` is subtracted. -/
def gf2Step (v k : Nat) : Nat := if v.testBit k then v ^^^ (0x1FFF409 <<< (k - 24)) else v

/-- The remainder of the polynomial `v` of degree below `n` on division by the generator
`0x1FFF409`: the division steps for `k = n - 1` down to `k = 24`. -/
def gf2Mod (v n : Nat) : Nat := (List.range' 24 (n - 24)).reverse.foldl gf2Step v

/-- The term of message bit `i` in the polynomial of a message of `bits` bits: the first bit
is the coefficient of `x^(bits - 1)`. -/
def msgTerm (msg : List Nat) (bits : Nat) (acc i : Nat) : Nat :=
  acc ^^^ ((msgBit msg i).toNat <<< (bits - 1 - i))

/-- The message read as a polynomial over GF(2), the first bit as the highest
coefficient. -/
def msgPoly (msg : List Nat) (bits : Nat) : Nat :=
  (List.range' 0 bits).foldl (msgTerm msg bits) 0

/-- The 58 latitudes that `cprNLFunction` compares with, in the order of its tests. -/
def nlThresholds : List ℚ :=
  [10.47047130, 14.82817437, 18.18626357, 21.02939493, 23.54504487, 25.82924707,
   27.93898710, 29.91135686, 31.77209708, 33.53993436, 35.22899598, 36.85025108,
   38.41241892, 39.92256684, 41.38651832, 42.80914012, 44.19454951, 45.54626723,
   46.86733252, 48.16039128, 49.42776439, 50.67150166, 51.89342469, 53.09516153,
   54.27817472, 55.44378444, 56.59318756, 57.72747354, 58.84763776, 59.95459277,
   61.04917774, 62.13216659, 63.20427479, 64.26616523, 65.31845310, 66.36171008,
   67.39646774, 68.42322022, 69.44242631, 70.45451075, 71.45986473, 72.45884545,
   73.45177442, 74.43893416, 75.42056257, 76.39684391, 77.36789461, 78.33374083,
   79.29428225, 80.24923213, 81.19801349, 82.13956981, 83.07199445, 83.99173563,
   84.89166191, 85.75541621, 86.53536998, 87.00000000]

/-- A chain of tests `if (x < t) return v;` with the value going down by one from test to
test, and the value left after the last test otherwise. -/
def nlCount : List ℚ → Int → ℚ → Int
  | [], v, _ => v
  | t :: r, v, x => if x < t then v else nlCount r (v - 1) x

/-- A Beast frame in the words of the specification: the type byte and the unescaped bytes
after it (six timestamp bytes, the signal byte and the payload). -/
structure BeastFrame where
  ty : Nat
  body : List Nat

/-- A well-formed frame: type `'1'`, `'2'` or `'3'` with a payload of 2, 7 or 14 bytes after
the seven bytes of timestamp and signal. -/
def BeastFrame.wellFormed (f : BeastFrame) : Prop :=
  (f.ty = 0x31 ∧ f.body.length = 7 + 2) ∨ (f.ty = 0x32 ∧ f.body.length = 7 + 7) ∨
  (f.ty = 0x33 ∧ f.body.length = 7 + 14)

/-- The bytes of a frame on the wire: `0x1A`, the type byte and the body with every `0x1A`
doubled. -/
def encodeBeastFrame (f : BeastFrame) : List Nat := 0x1A :: f.ty :: beastEscape f.body

/-- The bytes of a sequence of frames on the wire. -/
def encodeBeastFrames : List BeastFrame → List Nat
  | [] => []
  | f :: fs => encodeBeastFrame f ++ encodeBeastFrames fs

/-- The pointers handed to `decodeBinMessage` for a sequence of frames that is followed by
`tail` in the buffer: for each frame the bytes of the buffer from its type byte on. -/
def framePointers : List BeastFrame → List Nat → List (List Nat)
  | [], _ => []
  | f :: fs, tail =>
    (f.ty :: (beastEscape f.body ++ (encodeBeastFrames fs ++ tail))) :: framePointers fs tail

/-! ## Projections and predicates used in the statements -/

/-- The fields of a message record that `decodeModesHeader` sets. -/
def header (mm : modesMessage) : List Nat × Nat × Nat × Nat × Nat × Nat × Nat × Nat :=
  (mm.msg, mm.msgbits, mm.msgtype, mm.crcok, mm.crc, mm.addr, mm.ca, mm.iid)

/-- The flag word and the validity-guarded decoded fields of a message record. -/
def payload (mm : modesMessage) :
    Nat × Nat × Nat × Int × Nat × List Char × Nat × Nat × Int × Int × Int × Int × Int × Nat ×
      Nat :=
  (mm.bFlags, mm.fs, mm.modeA, mm.altitude, mm.unit, mm.flight, mm.raw_latitude,
    mm.raw_longitude, mm.ew_velocity, mm.ns_velocity, mm.velocity, mm.heading, mm.vert_rate,
    mm.metype, mm.mesub)

/-- No two records of an aircraft list have the same ICAO address. -/
def NoDupAddr (l : List aircraft) : Prop := (l.map aircraft.addr).Nodup

/-- The characters a callsign can hold: a letter A-Z, a digit 0-9, a space or `?`. -/
def isCallsignChar (c : Char) : Prop :=
  ('A' ≤ c ∧ c ≤ 'Z') ∨ ('0' ≤ c ∧ c ≤ '9') ∨ c = ' ' ∨ c = '?'

/-- The fields of a record that `interactiveUpdateAircraftModeA` reads and never writes:
the message count, the squawk, the validity flags and the Mode A/C marker bit. -/
def modeAKey (a : aircraft) : Nat × Nat × Nat × Nat :=
  (a.messages, a.modeA, a.bFlags, a.modeACflags &&& MODEAC_MSG_FLAG)

/-- The fields of the message record that the Beast reader fills. -/
def rxFields (mm : modesMessage) : Nat × Nat × List Nat :=
  (mm.timestampMsg, mm.signalLevel, mm.msg)

/-- The ring and the message count of an aircraft record. -/
def ringFields (a : aircraft) : List Nat × Nat := (a.signalLevel, a.messages)

/-- The state of the signal-level ring of the record `a` after the samples `s`: the message
count is the number of samples, each of the last eight samples `s_i` is in slot `i mod 8`,
and the slots not written yet hold `s_0`. -/
def RingHolds (a : aircraft) (s : List Nat) : Prop :=
  a.messages = s.length ∧ a.signalLevel.length = 8 ∧
  (∀ i, i < s.length → s.length ≤ i + 8 → a.signalLevel.getD (i % 8) 0 = s.getD i 0) ∧
  (∀ j, s.length ≤ j → j < 8 → a.signalLevel.getD j 0 = s.getD 0 0)

/-- The record of the address `A` in the list `l` after the samples `s`: absent before the
first sample, and then the ring holds the samples. -/
def RingState (l : List aircraft) (A : Nat) (s : List Nat) : Prop :=
  (s = [] ∧ interactiveFindAircraft l A = none) ∨
  (s ≠ [] ∧ ∃ a, interactiveFindAircraft l A = some a ∧ RingHolds a s)

/-- The decoded position of an aircraft record and the times it was decoded at. -/
def posFields (a : aircraft) : ℚ × ℚ × Nat × Nat :=
  (a.lat, a.lon, a.seenLatLon, a.timestampLatLon)

/-- The flag bits of an aircraft record that `interactiveReceiveData` may clear: the two CPR
halves and the air/ground state (on a change of the air/ground state) and `LATLON_REL_OK`
(on a failed relative decode). -/
def MODES_ACFLAGS_CLEARABLE : Nat :=
  MODES_ACFLAGS_LLBOTH_VALID ||| MODES_ACFLAGS_AOG ||| MODES_ACFLAGS_LATLON_REL_OK

/-- Every bit 0..31 of `x` outside `MODES_ACFLAGS_CLEARABLE` is set in `y`. -/
def keepsFlags (x y : Nat) : Prop :=
  ∀ i, i < 32 → MODES_ACFLAGS_CLEARABLE.testBit i = false → x.testBit i = true →
    y.testBit i = true

/-- The message count and the Mode A/C flag word of an aircraft record. -/
def countFields (a : aircraft) : Nat × Nat := (a.messages, a.modeACflags)

/-- The condition, on the record `a` before the call and the message `mm`, under which
`interactiveReceiveData` sets the message count to 1: a Mode A/C message (DF 32) for a
record with `MODEC_OLD` set whose `MODEC_HIT` is clear, or is cleared by the altitude
handling of this message (a record with a Mode C hit count receives another altitude). -/
def modeCReset (a : aircraft) (mm : modesMessage) : Prop :=
  mm.msgtype = 32 ∧ a.modeACflags &&& MODEAC_MSG_MODEC_OLD ≠ 0 ∧
  (a.modeACflags &&& MODEAC_MSG_MODEC_HIT = 0 ∨
    (mm.bFlags &&& MODES_ACFLAGS_ALTITUDE_VALID ≠ 0 ∧ a.modeCcount ≠ 0 ∧
      a.altitude ≠ mm.altitude))

/-- The Mode C bookkeeping that the sources keep on a record of the aircraft list: the
record has a message; a Mode A/C record (`MODEAC_MSG_FLAG` set) has no Mode C hit count,
which line 224 of `interactive.c` writes to Mode S records only (line 202); a Mode S
record does not have `MODEC_OLD`, which line 229 writes to the Mode A/C record, and has
`MODEC_HIT` only together with a hit count (lines 224 and 225, 303..310). -/
def ModeCInv (a : aircraft) : Prop :=
  a.messages ≠ 0 ∧
  (a.modeACflags &&& MODEAC_MSG_FLAG ≠ 0 → a.modeCcount = 0) ∧
  (a.modeACflags &&& MODEAC_MSG_FLAG = 0 →
    a.modeACflags &&& MODEAC_MSG_MODEC_OLD = 0 ∧
    (a.modeACflags &&& MODEAC_MSG_MODEC_HIT ≠ 0 → a.modeCcount ≠ 0))

/-- The message record `mm` with the frame copy `msg` replaced. -/
def withMsg (mm : modesMessage) (m : List Nat) : modesMessage := { mm with msg := m }

/-- The altitude, the Mode C value, the Mode C hit count and the Mode C hit flag of an
aircraft record. -/
def altFields (a : aircraft) : Int × Int × Nat × Nat :=
  (a.altitude, a.modeC, a.modeCcount, a.modeACflags &&& MODEAC_MSG_MODEC_HIT)

/-- What lines 301..313 of `interactiveReceiveData` leave in the altitude fields of the
record `a` for the message `mm`. -/
def altAfter (a : aircraft) (mm : modesMessage) : Int × Int × Nat × Nat :=
  if mm.bFlags &&& MODES_ACFLAGS_ALTITUDE_VALID ≠ 0 then
    (mm.altitude, Int.tdiv (mm.altitude + 49) 100,
      (if a.modeCcount ≠ 0 ∧ a.altitude ≠ mm.altitude then 0 else a.modeCcount),
      (if a.modeCcount ≠ 0 ∧ a.altitude ≠ mm.altitude then 0
       else a.modeACflags &&& MODEAC_MSG_MODEC_HIT))
  else altFields a

/-- The frame-log entry `e` refers to the aircraft record `a`: it holds its pointer and its
address, and was made no later than the record was last heard. -/
def RefersTo (e : stDF) (a : aircraft) : Prop :=
  e.pAircraft = a.ptr ∧ e.addr = a.addr ∧ e.seen ≤ a.seen

/-- The state of the aircraft list and of the frame log in a run whose clock has reached
`clock`: no two records share an address or an allocation, every record was allocated
before `heapNext` and last heard by `clock`, every log entry refers to a record of the
list, and the log is ordered by `seen`, newest first. -/
def LogInv (M : ModesState) (clock : Nat) : Prop :=
  NoDupAddr M.aircrafts ∧ (M.aircrafts.map aircraft.ptr).Nodup ∧
  (∀ a ∈ M.aircrafts, a.ptr < M.heapNext ∧ a.seen ≤ clock) ∧
  (∀ e ∈ M.pDF, ∃ a ∈ M.aircrafts, RefersTo e a) ∧
  M.pDF.Pairwise (fun e1 e2 => e2.seen ≤ e1.seen)

/-- The allocation and the time last heard of an aircraft record. -/
def idFields (a : aircraft) : Nat × Nat := (a.ptr, a.seen)

/-! ## Sample inputs -/

/-- A stand-in for the functions of `mode_ac.c` and libm, for evaluating sample frames that
do not reach them, with exact `double` operations and the `abs(INT_MIN)` of a negation
that wraps. -/
def extZero : Ext := ⟨fun _ => 0, fun _ _ => 0, fun x => x, -(2 ^ 31)⟩

/-- The ICAO cache after `memset(Modes.icao_cache, 0, ...)`. -/
def cacheEmpty : IcaoCache := fun _ => 0

/-- The DF 17 identification frame `8D4840D6202CC371C32CE0576098`. -/
def frameDF17 : List Nat :=
  [0x8D, 0x48, 0x40, 0xD6, 0x20, 0x2C, 0xC3, 0x71, 0xC3, 0x2C, 0xE0, 0x57, 0x60, 0x98]

/-- The frame `frameDF17` with its last bit flipped. -/
def frameDF17bad : List Nat :=
  [0x8D, 0x48, 0x40, 0xD6, 0x20, 0x2C, 0xC3, 0x71, 0xC3, 0x2C, 0xE0, 0x57, 0x60, 0x99]

/-- A DF 11 all-call reply of address `4840D6` whose syndrome is 1. -/
def frameDF11iid : List Nat := [0x5D, 0x48, 0x40, 0xD6, 0xF8, 0x74, 0x0E]

/-- A DF 4 frame whose syndrome is `ABC123`. -/
def frameDF4 : List Nat := [0x20, 0x00, 0x05, 0x38, 0x1C, 0xCD, 0xF8]

/-- The global state after `ppup1090InitConfig` and `ppup1090Init` with no user position:
default TTLs, Mode A/C on, an empty cache and empty lists. -/
def ModesState.init : ModesState where
  icao_cache := cacheEmpty
  mode_ac := 1
  interactive_display_ttl := 60
  interactive_delete_ttl := 300
  fUserLat := MODES_USER_LATITUDE_DFLT
  fUserLon := MODES_USER_LONGITUDE_DFLT
  bUserFlags := 0
  aircrafts := []
  last_cleanup_time := 0
  pDF := []
  heapNext := 0
  nDF := fun _ => 0

/-- An aircraft holding the even sample (93000, 51372) and the odd sample (74158, 50194):
an airborne position near 52.26 N, 3.92 E. -/
def aircraftPair : aircraft :=
  { aircraft.zero 0 with
    even_cprlat := 93000, even_cprlon := 51372, odd_cprlat := 74158, odd_cprlon := 50194 }

/-- An aircraft whose even sample decodes to a latitude just below 87 degrees and whose odd
sample decodes to a latitude just above it. -/
def aircraftStraddle : aircraft :=
  { aircraft.zero 0 with
    even_cprlat := 65318, even_cprlon := 0, odd_cprlat := 34076, odd_cprlon := 0 }

/-- The DF 17 airborne position frame `8D40621D58C386435CC412692AD6` (odd sample). -/
def frameOdd : List Nat :=
  [0x8D, 0x40, 0x62, 0x1D, 0x58, 0xC3, 0x86, 0x43, 0x5C, 0xC4, 0x12, 0x69, 0x2A, 0xD6]

/-- The message record `decodeModesMessage` makes of `frameOdd`. -/
def messageOdd : modesMessage :=
  (decodeModesMessage extZero cacheEmpty 1700000000 modesMessage.zero frameOdd).1

/-- A tracker state whose only aircraft, `40621D`, is airborne, was last heard one second
ago and holds an even CPR sample captured at millisecond time 1700000000000 less `2^32`
(49.7 days earlier); it has no decoded position and there is no user position. -/
def modesOldEven : ModesState :=
  { ModesState.init with
    aircrafts := [{ aircraft.zero 0 with
      addr := 0x40621D, seen := 1699999999, messages := 100,
      even_cprlat := 93000, even_cprlon := 51372,
      even_cprtime := 1700000000000 - 4294967296,
      bFlags := MODES_ACFLAGS_LLEVEN_VALID ||| MODES_ACFLAGS_AOG_VALID }],
    heapNext := 1 }

/-- A tracker state with three aircraft last heard at 1001, 1000 and 1300 seconds, a delete
TTL of 300 seconds and the last sweep at 1300 seconds. -/
def modesThree : ModesState :=
  { ModesState.init with
    aircrafts := [{ aircraft.zero 2 with addr := 0xA00003, seen := 1001 },
                  { aircraft.zero 1 with addr := 0xA00002, seen := 1000 },
                  { aircraft.zero 0 with addr := 0xA00001, seen := 1300 }],
    last_cleanup_time := 1300,
    heapNext := 3 }

/-- A Mode A/C record (position 0) with five messages and squawk 0x1200, and a Mode S
aircraft (position 1) with the same squawk and no Mode A hit so far. -/
def aircraftModeAPair : List aircraft :=
  [{ aircraft.zero 1 with
      addr := 0x1200, messages := 5, modeA := 0x1200, modeACflags := MODEAC_MSG_FLAG,
      bFlags := MODES_ACFLAGS_SQUAWK_VALID },
   { aircraft.zero 2 with
      addr := 0x4840D6, messages := 9, modeA := 0x1200,
      bFlags := MODES_ACFLAGS_SQUAWK_VALID }]

/-- The second DF 17 frame of the position example of the specification,
`8D4840D658C386435CC412692AD6`: the frame `frameOdd` with the address bytes `4840D6`. -/
def frameOdd4840D6 : List Nat :=
  [0x8D, 0x48, 0x40, 0xD6, 0x58, 0xC3, 0x86, 0x43, 0x5C, 0xC4, 0x12, 0x69, 0x2A, 0xD6]

/-- A DF 17 airborne position frame of ICAO `40621D` with the even CPR sample
(93000, 51372). -/
def frameEven : List Nat :=
  [0x8D, 0x40, 0x62, 0x1D, 0x58, 0xC3, 0x82, 0xD6, 0x90, 0xC8, 0xAC, 0x28, 0x63, 0xA7]

/-- The tracker state after `frameDF17` was received at second 1700000000. -/
def modesAfterDF17 : ModesState :=
  (receiveFrame extZero ModesState.init 1700000000 1700000000000 frameDF17).1

/-- The tracker state after `frameEven` was received at second 1700000000. -/
def modesAfterEven : ModesState :=
  (receiveFrame extZero ModesState.init 1700000000 1700000000000 frameEven).1

/-- The tracker state after `frameOdd` was received at second 1700000000. -/
def modesAfterOdd : ModesState :=
  (receiveFrame extZero ModesState.init 1700000000 1700000000000 frameOdd).1

/-- The message record `decodeModesMessage` makes of `frameDF17`. -/
def messageDF17 : modesMessage :=
  (decodeModesMessage extZero cacheEmpty 1700000000 modesMessage.zero frameDF17).1

/-- Eleven calls of `interactiveReceiveData`, one a second: ten messages of the aircraft
`40621D` with the signal samples 10, 11, 13, 14, .., 20, and as third call a message of the
aircraft `4840D6` with the signal sample 12. -/
def eventsRing : List ReceiveEvent :=
  (List.range 11).map (fun n =>
    { now := 1700000000 + n, ms := (1700000000 + n) * 1000, lockOk := true,
      mm := { (if n = 2 then messageDF17 else messageOdd) with signalLevel := 10 + n } })

/-- A tracker state whose frame log holds, from the head, entries seen at 1300, 1200, 900
and 1250 seconds, with the delete TTL of 300 seconds. -/
def modesLog : ModesState :=
  { ModesState.init with
    pDF := [{ pAircraft := 0, seen := 1300, llTimestamp := 4, addr := 0xA00001, msg := [] },
            { pAircraft := 0, seen := 1200, llTimestamp := 3, addr := 0xA00001, msg := [] },
            { pAircraft := 0, seen := 900, llTimestamp := 1, addr := 0xA00001, msg := [] },
            { pAircraft := 0, seen := 1250, llTimestamp := 2, addr := 0xA00001, msg := [] }] }

/-- A tracker state without a user position whose only aircraft, `40621D`, has a decoded
position (52.25, 3.9) that may not serve as its own reference (`LATLON_REL_OK` clear) and
an even CPR sample captured at millisecond time 1700000000000. -/
def modesStaleEven : ModesState :=
  { ModesState.init with
    aircrafts := [{ aircraft.zero 0 with
      addr := 0x40621D, seen := 1700000000, messages := 100,
      even_cprlat := 93000, even_cprlon := 51372, even_cprtime := 1700000000000,
      lat := 52.25, lon := 3.9, seenLatLon := 1699999990, timestampLatLon := 77,
      bFlags := MODES_ACFLAGS_LATLON_VALID ||| MODES_ACFLAGS_LLEVEN_VALID |||
        MODES_ACFLAGS_AOG_VALID }],
    heapNext := 1 }

/-- A tracker state with the user position (52, 4). -/
def modesUser : ModesState :=
  { ModesState.init with
    fUserLat := 52, fUserLon := 4, bUserFlags := MODES_USER_LATLON_VALID }

/-- An aircraft record with the odd sample (74158, 50194), no flags, and the stored
position (52.2, 3.9). -/
def aircraftNear : aircraft :=
  { aircraft.zero 0 with odd_cprlat := 74158, odd_cprlon := 50194, lat := 52.2, lon := 3.9 }

/-- The record `aircraftNear` with the stored position (0, 0) of a new record. -/
def aircraftFar : aircraft := { aircraftNear with lat := 0, lon := 0 }

/-- A tracker state with the user position (10, 180). -/
def modesUser180 : ModesState :=
  { ModesState.init with
    fUserLat := 10, fUserLon := 180, bUserFlags := MODES_USER_LATLON_VALID }

/-- The record `aircraftPair` with the position (52, 4), decoded at second 1000. -/
def aircraftPlaced : aircraft :=
  { aircraftPair with
    bFlags := MODES_ACFLAGS_LATLON_VALID, seenLatLon := 1000, lat := 52, lon := 4 }

/-- A tracker state with the user position (10, -100). -/
def modesUserWest : ModesState :=
  { ModesState.init with
    fUserLat := 10, fUserLon := -100, bUserFlags := MODES_USER_LATLON_VALID }

/-- A DF 17 identification frame of ICAO `40621D` with the capability 4 (on the ground). -/
def frameGround : List Nat :=
  [0x8C, 0x40, 0x62, 0x1D, 0x20, 0x2C, 0xC3, 0x71, 0xC3, 0x2C, 0xE0, 0x76, 0x77, 0x24]

/-- The message record `decodeModesMessage` makes of `frameGround`. -/
def messageGround : modesMessage :=
  (decodeModesMessage extZero cacheEmpty 1700000000 modesMessage.zero frameGround).1

/-- A tracker state whose only record is the Mode A/C record `FF1200` with 20 messages,
altitude 1000 ft, a Mode C hit count of 2 and `MODEC_HIT` and `MODEC_OLD` both set. -/
def modesModeC : ModesState :=
  { ModesState.init with
    aircrafts := [{ aircraft.zero 0 with
      addr := 0xFF1200, seen := 1700000000, messages := 20, altitude := 1000, modeC := 10,
      modeCcount := 2,
      modeACflags := MODEAC_MSG_FLAG ||| MODEAC_MSG_MODEC_HIT ||| MODEAC_MSG_MODEC_OLD,
      bFlags := MODES_ACFLAGS_ALTITUDE_VALID }],
    heapNext := 1 }

/-- A CRC-valid Mode A/C message record (DF 32) of the address `FF1200` with the altitude
2000 ft. -/
def messageModeC : modesMessage :=
  { modesMessage.zero with
    msgtype := 32, crcok := 1, addr := 0xFF1200, altitude := 2000,
    bFlags := MODES_ACFLAGS_ALTITUDE_VALID }

/-- Two frames: a short frame whose timestamp starts with `0x1A`, and a Mode A/C frame. -/
def framesTwo : List BeastFrame :=
  [{ ty := 0x32, body := [0x1A, 0, 0, 0, 0, 0, 0] ++ frameDF4 },
   { ty := 0x31, body := [0, 0, 0, 0, 0, 1, 0x1A, 0x12, 0x00] }]

/-- A long frame whose timestamp starts with `0x1A`, carrying `frameOdd`. -/
def frameLong : BeastFrame :=
  { ty := 0x33, body := [0x1A, 0, 0, 0, 0, 0, 7] ++ frameOdd }

/-- A Beast frame of type `'2'` whose seven payload bytes are the first seven bytes of the
DF 17 frame `frameDF17`. -/
def beastShortDF17 : List Nat :=
  0x32 :: beastEscape (bigEndian48 5 ++ 9 :: frameDF17.take 7)

/-- A content of the uninitialised array `msg` of `decodeBinMessage` whose last seven bytes
are the last seven bytes of `frameDF17`. -/
def stackDF17 : List Nat := List.replicate 7 0 ++ frameDF17.drop 7

/-- A tracker state whose only record is the Mode A/C record `FF1200` with 20 messages, no
Mode C hit count, and `MODEC_OLD` set with `MODEC_HIT` clear. -/
def modesModeCOld : ModesState :=
  { ModesState.init with
    aircrafts := [{ aircraft.zero 0 with
      addr := 0xFF1200, seen := 1700000000, messages := 20, modeA := 0x1200,
      modeACflags := MODEAC_MSG_FLAG ||| MODEAC_MSG_MODEC_OLD,
      bFlags := MODES_ACFLAGS_SQUAWK_VALID }],
    heapNext := 1 }

/-- A CRC-valid Mode A/C message record (DF 32) of the address `FF1200` with the squawk
`1200` and no altitude. -/
def messageModeA : modesMessage :=
  { modesMessage.zero with
    msgtype := 32, crcok := 1, addr := 0xFF1200, modeA := 0x1200,
    bFlags := MODES_ACFLAGS_SQUAWK_VALID }

/-- A tracker state with the Mode A/C record `FF1200` (five messages, altitude 37900 ft)
and the Mode S aircraft `40621D` at the same altitude, after the call
`interactiveUpdateAircraftModeA` for the Mode A/C record: the Mode S record has `MODEC_HIT`
and a Mode C hit count of 5. -/
def modesModeSHit : ModesState :=
  { ModesState.init with
    aircrafts := interactiveUpdateAircraftModeA
      [{ aircraft.zero 0 with
          addr := 0xFF1200, seen := 1700000000, messages := 5, altitude := 37900,
          modeC := 379, modeACflags := MODEAC_MSG_FLAG,
          bFlags := MODES_ACFLAGS_ALTITUDE_VALID },
       { aircraft.zero 1 with
          addr := 0x40621D, seen := 1700000000, messages := 9, altitude := 37900,
          modeC := 379, bFlags := MODES_ACFLAGS_ALTITUDE_VALID }] 0,
    heapNext := 2 }

/-- The number of halvings that take `n` below 2, with the bound `fuel` on the number of
steps: `Nat.log2 n` when `n ≤ fuel` (`log2Loop_eq`). -/
def log2Loop : Nat → Nat → Nat
  | 0, _ => 0
  | fuel + 1, n => if n < 2 then 0 else log2Loop fuel (n / 2) + 1

/-- Rounding to the nearest value of the form `m * 2^e` with `2^52 ≤ m < 2^53`, ties to the
even `m`: the rounding of IEEE 754 binary64 arithmetic in its default mode, for results in
the normal range. -/
def roundDouble (x : ℚ) : ℚ :=
  if x = 0 then 0
  else
    let e0 : Int := (log2Loop x.num.natAbs x.num.natAbs : Int) - (log2Loop x.den x.den : Int)
    let e1 : Int :=
      if 0 ≤ e0 then (if |x| < ((2 ^ e0.toNat : Nat) : ℚ) then e0 - 1 else e0)
      else (if |x| * ((2 ^ (-e0).toNat : Nat) : ℚ) < 1 then e0 - 1 else e0)
    let s : Int := 52 - e1
    let y : ℚ :=
      if 0 ≤ s then |x| * ((2 ^ s.toNat : Nat) : ℚ) else |x| / ((2 ^ (-s).toNat : Nat) : ℚ)
    let f : Int := ⌊y⌋
    let m : Int :=
      if y - f < 1 / 2 then f
      else if y - f > 1 / 2 then f + 1
      else if f % 2 = 0 then f else f + 1
    let r : ℚ :=
      if 0 ≤ s then (m : ℚ) / ((2 ^ s.toNat : Nat) : ℚ) else (m : ℚ) * ((2 ^ (-s).toNat : Nat) : ℚ)
    if x < 0 then -r else r

/-- The functions of `extZero` with the `double` operations rounded as IEEE 754 binary64
arithmetic rounds them. -/
def extDouble : Ext := { extZero with rnd := roundDouble }

/-- An aircraft record on the ground at (0, 90) that may serve as its own reference, with
the even sample (0, 65536): the sample decodes to the longitude `90 + 45/59`, half a
longitude cell (`90/59`) from the stored one. -/
def aircraftTie : aircraft :=
  { aircraft.zero 0 with
    even_cprlat := 0, even_cprlon := 65536, lat := 0, lon := 90,
    seenLatLon := 1699999990, timestampLatLon := 77,
    bFlags := MODES_ACFLAGS_LATLON_VALID ||| MODES_ACFLAGS_LATLON_REL_OK }

/-! ## Theorems -/

/-! ### The checksum (C3) -/

theorem and_0x80_ne_zero (x : Nat) : (x &&& 0x80 ≠ 0) ↔ x.testBit 7 = true := by
  have h : x &&& 0x80 = if x.testBit 7 then 0x80 else 0 := by
    apply Nat.eq_of_testBit_eq
    intro i
    have e : (0x80 : Nat) = 2 ^ 7 := by norm_num
    by_cases hx : x.testBit 7 = true
    · simp only [hx, if_true, Nat.testBit_and, e, Nat.testBit_two_pow]
      by_cases hi : 7 = i
      · subst hi; simp [hx]
      · simp [hi]
    · simp only [hx, Nat.testBit_and, e, Nat.testBit_two_pow]
      by_cases hi : 7 = i
      · subst hi; simp [hx]
      · simp [hi]
  rw [h]
  by_cases hx : x.testBit 7 = true <;> simp [hx]

theorem shifted_testBit (b r : Nat) (hr : r ≤ 7) :
    ((b <<< r) % 256).testBit 7 = b.testBit (7 - r) := by
  have e : (256 : Nat) = 2 ^ 8 := by norm_num
  rw [e, Nat.testBit_mod_two_pow, Nat.testBit_shiftLeft]
  simp [hr]

theorem shifted_step (b r : Nat) :
    ((((b <<< r) % 256) <<< 1) % 256) = (b <<< (r + 1)) % 256 := by
  have h1 : b <<< (r + 1) = (b <<< r) * 2 := by
    simp only [Nat.shiftLeft_eq, pow_succ]; ring
  have h2 : ((b <<< r) % 256) <<< 1 = ((b <<< r) % 256) * 2 := by
    simp [Nat.shiftLeft_eq]
  rw [h1, h2]
  generalize b <<< r = d
  omega

theorem and_7_eq_zero (j : Nat) : (j &&& 7 = 0) ↔ j % 8 = 0 := by
  have h : j &&& 7 = j % 8 := Nat.and_pow_two_sub_one_eq_mod j 3
  rw [h]

/-- The loop of `modesChecksum`, started at bit `j` in a state that agrees with the message,
folds the table rows of the set bits `j .. j+n-1` into `crc` and leaves the read position
after the last byte it loaded. -/
theorem modesChecksumLoop_eq (msg : List Nat) (off : Nat) :
    ∀ (n j crc theByte : Nat),
      (j % 8 ≠ 0 → theByte = (byteAt msg (j / 8) <<< (j % 8)) % 256) →
      modesChecksumLoop msg n j crc theByte ((j + 7) / 8) (off + j) =
        ((List.range' j n).foldl (checksumSpecStep msg off) crc, (j + n + 7) / 8) := by
  intro n
  induction n with
  | zero => intro j crc theByte _; simp [modesChecksumLoop]
  | succ n ih =>
    intro j crc theByte hinv
    rw [modesChecksumLoop]
    simp only [and_7_eq_zero, and_0x80_ne_zero]
    by_cases hj : j % 8 = 0
    · simp only [hj, if_true]
      have hp : (j + 7) / 8 = j / 8 := by omega
      have hp1 : (j + 7) / 8 + 1 = (j + 1 + 7) / 8 := by omega
      have ht : off + j + 1 = off + (j + 1) := by omega
      rw [hp1, ht, hp]
      have hbit : (byteAt msg (j / 8)).testBit 7 = msgBit msg j := by
        simp [msgBit, hj]
      rw [ih (j + 1)]
      · simp only [List.range'_succ, List.foldl_cons, checksumSpecStep, hbit]
        have : j + 1 + n + 7 = j + (n + 1) + 7 := by omega
        rw [this]
      · intro _
        have h1 : (j + 1) / 8 = j / 8 := by omega
        have h2 : (j + 1) % 8 = 1 := by omega
        rw [h1, h2]
    · simp only [hj, if_false]
      have hb := hinv hj
      have hp1 : (j + 7) / 8 = (j + 1 + 7) / 8 := by omega
      have ht : off + j + 1 = off + (j + 1) := by omega
      have hbit : theByte.testBit 7 = msgBit msg j := by
        rw [hb, shifted_testBit _ _ (by omega)]; rfl
      rw [hp1, ht, ih (j + 1)]
      · simp only [List.range'_succ, List.foldl_cons, checksumSpecStep, hbit]
        have : j + 1 + n + 7 = j + (n + 1) + 7 := by omega
        rw [this]
      · intro h8
        have h1 : (j + 1) / 8 = j / 8 := by omega
        have h2 : (j + 1) % 8 = j % 8 + 1 := by omega
        rw [h1, h2, hb, shifted_step]

theorem byteAt_lt (msg : List Nat) (h : ∀ b ∈ msg, b < 256) (i : Nat) : byteAt msg i < 256 := by
  unfold byteAt
  rw [List.getD_eq_getElem?_getD]
  by_cases hi : i < msg.length
  · rw [List.getElem?_eq_getElem hi]
    exact h _ (List.getElem_mem hi)
  · rw [List.getElem?_eq_none (by omega)]
    simp

theorem be24_eq (a b c : Nat) (hb : b < 256) (hc : c < 256) :
    (a <<< 16) ||| (b <<< 8) ||| c = a * 65536 + b * 256 + c := by
  have h1 : (a <<< 16) ||| (b <<< 8) = 2 ^ 16 * a + 2 ^ 8 * b := by
    rw [Nat.shiftLeft_eq, Nat.shiftLeft_eq, Nat.mul_comm a, Nat.mul_comm b]
    exact (Nat.mul_add_lt_is_or (by omega) a).symm
  have h2 : 2 ^ 16 * a + 2 ^ 8 * b = 2 ^ 8 * (2 ^ 8 * a + b) := by ring
  rw [h1, h2, ← Nat.mul_add_lt_is_or (by omega)]
  ring

/-- C3: for a 112-bit (14-byte) or 56-bit (7-byte) message, `modesChecksum` is the XOR of
the table rows `offset + i` of the set message bits `i < bits - 24` (offset 0 for 112 bits,
56 for 56 bits), XORed with the big-endian value of the last three bytes, masked to 24
bits. -/
theorem modesChecksum_eq_spec (msg : List Nat) (bits : Nat)
    (hlen : (bits = 112 ∧ msg.length = 14) ∨ (bits = 56 ∧ msg.length = 7))
    (hbytes : ∀ b ∈ msg, b < 256) :
    modesChecksum msg bits = checksumSpec msg bits := by
  have hloop := fun off n =>
    modesChecksumLoop_eq msg off n 0 0 (byteAt msg 0) (fun h => absurd rfl h)
  have hb := byteAt_lt msg hbytes
  rcases hlen with ⟨rfl, hl⟩ | ⟨rfl, hl⟩
  · have h := hloop 0 88
    simp only [Nat.zero_add, Nat.add_zero] at h
    simp only [modesChecksum, checksumSpec, hl]
    norm_num
    rw [h, List.range_eq_range']
    simp only [be24_eq _ _ _ (hb 12) (hb 13)]
  · have h := hloop 56 32
    simp only [Nat.zero_add, Nat.add_zero] at h
    simp only [modesChecksum, checksumSpec, hl]
    norm_num
    rw [h, List.range_eq_range']
    simp only [be24_eq _ _ _ (hb 5) (hb 6)]

theorem modesChecksum_eq_spec_witness :
    modesChecksum [0x8D, 0x48, 0x40, 0xD6, 0x20, 0x2C, 0xC3, 0x71, 0xC3, 0x2C, 0xE0, 0x57, 0x60,
        0x98] 112 =
      checksumSpec [0x8D, 0x48, 0x40, 0xD6, 0x20, 0x2C, 0xC3, 0x71, 0xC3, 0x2C, 0xE0, 0x57, 0x60,
        0x98] 112 :=
  modesChecksum_eq_spec _ 112 (Or.inl ⟨rfl, rfl⟩) (by decide)

/-! ### The message decoder (C1, C2, C4) -/

theorem header_decodeVS (mm : modesMessage) : header (decodeVS mm) = header mm := by
  unfold decodeVS; split_ifs <;> rfl

theorem header_decodeCA (mm : modesMessage) : header (decodeCA mm) = header mm := by
  unfold decodeCA; split_ifs <;> rfl

theorem header_decodeSquawk (mm : modesMessage) (f : Nat) :
    header (decodeSquawk mm f) = header mm := by
  unfold decodeSquawk; split_ifs <;> rfl

theorem header_decodeDF5Squawk (mm : modesMessage) : header (decodeDF5Squawk mm) = header mm := by
  unfold decodeDF5Squawk; split_ifs
  · exact header_decodeSquawk _ _
  · rfl

theorem header_decodeAltitude13 (ext : Ext) (mm : modesMessage) :
    header (decodeAltitude13 ext mm) = header mm := by
  unfold decodeAltitude13; dsimp only; split_ifs <;> rfl

theorem header_decodeFS (mm : modesMessage) : header (decodeFS mm) = header mm := by
  unfold decodeFS; dsimp only; split_ifs <;> rfl

theorem header_decodeVelocityVert (mm : modesMessage) (msg : List Nat) (mesub : Nat) :
    header (decodeVelocityVert mm msg mesub) = header mm := by
  unfold decodeVelocityVert
  cases decodeVertRate msg <;> (dsimp only; split_ifs <;> rfl)

theorem header_decodeVelocitySpeed (ext : Ext) (mm : modesMessage) (msg : List Nat)
    (mesub : Nat) : header (decodeVelocitySpeed ext mm msg mesub) = header mm := by
  unfold decodeVelocitySpeed
  lift_lets; intros; split_ifs <;> rfl

theorem header_decodeVelocity (ext : Ext) (mm : modesMessage) (msg : List Nat) (mesub : Nat) :
    header (decodeVelocity ext mm msg mesub) = header mm := by
  unfold decodeVelocity
  rw [header_decodeVelocitySpeed, header_decodeVelocityVert]; rfl

theorem header_decodePosition (ext : Ext) (mm : modesMessage) (msg : List Nat) (metype : Nat) :
    header (decodePosition ext mm msg metype) = header mm := by
  unfold decodePosition; lift_lets; intros; split_ifs <;> rfl

theorem header_decodeExtendedSquitter (ext : Ext) (mm : modesMessage) (msg : List Nat) :
    header (decodeExtendedSquitter ext mm msg) = header mm := by
  unfold decodeExtendedSquitter
  dsimp only
  simp only [apply_ite header, header_decodeVelocity, header_decodePosition,
    header_decodeSquawk]
  simp only [header, ite_self]

theorem header_decodeSquitter (ext : Ext) (mm : modesMessage) :
    header (decodeSquitter ext mm) = header mm := by
  unfold decodeSquitter; split_ifs
  · exact header_decodeExtendedSquitter _ _ _
  · rfl

theorem header_decodeCommB (mm : modesMessage) : header (decodeCommB mm) = header mm := by
  unfold decodeCommB; split_ifs <;> rfl

/-- The field stages of `decodeModesMessage` leave the header fields alone. -/
theorem header_fields (ext : Ext) (mm : modesMessage) :
    header (decodeCommB (decodeSquitter ext (decodeFS (decodeAltitude13 ext (decodeDF5Squawk
      (decodeCA (decodeVS mm))))))) = header mm := by
  rw [header_decodeCommB, header_decodeSquitter, header_decodeFS, header_decodeAltitude13,
    header_decodeDF5Squawk, header_decodeCA, header_decodeVS]

/-- The header of the record `decodeModesMessage` returns is the one `decodeModesHeader`
computed. -/
theorem header_decodeModesMessage (ext : Ext) (cache : IcaoCache) (now : Nat)
    (mm : modesMessage) (msg : List Nat) :
    header (decodeModesMessage ext cache now mm msg).1 =
      header (decodeModesHeader cache now mm msg).1 := by
  unfold decodeModesMessage
  by_cases h : (decodeModesHeader cache now mm msg).1.crcok = 0
  · simp only [h, if_true]
  · simp only [h, if_false]
    exact header_fields ext (decodeModesHeader cache now mm msg).1

theorem header_proj {a b : modesMessage} (h : header a = header b) :
    a.msg = b.msg ∧ a.msgbits = b.msgbits ∧ a.msgtype = b.msgtype ∧ a.crcok = b.crcok ∧
      a.crc = b.crc ∧ a.addr = b.addr ∧ a.ca = b.ca ∧ a.iid = b.iid := by
  simpa [header] using h

theorem byteAt_take (msg : List Nat) (n i : Nat) (h : i < n) :
    byteAt (msg.take n) i = byteAt msg i := by
  unfold byteAt
  rw [List.getD_eq_getElem?_getD, List.getD_eq_getElem?_getD, List.getElem?_take_of_lt h]

/-- What `decodeModesHeader` computes: the DF, the syndrome, the address and the CRC
verdict, in terms of the frame and of the cache. -/
theorem decodeModesHeader_spec (cache : IcaoCache) (now : Nat) (mm : modesMessage)
    (msg : List Nat) (df crc addr3 : Nat)
    (hdf : df = byteAt (msg.take MODES_LONG_MSG_BYTES) 0 >>> 3)
    (hcrc : crc = modesChecksum (msg.take MODES_LONG_MSG_BYTES) (modesMessageLenByType df))
    (haddr : addr3 = (byteAt (msg.take MODES_LONG_MSG_BYTES) 1 <<< 16) |||
      (byteAt (msg.take MODES_LONG_MSG_BYTES) 2 <<< 8) |||
      byteAt (msg.take MODES_LONG_MSG_BYTES) 3) :
    (decodeModesHeader cache now mm msg).1.msgtype = df ∧
    (decodeModesHeader cache now mm msg).1.crc = crc ∧
    (decodeModesHeader cache now mm msg).1.addr =
      (if df = 11 ∨ df = 17 ∨ df = 18 then addr3 else crc) ∧
    (decodeModesHeader cache now mm msg).1.crcok =
        (if df = 11 then
          (if crc = 0 then 1
           else if crc < 80 then ICAOAddressWasRecentlySeen cache now addr3 else 0)
         else if df = 17 ∨ df = 18 then (if crc = 0 then 1 else 0)
         else ICAOAddressWasRecentlySeen cache now crc) ∧
    payload (decodeModesHeader cache now mm msg).1 = payload mm := by
  unfold decodeModesHeader
  simp only [← haddr, ← hdf, ← hcrc]
  clear haddr hcrc hdf
  by_cases h11 : df = 11
  · subst h11
    rcases Nat.eq_zero_or_pos crc with hc | hc
    · subst hc; simp [payload]
    · have hc1 : ¬ (0 = crc) := by omega
      have hc2 : ¬ (crc = 0) := by omega
      by_cases h80 : crc < 80
      · simp only [hc1, hc2, h80, if_true, if_false, true_or]
        split_ifs <;> simp [payload]
      · simp [hc1, hc2, h80, payload]
  · by_cases h17 : df = 17
    · subst h17
      rcases Nat.eq_zero_or_pos crc with hc | hc
      · subst hc; simp [payload]
      · have hc1 : ¬ (0 = crc) := by omega
        have hc2 : ¬ (crc = 0) := by omega
        simp [hc1, hc2, payload]
    · by_cases h18 : df = 18
      · subst h18
        rcases Nat.eq_zero_or_pos crc with hc | hc
        · subst hc; simp [payload]
        · have hc1 : ¬ (0 = crc) := by omega
          have hc2 : ¬ (crc = 0) := by omega
          simp [hc1, hc2, payload]
      · simp [h11, h17, h18, payload]

theorem wasRecentlySeen_iff (cache : IcaoCache) (now addr : Nat) (hnow : now < 2 ^ 64)
    (ht : cache (ICAOCacheHashAddress addr * 2 + 1) < 2 ^ 32) :
    ICAOAddressWasRecentlySeen cache now addr ≠ 0 ↔
      (addr ≠ 0 ∧ cache (ICAOCacheHashAddress addr * 2) = addr ∧
        cache (ICAOCacheHashAddress addr * 2 + 1) ≤ now ∧
        now - cache (ICAOCacheHashAddress addr * 2 + 1) ≤ 60) := by
  simp only [ICAOAddressWasRecentlySeen, MODES_ICAO_CACHE_TTL]
  generalize cache (ICAOCacheHashAddress addr * 2 + 1) = t at ht ⊢
  generalize cache (ICAOCacheHashAddress addr * 2) = a
  have hmod : now % 2 ^ 64 = now := Nat.mod_eq_of_lt hnow
  rw [hmod]
  norm_num at hnow ht ⊢
  constructor
  · rintro ⟨h1, h2, h3⟩
    exact ⟨h2 ▸ h1, h2, by omega, by omega⟩
  · rintro ⟨h1, h2, h3, h4⟩
    exact ⟨h2 ▸ h1, h2, by omega⟩

/-- C1 (as stated) fails: a DF 11 frame with syndrome 1 whose address is in the cache is
marked CRC-valid although its syndrome is not 0. -/
theorem crcok_DF11_nonzero_syndrome :
    (decodeModesMessage extZero (addRecentlySeenICAOAddr cacheEmpty 1000 0x4840D6) 1010
        modesMessage.zero frameDF11iid).1.msgtype = 11 ∧
    (decodeModesMessage extZero (addRecentlySeenICAOAddr cacheEmpty 1000 0x4840D6) 1010
        modesMessage.zero frameDF11iid).1.crcok ≠ 0 ∧
    ¬ ((decodeModesMessage extZero (addRecentlySeenICAOAddr cacheEmpty 1000 0x4840D6) 1010
        modesMessage.zero frameDF11iid).1.crc = 0) := by
  decide

/-- C1 (amended): when `decodeModesMessage` marks a frame of DF 11, 17 or 18 as CRC-valid,
`mm.addr` is bytes 1..3 of the frame, big-endian; for DF 17 and DF 18 the syndrome `mm.crc`
is 0; for DF 11 the syndrome is 0, or it is below 80 and the address was recently seen in
the ICAO cache. -/
theorem crcok_DF11_17_18 (ext : Ext) (cache : IcaoCache) (now : Nat) (mm : modesMessage)
    (msg : List Nat) (hbytes : ∀ b ∈ msg, b < 256)
    (hdf : byteAt msg 0 >>> 3 = 11 ∨ byteAt msg 0 >>> 3 = 17 ∨ byteAt msg 0 >>> 3 = 18)
    (hok : (decodeModesMessage ext cache now mm msg).1.crcok ≠ 0) :
    (decodeModesMessage ext cache now mm msg).1.msgtype = byteAt msg 0 >>> 3 ∧
    (decodeModesMessage ext cache now mm msg).1.addr =
      byteAt msg 1 * 65536 + byteAt msg 2 * 256 + byteAt msg 3 ∧
    (byteAt msg 0 >>> 3 ≠ 11 → (decodeModesMessage ext cache now mm msg).1.crc = 0) ∧
    (byteAt msg 0 >>> 3 = 11 →
      (decodeModesMessage ext cache now mm msg).1.crc = 0 ∨
      ((decodeModesMessage ext cache now mm msg).1.crc < 80 ∧
        ICAOAddressWasRecentlySeen cache now
          (decodeModesMessage ext cache now mm msg).1.addr ≠ 0)) := by
  obtain ⟨-, -, h3, h4, h5, h6, -, -⟩ :=
    header_proj (header_decodeModesMessage ext cache now mm msg)
  obtain ⟨s1, s2, s3, s4, -⟩ := decodeModesHeader_spec cache now mm msg _ _ _ rfl rfl rfl
  rw [h4] at hok
  rw [h3, h5, h6]
  rw [s4] at hok
  rw [s1, s2, s3]
  simp only [byteAt_take msg MODES_LONG_MSG_BYTES 0 (by decide),
    byteAt_take msg MODES_LONG_MSG_BYTES 1 (by decide),
    byteAt_take msg MODES_LONG_MSG_BYTES 2 (by decide),
    byteAt_take msg MODES_LONG_MSG_BYTES 3 (by decide)] at hok ⊢
  have hb := byteAt_lt msg hbytes
  rw [if_pos hdf, be24_eq _ _ _ (hb 2) (hb 3)]
  refine ⟨trivial, rfl, ?_, ?_⟩
  · intro h11
    rw [if_neg h11] at hok
    have h78 : byteAt msg 0 >>> 3 = 17 ∨ byteAt msg 0 >>> 3 = 18 := by
      rcases hdf with h | h | h
      · exact absurd h h11
      · exact Or.inl h
      · exact Or.inr h
    rw [if_pos h78] at hok
    by_contra hc
    rw [if_neg hc] at hok
    exact hok rfl
  · intro h11
    rw [if_pos h11] at hok
    by_cases hc : modesChecksum (List.take MODES_LONG_MSG_BYTES msg)
        (modesMessageLenByType (byteAt msg 0 >>> 3)) = 0
    · exact Or.inl hc
    · rw [if_neg hc] at hok
      by_cases h80 : modesChecksum (List.take MODES_LONG_MSG_BYTES msg)
          (modesMessageLenByType (byteAt msg 0 >>> 3)) < 80
      · rw [if_pos h80] at hok
        rw [be24_eq _ _ _ (hb 2) (hb 3)] at hok
        exact Or.inr ⟨h80, hok⟩
      · rw [if_neg h80] at hok
        exact absurd rfl hok

theorem crcok_DF11_17_18_witness :
    (decodeModesMessage extZero cacheEmpty 1000 modesMessage.zero frameDF17).1.crcok ≠ 0 ∧
    (decodeModesMessage extZero cacheEmpty 1000 modesMessage.zero frameDF17).1.addr = 0x4840D6 ∧
    (decodeModesMessage extZero cacheEmpty 1000 modesMessage.zero frameDF17).1.crc = 0 :=
  have h := crcok_DF11_17_18 extZero cacheEmpty 1000 modesMessage.zero frameDF17
    (by decide) (by decide) (by decide)
  ⟨by decide, h.2.1, h.2.2.1 (by decide)⟩

theorem modesChecksum_lt (msg : List Nat) (bits : Nat) : modesChecksum msg bits < 2 ^ 24 := by
  unfold modesChecksum
  exact Nat.lt_of_le_of_lt Nat.and_le_right (by norm_num)

/-- C2: for a frame whose DF is not 11, 17 or 18, `decodeModesMessage` sets `mm.addr` to the
computed 24-bit syndrome and marks the frame CRC-valid exactly when that address is
non-zero, is the address held in its cache slot, and was stored there no more than 60
seconds before the current time. -/
theorem crcok_other_DF (ext : Ext) (cache : IcaoCache) (now : Nat) (mm : modesMessage)
    (msg : List Nat)
    (hdf : byteAt msg 0 >>> 3 ≠ 11 ∧ byteAt msg 0 >>> 3 ≠ 17 ∧ byteAt msg 0 >>> 3 ≠ 18)
    (hnow : now < 2 ^ 64) (hcache : ∀ i, cache i < 2 ^ 32) :
    (decodeModesMessage ext cache now mm msg).1.crc =
      modesChecksum (msg.take MODES_LONG_MSG_BYTES)
        (modesMessageLenByType (byteAt msg 0 >>> 3)) ∧
    (decodeModesMessage ext cache now mm msg).1.addr =
      (decodeModesMessage ext cache now mm msg).1.crc ∧
    (decodeModesMessage ext cache now mm msg).1.addr < 2 ^ 24 ∧
    ((decodeModesMessage ext cache now mm msg).1.crcok ≠ 0 ↔
      ((decodeModesMessage ext cache now mm msg).1.addr ≠ 0 ∧
        cache (ICAOCacheHashAddress (decodeModesMessage ext cache now mm msg).1.addr * 2) =
          (decodeModesMessage ext cache now mm msg).1.addr ∧
        cache (ICAOCacheHashAddress (decodeModesMessage ext cache now mm msg).1.addr * 2 + 1)
          ≤ now ∧
        now -
          cache (ICAOCacheHashAddress (decodeModesMessage ext cache now mm msg).1.addr * 2 + 1)
          ≤ 60)) := by
  obtain ⟨-, -, -, h4, h5, h6, -, -⟩ :=
    header_proj (header_decodeModesMessage ext cache now mm msg)
  obtain ⟨-, s2, s3, s4, -⟩ := decodeModesHeader_spec cache now mm msg _ _ _ rfl rfl rfl
  rw [h4, h5, h6, s2, s3, s4]
  simp only [byteAt_take msg MODES_LONG_MSG_BYTES 0 (by decide)]
  have hn :
      ¬ (byteAt msg 0 >>> 3 = 11 ∨ byteAt msg 0 >>> 3 = 17 ∨ byteAt msg 0 >>> 3 = 18) := by
    rintro (h | h | h)
    · exact hdf.1 h
    · exact hdf.2.1 h
    · exact hdf.2.2 h
  have hn2 : ¬ (byteAt msg 0 >>> 3 = 17 ∨ byteAt msg 0 >>> 3 = 18) := fun h => hn (Or.inr h)
  rw [if_neg hn, if_neg hdf.1, if_neg hn2]
  exact ⟨by trivial, by trivial, modesChecksum_lt _ _,
    wasRecentlySeen_iff cache now _ hnow (hcache _)⟩

theorem crcok_other_DF_witness :
    (decodeModesMessage extZero (addRecentlySeenICAOAddr cacheEmpty 1000 0xABC123) 1010
        modesMessage.zero frameDF4).1.addr = 0xABC123 ∧
    (decodeModesMessage extZero (addRecentlySeenICAOAddr cacheEmpty 1000 0xABC123) 1010
        modesMessage.zero frameDF4).1.crcok ≠ 0 :=
  have h := crcok_other_DF extZero (addRecentlySeenICAOAddr cacheEmpty 1000 0xABC123) 1010
    modesMessage.zero frameDF4 (by decide) (by norm_num)
    (by
      intro i
      unfold addRecentlySeenICAOAddr cacheEmpty
      simp only [Function.update_apply]
      split_ifs <;> norm_num)
  ⟨h.2.1.trans (h.1.trans (by decide)), by decide⟩

/-- C4: when `decodeModesMessage` finds the CRC check failed (`crcok = 0`), it returns with
`bFlags` and every validity-guarded decoded field as they were on entry. -/
theorem crc_fail_keeps_fields (ext : Ext) (cache : IcaoCache) (now : Nat)
    (mm : modesMessage) (msg : List Nat)
    (hfail : (decodeModesMessage ext cache now mm msg).1.crcok = 0) :
    (decodeModesMessage ext cache now mm msg).1.bFlags = mm.bFlags ∧
    (decodeModesMessage ext cache now mm msg).1.fs = mm.fs ∧
    (decodeModesMessage ext cache now mm msg).1.modeA = mm.modeA ∧
    (decodeModesMessage ext cache now mm msg).1.altitude = mm.altitude ∧
    (decodeModesMessage ext cache now mm msg).1.unit = mm.unit ∧
    (decodeModesMessage ext cache now mm msg).1.flight = mm.flight ∧
    (decodeModesMessage ext cache now mm msg).1.raw_latitude = mm.raw_latitude ∧
    (decodeModesMessage ext cache now mm msg).1.raw_longitude = mm.raw_longitude ∧
    (decodeModesMessage ext cache now mm msg).1.ew_velocity = mm.ew_velocity ∧
    (decodeModesMessage ext cache now mm msg).1.ns_velocity = mm.ns_velocity ∧
    (decodeModesMessage ext cache now mm msg).1.velocity = mm.velocity ∧
    (decodeModesMessage ext cache now mm msg).1.heading = mm.heading ∧
    (decodeModesMessage ext cache now mm msg).1.vert_rate = mm.vert_rate ∧
    (decodeModesMessage ext cache now mm msg).1.metype = mm.metype ∧
    (decodeModesMessage ext cache now mm msg).1.mesub = mm.mesub := by
  obtain ⟨-, -, -, h4, -, -, -, -⟩ :=
    header_proj (header_decodeModesMessage ext cache now mm msg)
  rw [h4] at hfail
  have hret : decodeModesMessage ext cache now mm msg = decodeModesHeader cache now mm msg := by
    unfold decodeModesMessage
    simp only [hfail, if_true]
  obtain ⟨-, -, -, -, hp⟩ := decodeModesHeader_spec cache now mm msg _ _ _ rfl rfl rfl
  rw [hret]
  simpa [payload] using hp

theorem crc_fail_keeps_fields_witness :
    (decodeModesMessage extZero cacheEmpty 1000 modesMessage.zero frameDF17bad).1.crcok = 0 ∧
    (decodeModesMessage extZero cacheEmpty 1000 modesMessage.zero frameDF17bad).1.bFlags = 0 ∧
    (decodeModesMessage extZero cacheEmpty 1000 modesMessage.zero frameDF17bad).1.flight =
      modesMessage.zero.flight :=
  have h := crc_fail_keeps_fields extZero cacheEmpty 1000 modesMessage.zero frameDF17bad
    (by decide)
  ⟨by decide, h.1, h.2.2.2.2.2.1⟩

/-! ### The field decoders (C5, C6) -/

set_option maxRecDepth 100000 in
theorem decodeID13_encode_digits :
    ∀ a < 8, ∀ b < 8, ∀ c < 8, ∀ d < 8,
      decodeID13Field (encodeID13 (a * 4096 + b * 256 + c * 16 + d)) =
        a * 4096 + b * 256 + c * 16 + d := by
  decide

/-- C5: for every identity `x` whose four hexadecimal digits are each in 0..7,
`decodeID13Field` applied to the 13-bit field that interleaves the bits of `x` in the order
`C1 A1 C2 A2 C4 A4 X B1 D1 B2 D2 B4 D4` returns `x`. -/
theorem decodeID13_roundtrip (x : Nat) (hx : validIdentity x) :
    decodeID13Field (encodeID13 x) = x := by
  obtain ⟨h0, ha, hb, hc, hd⟩ := hx
  have hdec : x = (x / 4096 % 16) * 4096 + (x / 256 % 16) * 256 + (x / 16 % 16) * 16 + x % 16 := by
    omega
  have h := decodeID13_encode_digits (x / 4096 % 16) (by omega) (x / 256 % 16) (by omega)
    (x / 16 % 16) (by omega) (x % 16) (by omega)
  rw [← hdec] at h
  exact h

theorem decodeID13_roundtrip_witness :
    validIdentity 0x7421 ∧ decodeID13Field (encodeID13 0x7421) = 0x7421 :=
  ⟨by unfold validIdentity; decide,
    decodeID13_roundtrip 0x7421 (by unfold validIdentity; decide)⟩

set_option maxRecDepth 100000 in
theorem encodeAC13_bits_digits :
    ∀ h < 32, ∀ l < 64,
      encodeAC13 (h * 64 + l) &&& 0x0040 = 0 ∧ encodeAC13 (h * 64 + l) &&& 0x0010 ≠ 0 ∧
      ((encodeAC13 (h * 64 + l) &&& 0x1F80) >>> 2) |||
        ((encodeAC13 (h * 64 + l) &&& 0x0020) >>> 1) |||
        (encodeAC13 (h * 64 + l) &&& 0x000F) = h * 64 + l := by
  decide

theorem encodeAC13_bits (N : Nat) (hN : N < 2048) :
    encodeAC13 N &&& 0x0040 = 0 ∧ encodeAC13 N &&& 0x0010 ≠ 0 ∧
      ((encodeAC13 N &&& 0x1F80) >>> 2) ||| ((encodeAC13 N &&& 0x0020) >>> 1) |||
        (encodeAC13 N &&& 0x000F) = N := by
  have h := encodeAC13_bits_digits (N / 64) (by omega) (N % 64) (by omega)
  have e : N / 64 * 64 + N % 64 = N := by omega
  rw [e] at h
  exact h

/-- C6: for every `N` in [0, 2047], `decodeAC13Field` applied to the field that encodes `N`
with `M = 0` and `Q = 1` returns `N*25 - 1000` and reports the unit as feet. -/
theorem decodeAC13_roundtrip (ext : Ext) (N : Nat) (hN : N ≤ 2047) :
    decodeAC13Field ext (encodeAC13 N) = ((N : Int) * 25 - 1000, MODES_UNIT_FEET) := by
  obtain ⟨hm, hq, hn⟩ := encodeAC13_bits N (by omega)
  unfold decodeAC13Field
  simp only [hm, hq, hn, if_true, ne_eq, not_false_eq_true]

theorem decodeAC13_roundtrip_witness :
    (1520 : Nat) ≤ 2047 ∧
      decodeAC13Field extZero (encodeAC13 1520) = (37000, MODES_UNIT_FEET) :=
  ⟨by decide, decodeAC13_roundtrip extZero 1520 (by decide)⟩

/-! ### The CPR decoder and its freshness test (C7, C8) -/

/-- The freshness test of line 688 of `mode_s.c` reads the age of the stored position after
the conversion to `int`: a position stored `2^32` seconds and one second ago counts as
fresh, one stored `2^31` seconds ago as well (its age converts to a negative number), one
stored 60 seconds ago does not. -/
theorem cprReference_age_as_int :
    cprReference modesUser180 (1000 + 2 ^ 32 + 1) aircraftPlaced 1 = some (52, 4) ∧
    cprReference modesUser180 (1000 + 2 ^ 31) aircraftPlaced 1 = some (52, 4) ∧
    cprReference modesUser180 (1000 + 60) aircraftPlaced 1 = some (10, 180) ∧
    cprReference modesUser180 (1000 + 59) aircraftPlaced 1 = some (52, 4) := by
  decide!

/-- C7: whenever `decodeCPR` returns 0, the candidate latitudes `rlat0` and `rlat1` both lie
in [-90, 90] and have the same `cprNLFunction` value; and when one candidate has NL 2 and
the other NL 1 (the two sides of the 87 degree step) the decode returns -1 and leaves the
aircraft as it was. -/
theorem decodeCPR_same_zone (ext : Ext) (M : ModesState) (now : Nat) (a : aircraft)
    (fflag surface : Nat) :
    ((decodeCPR ext M now a fflag surface).1 = 0 →
      ∃ ref, cprReference M now a surface = some ref ∧
        -90 ≤ (cprLatitudes ext a surface ref.1).1 ∧ (cprLatitudes ext a surface ref.1).1 ≤ 90 ∧
        -90 ≤ (cprLatitudes ext a surface ref.1).2 ∧ (cprLatitudes ext a surface ref.1).2 ≤ 90 ∧
        cprNLFunction (cprLatitudes ext a surface ref.1).1 =
          cprNLFunction (cprLatitudes ext a surface ref.1).2) ∧
    (∀ ref, cprReference M now a surface = some ref →
      (cprNLFunction (cprLatitudes ext a surface ref.1).1 = 2 ∧
          cprNLFunction (cprLatitudes ext a surface ref.1).2 = 1) ∨
        (cprNLFunction (cprLatitudes ext a surface ref.1).1 = 1 ∧
          cprNLFunction (cprLatitudes ext a surface ref.1).2 = 2) →
      decodeCPR ext M now a fflag surface = (-1, a)) := by
  constructor
  · intro hok
    unfold decodeCPR at hok
    cases href : cprReference M now a surface with
    | none => rw [href] at hok; simp at hok
    | some ref =>
      rw [href] at hok
      dsimp only at hok
      refine ⟨ref, rfl, ?_⟩
      by_cases hr : (cprLatitudes ext a surface ref.1).1 < -90 ∨
          (cprLatitudes ext a surface ref.1).1 > 90 ∨
          (cprLatitudes ext a surface ref.1).2 < -90 ∨ (cprLatitudes ext a surface ref.1).2 > 90
      · rw [if_pos hr] at hok; simp at hok
      · rw [if_neg hr] at hok
        by_cases hnl : cprNLFunction (cprLatitudes ext a surface ref.1).1 ≠
            cprNLFunction (cprLatitudes ext a surface ref.1).2
        · rw [if_pos hnl] at hok; simp at hok
        · push_neg at hr hnl
          exact ⟨hr.1, hr.2.1, hr.2.2.1, hr.2.2.2, hnl⟩
  · intro ref href hz
    unfold decodeCPR
    rw [href]
    dsimp only
    have hnl : cprNLFunction (cprLatitudes ext a surface ref.1).1 ≠
        cprNLFunction (cprLatitudes ext a surface ref.1).2 := by
      rcases hz with ⟨h1, h2⟩ | ⟨h1, h2⟩ <;> rw [h1, h2] <;> decide
    split_ifs <;> rfl

theorem decodeCPR_same_zone_witness :
    (decodeCPR extZero ModesState.init 1000 aircraftPair 0 0).1 = 0 ∧
    cprNLFunction (cprLatitudes extZero aircraftPair 0 0).1 =
      cprNLFunction (cprLatitudes extZero aircraftPair 0 0).2 ∧
    cprNLFunction (cprLatitudes extZero aircraftStraddle 0 0).1 = 2 ∧
    cprNLFunction (cprLatitudes extZero aircraftStraddle 0 0).2 = 1 ∧
    decodeCPR extZero ModesState.init 1000 aircraftStraddle 0 0 = (-1, aircraftStraddle) := by
  have hs1 : cprNLFunction (cprLatitudes extZero aircraftStraddle 0 0).1 = 2 := by decide!
  have hs2 : cprNLFunction (cprLatitudes extZero aircraftStraddle 0 0).2 = 1 := by decide!
  have hok : (decodeCPR extZero ModesState.init 1000 aircraftPair 0 0).1 = 0 := by decide!
  obtain ⟨ref, href, -, -, -, -, hnl⟩ :=
    (decodeCPR_same_zone extZero ModesState.init 1000 aircraftPair 0 0).1 hok
  have hr : ref = (0, 0) := by
    have : cprReference ModesState.init 1000 aircraftPair 0 = some (0, 0) := by decide!
    rw [this] at href
    exact (Option.some.inj href).symm
  subst hr
  exact ⟨hok, hnl, hs1, hs2,
    (decodeCPR_same_zone extZero ModesState.init 1000 aircraftStraddle 0 0).2 (0, 0) (by decide!)
      (Or.inl ⟨hs1, hs2⟩)⟩

/-- C8 (the code at the failing input): an odd sample arriving `2^32` ms after the stored
even sample passes the freshness test `abs((int)(even_cprtime - odd_cprtime)) <= 10000`,
and `interactiveReceiveData` decodes a position from the pair although the relative decode
alone has no reference to work with. -/
theorem global_decode_of_samples_49_days_apart :
    (1700000000000 : Int) - (1700000000000 - 4294967296) > 10000 ∧
    absInt extZero (castDiffInt (1700000000000 - 4294967296) 1700000000000) ≤ 10000 ∧
    (interactiveReceiveData extZero modesOldEven 1700000000 1700000000000 true
        messageOdd).2.1.bFlags &&& MODES_ACFLAGS_LATLON_VALID ≠ 0 ∧
    (∀ a ∈ modesOldEven.aircrafts, cprRelativeReference modesOldEven a = none) ∧
    (∀ a ∈ (interactiveReceiveData extZero modesOldEven 1700000000 1700000000000 true
        messageOdd).1.aircrafts,
      52.265 < a.lat ∧ a.lat < 52.266 ∧ 3.938 < a.lon ∧ a.lon < 3.939 ∧
        a.even_cprtime + 4294967296 = a.odd_cprtime) := by
  decide!

/-! ### The aircraft list (C9, C10) -/

theorem addr_decodeCPR (ext : Ext) (M : ModesState) (now : Nat) (a : aircraft)
    (fflag surface : Nat) :
    (decodeCPR ext M now a fflag surface).2.addr = a.addr := by
  unfold decodeCPR
  cases cprReference M now a surface with
  | none => rfl
  | some ref => dsimp only; split_ifs <;> rfl

theorem addr_decodeCPRrelativeAt (ext : Ext) (a : aircraft) (fflag surface : Nat) (ref : ℚ × ℚ) :
    (decodeCPRrelativeAt ext a fflag surface ref).2.addr = a.addr := by
  unfold decodeCPRrelativeAt
  lift_lets; intros; split_ifs <;> rfl

theorem addr_decodeCPRrelative (ext : Ext) (M : ModesState) (a : aircraft) (fflag surface : Nat) :
    (decodeCPRrelative ext M a fflag surface).2.addr = a.addr := by
  unfold decodeCPRrelative
  cases cprRelativeReference M a with
  | none => rfl
  | some ref => exact addr_decodeCPRrelativeAt ext a fflag surface ref

theorem addr_receiveCPRSample (ms : Nat) (a : aircraft) (mm : modesMessage) :
    (receiveCPRSample ms a mm).addr = a.addr := by
  unfold receiveCPRSample; split_ifs <;> rfl

theorem addr_receiveCPR (ext : Ext) (M : ModesState) (now ms : Nat) (a : aircraft)
    (mm : modesMessage) :
    (receiveCPR ext M now ms a mm).1.addr = a.addr ∧
      (receiveCPR ext M now ms a mm).2.addr = mm.addr := by
  unfold receiveCPR
  split_ifs with h
  · dsimp only
    split_ifs <;>
      simp only [addr_decodeCPR ext, addr_decodeCPRrelative ext, addr_receiveCPRSample, and_self]
  · exact ⟨rfl, rfl⟩

theorem addr_receiveStages (now : Nat) (a : aircraft) (mm : modesMessage) :
    (receiveAOG (receiveMotion (receiveSquawk (receiveAltitude (receiveCallsign
      (receiveSeen now a mm) mm) mm) mm) mm) mm).addr = a.addr := by
  have h1 : ∀ (a : aircraft), (receiveAOG a mm).addr = a.addr := by
    intro a; unfold receiveAOG; split_ifs <;> rfl
  have h2 : ∀ (a : aircraft), (receiveMotion a mm).addr = a.addr := by
    intro a; rfl
  have h3 : ∀ (a : aircraft), (receiveSquawk a mm).addr = a.addr := by
    intro a; unfold receiveSquawk; split_ifs <;> rfl
  have h4 : ∀ (a : aircraft), (receiveAltitude a mm).addr = a.addr := by
    intro a; unfold receiveAltitude; split_ifs <;> rfl
  have h5 : ∀ (a : aircraft), (receiveCallsign a mm).addr = a.addr := by
    intro a; unfold receiveCallsign; split_ifs <;> rfl
  rw [h1, h2, h3, h4, h5]; rfl

/-- A message changes neither the address of its aircraft record nor its own. -/
theorem addr_receiveUpdate (ext : Ext) (M : ModesState) (now ms : Nat) (a : aircraft)
    (mm : modesMessage) :
    (receiveUpdate ext M now ms a mm).1.addr = a.addr ∧
      (receiveUpdate ext M now ms a mm).2.addr = mm.addr := by
  unfold receiveUpdate
  dsimp only
  have hf : ∀ (a : aircraft) (m : modesMessage), (receiveFlags a m).addr = a.addr := by
    intro a m; unfold receiveFlags; dsimp only; split_ifs <;> rfl
  rw [hf, (addr_receiveCPR ext M now ms _ mm).1, (addr_receiveCPR ext M now ms _ mm).2,
    addr_receiveStages]
  exact ⟨rfl, rfl⟩

theorem addr_interactiveCreateAircraft (ext : Ext) (ptr : Nat) (mm : modesMessage) :
    (interactiveCreateAircraft ext ptr mm).1.addr = mm.addr ∧
      (interactiveCreateAircraft ext ptr mm).2.addr = mm.addr := by
  unfold interactiveCreateAircraft
  dsimp only
  split_ifs <;> exact ⟨rfl, rfl⟩

theorem find_none_iff (l : List aircraft) (addr : Nat) :
    interactiveFindAircraft l addr = none ↔ addr ∉ l.map aircraft.addr := by
  induction l with
  | nil => simp [interactiveFindAircraft]
  | cons a l ih =>
    unfold interactiveFindAircraft
    by_cases h : a.addr = addr
    · simp [h]
    · simp only [h, if_false, ih, List.map_cons, List.mem_cons]
      constructor
      · intro hn hc
        rcases hc with hc | hc
        · exact h hc.symm
        · exact hn hc
      · intro hn hc
        exact hn (Or.inr hc)

theorem find_some_addr (l : List aircraft) (addr : Nat) (a : aircraft)
    (h : interactiveFindAircraft l addr = some a) : a.addr = addr ∧ a ∈ l := by
  induction l with
  | nil => simp [interactiveFindAircraft] at h
  | cons b l ih =>
    unfold interactiveFindAircraft at h
    by_cases hb : b.addr = addr
    · rw [if_pos hb] at h
      cases h
      exact ⟨hb, List.mem_cons_self _ _⟩
    · rw [if_neg hb] at h
      exact ⟨(ih h).1, List.mem_cons_of_mem _ (ih h).2⟩

theorem map_addr_writeAircraft (l : List aircraft) (addr : Nat) (a1 : aircraft)
    (h1 : a1.addr = addr) :
    (writeAircraft addr a1 l).map aircraft.addr = l.map aircraft.addr := by
  induction l with
  | nil => rfl
  | cons b l ih =>
    unfold writeAircraft
    by_cases hb : b.addr = addr
    · simp [hb, h1]
    · simp [hb, ih]

theorem find_writeAircraft (l : List aircraft) (addr : Nat) (a a1 : aircraft)
    (h1 : a1.addr = addr) (h : interactiveFindAircraft l addr = some a) :
    interactiveFindAircraft (writeAircraft addr a1 l) addr = some a1 := by
  induction l with
  | nil => simp [interactiveFindAircraft] at h
  | cons b l ih =>
    unfold interactiveFindAircraft at h
    unfold writeAircraft
    by_cases hb : b.addr = addr
    · rw [if_pos hb]
      unfold interactiveFindAircraft
      rw [if_pos h1]
    · rw [if_neg hb] at h
      rw [if_neg hb]
      unfold interactiveFindAircraft
      rw [if_neg hb]
      exact ih h

/-- The sweep loop keeps, after the records already passed, the fresh records of the rest
in their order. -/
theorem removeStaleLoop_eq (now : Nat) (ttl : Int) (l : List aircraft) :
    ∀ kept, removeStaleLoop now ttl kept l =
      kept ++ l.filter (fun a => decide (((now : Int) - (a.seen : Int)) ≤ ttl)) := by
  induction l with
  | nil => intro kept; simp [removeStaleLoop]
  | cons a l ih =>
    intro kept
    unfold removeStaleLoop
    by_cases h : ((now : Int) - (a.seen : Int)) > ttl
    · have h2 : ¬ (((now : Int) - (a.seen : Int)) ≤ ttl) := by omega
      rw [if_pos h, ih, List.filter_cons_of_neg (by simpa using h2)]
    · have h2 : ((now : Int) - (a.seen : Int)) ≤ ttl := by omega
      rw [if_neg h, ih, List.filter_cons_of_pos (by simpa using h2)]
      simp

/-- What `interactiveReceiveData` does to the aircraft list and what it returns, for a
CRC-valid message. -/
theorem interactiveReceiveData_aircrafts (ext : Ext) (M : ModesState) (now ms : Nat)
    (lockOk : Bool) (mm : modesMessage) (hok : mm.crcok ≠ 0) :
    (interactiveFindAircraft M.aircrafts mm.addr = none ∧
      (interactiveReceiveData ext M now ms lockOk mm).1.aircrafts =
        (receiveUpdate ext M now ms (interactiveCreateAircraft ext M.heapNext mm).1
          (interactiveCreateAircraft ext M.heapNext mm).2).1 :: M.aircrafts ∧
      (interactiveReceiveData ext M now ms lockOk mm).2.2 =
        some (receiveUpdate ext M now ms (interactiveCreateAircraft ext M.heapNext mm).1
          (interactiveCreateAircraft ext M.heapNext mm).2).1) ∨
    (∃ a, interactiveFindAircraft M.aircrafts mm.addr = some a ∧
      (interactiveReceiveData ext M now ms lockOk mm).1.aircrafts =
        writeAircraft mm.addr (receiveUpdate ext M now ms a mm).1 M.aircrafts ∧
      (interactiveReceiveData ext M now ms lockOk mm).2.2 =
        some (receiveUpdate ext M now ms a mm).1) := by
  unfold interactiveReceiveData
  rw [if_neg hok]
  cases hfind : interactiveFindAircraft M.aircrafts mm.addr with
  | none => exact Or.inl ⟨rfl, rfl, rfl⟩
  | some a => exact Or.inr ⟨a, rfl, rfl, rfl⟩

/-- C9: if the aircraft list has no duplicate addresses, it has none after
`interactiveReceiveData` (for any message) nor after `interactiveRemoveStaleAircrafts`; and
after `interactiveReceiveData` accepts a CRC-valid message, `interactiveFindAircraft(mm.addr)`
returns the record the call returned, which is the only record with that address. -/
theorem aircraft_list_no_duplicates (ext : Ext) (M : ModesState) (now ms : Nat)
    (lockOk : Bool) (mm : modesMessage) (h : NoDupAddr M.aircrafts) :
    NoDupAddr (interactiveReceiveData ext M now ms lockOk mm).1.aircrafts ∧
    NoDupAddr (interactiveRemoveStaleAircrafts M now lockOk).aircrafts ∧
    (mm.crcok ≠ 0 →
      ∃ a, (interactiveReceiveData ext M now ms lockOk mm).2.2 = some a ∧
        a.addr = mm.addr ∧
        interactiveFindAircraft (interactiveReceiveData ext M now ms lockOk mm).1.aircrafts
          mm.addr = some a ∧
        ∀ b ∈ (interactiveReceiveData ext M now ms lockOk mm).1.aircrafts,
          b.addr = mm.addr → b = a) := by
  have key : mm.crcok ≠ 0 →
      NoDupAddr (interactiveReceiveData ext M now ms lockOk mm).1.aircrafts ∧
      ∃ a, (interactiveReceiveData ext M now ms lockOk mm).2.2 = some a ∧
        a.addr = mm.addr ∧
        interactiveFindAircraft (interactiveReceiveData ext M now ms lockOk mm).1.aircrafts
          mm.addr = some a := by
    intro hok
    rcases interactiveReceiveData_aircrafts ext M now ms lockOk mm hok with
      ⟨hfind, hl, hr⟩ | ⟨a, hfind, hl, hr⟩
    · have haddr : (receiveUpdate ext M now ms (interactiveCreateAircraft ext M.heapNext mm).1
          (interactiveCreateAircraft ext M.heapNext mm).2).1.addr = mm.addr := by
        rw [(addr_receiveUpdate ext _ _ _ _ _).1, (addr_interactiveCreateAircraft _ _ _).1]
      rw [hl, hr]
      refine ⟨?_, _, rfl, haddr, ?_⟩
      · unfold NoDupAddr
        rw [List.map_cons, haddr]
        exact List.nodup_cons.mpr ⟨(find_none_iff _ _).mp hfind, h⟩
      · unfold interactiveFindAircraft
        rw [if_pos haddr]
    · have haddr : (receiveUpdate ext M now ms a mm).1.addr = mm.addr := by
        rw [(addr_receiveUpdate ext _ _ _ _ _).1]
        exact (find_some_addr _ _ _ hfind).1
      rw [hl, hr]
      refine ⟨?_, _, rfl, haddr, find_writeAircraft _ _ _ _ haddr hfind⟩
      unfold NoDupAddr
      rw [map_addr_writeAircraft _ _ _ haddr]
      exact h
  refine ⟨?_, ?_, ?_⟩
  · by_cases hok : mm.crcok = 0
    · unfold interactiveReceiveData
      rw [if_pos hok]
      exact h
    · exact (key hok).1
  · unfold interactiveRemoveStaleAircrafts
    split_ifs
    · dsimp only
      rw [removeStaleLoop_eq]
      unfold NoDupAddr
      exact h.sublist ((List.filter_sublist _).map _)
    · exact h
  · intro hok
    obtain ⟨hnd, a, hr, haddr, hfind⟩ := key hok
    refine ⟨a, hr, haddr, hfind, ?_⟩
    intro b hb hbaddr
    exact List.inj_on_of_nodup_map hnd hb (find_some_addr _ _ _ hfind).2
      (hbaddr.trans haddr.symm)

theorem aircraft_list_no_duplicates_witness :
    NoDupAddr modesOldEven.aircrafts ∧
    NoDupAddr (interactiveReceiveData extZero modesOldEven 1700000000 1700000000000 true
      messageOdd).1.aircrafts ∧
    NoDupAddr (interactiveRemoveStaleAircrafts modesOldEven 1700000000 true).aircrafts :=
  have h := aircraft_list_no_duplicates extZero modesOldEven 1700000000 1700000000000 true
    messageOdd (by unfold NoDupAddr; decide)
  ⟨by unfold NoDupAddr; decide, h.1, h.2.1⟩

/-- C10: when `interactiveRemoveStaleAircrafts` runs its sweep at wall time `T`
(`last_cleanup_time` differs from `T`), the resulting list is the sub-list, in the original
order, of the records with `T - seen <= interactive_delete_ttl`: no aircraft with
`seen < T - delete_ttl` remains and no fresher aircraft is removed. -/
theorem sweep_keeps_exactly_fresh (M : ModesState) (T : Nat) (lockOk : Bool)
    (hsweep : M.last_cleanup_time ≠ T) :
    (interactiveRemoveStaleAircrafts M T lockOk).aircrafts =
      M.aircrafts.filter
        (fun a => decide (((T : Int) - (a.seen : Int)) ≤ M.interactive_delete_ttl)) ∧
    (∀ a ∈ (interactiveRemoveStaleAircrafts M T lockOk).aircrafts,
      ¬ ((a.seen : Int) < (T : Int) - M.interactive_delete_ttl)) ∧
    (∀ a ∈ M.aircrafts, ((T : Int) - (a.seen : Int)) ≤ M.interactive_delete_ttl →
      a ∈ (interactiveRemoveStaleAircrafts M T lockOk).aircrafts) := by
  have heq : (interactiveRemoveStaleAircrafts M T lockOk).aircrafts =
      M.aircrafts.filter
        (fun a => decide (((T : Int) - (a.seen : Int)) ≤ M.interactive_delete_ttl)) := by
    unfold interactiveRemoveStaleAircrafts
    rw [if_pos hsweep]
    dsimp only
    rw [removeStaleLoop_eq]
    rfl
  refine ⟨heq, ?_, ?_⟩
  · intro a ha
    rw [heq, List.mem_filter] at ha
    have := of_decide_eq_true ha.2
    omega
  · intro a ha hfresh
    rw [heq, List.mem_filter]
    exact ⟨ha, decide_eq_true hfresh⟩

theorem sweep_keeps_exactly_fresh_witness :
    modesThree.last_cleanup_time ≠ 1301 ∧
    (interactiveRemoveStaleAircrafts modesThree 1301 true).aircrafts.map aircraft.addr =
      [0xA00003, 0xA00001] :=
  ⟨by decide, by
    rw [(sweep_keeps_exactly_fresh modesThree 1301 true (by decide)).1]
    decide⟩

/-! ### The altitude and movement fields (C16, C17, C18) -/

/-- C16 (as stated) fails: with the Q bit and the M bit both set, `decodeAC13Field` returns
altitude 0 and the unit metres, not `N*25 - 1000` feet. -/
theorem decodeAC13_Q_with_M :
    0x0050 &&& 0x0010 ≠ 0 ∧
    decodeAC13Field extZero 0x0050 = (0, MODES_UNIT_METERS) ∧
    decodeAC13Field extZero 0x0050 ≠
      (((stripQM 0x0050 : Nat) : Int) * 25 - 1000, MODES_UNIT_FEET) := by
  decide

set_option maxRecDepth 100000 in
theorem stripQM_digits :
    ∀ h < 64, ∀ l < 128, (h * 128 + l) &&& 0x0040 = 0 →
      (((h * 128 + l) &&& 0x1F80) >>> 2) ||| (((h * 128 + l) &&& 0x0020) >>> 1) |||
        ((h * 128 + l) &&& 0x000F) = stripQM (h * 128 + l) := by
  decide

/-- C16 (amended): for every 13-bit altitude field with the Q bit (bit 4) set and the M bit
(bit 6) clear, `decodeAC13Field` returns `N*25 - 1000` in feet, where `N` is the 11-bit
integer left after removing the Q bit and the M bit. -/
theorem decodeAC13_Q (ext : Ext) (f : Nat) (hf : f < 8192) (hq : f &&& 0x0010 ≠ 0)
    (hm : f &&& 0x0040 = 0) :
    decodeAC13Field ext f = ((stripQM f : Int) * 25 - 1000, MODES_UNIT_FEET) := by
  have h := stripQM_digits (f / 128) (by omega) (f % 128) (by omega)
  have e : f / 128 * 128 + f % 128 = f := by omega
  rw [e] at h
  unfold decodeAC13Field
  simp only [hm, hq, h hm, if_true, ne_eq, not_false_eq_true]

theorem decodeAC13_Q_witness :
    (0x0B98 : Nat) < 8192 ∧ 0x0B98 &&& 0x0010 ≠ 0 ∧ 0x0B98 &&& 0x0040 = 0 ∧
      decodeAC13Field extZero 0x0B98 = (17600, MODES_UNIT_FEET) :=
  ⟨by decide, by decide, by decide,
    (decodeAC13_Q extZero 0x0B98 (by decide) (by decide) (by decide)).trans (by decide)⟩

set_option maxRecDepth 100000 in
theorem insertM_digits :
    ∀ h < 64, ∀ l < 64,
      insertM (h * 64 + l) &&& 0x0040 = 0 ∧
      insertM (h * 64 + l) &&& 0x0010 = (h * 64 + l) &&& 0x10 ∧
      ((insertM (h * 64 + l) &&& 0x1F80) >>> 2) ||| ((insertM (h * 64 + l) &&& 0x0020) >>> 1) |||
        (insertM (h * 64 + l) &&& 0x000F) =
        (((h * 64 + l) &&& 0x0FE0) >>> 1) ||| ((h * 64 + l) &&& 0x000F) := by
  decide

/-- C17: for every 12-bit field `f`, `decodeAC12Field` returns the same altitude and the
same unit as `decodeAC13Field` applied to `f` with `M = 0` inserted at bit 6, whatever
function `ModeAToModeC` is. -/
theorem decodeAC12_eq_decodeAC13 (ext : Ext) (f : Nat) (hf : f < 4096) :
    decodeAC12Field ext f = decodeAC13Field ext (insertM f) := by
  have h := insertM_digits (f / 64) (by omega) (f % 64) (by omega)
  have e : f / 64 * 64 + f % 64 = f := by omega
  rw [e] at h
  obtain ⟨hm, hq, hn⟩ := h
  unfold decodeAC12Field decodeAC13Field
  simp only [hm, hq, hn, if_true]
  rfl

theorem decodeAC12_eq_decodeAC13_witness :
    (0xC38 : Nat) < 4096 ∧ decodeAC12Field extZero 0xC38 = decodeAC13Field extZero 0x1838 :=
  ⟨by decide, decodeAC12_eq_decodeAC13 extZero 0xC38 (by decide)⟩

set_option maxRecDepth 100000 in
/-- C18: for every movement code `m` in 1..124, `decodeMovementField m` lies in 0..199 and
is non-decreasing in `m`, with the segment end values 0 at 8, 2 at 12, 15 at 38, 70 at 93,
100 at 108, 175 at 123 and 199 at 124. -/
theorem decodeMovementField_scale :
    (∀ m < 125, 1 ≤ m → decodeMovementField m ≤ 199) ∧
    (∀ m < 124, 1 ≤ m → decodeMovementField m ≤ decodeMovementField (m + 1)) ∧
    decodeMovementField 8 = 0 ∧ decodeMovementField 12 = 2 ∧ decodeMovementField 38 = 15 ∧
    decodeMovementField 93 = 70 ∧ decodeMovementField 108 = 100 ∧
    decodeMovementField 123 = 175 ∧ decodeMovementField 124 = 199 := by
  decide

/-! ### The address recovered from the checksum (C14) -/

theorem decodeModesMessage_cache (ext : Ext) (cache : IcaoCache) (now : Nat)
    (mm : modesMessage) (msg : List Nat) :
    (decodeModesMessage ext cache now mm msg).2 = (decodeModesHeader cache now mm msg).2 := by
  unfold decodeModesMessage
  by_cases h : (decodeModesHeader cache now mm msg).1.crcok = 0
  · simp only [h, if_true]
  · simp only [h, if_false]

/-- For a DF other than 11, 17 and 18, `decodeModesHeader` only looks the address up: the
cache it returns is the cache it was given. -/
theorem decodeModesHeader_cache_other_DF (cache : IcaoCache) (now : Nat) (mm : modesMessage)
    (msg : List Nat)
    (hdf : byteAt msg 0 >>> 3 ≠ 11 ∧ byteAt msg 0 >>> 3 ≠ 17 ∧ byteAt msg 0 >>> 3 ≠ 18) :
    (decodeModesHeader cache now mm msg).2 = cache := by
  unfold decodeModesHeader
  simp only [byteAt_take msg MODES_LONG_MSG_BYTES 0 (by decide), hdf.1, hdf.2.1, hdf.2.2,
    if_false]

/-- C14 (as stated) fails: a DF 4 frame with syndrome `ABC123`, accepted at time 1010
against a cache entry stored at time 1000, leaves the slot's timestamp at 1000. -/
theorem DF4_accept_keeps_cache_time :
    (decodeModesMessage extZero (addRecentlySeenICAOAddr cacheEmpty 1000 0xABC123) 1010
        modesMessage.zero frameDF4).1.crcok ≠ 0 ∧
    (decodeModesMessage extZero (addRecentlySeenICAOAddr cacheEmpty 1000 0xABC123) 1010
        modesMessage.zero frameDF4).1.addr = 0xABC123 ∧
    (decodeModesMessage extZero (addRecentlySeenICAOAddr cacheEmpty 1000 0xABC123) 1010
        modesMessage.zero frameDF4).2 (ICAOCacheHashAddress 0xABC123 * 2 + 1) = 1000 ∧
    ¬ ((decodeModesMessage extZero (addRecentlySeenICAOAddr cacheEmpty 1000 0xABC123) 1010
        modesMessage.zero frameDF4).2 (ICAOCacheHashAddress 0xABC123 * 2 + 1) = 1010) := by
  decide

/-- C14 (amended): when a DF 4 frame is accepted (its syndrome equals an address held in
the ICAO cache within the TTL), `decodeModesMessage` sets `mm.addr` to that cached address
and leaves the cache as it was: the slot's address and timestamp are unchanged. -/
theorem DF4_accept_addr_and_cache (ext : Ext) (cache : IcaoCache) (now : Nat)
    (mm : modesMessage) (msg : List Nat) (hnow : now < 2 ^ 64) (hcache : ∀ i, cache i < 2 ^ 32)
    (hdf : byteAt msg 0 >>> 3 = 4)
    (hok : (decodeModesMessage ext cache now mm msg).1.crcok ≠ 0) :
    (decodeModesMessage ext cache now mm msg).1.addr =
      cache (ICAOCacheHashAddress (decodeModesMessage ext cache now mm msg).1.crc * 2) ∧
    (decodeModesMessage ext cache now mm msg).1.addr =
      (decodeModesMessage ext cache now mm msg).1.crc ∧
    (decodeModesMessage ext cache now mm msg).2 = cache := by
  have hdf3 :
      byteAt msg 0 >>> 3 ≠ 11 ∧ byteAt msg 0 >>> 3 ≠ 17 ∧ byteAt msg 0 >>> 3 ≠ 18 := by
    rw [hdf]; decide
  obtain ⟨-, -, -, h4, h5, h6, -, -⟩ :=
    header_proj (header_decodeModesMessage ext cache now mm msg)
  obtain ⟨-, s2, s3, s4, -⟩ := decodeModesHeader_spec cache now mm msg _ _ _ rfl rfl rfl
  rw [h4, s4] at hok
  rw [h5, h6, s2, s3, decodeModesMessage_cache]
  simp only [byteAt_take msg MODES_LONG_MSG_BYTES 0 (by decide), hdf] at hok ⊢
  norm_num at hok ⊢
  refine ⟨?_, decodeModesHeader_cache_other_DF cache now mm msg hdf3⟩
  exact (((wasRecentlySeen_iff cache now _ hnow (hcache _)).mp hok).2.1).symm

theorem DF4_accept_addr_and_cache_witness :
    (decodeModesMessage extZero (addRecentlySeenICAOAddr cacheEmpty 1000 0xABC123) 1010
        modesMessage.zero frameDF4).1.crcok ≠ 0 ∧
    (decodeModesMessage extZero (addRecentlySeenICAOAddr cacheEmpty 1000 0xABC123) 1010
        modesMessage.zero frameDF4).2 = addRecentlySeenICAOAddr cacheEmpty 1000 0xABC123 :=
  ⟨by decide,
    (DF4_accept_addr_and_cache extZero (addRecentlySeenICAOAddr cacheEmpty 1000 0xABC123) 1010
      modesMessage.zero frameDF4 (by norm_num)
      (by
        intro i
        unfold addRecentlySeenICAOAddr cacheEmpty
        simp only [Function.update_apply]
        split_ifs <;> norm_num)
      (by decide) (by decide)).2.2⟩

/-! ### The extended squitter: callsign and position fields (C19, C20) -/

theorem decodeVS_DF17 (mm : modesMessage) (h : mm.msgtype = 17) : decodeVS mm = mm := by
  unfold decodeVS; simp [h]

theorem decodeDF5Squawk_DF17 (mm : modesMessage) (h : mm.msgtype = 17) :
    decodeDF5Squawk mm = mm := by
  unfold decodeDF5Squawk; simp [h]

theorem decodeAltitude13_DF17 (ext : Ext) (mm : modesMessage) (h : mm.msgtype = 17) :
    decodeAltitude13 ext mm = mm := by
  unfold decodeAltitude13; simp [h]

theorem decodeFS_DF17 (mm : modesMessage) (h : mm.msgtype = 17) : decodeFS mm = mm := by
  unfold decodeFS; simp [h]

theorem decodeSquitter_DF17 (ext : Ext) (mm : modesMessage) (h : mm.msgtype = 17) :
    decodeSquitter ext mm = decodeExtendedSquitter ext mm mm.msg := by
  unfold decodeSquitter; simp [h]

theorem decodeCommB_DF17 (mm : modesMessage) (h : mm.msgtype = 17) : decodeCommB mm = mm := by
  unfold decodeCommB; simp [h]

/-- For a CRC-valid DF 17 frame, `decodeModesMessage` is the capability stage followed by
the extended squitter stage, applied to the record `decodeModesHeader` leaves. -/
theorem decodeModesMessage_DF17 (ext : Ext) (cache : IcaoCache) (now : Nat)
    (mm : modesMessage) (msg : List Nat)
    (hdf : (decodeModesHeader cache now mm msg).1.msgtype = 17)
    (hok : (decodeModesHeader cache now mm msg).1.crcok ≠ 0) :
    (decodeModesMessage ext cache now mm msg).1 =
      decodeExtendedSquitter ext (decodeCA (decodeModesHeader cache now mm msg).1)
        (decodeModesHeader cache now mm msg).1.msg := by
  unfold decodeModesMessage
  simp only [hok, if_false]
  have h1 := decodeVS_DF17 _ hdf
  have hca := header_proj (header_decodeCA (decodeModesHeader cache now mm msg).1)
  have h2 : (decodeCA (decodeModesHeader cache now mm msg).1).msgtype = 17 :=
    hca.2.2.1.trans hdf
  have hes := header_proj (header_decodeExtendedSquitter ext
    (decodeCA (decodeModesHeader cache now mm msg).1)
    (decodeCA (decodeModesHeader cache now mm msg).1).msg)
  rw [h1, decodeDF5Squawk_DF17 _ h2, decodeAltitude13_DF17 _ _ h2, decodeFS_DF17 _ h2,
    decodeSquitter_DF17 _ _ h2, decodeCommB_DF17 _ (hes.2.2.1.trans h2), hca.1]

theorem or_and_self_mask (x c : Nat) : (x ||| c) &&& c = c := by
  apply Nat.eq_of_testBit_eq
  intro i
  simp only [Nat.testBit_and, Nat.testBit_or]
  cases x.testBit i <;> cases c.testBit i <;> rfl

theorem or_shift_eq (a b k : Nat) (hb : b < 2 ^ k) : (a <<< k) ||| b = a * 2 ^ k + b := by
  rw [Nat.shiftLeft_eq, Nat.mul_comm a]
  exact (Nat.mul_add_lt_is_or hb a).symm

theorem decodeModesHeader_msg (cache : IcaoCache) (now : Nat) (mm : modesMessage)
    (msg : List Nat) :
    (decodeModesHeader cache now mm msg).1.msg = msg.take MODES_LONG_MSG_BYTES := by
  unfold decodeModesHeader
  lift_lets; intros; split_ifs <;> rfl

theorem decodeCA_fields (mm : modesMessage) :
    (decodeCA mm).flight = mm.flight ∧ (decodeCA mm).raw_latitude = mm.raw_latitude ∧
    (decodeCA mm).raw_longitude = mm.raw_longitude ∧
    (decodeCA mm).bFlags &&& MODES_ACFLAGS_LLEITHER_VALID =
      mm.bFlags &&& MODES_ACFLAGS_LLEITHER_VALID := by
  have e1 : ∀ x : Nat, (x ||| (MODES_ACFLAGS_AOG_VALID ||| MODES_ACFLAGS_AOG)) &&&
      MODES_ACFLAGS_LLEITHER_VALID = x &&& MODES_ACFLAGS_LLEITHER_VALID := by
    intro x
    rw [Nat.and_comm, Nat.and_or_distrib_left, Nat.and_comm]
    have : MODES_ACFLAGS_LLEITHER_VALID &&&
        (MODES_ACFLAGS_AOG_VALID ||| MODES_ACFLAGS_AOG) = 0 := by
      decide
    rw [this, Nat.or_zero]
  have e2 : ∀ x : Nat, (x ||| MODES_ACFLAGS_AOG_VALID) &&&
      MODES_ACFLAGS_LLEITHER_VALID = x &&& MODES_ACFLAGS_LLEITHER_VALID := by
    intro x
    rw [Nat.and_comm, Nat.and_or_distrib_left, Nat.and_comm]
    have : MODES_ACFLAGS_LLEITHER_VALID &&& MODES_ACFLAGS_AOG_VALID = 0 := by decide
    rw [this, Nat.or_zero]
  unfold decodeCA
  split_ifs
  · exact ⟨rfl, rfl, rfl, e1 _⟩
  · exact ⟨rfl, rfl, rfl, e2 _⟩
  · exact ⟨rfl, rfl, rfl, rfl⟩
  · exact ⟨rfl, rfl, rfl, rfl⟩

theorem ais_charset_allowed : ∀ c ∈ ais_charset, isCallsignChar c := by
  unfold isCallsignChar
  decide

theorem ais_charset_getD (i : Nat) (hi : i < 64) : isCallsignChar (ais_charset.getD i '?') := by
  have hl : i < ais_charset.length := by
    have : ais_charset.length = 64 := by decide
    omega
  rw [List.getD_eq_getElem _ _ hl]
  exact ais_charset_allowed _ (List.getElem_mem hl)

/-- The callsign `decodeFlight` writes: character `i` is the table entry of the code's
six-bit slice, and position 8 holds the terminator. -/
theorem decodeFlight_getD (msg : List Nat) (fl : List Char) (hfl : fl.length = 16)
    (d : Char) :
    let c1 := (byteAt msg 5 <<< 16) ||| (byteAt msg 6 <<< 8) ||| byteAt msg 7
    let c2 := (byteAt msg 8 <<< 16) ||| (byteAt msg 9 <<< 8) ||| byteAt msg 10
    (decodeFlight msg fl).getD 0 d = ais_charset.getD (((c1 >>> 6) >>> 6) >>> 6 &&& 0x3F) '?' ∧
    (decodeFlight msg fl).getD 1 d = ais_charset.getD ((c1 >>> 6) >>> 6 &&& 0x3F) '?' ∧
    (decodeFlight msg fl).getD 2 d = ais_charset.getD (c1 >>> 6 &&& 0x3F) '?' ∧
    (decodeFlight msg fl).getD 3 d = ais_charset.getD (c1 &&& 0x3F) '?' ∧
    (decodeFlight msg fl).getD 4 d = ais_charset.getD (((c2 >>> 6) >>> 6) >>> 6 &&& 0x3F) '?' ∧
    (decodeFlight msg fl).getD 5 d = ais_charset.getD ((c2 >>> 6) >>> 6 &&& 0x3F) '?' ∧
    (decodeFlight msg fl).getD 6 d = ais_charset.getD (c2 >>> 6 &&& 0x3F) '?' ∧
    (decodeFlight msg fl).getD 7 d = ais_charset.getD (c2 &&& 0x3F) '?' ∧
    (decodeFlight msg fl).getD 8 d = Char.ofNat 0 := by
  intro c1 c2
  unfold decodeFlight
  simp only [List.getD_eq_getElem?_getD, List.getElem?_set, List.length_set, hfl]
  simp [c1, c2]

theorem msgBit_toNat (msg : List Nat) (i : Nat) :
    (msgBit msg i).toNat = byteAt msg (i / 8) / 2 ^ (7 - i % 8) % 2 := Nat.toNat_testBit _ _

set_option maxHeartbeats 1000000 in
/-- The six-bit slices the code takes of a 24-bit triplet are the message bit fields. -/
theorem sixBit_groups (msg : List Nat) (hb : ∀ i, byteAt msg i < 256) (k : Nat)
    (hk : k = 5 ∨ k = 8) :
    ((byteAt msg k * 65536 + byteAt msg (k + 1) * 256 + byteAt msg (k + 2)) / 2 ^ 6 / 2 ^ 6 /
      2 ^ 6 % 64 = msgField msg (8 * k) 6) ∧
    ((byteAt msg k * 65536 + byteAt msg (k + 1) * 256 + byteAt msg (k + 2)) / 2 ^ 6 / 2 ^ 6 %
      64 = msgField msg (8 * k + 6) 6) ∧
    ((byteAt msg k * 65536 + byteAt msg (k + 1) * 256 + byteAt msg (k + 2)) / 2 ^ 6 % 64 =
      msgField msg (8 * k + 12) 6) ∧
    ((byteAt msg k * 65536 + byteAt msg (k + 1) * 256 + byteAt msg (k + 2)) % 64 =
      msgField msg (8 * k + 18) 6) := by
  rcases hk with rfl | rfl
  · have h5 := hb 5
    have h6 := hb 6
    have h7 := hb 7
    simp only [msgField, msgBit_toNat]
    norm_num
    generalize byteAt msg 5 = b5 at *
    generalize byteAt msg 6 = b6 at *
    generalize byteAt msg 7 = b7 at *
    refine ⟨?_, ?_, ?_, ?_⟩ <;> omega
  · have h8 := hb 8
    have h9 := hb 9
    have h10 := hb 10
    simp only [msgField, msgBit_toNat]
    norm_num
    generalize byteAt msg 8 = b8 at *
    generalize byteAt msg 9 = b9 at *
    generalize byteAt msg 10 = b10 at *
    refine ⟨?_, ?_, ?_, ?_⟩ <;> omega

theorem decodeExtendedSquitter_ident (ext : Ext) (mm : modesMessage) (msg : List Nat)
    (hme : 1 ≤ byteAt msg 4 >>> 3 ∧ byteAt msg 4 >>> 3 ≤ 4) :
    (decodeExtendedSquitter ext mm msg).bFlags = mm.bFlags ||| MODES_ACFLAGS_CALLSIGN_VALID ∧
    (decodeExtendedSquitter ext mm msg).flight = decodeFlight msg mm.flight := by
  unfold decodeExtendedSquitter
  have h : byteAt msg 4 >>> 3 ≥ 1 ∧ byteAt msg 4 >>> 3 ≤ 4 := hme
  simp only [h, and_self, if_true]

/-- The record `decodeModesMessage` returns for a CRC-valid DF 17 frame, in terms of the
entry record: the extended squitter stage applied to a record that has the entry record's
callsign and raw position and, up to air/ground bits, its flags. -/
theorem decodeModesMessage_DF17_entry (ext : Ext) (cache : IcaoCache) (now : Nat)
    (mm : modesMessage) (msg : List Nat) (hdf : byteAt msg 0 >>> 3 = 17)
    (hok : (decodeModesMessage ext cache now mm msg).1.crcok ≠ 0) :
    ∃ x : modesMessage,
      (decodeModesMessage ext cache now mm msg).1 =
        decodeExtendedSquitter ext x (msg.take MODES_LONG_MSG_BYTES) ∧
      x.flight = mm.flight ∧
      x.bFlags &&& MODES_ACFLAGS_LLEITHER_VALID = mm.bFlags &&& MODES_ACFLAGS_LLEITHER_VALID := by
  obtain ⟨-, -, -, h4, -, -, -, -⟩ :=
    header_proj (header_decodeModesMessage ext cache now mm msg)
  obtain ⟨s1, -, -, -, sp⟩ := decodeModesHeader_spec cache now mm msg _ _ _ rfl rfl rfl
  rw [byteAt_take msg MODES_LONG_MSG_BYTES 0 (by decide), hdf] at s1
  rw [h4] at hok
  have hres := decodeModesMessage_DF17 ext cache now mm msg s1 hok
  rw [decodeModesHeader_msg] at hres
  obtain ⟨c1, -, -, c4⟩ := decodeCA_fields (decodeModesHeader cache now mm msg).1
  have hp : (decodeModesHeader cache now mm msg).1.bFlags = mm.bFlags ∧
      (decodeModesHeader cache now mm msg).1.flight = mm.flight := by
    simp only [payload, Prod.mk.injEq] at sp
    exact ⟨sp.1, sp.2.2.2.2.2.1⟩
  refine ⟨_, hres, c1.trans hp.2, ?_⟩
  rw [c4, hp.1]

/-- C19: for every CRC-valid DF 17 frame with ME type 1..4, `decodeModesMessage` sets
`CALLSIGN_VALID` and an 8-character callsign followed by a NUL; character `i` is the AIS
table entry indexed by the `i`-th 6-bit group of bytes 5..10 (message bits `40 + 6i` to
`45 + 6i`), and so is a letter, a digit, a space or `?`. -/
theorem callsign_DF17 (ext : Ext) (cache : IcaoCache) (now : Nat) (mm : modesMessage)
    (msg : List Nat) (hbytes : ∀ b ∈ msg, b < 256) (hflight : mm.flight.length = 16)
    (hdf : byteAt msg 0 >>> 3 = 17)
    (hme : 1 ≤ byteAt msg 4 >>> 3 ∧ byteAt msg 4 >>> 3 ≤ 4)
    (hok : (decodeModesMessage ext cache now mm msg).1.crcok ≠ 0) :
    (decodeModesMessage ext cache now mm msg).1.bFlags &&& MODES_ACFLAGS_CALLSIGN_VALID ≠ 0 ∧
    (∀ i < 8, (decodeModesMessage ext cache now mm msg).1.flight.getD i (Char.ofNat 0) =
      ais_charset.getD (msgField msg (40 + 6 * i) 6) '?') ∧
    (decodeModesMessage ext cache now mm msg).1.flight.getD 8 '?' = Char.ofNat 0 ∧
    (∀ i < 8,
      isCallsignChar ((decodeModesMessage ext cache now mm msg).1.flight.getD i (Char.ofNat 0)))
    := by
  obtain ⟨x, hres, hxf, -⟩ := decodeModesMessage_DF17_entry ext cache now mm msg hdf hok
  have hme' : 1 ≤ byteAt (msg.take MODES_LONG_MSG_BYTES) 4 >>> 3 ∧
      byteAt (msg.take MODES_LONG_MSG_BYTES) 4 >>> 3 ≤ 4 := by
    rw [byteAt_take msg MODES_LONG_MSG_BYTES 4 (by decide)]; exact hme
  obtain ⟨hfl, hfg⟩ := decodeExtendedSquitter_ident ext x _ hme'
  rw [hres, hfl, hfg, hxf]
  have hb := byteAt_lt msg hbytes
  have hg := decodeFlight_getD (msg.take MODES_LONG_MSG_BYTES) mm.flight hflight (Char.ofNat 0)
  have hg8 := (decodeFlight_getD (msg.take MODES_LONG_MSG_BYTES) mm.flight hflight '?')
  have m63 : ∀ x : Nat, x &&& 0x3F = x % 64 := fun x => Nat.and_pow_two_sub_one_eq_mod x 6
  simp only [byteAt_take msg MODES_LONG_MSG_BYTES 5 (by decide),
    byteAt_take msg MODES_LONG_MSG_BYTES 6 (by decide),
    byteAt_take msg MODES_LONG_MSG_BYTES 7 (by decide),
    byteAt_take msg MODES_LONG_MSG_BYTES 8 (by decide),
    byteAt_take msg MODES_LONG_MSG_BYTES 9 (by decide),
    byteAt_take msg MODES_LONG_MSG_BYTES 10 (by decide),
    be24_eq _ _ _ (hb 6) (hb 7), be24_eq _ _ _ (hb 9) (hb 10), m63,
    Nat.shiftRight_eq_div_pow] at hg hg8
  obtain ⟨a0, a1, a2, a3⟩ := sixBit_groups msg hb 5 (Or.inl rfl)
  obtain ⟨b0, b1, b2, b3⟩ := sixBit_groups msg hb 8 (Or.inr rfl)
  obtain ⟨g0, g1, g2, g3, g4, g5, g6, g7, -⟩ := hg
  rw [a0] at g0
  rw [a1] at g1
  rw [a2] at g2
  rw [a3] at g3
  rw [b0] at g4
  rw [b1] at g5
  rw [b2] at g6
  rw [b3] at g7
  have hchars : ∀ i < 8, (decodeFlight (List.take MODES_LONG_MSG_BYTES msg) mm.flight).getD i
      (Char.ofNat 0) = ais_charset.getD (msgField msg (40 + 6 * i) 6) '?' := by
    intro i hi
    interval_cases i
    · exact g0
    · exact g1
    · exact g2
    · exact g3
    · exact g4
    · exact g5
    · exact g6
    · exact g7
  have hlt : ∀ lo, msgField msg lo 6 < 64 := by
    intro lo
    simp only [msgField, msgBit_toNat]
    omega
  refine ⟨?_, hchars, hg8.2.2.2.2.2.2.2.2, ?_⟩
  · rw [or_and_self_mask]; decide
  · intro i hi
    rw [hchars i hi]
    exact ais_charset_getD _ (hlt _)

theorem callsign_DF17_witness :
    (decodeModesMessage extZero cacheEmpty 1000 modesMessage.zero frameDF17).1.crcok ≠ 0 ∧
    (decodeModesMessage extZero cacheEmpty 1000 modesMessage.zero frameDF17).1.flight.take 8 =
      "KLM1023 ".toList ∧
    (∀ i < 8, isCallsignChar ((decodeModesMessage extZero cacheEmpty 1000 modesMessage.zero
      frameDF17).1.flight.getD i (Char.ofNat 0))) :=
  ⟨by decide, by decide,
    (callsign_DF17 extZero cacheEmpty 1000 modesMessage.zero frameDF17 (by decide) (by decide)
      (by decide) (by decide) (by decide)).2.2.2⟩

theorem keepLL (a e : Nat) (h : MODES_ACFLAGS_LLEITHER_VALID &&& e = 0) :
    (a ||| e) &&& MODES_ACFLAGS_LLEITHER_VALID = a &&& MODES_ACFLAGS_LLEITHER_VALID := by
  rw [Nat.and_comm, Nat.and_or_distrib_left, h, Nat.or_zero, Nat.and_comm]

theorem disjLL_ite (c : Prop) [Decidable c] (K : Nat)
    (hK : MODES_ACFLAGS_LLEITHER_VALID &&& K = 0) :
    MODES_ACFLAGS_LLEITHER_VALID &&& (if c then K else 0) = 0 := by
  split_ifs
  · exact hK
  · rfl

theorem raw_lat_eq (b6 b7 b8 : Nat) (h7 : b7 < 256) (h8 : b8 < 256) :
    ((b6 &&& 3) <<< 15) ||| (b7 <<< 7) ||| (b8 >>> 1) = (b6 % 4) * 32768 + b7 * 128 + b8 / 2 := by
  have e3 : b6 &&& 3 = b6 % 4 := Nat.and_pow_two_sub_one_eq_mod b6 2
  have h1 : ((b6 &&& 3) <<< 15) ||| (b7 <<< 7) = 2 ^ 15 * (b6 % 4) + 2 ^ 7 * b7 := by
    rw [e3, Nat.shiftLeft_eq, Nat.shiftLeft_eq, Nat.mul_comm (b6 % 4), Nat.mul_comm b7]
    exact (Nat.mul_add_lt_is_or (by omega) _).symm
  have h2 : 2 ^ 15 * (b6 % 4) + 2 ^ 7 * b7 = 2 ^ 7 * (2 ^ 8 * (b6 % 4) + b7) := by ring
  have h3 : b8 >>> 1 < 2 ^ 7 := by
    rw [Nat.shiftRight_eq_div_pow]; omega
  rw [h1, h2, ← Nat.mul_add_lt_is_or h3, Nat.shiftRight_eq_div_pow]
  ring

theorem raw_lon_eq (b8 b9 b10 : Nat) (h9 : b9 < 256) (h10 : b10 < 256) :
    ((b8 &&& 1) <<< 16) ||| (b9 <<< 8) ||| b10 = (b8 % 2) * 65536 + b9 * 256 + b10 := by
  rw [be24_eq _ _ _ h9 h10, Nat.and_one_is_mod]

set_option maxHeartbeats 1000000 in
/-- The raw CPR fields the code extracts are the 17-bit message fields at bits 54..70 and
71..87. -/
theorem raw_cpr_fields (msg : List Nat) (hb : ∀ i, byteAt msg i < 256) :
    (byteAt msg 6 % 4) * 32768 + byteAt msg 7 * 128 + byteAt msg 8 / 2 = msgField msg 54 17 ∧
    (byteAt msg 8 % 2) * 65536 + byteAt msg 9 * 256 + byteAt msg 10 = msgField msg 71 17 := by
  have h6 := hb 6
  have h7 := hb 7
  have h8 := hb 8
  have h9 := hb 9
  have h10 := hb 10
  simp only [msgField, msgBit_toNat]
  norm_num
  generalize byteAt msg 6 = b6 at *
  generalize byteAt msg 7 = b7 at *
  generalize byteAt msg 8 = b8 at *
  generalize byteAt msg 9 = b9 at *
  generalize byteAt msg 10 = b10 at *
  constructor <;> omega

/-- The position message sets the raw CPR fields and adds exactly the parity flag to the
CPR flags of the record. -/
theorem decodePosition_cpr (ext : Ext) (mm : modesMessage) (msg : List Nat) (metype : Nat) :
    (decodePosition ext mm msg metype).raw_latitude =
      ((byteAt msg 6 &&& 3) <<< 15) ||| (byteAt msg 7 <<< 7) ||| (byteAt msg 8 >>> 1) ∧
    (decodePosition ext mm msg metype).raw_longitude =
      ((byteAt msg 8 &&& 1) <<< 16) ||| (byteAt msg 9 <<< 8) ||| byteAt msg 10 ∧
    (decodePosition ext mm msg metype).bFlags &&& MODES_ACFLAGS_LLEITHER_VALID =
      (mm.bFlags ||| (if byteAt msg 6 &&& 0x04 ≠ 0 then MODES_ACFLAGS_LLODD_VALID
        else MODES_ACFLAGS_LLEVEN_VALID)) &&& MODES_ACFLAGS_LLEITHER_VALID := by
  unfold decodePosition
  generalize (if byteAt msg 6 &&& 0x04 ≠ 0 then MODES_ACFLAGS_LLODD_VALID
    else MODES_ACFLAGS_LLEVEN_VALID) = P
  lift_lets
  intro mm1 AC12Field r movement moveOk hdgOk flagsSpeed flagsHdg
  have hs : MODES_ACFLAGS_LLEITHER_VALID &&& flagsSpeed = 0 := disjLL_ite _ _ (by decide)
  have hh : MODES_ACFLAGS_LLEITHER_VALID &&& flagsHdg = 0 := disjLL_ite _ _ (by decide)
  split_ifs <;> refine ⟨rfl, rfl, ?_⟩ <;>
    first
      | exact (keepLL (mm1.bFlags ||| MODES_ACFLAGS_AOG_VALID) MODES_ACFLAGS_ALTITUDE_VALID
          (by decide)).trans (keepLL mm1.bFlags MODES_ACFLAGS_AOG_VALID (by decide))
      | exact keepLL mm1.bFlags MODES_ACFLAGS_AOG_VALID (by decide)
      | exact (keepLL _ flagsHdg hh).trans ((keepLL _ flagsSpeed hs).trans
          (keepLL mm1.bFlags (MODES_ACFLAGS_AOG_VALID ||| MODES_ACFLAGS_AOG) (by decide)))

theorem decodeVelocityVert_cpr (mm : modesMessage) (msg : List Nat) (mesub : Nat) :
    (decodeVelocityVert mm msg mesub).bFlags &&& MODES_ACFLAGS_LLEITHER_VALID =
      mm.bFlags &&& MODES_ACFLAGS_LLEITHER_VALID := by
  unfold decodeVelocityVert
  cases decodeVertRate msg with
  | none => dsimp only; split_ifs <;> rfl
  | some vr =>
    dsimp only
    split_ifs
    · exact keepLL mm.bFlags MODES_ACFLAGS_VERTRATE_VALID (by decide)
    · rfl

theorem decodeVelocitySpeed_cpr (ext : Ext) (mm : modesMessage) (msg : List Nat)
    (mesub : Nat) :
    (decodeVelocitySpeed ext mm msg mesub).bFlags &&& MODES_ACFLAGS_LLEITHER_VALID =
      mm.bFlags &&& MODES_ACFLAGS_LLEITHER_VALID := by
  unfold decodeVelocitySpeed
  lift_lets
  intros
  split_ifs <;>
    first
      | rfl
      | exact (keepLL _ _ (by decide)).trans ((keepLL _ _ (disjLL_ite _ _ (by decide))).trans
          (keepLL mm.bFlags _ (disjLL_ite _ _ (by decide))))
      | exact (keepLL _ _ (disjLL_ite _ _ (by decide))).trans
          (keepLL mm.bFlags _ (disjLL_ite _ _ (by decide)))

/-- The airborne velocity message leaves the CPR flags of the record as they were. -/
theorem decodeVelocity_cpr (ext : Ext) (mm : modesMessage) (msg : List Nat) (mesub : Nat) :
    (decodeVelocity ext mm msg mesub).bFlags &&& MODES_ACFLAGS_LLEITHER_VALID =
      mm.bFlags &&& MODES_ACFLAGS_LLEITHER_VALID := by
  unfold decodeVelocity
  rw [decodeVelocitySpeed_cpr, decodeVelocityVert_cpr]
  exact keepLL mm.bFlags MODES_ACFLAGS_AOG_VALID (by decide)

/-- What the extended squitter stage does with ME types 5..22: the position message for
all but 19, the velocity message for 19. -/
theorem decodeExtendedSquitter_position (ext : Ext) (mm : modesMessage) (msg : List Nat) :
    (5 ≤ byteAt msg 4 >>> 3 ∧ byteAt msg 4 >>> 3 ≤ 22 ∧ byteAt msg 4 >>> 3 ≠ 19 →
      (decodeExtendedSquitter ext mm msg).raw_latitude =
        ((byteAt msg 6 &&& 3) <<< 15) ||| (byteAt msg 7 <<< 7) ||| (byteAt msg 8 >>> 1) ∧
      (decodeExtendedSquitter ext mm msg).raw_longitude =
        ((byteAt msg 8 &&& 1) <<< 16) ||| (byteAt msg 9 <<< 8) ||| byteAt msg 10 ∧
      (decodeExtendedSquitter ext mm msg).bFlags &&& MODES_ACFLAGS_LLEITHER_VALID =
        (mm.bFlags ||| (if byteAt msg 6 &&& 0x04 ≠ 0 then MODES_ACFLAGS_LLODD_VALID
          else MODES_ACFLAGS_LLEVEN_VALID)) &&& MODES_ACFLAGS_LLEITHER_VALID) ∧
    (byteAt msg 4 >>> 3 = 19 →
      (decodeExtendedSquitter ext mm msg).bFlags &&& MODES_ACFLAGS_LLEITHER_VALID =
        mm.bFlags &&& MODES_ACFLAGS_LLEITHER_VALID) := by
  constructor
  · rintro ⟨h5, h22, h19⟩
    unfold decodeExtendedSquitter
    have hn : ¬ (byteAt msg 4 >>> 3 ≥ 1 ∧ byteAt msg 4 >>> 3 ≤ 4) := by omega
    have hp : byteAt msg 4 >>> 3 ≥ 5 ∧ byteAt msg 4 >>> 3 ≤ 22 := ⟨h5, h22⟩
    simp only [hn, h19, hp, and_self, if_true, if_false]
    exact decodePosition_cpr ext _ msg _
  · intro h19
    unfold decodeExtendedSquitter
    simp only [h19]
    norm_num
    exact decodeVelocity_cpr ext _ msg _

theorem flags_of_LL (y v : Nat) (h : y &&& MODES_ACFLAGS_LLEITHER_VALID = v) :
    y &&& MODES_ACFLAGS_LLODD_VALID = v &&& MODES_ACFLAGS_LLODD_VALID ∧
    y &&& MODES_ACFLAGS_LLEVEN_VALID = v &&& MODES_ACFLAGS_LLEVEN_VALID := by
  have e1 : MODES_ACFLAGS_LLEITHER_VALID &&& MODES_ACFLAGS_LLODD_VALID =
      MODES_ACFLAGS_LLODD_VALID := by decide
  have e2 : MODES_ACFLAGS_LLEITHER_VALID &&& MODES_ACFLAGS_LLEVEN_VALID =
      MODES_ACFLAGS_LLEVEN_VALID := by decide
  rw [← h, Nat.and_assoc, Nat.and_assoc, e1, e2]
  exact ⟨rfl, rfl⟩

theorem or_parity_LL (x P : Nat) (hx : x &&& MODES_ACFLAGS_LLEITHER_VALID = 0) :
    (x ||| P) &&& MODES_ACFLAGS_LLEITHER_VALID = P &&& MODES_ACFLAGS_LLEITHER_VALID := by
  rw [Nat.and_comm, Nat.and_or_distrib_left, Nat.and_comm, hx, Nat.zero_or, Nat.and_comm]

/-- C20: for every CRC-valid DF 17 frame, decoded into a record that has no CPR flag on
entry: with ME type in 5..22 other than 19, `decodeModesMessage` sets exactly one of
`LLODD_VALID` and `LLEVEN_VALID`, odd if and only if bit 2 of byte 6 is set, and sets
`raw_latitude` and `raw_longitude` to the 17-bit fields at message bits 54..70 and 71..87,
both in [0, 131071]; with ME type 19 it sets neither CPR flag. -/
theorem cpr_flags_DF17 (ext : Ext) (cache : IcaoCache) (now : Nat) (mm : modesMessage)
    (msg : List Nat) (hbytes : ∀ b ∈ msg, b < 256)
    (hentry : mm.bFlags &&& MODES_ACFLAGS_LLEITHER_VALID = 0)
    (hdf : byteAt msg 0 >>> 3 = 17)
    (hok : (decodeModesMessage ext cache now mm msg).1.crcok ≠ 0) :
    (5 ≤ byteAt msg 4 >>> 3 ∧ byteAt msg 4 >>> 3 ≤ 22 ∧ byteAt msg 4 >>> 3 ≠ 19 →
      (byteAt msg 6 &&& 0x04 ≠ 0 →
        (decodeModesMessage ext cache now mm msg).1.bFlags &&& MODES_ACFLAGS_LLODD_VALID ≠ 0 ∧
        (decodeModesMessage ext cache now mm msg).1.bFlags &&& MODES_ACFLAGS_LLEVEN_VALID = 0) ∧
      (byteAt msg 6 &&& 0x04 = 0 →
        (decodeModesMessage ext cache now mm msg).1.bFlags &&& MODES_ACFLAGS_LLEVEN_VALID ≠ 0 ∧
        (decodeModesMessage ext cache now mm msg).1.bFlags &&& MODES_ACFLAGS_LLODD_VALID = 0) ∧
      (decodeModesMessage ext cache now mm msg).1.raw_latitude = msgField msg 54 17 ∧
      (decodeModesMessage ext cache now mm msg).1.raw_longitude = msgField msg 71 17 ∧
      (decodeModesMessage ext cache now mm msg).1.raw_latitude ≤ 131071 ∧
      (decodeModesMessage ext cache now mm msg).1.raw_longitude ≤ 131071) ∧
    (byteAt msg 4 >>> 3 = 19 →
      (decodeModesMessage ext cache now mm msg).1.bFlags &&& MODES_ACFLAGS_LLODD_VALID = 0 ∧
      (decodeModesMessage ext cache now mm msg).1.bFlags &&& MODES_ACFLAGS_LLEVEN_VALID = 0) := by
  obtain ⟨x, hres, -, hxl⟩ := decodeModesMessage_DF17_entry ext cache now mm msg hdf hok
  rw [hentry] at hxl
  have hb := byteAt_lt msg hbytes
  obtain ⟨hpos, hvel⟩ := decodeExtendedSquitter_position ext x (msg.take MODES_LONG_MSG_BYTES)
  simp only [byteAt_take msg MODES_LONG_MSG_BYTES 4 (by decide),
    byteAt_take msg MODES_LONG_MSG_BYTES 6 (by decide),
    byteAt_take msg MODES_LONG_MSG_BYTES 7 (by decide),
    byteAt_take msg MODES_LONG_MSG_BYTES 8 (by decide),
    byteAt_take msg MODES_LONG_MSG_BYTES 9 (by decide),
    byteAt_take msg MODES_LONG_MSG_BYTES 10 (by decide)] at hpos hvel
  rw [hres]
  constructor
  · intro hme
    obtain ⟨hlat, hlon, hfl⟩ := hpos hme
    rw [or_parity_LL _ _ hxl] at hfl
    obtain ⟨hodd, heven⟩ := flags_of_LL _ _ hfl
    obtain ⟨f1, f2⟩ := raw_cpr_fields msg hb
    rw [raw_lat_eq _ _ _ (hb 7) (hb 8)] at hlat
    rw [raw_lon_eq _ _ _ (hb 9) (hb 10)] at hlon
    have h6 := hb 6
    have h7 := hb 7
    have h8 := hb 8
    have h9 := hb 9
    have h10 := hb 10
    refine ⟨?_, ?_, hlat.trans f1, hlon.trans f2, ?_, ?_⟩
    · intro ho
      rw [hodd, heven, if_pos ho]
      decide
    · intro he
      have hne : ¬ (byteAt msg 6 &&& 0x04 ≠ 0) := fun h => h he
      rw [hodd, heven, if_neg hne]
      decide
    · rw [hlat]; omega
    · rw [hlon]; omega
  · intro h19
    have hfl := hvel h19
    rw [hxl] at hfl
    obtain ⟨hodd, heven⟩ := flags_of_LL _ _ hfl
    rw [hodd, heven]
    decide

theorem cpr_flags_DF17_witness :
    (decodeModesMessage extZero cacheEmpty 1000 modesMessage.zero frameOdd).1.crcok ≠ 0 ∧
    (decodeModesMessage extZero cacheEmpty 1000 modesMessage.zero frameOdd).1.bFlags &&&
      MODES_ACFLAGS_LLODD_VALID ≠ 0 ∧
    (decodeModesMessage extZero cacheEmpty 1000 modesMessage.zero frameOdd).1.raw_latitude =
      74158 ∧
    (decodeModesMessage extZero cacheEmpty 1000 modesMessage.zero frameOdd).1.raw_longitude =
      50194 :=
  have h := (cpr_flags_DF17 extZero cacheEmpty 1000 modesMessage.zero frameOdd (by decide)
    (by decide) (by decide) (by decide)).1 (by decide)
  ⟨by decide, (h.1 (by decide)).1, h.2.2.1.trans (by decide), h.2.2.2.1.trans (by decide)⟩

/-! ### Mode A/C matching (C15) -/

theorem aircraftAt_writeAt (L : List aircraft) (i j : Nat) (f : aircraft → aircraft) :
    aircraftAt (writeAt L i f) j =
      if j = i ∧ i < L.length then f (aircraftAt L i) else aircraftAt L j := by
  unfold writeAt aircraftAt
  by_cases hji : j = i
  · subst hji
    by_cases hlt : j < L.length
    · simp [hlt, List.getD_eq_getElem?_getD]
    · rw [List.set_eq_of_length_le (by omega), if_neg (fun h => hlt h.2)]
  · have hij : i ≠ j := fun h => hji h.symm
    simp [hji, hij, List.getD_eq_getElem?_getD, List.getElem?_set_ne]

theorem length_writeAt (L : List aircraft) (i : Nat) (f : aircraft → aircraft) :
    (writeAt L i f).length = L.length := by
  unfold writeAt
  simp

theorem modeAcount_writeAt_or (L : List aircraft) (i j v : Nat) :
    (aircraftAt (writeAt L i (orModeACflags v)) j).modeAcount = (aircraftAt L j).modeAcount := by
  rw [aircraftAt_writeAt]
  split_ifs with h
  · rw [h.1]; rfl
  · rfl

theorem modeAcount_writeAt_setC (L : List aircraft) (i j v : Nat) :
    (aircraftAt (writeAt L i (setModeCcount v)) j).modeAcount = (aircraftAt L j).modeAcount := by
  rw [aircraftAt_writeAt]
  split_ifs with h
  · rw [h.1]; rfl
  · rfl

theorem modeAcount_writeAt_setA (L : List aircraft) (i v : Nat) (h : i < L.length) :
    (aircraftAt (writeAt L i (setModeAcount v)) i).modeAcount = v := by
  rw [aircraftAt_writeAt, if_pos ⟨rfl, h⟩]
  rfl

theorem aircraftAt_writeAt_ne (L : List aircraft) (i j : Nat) (f : aircraft → aircraft)
    (h : j ≠ i) : aircraftAt (writeAt L i f) j = aircraftAt L j := by
  rw [aircraftAt_writeAt, if_neg (fun hh => h hh.1)]

theorem modeAKey_writeAt_setA (L : List aircraft) (i j v : Nat) :
    modeAKey (aircraftAt (writeAt L i (setModeAcount v)) j) = modeAKey (aircraftAt L j) := by
  rw [aircraftAt_writeAt]
  split_ifs with h
  · rw [h.1]; rfl
  · rfl

theorem modeAKey_writeAt_setC (L : List aircraft) (i j v : Nat) :
    modeAKey (aircraftAt (writeAt L i (setModeCcount v)) j) = modeAKey (aircraftAt L j) := by
  rw [aircraftAt_writeAt]
  split_ifs with h
  · rw [h.1]; rfl
  · rfl

theorem or_hit_keeps_flag (x v : Nat) (hv : v &&& MODEAC_MSG_FLAG = 0) :
    (x ||| v) &&& MODEAC_MSG_FLAG = x &&& MODEAC_MSG_FLAG := by
  rw [Nat.and_comm, Nat.and_or_distrib_left, Nat.and_comm MODEAC_MSG_FLAG v, hv, Nat.or_zero,
    Nat.and_comm]

theorem modeAKey_writeAt_or (L : List aircraft) (i j v : Nat) (hv : v &&& MODEAC_MSG_FLAG = 0) :
    modeAKey (aircraftAt (writeAt L i (orModeACflags v)) j) = modeAKey (aircraftAt L j) := by
  rw [aircraftAt_writeAt]
  split_ifs with h
  · rw [h.1]
    unfold modeAKey orModeACflags
    simp only [or_hit_keeps_flag _ _ hv]
  · rfl

theorem updateModeASquawk_key (L : List aircraft) (ia ib j : Nat) :
    modeAKey (aircraftAt (updateModeASquawk L ia ib) j) = modeAKey (aircraftAt L j) := by
  unfold updateModeASquawk
  dsimp only
  split_ifs <;>
    simp only [modeAKey_writeAt_setA, modeAKey_writeAt_or _ _ _ MODEAC_MSG_MODEA_HIT (by decide),
      modeAKey_writeAt_or _ _ _ MODEAC_MSG_MODES_HIT (by decide)]

theorem updateModeCAltitude_key (L : List aircraft) (ia ib j : Nat) :
    modeAKey (aircraftAt (updateModeCAltitude L ia ib) j) = modeAKey (aircraftAt L j) := by
  unfold updateModeCAltitude
  dsimp only
  split_ifs <;>
    simp only [modeAKey_writeAt_setC, modeAKey_writeAt_or _ _ _ MODEAC_MSG_MODEC_HIT (by decide),
      modeAKey_writeAt_or _ _ _ (MODEAC_MSG_MODES_HIT ||| MODEAC_MSG_MODEC_OLD) (by decide)]

theorem updateModeAStep_key (L : List aircraft) (ia ib j : Nat) :
    modeAKey (aircraftAt (updateModeAStep ia L ib) j) = modeAKey (aircraftAt L j) := by
  unfold updateModeAStep
  split_ifs
  · rw [updateModeCAltitude_key, updateModeASquawk_key]
  · rfl

theorem updateModeASquawk_length (L : List aircraft) (ia ib : Nat) :
    (updateModeASquawk L ia ib).length = L.length := by
  unfold updateModeASquawk
  dsimp only
  split_ifs <;> simp only [length_writeAt]

theorem updateModeCAltitude_length (L : List aircraft) (ia ib : Nat) :
    (updateModeCAltitude L ia ib).length = L.length := by
  unfold updateModeCAltitude
  dsimp only
  split_ifs <;> simp only [length_writeAt]

theorem updateModeAStep_length (L : List aircraft) (ia ib : Nat) :
    (updateModeAStep ia L ib).length = L.length := by
  unfold updateModeAStep
  split_ifs
  · rw [updateModeCAltitude_length, updateModeASquawk_length]
  · rfl

theorem updateModeCAltitude_modeAcount (L : List aircraft) (ia ib j : Nat) :
    (aircraftAt (updateModeCAltitude L ia ib) j).modeAcount = (aircraftAt L j).modeAcount := by
  unfold updateModeCAltitude
  dsimp only
  split_ifs <;> simp only [modeAcount_writeAt_setC, modeAcount_writeAt_or]

theorem updateModeASquawk_modeAcount_ne (L : List aircraft) (ia ib j : Nat) (h : j ≠ ib) :
    (aircraftAt (updateModeASquawk L ia ib) j).modeAcount = (aircraftAt L j).modeAcount := by
  unfold updateModeASquawk
  dsimp only
  split_ifs <;> simp only [modeAcount_writeAt_or, aircraftAt_writeAt_ne _ _ _ _ h]

theorem updateModeASquawk_modeAcount_hit (L : List aircraft) (ia ib : Nat) (hib : ib < L.length)
    (hv : (aircraftAt L ia).bFlags &&& (aircraftAt L ib).bFlags &&&
      MODES_ACFLAGS_SQUAWK_VALID ≠ 0)
    (hm : (aircraftAt L ia).modeA = (aircraftAt L ib).modeA) :
    (aircraftAt (updateModeASquawk L ia ib) ib).modeAcount = (aircraftAt L ia).messages := by
  unfold updateModeASquawk
  rw [if_pos ⟨hv, hm⟩]
  dsimp only
  split_ifs <;> simp only [modeAcount_writeAt_or, modeAcount_writeAt_setA _ _ _ hib]

theorem updateModeAStep_modeAcount_ne (L : List aircraft) (ia ib j : Nat) (h : j ≠ ib) :
    (aircraftAt (updateModeAStep ia L ib) j).modeAcount = (aircraftAt L j).modeAcount := by
  unfold updateModeAStep
  split_ifs
  · rw [updateModeCAltitude_modeAcount, updateModeASquawk_modeAcount_ne _ _ _ _ h]
  · rfl

theorem modeAKey_fields (a b : aircraft) (h : modeAKey a = modeAKey b) :
    a.messages = b.messages ∧ a.modeA = b.modeA ∧ a.bFlags = b.bFlags ∧
    a.modeACflags &&& MODEAC_MSG_FLAG = b.modeACflags &&& MODEAC_MSG_FLAG := by
  unfold modeAKey at h
  simp only [Prod.mk.injEq] at h
  exact h

theorem foldl_step_key (ia : Nat) (is : List Nat) (L : List aircraft) (j : Nat) :
    modeAKey (aircraftAt (is.foldl (updateModeAStep ia) L) j) = modeAKey (aircraftAt L j) := by
  induction is generalizing L with
  | nil => rfl
  | cons i is ih => rw [List.foldl_cons, ih, updateModeAStep_key]

theorem foldl_step_length (ia : Nat) (is : List Nat) (L : List aircraft) :
    (is.foldl (updateModeAStep ia) L).length = L.length := by
  induction is generalizing L with
  | nil => rfl
  | cons i is ih => rw [List.foldl_cons, ih, updateModeAStep_length]

theorem foldl_step_modeAcount_notin (ia : Nat) (is : List Nat) (L : List aircraft) (j : Nat)
    (h : j ∉ is) :
    (aircraftAt (is.foldl (updateModeAStep ia) L) j).modeAcount = (aircraftAt L j).modeAcount := by
  induction is generalizing L with
  | nil => rfl
  | cons i is ih =>
    rw [List.foldl_cons, ih _ (fun hh => h (List.mem_cons_of_mem _ hh)),
      updateModeAStep_modeAcount_ne _ _ _ _
        (fun hh => h (by rw [hh]; exact List.mem_cons_self _ _))]

theorem updateModeAStep_modeAcount_hit (L : List aircraft) (ia ib : Nat) (hib : ib < L.length)
    (hb : (aircraftAt L ib).modeACflags &&& MODEAC_MSG_FLAG = 0)
    (hv : (aircraftAt L ia).bFlags &&& (aircraftAt L ib).bFlags &&&
      MODES_ACFLAGS_SQUAWK_VALID ≠ 0)
    (hm : (aircraftAt L ia).modeA = (aircraftAt L ib).modeA) :
    (aircraftAt (updateModeAStep ia L ib) ib).modeAcount = (aircraftAt L ia).messages := by
  unfold updateModeAStep
  rw [if_pos hb, updateModeCAltitude_modeAcount, updateModeASquawk_modeAcount_hit _ _ _ hib hv hm]

theorem foldl_step_modeAcount_hit (ia ib : Nat) (is : List Nat) (hnd : is.Nodup)
    (hmem : ib ∈ is) (L : List aircraft) (hib : ib < L.length)
    (hb : (aircraftAt L ib).modeACflags &&& MODEAC_MSG_FLAG = 0)
    (hv : (aircraftAt L ia).bFlags &&& (aircraftAt L ib).bFlags &&&
      MODES_ACFLAGS_SQUAWK_VALID ≠ 0)
    (hm : (aircraftAt L ia).modeA = (aircraftAt L ib).modeA) :
    (aircraftAt (is.foldl (updateModeAStep ia) L) ib).modeAcount = (aircraftAt L ia).messages := by
  induction is generalizing L with
  | nil => exact absurd hmem (List.not_mem_nil _)
  | cons i is ih =>
    rw [List.foldl_cons]
    rw [List.nodup_cons] at hnd
    rcases List.mem_cons.mp hmem with h | h
    · subst h
      rw [foldl_step_modeAcount_notin _ _ _ _ hnd.1,
        updateModeAStep_modeAcount_hit _ _ _ hib hb hv hm]
    · have ka := modeAKey_fields _ _ (updateModeAStep_key L ia i ia)
      have kb := modeAKey_fields _ _ (updateModeAStep_key L ia i ib)
      have := ih hnd.2 h (updateModeAStep ia L i) (by rw [updateModeAStep_length]; exact hib)
        (by rw [kb.2.2.2]; exact hb) (by rw [ka.2.2.1, kb.2.2.1]; exact hv)
        (by rw [ka.2.1, kb.2.1]; exact hm)
      rw [this, ka.1]

/-- C15, counterexample: a Mode A/C record with five messages and a Mode S aircraft with
the same valid squawk and a Mode A hit count of 0.  After
`interactiveUpdateAircraftModeA` the hit count of the aircraft is 5, not 1. -/
theorem modeAcount_not_incremented :
    (aircraftAt aircraftModeAPair 0).modeACflags &&& MODEAC_MSG_FLAG ≠ 0 ∧
    (aircraftAt aircraftModeAPair 1).modeACflags &&& MODEAC_MSG_FLAG = 0 ∧
    (aircraftAt aircraftModeAPair 0).bFlags &&& (aircraftAt aircraftModeAPair 1).bFlags &&&
      MODES_ACFLAGS_SQUAWK_VALID ≠ 0 ∧
    (aircraftAt aircraftModeAPair 0).modeA = (aircraftAt aircraftModeAPair 1).modeA ∧
    (aircraftAt aircraftModeAPair 1).modeAcount = 0 ∧
    (aircraftAt (interactiveUpdateAircraftModeA aircraftModeAPair 0) 1).modeAcount = 5 ∧
    (aircraftAt (interactiveUpdateAircraftModeA aircraftModeAPair 0) 1).modeAcount ≠
      (aircraftAt aircraftModeAPair 1).modeAcount + 1 := by
  decide

/-- C15, amended: when `interactiveUpdateAircraftModeA` processes the record `a` and a
record `b` of the list is not a Mode A/C record, both have a valid squawk and the squawks
are equal, then after the call the Mode A hit count of `b` is the message count of `a`. -/
theorem modeAcount_set_to_messages (L : List aircraft) (ia ib : Nat) (hib : ib < L.length)
    (hb : (aircraftAt L ib).modeACflags &&& MODEAC_MSG_FLAG = 0)
    (hv : (aircraftAt L ia).bFlags &&& (aircraftAt L ib).bFlags &&&
      MODES_ACFLAGS_SQUAWK_VALID ≠ 0)
    (hm : (aircraftAt L ia).modeA = (aircraftAt L ib).modeA) :
    (aircraftAt (interactiveUpdateAircraftModeA L ia) ib).modeAcount =
      (aircraftAt L ia).messages := by
  unfold interactiveUpdateAircraftModeA
  exact foldl_step_modeAcount_hit ia ib (List.range L.length) (List.nodup_range _)
    (List.mem_range.mpr hib) L hib hb hv hm

theorem modeAcount_set_to_messages_witness :
    (aircraftAt (interactiveUpdateAircraftModeA aircraftModeAPair 0) 1).modeAcount =
      (aircraftAt aircraftModeAPair 0).messages :=
  modeAcount_set_to_messages aircraftModeAPair 0 1 (by decide) (by decide) (by decide)
    (by decide)

/-! ### The reader of Beast binary frames (C12) -/

theorem decodeModesHeader_rx (cache : IcaoCache) (now : Nat) (mm : modesMessage)
    (msg : List Nat) :
    rxFields (decodeModesHeader cache now mm msg).1 =
      (mm.timestampMsg, mm.signalLevel, msg.take MODES_LONG_MSG_BYTES) := by
  unfold decodeModesHeader
  lift_lets; intros; split_ifs <;> rfl

theorem decodeVS_rx (mm : modesMessage) : rxFields (decodeVS mm) = rxFields mm := by
  unfold decodeVS
  split_ifs <;> rfl

theorem decodeCA_rx (mm : modesMessage) : rxFields (decodeCA mm) = rxFields mm := by
  unfold decodeCA
  split_ifs <;> rfl

theorem decodeSquawk_rx (mm : modesMessage) (f : Nat) :
    rxFields (decodeSquawk mm f) = rxFields mm := by
  unfold decodeSquawk
  split_ifs <;> rfl

theorem decodeDF5Squawk_rx (mm : modesMessage) : rxFields (decodeDF5Squawk mm) = rxFields mm := by
  unfold decodeDF5Squawk
  split_ifs
  · exact decodeSquawk_rx _ _
  · rfl

theorem decodeAltitude13_rx (ext : Ext) (mm : modesMessage) :
    rxFields (decodeAltitude13 ext mm) = rxFields mm := by
  unfold decodeAltitude13
  lift_lets; intros; split_ifs <;> rfl

theorem decodeFS_rx (mm : modesMessage) : rxFields (decodeFS mm) = rxFields mm := by
  unfold decodeFS
  lift_lets; intros; split_ifs <;> rfl

theorem decodeVelocityVert_rx (mm : modesMessage) (msg : List Nat) (mesub : Nat) :
    rxFields (decodeVelocityVert mm msg mesub) = rxFields mm := by
  unfold decodeVelocityVert
  split_ifs
  · cases decodeVertRate msg <;> rfl
  · rfl

theorem decodeVelocitySpeed_rx (ext : Ext) (mm : modesMessage) (msg : List Nat) (mesub : Nat) :
    rxFields (decodeVelocitySpeed ext mm msg mesub) = rxFields mm := by
  unfold decodeVelocitySpeed
  lift_lets; intros; split_ifs <;> rfl

theorem decodeVelocity_rx (ext : Ext) (mm : modesMessage) (msg : List Nat) (mesub : Nat) :
    rxFields (decodeVelocity ext mm msg mesub) = rxFields mm := by
  unfold decodeVelocity
  rw [decodeVelocitySpeed_rx, decodeVelocityVert_rx]
  rfl

theorem decodePosition_rx (ext : Ext) (mm : modesMessage) (msg : List Nat) (metype : Nat) :
    rxFields (decodePosition ext mm msg metype) = rxFields mm := by
  unfold decodePosition
  lift_lets; intros; split_ifs <;> rfl

theorem decodeExtendedSquitter_rx (ext : Ext) (mm : modesMessage) (msg : List Nat) :
    rxFields (decodeExtendedSquitter ext mm msg) = rxFields mm := by
  unfold decodeExtendedSquitter
  lift_lets; intros
  split_ifs <;>
    first
    | rfl
    | (rw [decodeVelocity_rx]; rfl)
    | (rw [decodePosition_rx]; rfl)
    | (rw [decodeSquawk_rx]; rfl)

theorem decodeSquitter_rx (ext : Ext) (mm : modesMessage) :
    rxFields (decodeSquitter ext mm) = rxFields mm := by
  unfold decodeSquitter
  split_ifs
  · exact decodeExtendedSquitter_rx _ _ _
  · rfl

theorem decodeCommB_rx (mm : modesMessage) : rxFields (decodeCommB mm) = rxFields mm := by
  unfold decodeCommB
  split_ifs <;> rfl

theorem decodeModesMessage_rx (ext : Ext) (cache : IcaoCache) (now : Nat) (mm : modesMessage)
    (msg : List Nat) :
    rxFields (decodeModesMessage ext cache now mm msg).1 =
      (mm.timestampMsg, mm.signalLevel, msg.take MODES_LONG_MSG_BYTES) := by
  unfold decodeModesMessage
  dsimp only
  split_ifs
  · exact decodeModesHeader_rx _ _ _ _
  · rw [decodeCommB_rx, decodeSquitter_rx, decodeFS_rx, decodeAltitude13_rx, decodeDF5Squawk_rx,
      decodeCA_rx, decodeVS_rx]
    exact decodeModesHeader_rx _ _ _ _

theorem interactiveCreateAircraft_rx (ext : Ext) (ptr : Nat) (mm : modesMessage) :
    rxFields (interactiveCreateAircraft ext ptr mm).2 = rxFields mm := by
  unfold interactiveCreateAircraft
  lift_lets; intros; split_ifs <;> rfl

theorem receiveCPR_rx (ext : Ext) (M : ModesState) (now ms : Nat) (a : aircraft)
    (mm : modesMessage) :
    rxFields (receiveCPR ext M now ms a mm).2 = rxFields mm := by
  unfold receiveCPR
  lift_lets; intros; split_ifs <;> rfl

theorem receiveUpdate_rx (ext : Ext) (M : ModesState) (now ms : Nat) (a : aircraft)
    (mm : modesMessage) :
    rxFields (receiveUpdate ext M now ms a mm).2 = rxFields mm := by
  unfold receiveUpdate
  exact receiveCPR_rx ext _ _ _ _ _

theorem interactiveReceiveData_rx (ext : Ext) (M : ModesState) (now ms : Nat) (lockOk : Bool)
    (mm : modesMessage) :
    rxFields (interactiveReceiveData ext M now ms lockOk mm).2.1 = rxFields mm := by
  unfold interactiveReceiveData
  split_ifs
  · rfl
  · cases interactiveFindAircraft M.aircrafts mm.addr with
    | none =>
      dsimp only
      rw [receiveUpdate_rx ext, interactiveCreateAircraft_rx]
    | some a =>
      dsimp only
      rw [receiveUpdate_rx ext]

theorem useModesMessage_rx (ext : Ext) (M : ModesState) (now ms : Nat) (lockOk : Bool)
    (mm : modesMessage) :
    rxFields (useModesMessage ext M now ms lockOk mm).2.1 = rxFields mm := by
  unfold useModesMessage
  split_ifs
  · exact interactiveReceiveData_rx _ _ _ _ _ _
  · exact interactiveReceiveData_rx _ _ _ _ _ _
  · rfl

theorem beastEscape_append (a b : List Nat) :
    beastEscape (a ++ b) = beastEscape a ++ beastEscape b := by
  induction a with
  | nil => rfl
  | cons x xs ih =>
    simp only [List.cons_append, beastEscape]
    split_ifs <;> simp [ih]

theorem readEscapedBytes_escape (bs rest : List Nat) :
    readEscapedBytes bs.length (beastEscape bs ++ rest) = (bs, rest) := by
  induction bs with
  | nil => rfl
  | cons b bs ih =>
    by_cases h : b = 0x1A
    · subst h
      simp only [List.length_cons, readEscapedBytes, beastEscape, readEscaped, if_true,
        List.cons_append, List.headD_cons, List.drop_succ_cons, List.drop_zero, ih]
    · have h2 : ¬ (0x1A = b) := fun hh => h hh.symm
      simp only [List.length_cons, readEscapedBytes, beastEscape, readEscaped, if_neg h,
        List.cons_append, List.headD_cons, List.drop_succ_cons, List.drop_zero, ih, if_neg h2]

theorem timestampOfBytes_bigEndian48 (T : Nat) (hT : T < 2 ^ 48) :
    timestampOfBytes (bigEndian48 T) = T := by
  unfold timestampOfBytes bigEndian48
  simp only [List.foldl_cons, List.foldl_nil]
  omega

theorem readEscaped_escape (s : Nat) (rest : List Nat) :
    readEscaped (beastEscape [s] ++ rest) = (s, rest) := by
  by_cases h : s = 0x1A
  · subst h
    rfl
  · have h2 : ¬ (0x1A = s) := fun hh => h hh.symm
    simp only [beastEscape, readEscaped, if_neg h, List.cons_append, List.nil_append,
      List.headD_cons, List.drop_succ_cons, List.drop_zero, if_neg h2]

theorem readEscaped_plain (ty : Nat) (rest : List Nat) (h : ty ≠ 0x1A) :
    readEscaped (ty :: rest) = (ty, rest) := by
  have h2 : ¬ (0x1A = ty) := fun hh => h hh.symm
  simp only [readEscaped, List.headD_cons, List.drop_succ_cons, List.drop_zero, if_neg h2]

theorem readBinMessage_escape (mode_ac : Nat) (stack : List Nat) (ty T s : Nat)
    (P rest : List Nat) (hty : ty ≠ 0x1A) (hT : T < 2 ^ 48)
    (hP : P.length = binMessageLen mode_ac ty) :
    readBinMessage mode_ac stack (ty :: (beastEscape (bigEndian48 T ++ s :: P) ++ rest)) =
      (P.length, { modesMessage.zero with timestampMsg := T, signalLevel := s },
        P ++ (stack.take MODES_LONG_MSG_BYTES).drop P.length) := by
  have e : beastEscape (bigEndian48 T ++ s :: P) ++ rest =
      beastEscape (bigEndian48 T) ++ (beastEscape [s] ++ (beastEscape P ++ rest)) := by
    have : s :: P = [s] ++ P := rfl
    rw [this, beastEscape_append, beastEscape_append, List.append_assoc, List.append_assoc]
  have h6 := readEscapedBytes_escape (bigEndian48 T) (beastEscape [s] ++ (beastEscape P ++ rest))
  have hl : (bigEndian48 T).length = 6 := rfl
  rw [hl] at h6
  have hd := readEscapedBytes_escape P rest
  unfold readBinMessage
  simp only [readEscaped_plain ty _ hty, e, h6, readEscaped_escape, ← hP, hd,
    timestampOfBytes_bigEndian48 T hT]

/-- C12: for a frame of type `'2'` or `'3'`, a 48-bit timestamp `T`, a signal byte `s` and a
payload `P` of 7 or 14 bytes, `decodeBinMessage` applied to the type byte followed by the
six big-endian bytes of `T`, `s` and `P`, every `0x1A` of which is doubled, ends with a
message record in which `timestampMsg = T`, `signalLevel = s` and the first bytes of `msg`
are `P`. -/
theorem decodeBinMessage_roundtrip (ext : Ext)
    (decodeModeAMessage : modesMessage → Nat → modesMessage) (M : ModesState) (now ms : Nat)
    (lockOk : Bool) (stack : List Nat) (ty T s : Nat) (P rest : List Nat)
    (hty : ty = 0x32 ∧ P.length = 7 ∨ ty = 0x33 ∧ P.length = 14) (hT : T < 2 ^ 48) :
    ∃ mm, (decodeBinMessage ext decodeModeAMessage M now ms lockOk stack
        (ty :: (beastEscape (bigEndian48 T ++ s :: P) ++ rest))).2 = some mm ∧
      mm.timestampMsg = T ∧ mm.signalLevel = s ∧ mm.msg.take P.length = P := by
  have hne : ty ≠ 0x1A := by rcases hty with h | h <;> rw [h.1] <;> decide
  have hP : P.length = binMessageLen M.mode_ac ty := by
    rcases hty with h | h <;> rw [h.1, h.2] <;> unfold binMessageLen <;> simp <;> rfl
  have hr := readBinMessage_escape M.mode_ac stack ty T s P rest hne hT hP
  have h0 : P.length ≠ 0 := by rcases hty with h | h <;> rw [h.2] <;> decide
  have h2 : P.length ≠ MODEAC_MSG_BYTES := by rcases hty with h | h <;> rw [h.2] <;> decide
  have h14 : P.length ≤ MODES_LONG_MSG_BYTES := by
    rcases hty with h | h <;> rw [h.2] <;> decide
  unfold decodeBinMessage
  simp only [hr, if_pos h0, if_neg h2, ne_eq, not_false_eq_true]
  refine ⟨_, rfl, ?_⟩
  have hu := useModesMessage_rx ext { M with icao_cache :=
      (decodeModesMessage ext M.icao_cache now
        { modesMessage.zero with timestampMsg := T, signalLevel := s }
        (P ++ (stack.take MODES_LONG_MSG_BYTES).drop P.length)).2 } now ms lockOk
    (decodeModesMessage ext M.icao_cache now
      { modesMessage.zero with timestampMsg := T, signalLevel := s }
      (P ++ (stack.take MODES_LONG_MSG_BYTES).drop P.length)).1
  rw [decodeModesMessage_rx] at hu
  unfold rxFields at hu
  simp only [Prod.mk.injEq] at hu
  refine ⟨hu.1, hu.2.1, ?_⟩
  rw [hu.2.2, List.take_take, Nat.min_eq_left h14, List.take_left]

theorem decodeBinMessage_roundtrip_witness :
    beastEscape (bigEndian48 0x1A0000000000 ++ 0 :: frameDF4) =
      [0x1A, 0x1A, 0, 0, 0, 0, 0, 0] ++ frameDF4 ∧
    ∃ mm, (decodeBinMessage extZero (fun m _ => m) ModesState.init 1000 1000000 true
        (List.replicate 14 0xEE)
        (0x32 :: (beastEscape (bigEndian48 0x1A0000000000 ++ 0 :: frameDF4) ++ []))).2 = some mm ∧
      mm.timestampMsg = 0x1A0000000000 ∧ mm.signalLevel = 0 ∧
      mm.msg.take frameDF4.length = frameDF4 :=
  ⟨by decide, decodeBinMessage_roundtrip extZero (fun m _ => m) ModesState.init 1000 1000000 true
    (List.replicate 14 0xEE) 0x32 0x1A0000000000 0 frameDF4 [] (Or.inl ⟨rfl, rfl⟩)
    (by decide)⟩

/-! ### The position example (C13) -/

/-- C13, counterexample: the frame `8D4840D6202CC371C32CE0576098` is an aircraft
identification (ME type 4) and carries no CPR sample, and the frame
`8D4840D658C386435CC412692AD6` has the syndrome `0x7966C4`, so `decodeModesMessage`
rejects it.  After both frames the aircraft `4840D6` has one message and no position. -/
theorem claimed_frames_give_no_position :
    (decodeModesMessage extZero cacheEmpty 1700000000 modesMessage.zero frameDF17).1.metype = 4 ∧
    (decodeModesMessage extZero cacheEmpty 1700000000 modesMessage.zero frameDF17).1.bFlags &&&
      MODES_ACFLAGS_LLEITHER_VALID = 0 ∧
    modesChecksum frameOdd4840D6 MODES_LONG_MSG_BITS = 0x7966C4 ∧
    (decodeModesMessage extZero modesAfterDF17.icao_cache 1700000001 modesMessage.zero
      frameOdd4840D6).1.crcok = 0 ∧
    (receiveFrame extZero modesAfterDF17 1700000001 1700000001000 frameOdd4840D6).1.aircrafts.map
      (fun a => (a.addr, a.messages, a.bFlags &&& MODES_ACFLAGS_LATLON_VALID)) =
      [(0x4840D6, 1, 0)] := by
  decide!

/-- C13, amended: the DF 17 frames `8D40621D58C386435CC412692AD6` (odd sample) and, one
second later, `8D40621D58C382D690C8AC2863A7` (even sample), fed through
`decodeModesMessage` and `interactiveReceiveData`, give the aircraft `40621D` a decoded
position (`LATLON_VALID` set) with latitude within 0.0001 of 52.2572 and longitude within
0.0001 of 3.9193; with the even sample first and the odd sample one second later the
position is within 0.0001 of 52.2658, 3.9389. -/
theorem position_of_40621D :
    (receiveFrame extZero modesAfterOdd 1700000001 1700000001000 frameEven).1.aircrafts.map
      (fun a => a.addr) = [0x40621D] ∧
    (∀ a ∈ (receiveFrame extZero modesAfterOdd 1700000001 1700000001000 frameEven).1.aircrafts,
      a.bFlags &&& MODES_ACFLAGS_LATLON_VALID ≠ 0 ∧
      52.2571 < a.lat ∧ a.lat < 52.2573 ∧ 3.9192 < a.lon ∧ a.lon < 3.9194) ∧
    (receiveFrame extZero modesAfterEven 1700000001 1700000001000 frameOdd).1.aircrafts.map
      (fun a => a.addr) = [0x40621D] ∧
    (∀ a ∈ (receiveFrame extZero modesAfterEven 1700000001 1700000001000 frameOdd).1.aircrafts,
      a.bFlags &&& MODES_ACFLAGS_LATLON_VALID ≠ 0 ∧
      52.2657 < a.lat ∧ a.lat < 52.2659 ∧ 3.9388 < a.lon ∧ a.lon < 3.9390) := by
  decide!

/-! ### The signal-level ring (C11) -/

theorem ring_receiveStages (now : Nat) (a : aircraft) (mm : modesMessage) :
    ringFields (receiveAOG (receiveMotion (receiveSquawk (receiveAltitude (receiveCallsign
      (receiveSeen now a mm) mm) mm) mm) mm) mm) =
      (a.signalLevel.set (a.messages &&& 7) mm.signalLevel, a.messages + 1) := by
  have h1 : ∀ (a : aircraft), ringFields (receiveAOG a mm) = ringFields a := by
    intro a; unfold receiveAOG; split_ifs <;> rfl
  have h2 : ∀ (a : aircraft), ringFields (receiveMotion a mm) = ringFields a := by
    intro a; rfl
  have h3 : ∀ (a : aircraft), ringFields (receiveSquawk a mm) = ringFields a := by
    intro a; unfold receiveSquawk; split_ifs <;> rfl
  have h4 : ∀ (a : aircraft), ringFields (receiveAltitude a mm) = ringFields a := by
    intro a; unfold receiveAltitude; split_ifs <;> rfl
  have h5 : ∀ (a : aircraft), ringFields (receiveCallsign a mm) = ringFields a := by
    intro a; unfold receiveCallsign; split_ifs <;> rfl
  rw [h1, h2, h3, h4, h5]
  rfl

theorem ring_decodeCPR (ext : Ext) (M : ModesState) (now : Nat) (a : aircraft)
    (fflag surface : Nat) :
    ringFields (decodeCPR ext M now a fflag surface).2 = ringFields a := by
  unfold decodeCPR
  cases cprReference M now a surface with
  | none => rfl
  | some ref => dsimp only; split_ifs <;> rfl

theorem ring_decodeCPRrelativeAt (ext : Ext) (a : aircraft) (fflag surface : Nat) (ref : ℚ × ℚ) :
    ringFields (decodeCPRrelativeAt ext a fflag surface ref).2 = ringFields a := by
  unfold decodeCPRrelativeAt
  lift_lets; intros; split_ifs <;> rfl

theorem ring_decodeCPRrelative (ext : Ext) (M : ModesState) (a : aircraft) (fflag surface : Nat) :
    ringFields (decodeCPRrelative ext M a fflag surface).2 = ringFields a := by
  unfold decodeCPRrelative
  cases cprRelativeReference M a with
  | none => rfl
  | some ref => exact ring_decodeCPRrelativeAt ext a fflag surface ref

theorem ring_receiveCPRSample (ms : Nat) (a : aircraft) (mm : modesMessage) :
    ringFields (receiveCPRSample ms a mm) = ringFields a := by
  unfold receiveCPRSample; split_ifs <;> rfl

theorem ring_receiveCPR (ext : Ext) (M : ModesState) (now ms : Nat) (a : aircraft)
    (mm : modesMessage) :
    ringFields (receiveCPR ext M now ms a mm).1 = ringFields a ∧
      (receiveCPR ext M now ms a mm).2.msgtype = mm.msgtype := by
  unfold receiveCPR
  split_ifs with h
  · dsimp only
    split_ifs <;>
      simp only [ring_decodeCPR ext, ring_decodeCPRrelative ext, ring_receiveCPRSample, and_self]
  · exact ⟨rfl, rfl⟩

theorem ring_receiveUpdate (ext : Ext) (M : ModesState) (now ms : Nat) (a : aircraft)
    (mm : modesMessage)
    (h32 : mm.msgtype ≠ 32) :
    ringFields (receiveUpdate ext M now ms a mm).1 =
      (a.signalLevel.set (a.messages &&& 7) mm.signalLevel, a.messages + 1) := by
  unfold receiveUpdate
  dsimp only
  have hf : ∀ (a : aircraft) (m : modesMessage), m.msgtype ≠ 32 →
      ringFields (receiveFlags a m) = ringFields a := by
    intro a m hm
    unfold receiveFlags
    dsimp only
    rw [if_neg (fun hh => hm hh.1)]
    rfl
  rw [hf _ _ (by rw [(ring_receiveCPR ext M now ms _ mm).2]; exact h32),
    (ring_receiveCPR ext M now ms _ mm).1, ring_receiveStages]

theorem ring_interactiveCreateAircraft (ext : Ext) (ptr : Nat) (mm : modesMessage) :
    ringFields (interactiveCreateAircraft ext ptr mm).1 =
      (List.replicate 8 mm.signalLevel, 0) ∧
    (interactiveCreateAircraft ext ptr mm).2.signalLevel = mm.signalLevel ∧
    (interactiveCreateAircraft ext ptr mm).2.msgtype = mm.msgtype := by
  unfold interactiveCreateAircraft
  dsimp only
  split_ifs <;> exact ⟨rfl, rfl, rfl⟩

theorem getD_set_eq (l : List Nat) (i x : Nat) (h : i < l.length) :
    (l.set i x).getD i 0 = x := by
  simp [List.getD_eq_getElem?_getD, h]

theorem getD_set_ne (l : List Nat) (i j x : Nat) (h : i ≠ j) :
    (l.set i x).getD j 0 = l.getD j 0 := by
  simp [List.getD_eq_getElem?_getD, List.getElem?_set_ne h]

theorem RingHolds_first (a1 : aircraft) (x : Nat)
    (h1 : ringFields a1 = ((List.replicate 8 x).set (0 &&& 7) x, 0 + 1)) :
    RingHolds a1 [x] := by
  unfold ringFields at h1
  simp only [Prod.mk.injEq] at h1
  obtain ⟨hsl, hm⟩ := h1
  refine ⟨hm, ?_, ?_, ?_⟩
  · rw [hsl]; rfl
  · intro i hi _
    have : i = 0 := by simpa using hi
    subst this
    rw [hsl]
    rfl
  · intro j hj1 hj8
    rw [hsl]
    have hj : j = 1 ∨ j = 2 ∨ j = 3 ∨ j = 4 ∨ j = 5 ∨ j = 6 ∨ j = 7 := by
      simp only [List.length_singleton] at hj1
      omega
    rcases hj with h | h | h | h | h | h | h <;> subst h <;> rfl

theorem RingHolds_step (a a1 : aircraft) (s : List Nat) (x : Nat) (hs : s ≠ [])
    (h : RingHolds a s)
    (h1 : ringFields a1 = (a.signalLevel.set (a.messages &&& 7) x, a.messages + 1)) :
    RingHolds a1 (s ++ [x]) := by
  unfold ringFields at h1
  simp only [Prod.mk.injEq] at h1
  obtain ⟨hsl, hm⟩ := h1
  obtain ⟨hk, hlen, hring, hprime⟩ := h
  have hand : a.messages &&& 7 = s.length % 8 := by
    rw [hk]
    exact Nat.and_pow_two_sub_one_eq_mod s.length 3
  have hpos : 0 < s.length := List.length_pos.mpr hs
  rw [hand] at hsl
  refine ⟨?_, ?_, ?_, ?_⟩
  · rw [hm, hk, List.length_append, List.length_singleton]
  · rw [hsl, List.length_set, hlen]
  · intro i hi hi8
    rw [List.length_append, List.length_singleton] at hi hi8
    rw [hsl]
    by_cases hik : i = s.length
    · subst hik
      rw [getD_set_eq _ _ _ (by rw [hlen]; exact Nat.mod_lt _ (by decide)),
        List.getD_append_right _ _ _ _ (le_refl _), Nat.sub_self]
      rfl
    · have hlt : i < s.length := by omega
      rw [getD_set_ne _ _ _ _ (by omega), List.getD_append _ _ _ _ hlt]
      exact hring i hlt (by omega)
  · intro j hj hj8
    rw [List.length_append, List.length_singleton] at hj
    rw [hsl, getD_set_ne _ _ _ _ (by omega), List.getD_append _ _ _ _ hpos]
    exact hprime j (by omega) hj8

theorem find_writeAircraft_ne (l : List aircraft) (addr A : Nat) (a1 : aircraft)
    (h1 : a1.addr = addr) (hne : addr ≠ A) :
    interactiveFindAircraft (writeAircraft addr a1 l) A = interactiveFindAircraft l A := by
  induction l with
  | nil => rfl
  | cons b l ih =>
    unfold writeAircraft
    by_cases hb : b.addr = addr
    · rw [if_pos hb]
      unfold interactiveFindAircraft
      rw [if_neg (by rw [h1]; exact hne), if_neg (by rw [hb]; exact hne)]
    · rw [if_neg hb]
      unfold interactiveFindAircraft
      rw [ih]

theorem samplesOf_cons (A : Nat) (e : ReceiveEvent) (es : List ReceiveEvent) :
    samplesOf A (e :: es) =
      (if e.mm.crcok ≠ 0 ∧ e.mm.addr = A then [e.mm.signalLevel] else []) ++
        samplesOf A es := by
  unfold samplesOf
  by_cases h : e.mm.crcok ≠ 0 ∧ e.mm.addr = A
  · rw [List.filter_cons_of_pos (by simpa using h), if_pos h]
    rfl
  · rw [List.filter_cons_of_neg (by simpa using h), if_neg h]
    rfl

theorem RingState_step (ext : Ext) (M : ModesState) (A : Nat) (s : List Nat)
    (e : ReceiveEvent) (h32 : e.mm.addr = A → e.mm.msgtype ≠ 32)
    (h : RingState M.aircrafts A s) :
    RingState (interactiveReceiveData ext M e.now e.ms e.lockOk e.mm).1.aircrafts A
      (s ++ (if e.mm.crcok ≠ 0 ∧ e.mm.addr = A then [e.mm.signalLevel] else [])) := by
  by_cases hok : e.mm.crcok = 0
  · have : (interactiveReceiveData ext M e.now e.ms e.lockOk e.mm).1 = M := by
      unfold interactiveReceiveData
      rw [if_pos hok]
    rw [this, if_neg (fun hh => hh.1 hok), List.append_nil]
    exact h
  · by_cases hA : e.mm.addr = A
    · rw [if_pos ⟨hok, hA⟩]
      rcases interactiveReceiveData_aircrafts ext M e.now e.ms e.lockOk e.mm hok with
        ⟨hnone, hl, -⟩ | ⟨a, hsome, hl, -⟩
      · rw [hl]
        rcases h with ⟨hs, -⟩ | ⟨-, a, ha, -⟩
        · subst hs
          refine Or.inr ⟨by simp, (receiveUpdate ext M e.now e.ms
            (interactiveCreateAircraft ext M.heapNext e.mm).1
            (interactiveCreateAircraft ext M.heapNext e.mm).2).1, ?_, ?_⟩
          · unfold interactiveFindAircraft
            rw [if_pos]
            rw [(addr_receiveUpdate ext _ _ _ _ _).1, (addr_interactiveCreateAircraft _ _ _).1, hA]
          · have hc := ring_interactiveCreateAircraft ext M.heapNext e.mm
            have hu := ring_receiveUpdate ext M e.now e.ms
              (interactiveCreateAircraft ext M.heapNext e.mm).1
              (interactiveCreateAircraft ext M.heapNext e.mm).2
              (by rw [hc.2.2]; exact h32 hA)
            unfold ringFields at hc
            simp only [Prod.mk.injEq] at hc
            rw [hc.1.1, hc.1.2, hc.2.1] at hu
            exact RingHolds_first _ _ hu
        · rw [hA, ha] at hnone
          cases hnone
      · rw [hl]
        rcases h with ⟨-, hn⟩ | ⟨hs, a0, ha, hr⟩
        · rw [hA, hn] at hsome
          cases hsome
        · have haa : a = a0 := by
            rw [hA, ha] at hsome
            exact (Option.some.inj hsome).symm
          subst haa
          refine Or.inr ⟨by simp, (receiveUpdate ext M e.now e.ms a e.mm).1, ?_, ?_⟩
          · rw [hA]
            exact find_writeAircraft _ _ _ _
              (by rw [(addr_receiveUpdate ext _ _ _ _ _).1]; exact (find_some_addr _ _ _ ha).1) ha
          · exact RingHolds_step _ _ _ _ hs hr (ring_receiveUpdate ext M e.now e.ms _ e.mm (h32 hA))
    · rw [if_neg (fun hh => hA hh.2), List.append_nil]
      have hfind : interactiveFindAircraft
          (interactiveReceiveData ext M e.now e.ms e.lockOk e.mm).1.aircrafts A =
          interactiveFindAircraft M.aircrafts A := by
        rcases interactiveReceiveData_aircrafts ext M e.now e.ms e.lockOk e.mm hok with
          ⟨-, hl, -⟩ | ⟨a, hsome, hl, -⟩
        · rw [hl]
          conv_lhs => unfold interactiveFindAircraft
          rw [if_neg]
          rw [(addr_receiveUpdate ext _ _ _ _ _).1, (addr_interactiveCreateAircraft _ _ _).1]
          exact hA
        · rw [hl]
          exact find_writeAircraft_ne _ _ _ _
            (by rw [(addr_receiveUpdate ext _ _ _ _ _).1]; exact (find_some_addr _ _ _ hsome).1) hA
      unfold RingState
      rw [hfind]
      exact h

theorem RingState_run (ext : Ext) (A : Nat) (evs : List ReceiveEvent) :
    ∀ (M : ModesState) (s : List Nat), (∀ e ∈ evs, e.mm.addr = A → e.mm.msgtype ≠ 32) →
      RingState M.aircrafts A s →
      RingState (runReceive ext M evs).aircrafts A (s ++ samplesOf A evs) := by
  induction evs with
  | nil =>
    intro M s _ h
    rw [show samplesOf A [] = [] from rfl, List.append_nil]
    exact h
  | cons e es ih =>
    intro M s h32 h
    rw [samplesOf_cons, ← List.append_assoc]
    unfold runReceive
    exact ih _ _ (fun e1 he1 => h32 e1 (List.mem_cons_of_mem _ he1))
      (RingState_step ext M A s e (h32 e (List.mem_cons_self _ _)) h)

theorem replicate_of_getD (l : List Nat) (x : Nat) (hlen : l.length = 8)
    (h : ∀ j, j < 8 → l.getD j 0 = x) : l = List.replicate 8 x := by
  apply List.ext_getElem
  · rw [hlen, List.length_replicate]
  · intro n h1 h2
    rw [List.getElem_replicate, ← List.getD_eq_getElem l 0 h1]
    exact h n (by rw [← hlen]; exact h1)

/-- C11: from a state in which the address `A` has no record, after any sequence of calls
of `interactiveReceiveData` in which the messages of `A` are not Mode A/C replies (DF 32)
and `k >= 1` of them are CRC-valid, with the signal samples `s_0 .. s_(k-1)`: the record of
`A` has `messages = k`, `signalLevel[i mod 8] = s_i` for every `i` in `[k-8, k-1]`, and
after the first message (`k = 1`) all eight slots hold `s_0`. -/
theorem signal_ring (ext : Ext) (M : ModesState) (A : Nat) (evs : List ReceiveEvent)
    (hnew : interactiveFindAircraft M.aircrafts A = none)
    (hS : ∀ e ∈ evs, e.mm.addr = A → e.mm.msgtype ≠ 32)
    (hk : 1 ≤ (samplesOf A evs).length) :
    ∃ a, interactiveFindAircraft (runReceive ext M evs).aircrafts A = some a ∧
      a.messages = (samplesOf A evs).length ∧
      (∀ i, i < (samplesOf A evs).length → (samplesOf A evs).length ≤ i + 8 →
        a.signalLevel.getD (i % 8) 0 = (samplesOf A evs).getD i 0) ∧
      ((samplesOf A evs).length = 1 →
        a.signalLevel = List.replicate 8 ((samplesOf A evs).getD 0 0)) := by
  have h := RingState_run ext A evs M [] hS (Or.inl ⟨rfl, hnew⟩)
  rw [List.nil_append] at h
  rcases h with ⟨h0, -⟩ | ⟨-, a, ha, hr⟩
  · rw [h0] at hk
    exact absurd hk (by decide)
  · obtain ⟨hm, hlen, hring, hprime⟩ := hr
    refine ⟨a, ha, hm, hring, ?_⟩
    intro h1
    apply replicate_of_getD _ _ hlen
    intro j hj
    by_cases hj0 : j = 0
    · subst hj0
      exact hring 0 (by omega) (by omega)
    · exact hprime j (by omega) hj

theorem signal_ring_witness :
    samplesOf 0x40621D eventsRing = [10, 11, 13, 14, 15, 16, 17, 18, 19, 20] ∧
    ∃ a, interactiveFindAircraft (runReceive extZero ModesState.init eventsRing).aircrafts
        0x40621D = some a ∧
      a.messages = (samplesOf 0x40621D eventsRing).length ∧
      (∀ i, i < (samplesOf 0x40621D eventsRing).length →
        (samplesOf 0x40621D eventsRing).length ≤ i + 8 →
        a.signalLevel.getD (i % 8) 0 = (samplesOf 0x40621D eventsRing).getD i 0) ∧
      ((samplesOf 0x40621D eventsRing).length = 1 →
        a.signalLevel = List.replicate 8 ((samplesOf 0x40621D eventsRing).getD 0 0)) :=
  ⟨by decide, signal_ring extZero ModesState.init 0x40621D eventsRing (by decide) (by decide)
    (by decide)⟩

/-! ### The time stored in the ICAO cache (C21) -/

theorem addRecentlySeenICAOAddr_other_slot (cache : IcaoCache) (now b a : Nat)
    (h : ICAOCacheHashAddress b ≠ ICAOCacheHashAddress a) :
    addRecentlySeenICAOAddr cache now b (ICAOCacheHashAddress a * 2) =
      cache (ICAOCacheHashAddress a * 2) ∧
    addRecentlySeenICAOAddr cache now b (ICAOCacheHashAddress a * 2 + 1) =
      cache (ICAOCacheHashAddress a * 2 + 1) := by
  unfold addRecentlySeenICAOAddr
  constructor
  · rw [Function.update_noteq (by omega), Function.update_noteq (by omega)]
  · rw [Function.update_noteq (by omega), Function.update_noteq (by omega)]

theorem addRecentlySeenICAOAddr_slot (cache : IcaoCache) (now a : Nat) :
    addRecentlySeenICAOAddr cache now a (ICAOCacheHashAddress a * 2) = a ∧
    addRecentlySeenICAOAddr cache now a (ICAOCacheHashAddress a * 2 + 1) = now % 2 ^ 32 := by
  unfold addRecentlySeenICAOAddr
  constructor
  · rw [Function.update_noteq (by omega), Function.update_same]
  · rw [Function.update_same]

theorem later_adds_keep_slot (a : Nat) (adds : List (Nat × Nat))
    (hadds : ∀ p ∈ adds, ICAOCacheHashAddress p.2 ≠ ICAOCacheHashAddress a) :
    ∀ cache : IcaoCache,
      adds.foldl (fun c p => addRecentlySeenICAOAddr c p.1 p.2) cache
          (ICAOCacheHashAddress a * 2) = cache (ICAOCacheHashAddress a * 2) ∧
      adds.foldl (fun c p => addRecentlySeenICAOAddr c p.1 p.2) cache
          (ICAOCacheHashAddress a * 2 + 1) = cache (ICAOCacheHashAddress a * 2 + 1) := by
  induction adds with
  | nil => intro cache; exact ⟨rfl, rfl⟩
  | cons p ps ih =>
    intro cache
    rw [List.foldl_cons]
    have h1 := ih (fun q hq => hadds q (List.mem_cons_of_mem _ hq))
      (addRecentlySeenICAOAddr cache p.1 p.2)
    have h2 := addRecentlySeenICAOAddr_other_slot cache p.1 p.2 a
      (hadds p (List.mem_cons_self _ _))
    exact ⟨h1.1.trans h2.1, h1.2.trans h2.2⟩

/-- C21: an address `a`, not 0, is added at wall time `t`, and then any addresses that hash
to other slots are added.  While `t` fits the `uint32_t` word of the cache (`t < 2^32`), the
lookup of `a` at a time `t2 >= t` succeeds if and only if `t2 - t <= 60`.  At `t = 2^32`
the stored time is cut to 0 and the lookup at the same second fails. -/
theorem cache_ttl_uint32 :
    (∀ (cache : IcaoCache) (a t t2 : Nat) (adds : List (Nat × Nat)),
      a ≠ 0 → t < 2 ^ 32 → t ≤ t2 → t2 < 2 ^ 64 →
      (∀ p ∈ adds, ICAOCacheHashAddress p.2 ≠ ICAOCacheHashAddress a) →
      (ICAOAddressWasRecentlySeen
          (adds.foldl (fun c p => addRecentlySeenICAOAddr c p.1 p.2)
            (addRecentlySeenICAOAddr cache t a)) t2 a ≠ 0 ↔ t2 - t ≤ 60)) ∧
    ICAOAddressWasRecentlySeen (addRecentlySeenICAOAddr cacheEmpty (2 ^ 32) 0x4840D6)
      (2 ^ 32) 0x4840D6 = 0 := by
  constructor
  · intro cache a t t2 adds ha ht htt ht2 hadds
    have hk := later_adds_keep_slot a adds hadds (addRecentlySeenICAOAddr cache t a)
    have hs := addRecentlySeenICAOAddr_slot cache t a
    rw [hs.1] at hk
    rw [hs.2, Nat.mod_eq_of_lt ht] at hk
    rw [wasRecentlySeen_iff _ _ _ ht2 (by rw [hk.2]; exact ht), hk.1, hk.2]
    constructor
    · intro h; exact h.2.2.2
    · intro h; exact ⟨ha, rfl, htt, h⟩
  · decide

theorem cache_ttl_uint32_witness :
    (ICAOAddressWasRecentlySeen
        ([(1010, 0x40621D)].foldl (fun c p => addRecentlySeenICAOAddr c p.1 p.2)
          (addRecentlySeenICAOAddr cacheEmpty 1000 0x4840D6)) 1060 0x4840D6 ≠ 0 ↔
      1060 - 1000 ≤ 60) ∧
    (ICAOAddressWasRecentlySeen
        ([(1010, 0x40621D)].foldl (fun c p => addRecentlySeenICAOAddr c p.1 p.2)
          (addRecentlySeenICAOAddr cacheEmpty 1000 0x4840D6)) 1061 0x4840D6 ≠ 0 ↔
      1061 - 1000 ≤ 60) :=
  ⟨cache_ttl_uint32.1 cacheEmpty 0x4840D6 1000 1060 [(1010, 0x40621D)] (by decide) (by decide)
    (by decide) (by decide) (by decide),
   cache_ttl_uint32.1 cacheEmpty 0x4840D6 1000 1061 [(1010, 0x40621D)] (by decide) (by decide)
    (by decide) (by decide) (by decide)⟩

/-! ### The sweep of the frame log (C28) -/

/-- C28: when `interactiveRemoveStaleDF(now)` obtains the lock, the frame log it leaves is
the longest head prefix of the log whose entries all have `now - seen <= delete_ttl`: the
first stale entry and all entries after it are removed, the entries before it are kept in
their order. -/
theorem frame_log_sweep_keeps_fresh_head (M : ModesState) (now : Nat) :
    interactiveRemoveStaleDF M now true =
      M.pDF.takeWhile
        (fun e => decide ((now : Int) - (e.seen : Int) ≤ M.interactive_delete_ttl)) ∧
    (∀ e ∈ interactiveRemoveStaleDF M now true,
      (now : Int) - (e.seen : Int) ≤ M.interactive_delete_ttl) ∧
    ∃ rest, M.pDF = interactiveRemoveStaleDF M now true ++ rest ∧
      ∀ e, rest.head? = some e → (now : Int) - (e.seen : Int) > M.interactive_delete_ttl := by
  have key : ∀ (l kept : List stDF),
      removeStaleDFLoop now M.interactive_delete_ttl kept l =
        kept ++ l.takeWhile
          (fun e => decide ((now : Int) - (e.seen : Int) ≤ M.interactive_delete_ttl)) := by
    intro l
    induction l with
    | nil => intro kept; simp [removeStaleDFLoop]
    | cons e next ih =>
      intro kept
      unfold removeStaleDFLoop
      by_cases h : (now : Int) - (e.seen : Int) > M.interactive_delete_ttl
      · rw [if_pos h, List.takeWhile_cons_of_neg (by simp only [decide_eq_true_eq]; omega),
          List.append_nil]
      · rw [if_neg h, ih, List.takeWhile_cons_of_pos (by simp only [decide_eq_true_eq]; omega),
          List.append_assoc]
        rfl
  have heq : interactiveRemoveStaleDF M now true =
      M.pDF.takeWhile
        (fun e => decide ((now : Int) - (e.seen : Int) ≤ M.interactive_delete_ttl)) := by
    unfold interactiveRemoveStaleDF
    rw [if_pos rfl, key, List.nil_append]
  refine ⟨heq, ?_, ?_⟩
  · intro e he
    rw [heq] at he
    simpa using List.mem_takeWhile_imp he
  · refine ⟨M.pDF.dropWhile
      (fun e => decide ((now : Int) - (e.seen : Int) ≤ M.interactive_delete_ttl)), ?_, ?_⟩
    · rw [heq, List.takeWhile_append_dropWhile]
    · intro e he
      have := List.head?_dropWhile_not
        (fun e => decide ((now : Int) - (e.seen : Int) ≤ M.interactive_delete_ttl)) M.pDF
      rw [he] at this
      have h2 := of_decide_eq_false this
      omega

theorem frame_log_sweep_keeps_fresh_head_witness :
    (interactiveRemoveStaleDF modesLog 1400 true).map (fun e => e.seen) = [1300, 1200] :=
  (congrArg (List.map (fun e => e.seen)) (frame_log_sweep_keeps_fresh_head modesLog 1400).1).trans
    (by decide)

/-! ### Failed and relative CPR decodes (C23, C24) -/

theorem decodeCPR_ok_or_same (ext : Ext) (M : ModesState) (now : Nat) (a : aircraft)
    (fflag surface : Nat) :
    (decodeCPR ext M now a fflag surface).1 = 0 ∨ (decodeCPR ext M now a fflag surface).2 = a := by
  unfold decodeCPR
  cases cprReference M now a surface with
  | none => exact Or.inr rfl
  | some ref =>
    dsimp only
    split_ifs
    all_goals first | exact Or.inr rfl | exact Or.inl rfl

theorem pos_decodeCPR_fail (ext : Ext) (M : ModesState) (now : Nat) (a : aircraft)
    (fflag surface : Nat)
    (h : (decodeCPR ext M now a fflag surface).1 ≠ 0) : (decodeCPR ext M now a fflag surface).2 =
      a :=
  (decodeCPR_ok_or_same ext M now a fflag surface).resolve_left h

theorem decodeCPRrelativeAt_ok_or_same (ext : Ext) (a : aircraft) (fflag surface : Nat)
    (ref : ℚ × ℚ) :
    (decodeCPRrelativeAt ext a fflag surface ref).1 = 0 ∨
      posFields (decodeCPRrelativeAt ext a fflag surface ref).2 = posFields a := by
  unfold decodeCPRrelativeAt
  lift_lets
  intros
  split_ifs
  all_goals first | exact Or.inr rfl | exact Or.inl rfl

theorem pos_decodeCPRrelative_fail (ext : Ext) (M : ModesState) (a : aircraft) (fflag surface : Nat)
    (h : (decodeCPRrelative ext M a fflag surface).1 ≠ 0) :
    posFields (decodeCPRrelative ext M a fflag surface).2 = posFields a := by
  unfold decodeCPRrelative at h ⊢
  generalize cprRelativeReference M a = r at h ⊢
  cases r with
  | none => rfl
  | some ref => exact (decodeCPRrelativeAt_ok_or_same ext a fflag surface ref).resolve_left h

theorem pos_receiveStages (now : Nat) (a : aircraft) (mm : modesMessage) :
    posFields (receiveAOG (receiveMotion (receiveSquawk (receiveAltitude (receiveCallsign
      (receiveSeen now a mm) mm) mm) mm) mm) mm) = posFields a := by
  have h1 : ∀ (a : aircraft), posFields (receiveAOG a mm) = posFields a := by
    intro a; unfold receiveAOG; split_ifs <;> rfl
  have h2 : ∀ (a : aircraft), posFields (receiveMotion a mm) = posFields a := by
    intro a; rfl
  have h3 : ∀ (a : aircraft), posFields (receiveSquawk a mm) = posFields a := by
    intro a; unfold receiveSquawk; split_ifs <;> rfl
  have h4 : ∀ (a : aircraft), posFields (receiveAltitude a mm) = posFields a := by
    intro a; unfold receiveAltitude; split_ifs <;> rfl
  have h5 : ∀ (a : aircraft), posFields (receiveCallsign a mm) = posFields a := by
    intro a; unfold receiveCallsign; split_ifs <;> rfl
  rw [h1, h2, h3, h4, h5]
  rfl

theorem pos_receiveCPRSample (ms : Nat) (a : aircraft) (mm : modesMessage) :
    posFields (receiveCPRSample ms a mm) = posFields a := by
  unfold receiveCPRSample; split_ifs <;> rfl

theorem pos_receiveFlags (a : aircraft) (mm : modesMessage) :
    posFields (receiveFlags a mm) = posFields a := by
  unfold receiveFlags; dsimp only; split_ifs <;> rfl

theorem receiveCPR_fail (ext : Ext) (M : ModesState) (now ms : Nat) (a : aircraft)
    (mm : modesMessage)
    (hg : globalCPRCondition ext (receiveCPRSample ms a mm) mm = false ∨
      (decodeCPR ext M now (receiveCPRSample ms a mm)
        (mm.bFlags &&& MODES_ACFLAGS_LLODD_VALID) (mm.bFlags &&& MODES_ACFLAGS_AOG)).1 ≠ 0)
    (hl : (decodeCPRrelative ext M (receiveCPRSample ms a mm)
        (mm.bFlags &&& MODES_ACFLAGS_LLODD_VALID) (mm.bFlags &&& MODES_ACFLAGS_AOG)).1 ≠ 0) :
    posFields (receiveCPR ext M now ms a mm).1 = posFields a ∧
      (receiveCPR ext M now ms a mm).2 = mm := by
  unfold receiveCPR
  split_ifs with hll
  · dsimp only
    have hgl : (if globalCPRCondition ext (receiveCPRSample ms a mm) mm = true then
          (decide ((decodeCPR ext M now (receiveCPRSample ms a mm)
            (mm.bFlags &&& MODES_ACFLAGS_LLODD_VALID) (mm.bFlags &&& MODES_ACFLAGS_AOG)).1 = 0),
           (decodeCPR ext M now (receiveCPRSample ms a mm)
            (mm.bFlags &&& MODES_ACFLAGS_LLODD_VALID) (mm.bFlags &&& MODES_ACFLAGS_AOG)).2)
        else (false, receiveCPRSample ms a mm)) = (false, receiveCPRSample ms a mm) := by
      rcases hg with hg | hg
      · rw [hg]; rfl
      · split_ifs
        · rw [pos_decodeCPR_fail ext _ _ _ _ _ hg, decide_eq_false hg]
        · rfl
    rw [hgl]
    simp only [Bool.false_eq_true, if_false, decide_eq_false hl]
    rw [pos_decodeCPRrelative_fail ext _ _ _ _ hl, pos_receiveCPRSample]
    exact ⟨rfl, trivial⟩
  · exact ⟨rfl, rfl⟩

theorem log2Loop_eq : ∀ fuel n : Nat, n ≤ fuel → log2Loop fuel n = Nat.log2 n := by
  intro fuel
  induction fuel with
  | zero =>
    intro n h
    have h0 : n = 0 := Nat.le_zero.mp h
    subst h0
    unfold log2Loop
    rw [Nat.log2, if_neg (by omega)]
  | succ fuel ih =>
    intro n h
    unfold log2Loop
    rw [Nat.log2]
    by_cases h2 : n < 2
    · rw [if_pos h2, if_neg (by omega)]
    · rw [if_neg h2, if_pos (by omega), ih (n / 2) (by omega)]

/-- The rounding `roundDouble` at some values: 0.1, 1/3 and 360/39 go to the nearest
`double`, a tie goes to the even neighbour, and the quotient `-120 / (360/39)`, which is
-13 in exact arithmetic, comes out just below -13. -/
theorem roundDouble_samples :
    roundDouble (1 / 10) = 3602879701896397 / 2 ^ 55 ∧
    roundDouble (1 / 3) = 6004799503160661 / 2 ^ 54 ∧
    roundDouble (360 / 39) = 2598230554252209 / 2 ^ 48 ∧
    roundDouble (2 ^ 53 + 1) = 2 ^ 53 ∧
    roundDouble (2 ^ 53 + 3) = 2 ^ 53 + 4 ∧
    roundDouble (3 / 2) = 3 / 2 ∧
    roundDouble (-120 / roundDouble (360 / 39)) = -7318349394477057 / 2 ^ 49 ∧
    ⌊roundDouble (-120 / roundDouble (360 / 39))⌋ = -14 := by
  decide!

/-- C23: when `decodeCPR` or `decodeCPRrelative` returns failure, the aircraft's `lat`, `lon`,
`seenLatLon` and `timestampLatLon` are as before; and when `interactiveReceiveData` finds
the record `a` of a CRC-valid message and, for the record with the new sample stored, the
global decode is not attempted or fails and the relative decode fails, the record it
returns has the position fields of `a` and the message record is left as it was (so it is
not marked `LATLON_VALID`).  The return codes are those of the decoders run with the
rounding `ext.rnd` of the `double` operations and the value `ext.absIntMin` of
`abs(INT_MIN)`, whatever the two are. -/
theorem failed_decode_keeps_position (ext : Ext) (M : ModesState) (now ms : Nat)
    (lockOk : Bool) (a : aircraft) (mm : modesMessage) (fflag surface : Nat) :
    ((decodeCPR ext M now a fflag surface).1 ≠ 0 →
      posFields (decodeCPR ext M now a fflag surface).2 = posFields a) ∧
    ((decodeCPRrelative ext M a fflag surface).1 ≠ 0 →
      posFields (decodeCPRrelative ext M a fflag surface).2 = posFields a) ∧
    (mm.crcok ≠ 0 → interactiveFindAircraft M.aircrafts mm.addr = some a →
      (globalCPRCondition ext (receiveCPRSample ms
          (receiveAOG (receiveMotion (receiveSquawk (receiveAltitude (receiveCallsign
            (receiveSeen now a mm) mm) mm) mm) mm) mm) mm) mm = false ∨
        (decodeCPR ext M now (receiveCPRSample ms
          (receiveAOG (receiveMotion (receiveSquawk (receiveAltitude (receiveCallsign
            (receiveSeen now a mm) mm) mm) mm) mm) mm) mm)
          (mm.bFlags &&& MODES_ACFLAGS_LLODD_VALID) (mm.bFlags &&& MODES_ACFLAGS_AOG)).1 ≠ 0) →
      (decodeCPRrelative ext M (receiveCPRSample ms
          (receiveAOG (receiveMotion (receiveSquawk (receiveAltitude (receiveCallsign
            (receiveSeen now a mm) mm) mm) mm) mm) mm) mm)
          (mm.bFlags &&& MODES_ACFLAGS_LLODD_VALID) (mm.bFlags &&& MODES_ACFLAGS_AOG)).1 ≠ 0 →
      ∃ r, (interactiveReceiveData ext M now ms lockOk mm).2.2 = some r ∧
        interactiveFindAircraft (interactiveReceiveData ext M now ms lockOk mm).1.aircrafts
          mm.addr = some r ∧
        posFields r = posFields a ∧
        (interactiveReceiveData ext M now ms lockOk mm).2.1 = mm) := by
  refine ⟨fun h => by rw [pos_decodeCPR_fail ext _ _ _ _ _ h],
    fun h => pos_decodeCPRrelative_fail ext _ _ _ _ h, ?_⟩
  intro hok hfind hg hl
  have hc := receiveCPR_fail ext M now ms _ mm hg hl
  have hu : posFields (receiveUpdate ext M now ms a mm).1 = posFields a ∧
      (receiveUpdate ext M now ms a mm).2 = mm := by
    unfold receiveUpdate
    dsimp only
    rw [pos_receiveFlags, hc.1, pos_receiveStages]
    exact ⟨rfl, hc.2⟩
  have hres : interactiveReceiveData ext M now ms lockOk mm =
      ({ M with
          aircrafts := writeAircraft mm.addr (receiveUpdate ext M now ms a mm).1 M.aircrafts,
          pDF := receiveLog M.pDF lockOk (receiveUpdate ext M now ms a mm).1
            (receiveUpdate ext M now ms a mm).2 },
        (receiveUpdate ext M now ms a mm).2, some (receiveUpdate ext M now ms a mm).1) := by
    unfold interactiveReceiveData
    rw [if_neg hok, hfind]
  rw [hres]
  refine ⟨(receiveUpdate ext M now ms a mm).1, rfl, ?_, hu.1, hu.2⟩
  exact find_writeAircraft _ _ _ _
    (by rw [(addr_receiveUpdate ext _ _ _ _ _).1]; exact (find_some_addr _ _ _ hfind).1) hfind

theorem failed_decode_keeps_position_witness :
    (∃ r, (interactiveReceiveData extZero modesStaleEven 1700000020 1700000020000 true
        messageOdd).2.2 = some r ∧
      interactiveFindAircraft (interactiveReceiveData extZero modesStaleEven 1700000020
        1700000020000 true messageOdd).1.aircrafts messageOdd.addr = some r ∧
      posFields r = posFields { aircraft.zero 0 with
        addr := 0x40621D, seen := 1700000000, messages := 100,
        even_cprlat := 93000, even_cprlon := 51372, even_cprtime := 1700000000000,
        lat := 52.25, lon := 3.9, seenLatLon := 1699999990, timestampLatLon := 77,
        bFlags := MODES_ACFLAGS_LATLON_VALID ||| MODES_ACFLAGS_LLEVEN_VALID |||
          MODES_ACFLAGS_AOG_VALID } ∧
      (interactiveReceiveData extZero modesStaleEven 1700000020 1700000020000 true
        messageOdd).2.1 = messageOdd) ∧
    (decodeCPRrelative extZero ModesState.init aircraftTie 0 1).1 = 0 ∧
    (decodeCPRrelative extZero ModesState.init aircraftTie 0 1).2.lon = 90 + 45 / 59 ∧
    (decodeCPRrelative extDouble ModesState.init aircraftTie 0 1).1 = -1 ∧
    posFields (decodeCPRrelative extDouble ModesState.init aircraftTie 0 1).2 =
      posFields aircraftTie :=
  ⟨(failed_decode_keeps_position extZero modesStaleEven 1700000020 1700000020000 true _
      messageOdd 0 0).2.2 (by decide) (by decide!) (by decide!) (by decide!),
    by decide!, by decide!, by decide!,
    (failed_decode_keeps_position extDouble ModesState.init 1700000020 1700000020000 true
      aircraftTie messageOdd 0 1).2.1 (by decide!)⟩

/-- C24 (the code at the failing input): with the user position (52, 4) as the only
reference, two aircraft records that have `LATLON_REL_OK` clear and differ only in their
stored `lat` and `lon` get different outcomes from `decodeCPRrelative`: the record with the
stored position (52.2, 3.9) gets the return code 0 and the position decoded from its odd
sample, the record with the stored position (0, 0) gets the return code -1 and keeps
(0, 0). -/
theorem relative_decode_reads_stored_position :
    aircraftFar = { aircraftNear with lat := 0, lon := 0 } ∧
    aircraftNear.bFlags &&& MODES_ACFLAGS_LATLON_REL_OK = 0 ∧
    aircraftFar.bFlags &&& MODES_ACFLAGS_LATLON_REL_OK = 0 ∧
    cprRelativeReference modesUser aircraftNear = some (52, 4) ∧
    cprRelativeReference modesUser aircraftFar = some (52, 4) ∧
    (decodeCPRrelative extZero modesUser aircraftNear 1 0).1 = 0 ∧
    52.265 < (decodeCPRrelative extZero modesUser aircraftNear 1 0).2.lat ∧
    (decodeCPRrelative extZero modesUser aircraftNear 1 0).2.lat < 52.266 ∧
    3.938 < (decodeCPRrelative extZero modesUser aircraftNear 1 0).2.lon ∧
    (decodeCPRrelative extZero modesUser aircraftNear 1 0).2.lon < 3.939 ∧
    (decodeCPRrelative extZero modesUser aircraftFar 1 0).1 = -1 ∧
    (decodeCPRrelative extZero modesUser aircraftFar 1 0).2.lat = 0 ∧
    (decodeCPRrelative extZero modesUser aircraftFar 1 0).2.lon = 0 := by
  decide!

/-! ### The range of the decoded longitude (C22) -/

theorem cprModFunction_range (a b : Int) (hb : 0 < b) :
    0 ≤ cprModFunction a b ∧ cprModFunction a b < b := by
  unfold cprModFunction
  dsimp only
  have h1 := Int.tmod_lt_of_pos a hb
  have h2 : -b < Int.tmod a b := by
    obtain ⟨k, rfl⟩ := Int.eq_ofNat_of_zero_le (le_of_lt hb)
    cases a with
    | ofNat m =>
      have := Int.tmod_nonneg (k : Int) (Int.ofNat_nonneg m)
      have hm : Int.ofNat m = (m : Int) := rfl
      rw [hm]
      omega
    | negSucc m =>
      have hk : 0 < k := by omega
      have hlt := Nat.mod_lt (m + 1) hk
      show -(k : Int) < -(((m + 1) % k : Nat) : Int)
      omega
  split_ifs with h
  · omega
  · omega

theorem cprNFunction_pos (lat : ℚ) (fflag : Nat) : 1 ≤ cprNFunction lat fflag := by
  unfold cprNFunction
  dsimp only
  split_ifs <;> omega

theorem cpr_cell_range (D : ℚ) (n k : Int) (f : ℚ) (hD : 0 < D) (hn : 1 ≤ n) (hk0 : 0 ≤ k)
    (hkn : k < n) (hf0 : 0 ≤ f) (hf1 : f < 1) :
    0 ≤ D / (n : ℚ) * ((k : ℚ) + f) ∧ D / (n : ℚ) * ((k : ℚ) + f) < D := by
  have hnq : (0 : ℚ) < (n : ℚ) := by exact_mod_cast (by omega : (0 : Int) < n)
  have hkq : (0 : ℚ) ≤ (k : ℚ) := by exact_mod_cast hk0
  have hk1 : (k : ℚ) + 1 ≤ (n : ℚ) := by exact_mod_cast (by omega : k + 1 ≤ n)
  constructor
  · exact mul_nonneg (div_nonneg (le_of_lt hD) (le_of_lt hnq)) (add_nonneg hkq hf0)
  · rw [div_mul_eq_mul_div, div_lt_iff₀ hnq]
    nlinarith

theorem raw_fraction_range (v : Nat) (hv : v ≤ 131071) :
    (0 : ℚ) ≤ (v : ℚ) / 131072 ∧ (v : ℚ) / 131072 < 1 := by
  have h1 : (v : ℚ) ≤ 131071 := by exact_mod_cast hv
  have h0 : (0 : ℚ) ≤ (v : ℚ) := Nat.cast_nonneg v
  constructor
  · positivity
  · rw [div_lt_one (by norm_num)]
    linarith

theorem cprLongitude_range (a : aircraft) (fflag surface : Nat) (rlat0 rlat1 rlon : ℚ)
    (he : a.even_cprlon ≤ 131071) (ho : a.odd_cprlon ≤ 131071) :
    (surface = 0 →
      -180 < cprLongitude a fflag surface rlat0 rlat1 rlon ∧
      cprLongitude a fflag surface rlat0 rlat1 rlon ≤ 180) ∧
    (surface ≠ 0 →
      (⌊rlon / 90⌋ : ℚ) * 90 ≤ cprLongitude a fflag surface rlat0 rlat1 rlon ∧
      cprLongitude a fflag surface rlat0 rlat1 rlon < (⌊rlon / 90⌋ : ℚ) * 90 + 90) := by
  have key : ∀ (rlat : ℚ) (ff : Nat) (m : Int) (v : Nat), v ≤ 131071 →
      0 ≤ cprDlonFunction rlat ff surface *
        ((cprModFunction m (cprNFunction rlat ff) : ℚ) + (v : ℚ) / 131072) ∧
      cprDlonFunction rlat ff surface *
        ((cprModFunction m (cprNFunction rlat ff) : ℚ) + (v : ℚ) / 131072) <
        (if surface ≠ 0 then 90 else 360) := by
    intro rlat ff m v hv
    have hn := cprNFunction_pos rlat ff
    have hr := cprModFunction_range m (cprNFunction rlat ff) (by omega)
    have hf := raw_fraction_range v hv
    unfold cprDlonFunction
    exact cpr_cell_range _ _ _ _ (by split_ifs <;> norm_num) hn hr.1 hr.2 hf.1 hf.2
  unfold cprLongitude
  dsimp only
  constructor
  · intro hs
    have hs0 : ¬ (surface ≠ 0) := fun h => h hs
    rw [if_neg hs0]
    by_cases hf : fflag ≠ 0
    · rw [if_pos hf]
      have hk := key rlat1 1 (⌊(((a.even_cprlon : ℚ) * ((cprNLFunction rlat1 : ℚ) - 1)) -
        ((a.odd_cprlon : ℚ) * (cprNLFunction rlat1 : ℚ))) / 131072 + 1 / 2⌋) a.odd_cprlon ho
      rw [if_neg hs0] at hk
      split_ifs with hgt
      · constructor <;> linarith [hk.1, hk.2]
      · constructor <;> linarith [hk.1, hk.2]
    · rw [if_neg hf]
      have hk := key rlat0 0 (⌊(((a.even_cprlon : ℚ) * ((cprNLFunction rlat0 : ℚ) - 1)) -
        ((a.odd_cprlon : ℚ) * (cprNLFunction rlat0 : ℚ))) / 131072 + 1 / 2⌋) a.even_cprlon he
      rw [if_neg hs0] at hk
      split_ifs with hgt
      · constructor <;> linarith [hk.1, hk.2]
      · constructor <;> linarith [hk.1, hk.2]
  · intro hs
    rw [if_pos hs]
    by_cases hf : fflag ≠ 0
    · rw [if_pos hf]
      have hk := key rlat1 1 (⌊(((a.even_cprlon : ℚ) * ((cprNLFunction rlat1 : ℚ) - 1)) -
        ((a.odd_cprlon : ℚ) * (cprNLFunction rlat1 : ℚ))) / 131072 + 1 / 2⌋) a.odd_cprlon ho
      rw [if_pos hs] at hk
      constructor <;> linarith [hk.1, hk.2]
    · rw [if_neg hf]
      have hk := key rlat0 0 (⌊(((a.even_cprlon : ℚ) * ((cprNLFunction rlat0 : ℚ) - 1)) -
        ((a.odd_cprlon : ℚ) * (cprNLFunction rlat0 : ℚ))) / 131072 + 1 / 2⌋) a.even_cprlon he
      rw [if_pos hs] at hk
      constructor <;> linarith [hk.1, hk.2]

theorem decodeCPR_ok_lon (ext : Ext) (M : ModesState) (now : Nat) (a : aircraft)
    (fflag surface : Nat)
    (hok : (decodeCPR ext M now a fflag surface).1 = 0) :
    ∃ ref, cprReference M now a surface = some ref ∧
      (decodeCPR ext M now a fflag surface).2.lon =
        cprLongitude a fflag surface (cprLatitudes ext a surface ref.1).1
          (cprLatitudes ext a surface ref.1).2 ref.2 := by
  unfold decodeCPR at hok ⊢
  cases hr : cprReference M now a surface with
  | none =>
    rw [hr] at hok
    simp at hok
  | some ref =>
    rw [hr] at hok
    refine ⟨ref, rfl, ?_⟩
    dsimp only at hok ⊢
    split_ifs at hok ⊢
    all_goals first | rfl | (simp at hok)

/-- C22, counterexample: surface decodes with raw CPR values in range and the user position
as reference.  With the reference (10, 180) the decode of the samples (93000, 51372) and
(74158, 50194) succeeds and stores a longitude between 180.6 and 180.7; with the reference
(10, -100) the decode of all-zero samples succeeds and stores the longitude -180. -/
theorem surface_longitude_outside_range :
    cprReference modesUser180 1000 aircraftPair 1 = some (10, 180) ∧
    (decodeCPR extZero modesUser180 1000 aircraftPair 0 1).1 = 0 ∧
    180.6 < (decodeCPR extZero modesUser180 1000 aircraftPair 0 1).2.lon ∧
    (decodeCPR extZero modesUser180 1000 aircraftPair 0 1).2.lon < 180.7 ∧
    cprReference modesUserWest 1000 (aircraft.zero 0) 1 = some (10, -100) ∧
    (decodeCPR extZero modesUserWest 1000 (aircraft.zero 0) 0 1).1 = 0 ∧
    (decodeCPR extZero modesUserWest 1000 (aircraft.zero 0) 0 1).2.lon = -180 := by
  decide!

/-- C22, amended: whenever `decodeCPR` returns success for raw CPR longitudes in
[0, 131071], the longitude it stores lies in (-180, 180] for an airborne decode, and for a
surface decode with the reference longitude `r` in the quadrant
`[90 floor(r/90), 90 floor(r/90) + 90)` of the reference, which lies within [-180, 180)
when `-180 <= r < 180`. -/
theorem decodeCPR_longitude_range (ext : Ext) (M : ModesState) (now : Nat) (a : aircraft)
    (fflag surface : Nat) (he : a.even_cprlon ≤ 131071) (ho : a.odd_cprlon ≤ 131071)
    (hok : (decodeCPR ext M now a fflag surface).1 = 0) :
    (surface = 0 →
      -180 < (decodeCPR ext M now a fflag surface).2.lon ∧
      (decodeCPR ext M now a fflag surface).2.lon ≤ 180) ∧
    (surface ≠ 0 →
      ∃ ref, cprReference M now a surface = some ref ∧
        (⌊ref.2 / 90⌋ : ℚ) * 90 ≤ (decodeCPR ext M now a fflag surface).2.lon ∧
        (decodeCPR ext M now a fflag surface).2.lon < (⌊ref.2 / 90⌋ : ℚ) * 90 + 90 ∧
        (-180 ≤ ref.2 → ref.2 < 180 →
          -180 ≤ (decodeCPR ext M now a fflag surface).2.lon ∧
          (decodeCPR ext M now a fflag surface).2.lon < 180)) := by
  obtain ⟨ref, href, hlon⟩ := decodeCPR_ok_lon ext M now a fflag surface hok
  have hr := cprLongitude_range a fflag surface (cprLatitudes ext a surface ref.1).1
    (cprLatitudes ext a surface ref.1).2 ref.2 he ho
  rw [hlon]
  refine ⟨hr.1, fun hs => ⟨ref, href, (hr.2 hs).1, (hr.2 hs).2, ?_⟩⟩
  intro h1 h2
  have hf1 : (-2 : Int) ≤ ⌊ref.2 / 90⌋ := by
    rw [Int.le_floor]
    rw [le_div_iff₀ (by norm_num)]
    push_cast
    linarith
  have hf2 : ⌊ref.2 / 90⌋ < (2 : Int) := by
    rw [Int.floor_lt]
    rw [div_lt_iff₀ (by norm_num)]
    push_cast
    linarith
  have hq1 : (-2 : ℚ) ≤ (⌊ref.2 / 90⌋ : ℚ) := by exact_mod_cast hf1
  have hq2 : (⌊ref.2 / 90⌋ : ℚ) ≤ 1 := by exact_mod_cast (by omega : ⌊ref.2 / 90⌋ ≤ (1 : Int))
  constructor
  · linarith [(hr.2 hs).1]
  · linarith [(hr.2 hs).2]

theorem decodeCPR_longitude_range_witness :
    -180 < (decodeCPR extZero ModesState.init 1000 aircraftPair 0 0).2.lon ∧
    (decodeCPR extZero ModesState.init 1000 aircraftPair 0 0).2.lon ≤ 180 :=
  (decodeCPR_longitude_range extZero ModesState.init 1000 aircraftPair 0 0 (by decide) (by decide)
    (by decide!)).1 rfl

/-! ### The flag word of an aircraft record (C29) -/

theorem keepsFlags_refl (x : Nat) : keepsFlags x x := fun _ _ _ h => h

theorem keepsFlags_trans {x y z : Nat} (h1 : keepsFlags x y) (h2 : keepsFlags y z) :
    keepsFlags x z := fun i hi hm hx => h2 i hi hm (h1 i hi hm hx)

theorem keepsFlags_or (x y : Nat) : keepsFlags x (x ||| y) := by
  intro i _ _ hx
  rw [Nat.testBit_or, hx]
  rfl

theorem clearBits_testBit (x m i : Nat) (hi : i < 32) (hm : m.testBit i = false) :
    (clearBits x m).testBit i = x.testBit i := by
  unfold clearBits
  have h32 : (0xFFFFFFFF : Nat).testBit i = true := by
    have : (0xFFFFFFFF : Nat) = 2 ^ 32 - 1 := by norm_num
    rw [this, Nat.testBit_two_pow_sub_one]
    exact decide_eq_true hi
  rw [Nat.testBit_and, Nat.testBit_xor, hm, h32]
  simp

theorem keepsFlags_clear_AOG (x : Nat) :
    keepsFlags x (clearBits x (MODES_ACFLAGS_LLBOTH_VALID ||| MODES_ACFLAGS_AOG)) := by
  intro i hi hm hx
  unfold MODES_ACFLAGS_CLEARABLE at hm
  rw [Nat.testBit_or, Bool.or_eq_false_iff] at hm
  rw [clearBits_testBit _ _ _ hi hm.1]
  exact hx

theorem keepsFlags_clear_REL (x : Nat) :
    keepsFlags x (clearBits x MODES_ACFLAGS_LATLON_REL_OK) := by
  intro i hi hm hx
  unfold MODES_ACFLAGS_CLEARABLE at hm
  rw [Nat.testBit_or, Bool.or_eq_false_iff] at hm
  rw [clearBits_testBit _ _ _ hi hm.2]
  exact hx

theorem bFlags_receiveStages (now : Nat) (a : aircraft) (mm : modesMessage) :
    (receiveAOG (receiveMotion (receiveSquawk (receiveAltitude (receiveCallsign
      (receiveSeen now a mm) mm) mm) mm) mm) mm).bFlags =
      (if mm.bFlags &&& MODES_ACFLAGS_AOG_VALID ≠ 0 ∧
          (a.bFlags ^^^ mm.bFlags) &&& MODES_ACFLAGS_AOG ≠ 0
       then clearBits a.bFlags (MODES_ACFLAGS_LLBOTH_VALID ||| MODES_ACFLAGS_AOG)
       else a.bFlags) := by
  have h2 : ∀ (a : aircraft), (receiveMotion a mm).bFlags = a.bFlags := by
    intro a; rfl
  have h3 : ∀ (a : aircraft), (receiveSquawk a mm).bFlags = a.bFlags := by
    intro a; unfold receiveSquawk; split_ifs <;> rfl
  have h4 : ∀ (a : aircraft), (receiveAltitude a mm).bFlags = a.bFlags := by
    intro a; unfold receiveAltitude; split_ifs <;> rfl
  have h5 : ∀ (a : aircraft), (receiveCallsign a mm).bFlags = a.bFlags := by
    intro a; unfold receiveCallsign; split_ifs <;> rfl
  have h6 : (receiveSeen now a mm).bFlags = a.bFlags := rfl
  have h1 : ∀ (a : aircraft), (receiveAOG a mm).bFlags =
      (if mm.bFlags &&& MODES_ACFLAGS_AOG_VALID ≠ 0 ∧
          (a.bFlags ^^^ mm.bFlags) &&& MODES_ACFLAGS_AOG ≠ 0
       then clearBits a.bFlags (MODES_ACFLAGS_LLBOTH_VALID ||| MODES_ACFLAGS_AOG)
       else a.bFlags) := by
    intro a
    unfold receiveAOG
    split_ifs <;> rfl
  rw [h1, h2, h3, h4, h5, h6]

theorem keeps_receiveStages (now : Nat) (a : aircraft) (mm : modesMessage) :
    keepsFlags a.bFlags (receiveAOG (receiveMotion (receiveSquawk (receiveAltitude
      (receiveCallsign (receiveSeen now a mm) mm) mm) mm) mm) mm).bFlags := by
  have h2 : ∀ (a : aircraft), (receiveMotion a mm).bFlags = a.bFlags := by
    intro a; rfl
  have h3 : ∀ (a : aircraft), (receiveSquawk a mm).bFlags = a.bFlags := by
    intro a; unfold receiveSquawk; split_ifs <;> rfl
  have h4 : ∀ (a : aircraft), (receiveAltitude a mm).bFlags = a.bFlags := by
    intro a; unfold receiveAltitude; split_ifs <;> rfl
  have h5 : ∀ (a : aircraft), (receiveCallsign a mm).bFlags = a.bFlags := by
    intro a; unfold receiveCallsign; split_ifs <;> rfl
  have h6 : (receiveSeen now a mm).bFlags = a.bFlags := rfl
  have h1 : ∀ (a : aircraft), keepsFlags a.bFlags (receiveAOG a mm).bFlags := by
    intro a
    unfold receiveAOG
    split_ifs
    · exact keepsFlags_clear_AOG _
    · exact keepsFlags_refl _
  have := h1 (receiveMotion (receiveSquawk (receiveAltitude
      (receiveCallsign (receiveSeen now a mm) mm) mm) mm) mm)
  rw [h2, h3, h4, h5, h6] at this
  exact this

theorem keeps_decodeCPR (ext : Ext) (M : ModesState) (now : Nat) (a : aircraft)
    (fflag surface : Nat) :
    keepsFlags a.bFlags (decodeCPR ext M now a fflag surface).2.bFlags := by
  unfold decodeCPR
  cases cprReference M now a surface with
  | none => exact keepsFlags_refl _
  | some ref =>
    dsimp only
    split_ifs
    all_goals first | exact keepsFlags_refl _ | exact keepsFlags_or _ _

theorem keeps_decodeCPRrelativeAt (ext : Ext) (a : aircraft) (fflag surface : Nat) (ref : ℚ × ℚ) :
    keepsFlags a.bFlags (decodeCPRrelativeAt ext a fflag surface ref).2.bFlags := by
  unfold decodeCPRrelativeAt
  lift_lets
  intros
  split_ifs
  all_goals first | exact keepsFlags_clear_REL _ | exact keepsFlags_or _ _

theorem keeps_decodeCPRrelative (ext : Ext) (M : ModesState) (a : aircraft) (fflag surface : Nat) :
    keepsFlags a.bFlags (decodeCPRrelative ext M a fflag surface).2.bFlags := by
  unfold decodeCPRrelative
  cases cprRelativeReference M a with
  | none => exact keepsFlags_refl _
  | some ref => exact keeps_decodeCPRrelativeAt ext a fflag surface ref

theorem bFlags_receiveCPRSample (ms : Nat) (a : aircraft) (mm : modesMessage) :
    (receiveCPRSample ms a mm).bFlags = a.bFlags := by
  unfold receiveCPRSample; split_ifs <;> rfl

theorem keeps_receiveCPR (ext : Ext) (M : ModesState) (now ms : Nat) (a : aircraft)
    (mm : modesMessage) :
    keepsFlags a.bFlags (receiveCPR ext M now ms a mm).1.bFlags ∧
    (∀ i, mm.bFlags.testBit i = true → (receiveCPR ext M now ms a mm).2.bFlags.testBit i =
      true) := by
  have hs := bFlags_receiveCPRSample ms a mm
  have hg := keeps_decodeCPR ext M now (receiveCPRSample ms a mm)
    (mm.bFlags &&& MODES_ACFLAGS_LLODD_VALID) (mm.bFlags &&& MODES_ACFLAGS_AOG)
  rw [hs] at hg
  have hl := keeps_decodeCPRrelative ext M (receiveCPRSample ms a mm)
    (mm.bFlags &&& MODES_ACFLAGS_LLODD_VALID) (mm.bFlags &&& MODES_ACFLAGS_AOG)
  rw [hs] at hl
  have hgl := keepsFlags_trans hg (keeps_decodeCPRrelative ext M
    (decodeCPR ext M now (receiveCPRSample ms a mm)
      (mm.bFlags &&& MODES_ACFLAGS_LLODD_VALID) (mm.bFlags &&& MODES_ACFLAGS_AOG)).2
    (mm.bFlags &&& MODES_ACFLAGS_LLODD_VALID) (mm.bFlags &&& MODES_ACFLAGS_AOG))
  have hor : ∀ i, mm.bFlags.testBit i = true →
      (mm.bFlags ||| MODES_ACFLAGS_LATLON_VALID).testBit i = true := by
    intro i hi
    rw [Nat.testBit_or, hi]
    rfl
  unfold receiveCPR
  split_ifs with h
  · dsimp only
    split_ifs
    all_goals first
      | exact ⟨hg, hor⟩ | exact ⟨hg, fun _ h => h⟩ | exact ⟨hl, hor⟩ | exact ⟨hl, fun _ h => h⟩
      | exact ⟨hgl, hor⟩ | exact ⟨hgl, fun _ h => h⟩
      | (exfalso; simp only [Bool.false_eq_true] at *)
  · exact ⟨keepsFlags_refl _, fun _ h => h⟩

theorem bFlags_receiveFlags (a : aircraft) (mm : modesMessage) :
    (receiveFlags a mm).bFlags = a.bFlags ||| mm.bFlags := by
  unfold receiveFlags; dsimp only; split_ifs <;> rfl

theorem keeps_receiveUpdate (ext : Ext) (M : ModesState) (now ms : Nat) (a : aircraft)
    (mm : modesMessage) :
    keepsFlags a.bFlags (receiveUpdate ext M now ms a mm).1.bFlags ∧
    (∀ i, mm.bFlags.testBit i = true →
      (receiveUpdate ext M now ms a mm).1.bFlags.testBit i = true) := by
  unfold receiveUpdate
  dsimp only
  rw [bFlags_receiveFlags]
  have hc := keeps_receiveCPR ext M now ms (receiveAOG (receiveMotion (receiveSquawk
    (receiveAltitude (receiveCallsign (receiveSeen now a mm) mm) mm) mm) mm) mm) mm
  constructor
  · exact keepsFlags_trans (keepsFlags_trans (keeps_receiveStages now a mm) hc.1)
      (keepsFlags_or _ _)
  · intro i hi
    rw [Nat.testBit_or, hc.2 i hi]
    simp

theorem bits_interactiveCreateAircraft (ext : Ext) (ptr : Nat) (mm : modesMessage) :
    ∀ i, mm.bFlags.testBit i = true →
      (interactiveCreateAircraft ext ptr mm).2.bFlags.testBit i = true := by
  intro i hi
  unfold interactiveCreateAircraft
  dsimp only
  split_ifs
  · exact hi
  · show (mm.bFlags ||| MODES_ACFLAGS_ALTITUDE_VALID).testBit i = true
    rw [Nat.testBit_or, hi]
    rfl
  · exact hi

/-- C29, counterexample: the aircraft `40621D` is airborne and holds an even CPR sample
(`LLEVEN_VALID` set).  A CRC-valid DF 17 frame of this aircraft with the capability 4 (on
the ground) makes `interactiveReceiveData` clear the CPR flags: `LLEVEN_VALID` is set in
the record before the call and clear after it. -/
theorem ground_message_clears_cpr_flags :
    messageGround.crcok = 1 ∧ messageGround.addr = 0x40621D ∧
    messageGround.bFlags &&& MODES_ACFLAGS_LLEITHER_VALID = 0 ∧
    (∀ a ∈ modesOldEven.aircrafts,
      a.addr = 0x40621D ∧ a.bFlags &&& MODES_ACFLAGS_LLEVEN_VALID ≠ 0) ∧
    (∀ a ∈ (interactiveReceiveData extZero modesOldEven 1700000000 1700000000000 true
        messageGround).1.aircrafts,
      a.addr = 0x40621D ∧ a.bFlags &&& MODES_ACFLAGS_LLEVEN_VALID = 0) := by
  decide!

theorem and_or_mask (x y m : Nat) : (x ||| y) &&& m = (x &&& m) ||| (y &&& m) := by
  rw [Nat.and_comm, Nat.and_or_distrib_left, Nat.and_comm, Nat.and_comm y]

theorem keepMask (x y m : Nat) (h : y &&& m = 0) : (x ||| y) &&& m = x &&& m := by
  rw [and_or_mask, h, Nat.or_zero]

theorem decodeCPR_fail_same (ext : Ext) (M : ModesState) (now : Nat) (a : aircraft)
    (fflag surface : Nat) (h : (decodeCPR ext M now a fflag surface).1 ≠ 0) :
    (decodeCPR ext M now a fflag surface).2 = a := by
  unfold decodeCPR at h ⊢
  generalize cprReference M now a surface = r at h ⊢
  cases r with
  | none => rfl
  | some ref =>
    dsimp only at h ⊢
    split_ifs at h ⊢
    all_goals first | rfl | exact absurd rfl h

theorem bFlags_decodeCPR_ok (ext : Ext) (M : ModesState) (now : Nat) (a : aircraft)
    (fflag surface : Nat) (h : (decodeCPR ext M now a fflag surface).1 = 0) :
    (decodeCPR ext M now a fflag surface).2.bFlags =
      a.bFlags ||| (MODES_ACFLAGS_LATLON_VALID ||| MODES_ACFLAGS_LATLON_REL_OK) := by
  unfold decodeCPR at h ⊢
  generalize cprReference M now a surface = r at h ⊢
  cases r with
  | none => simp at h
  | some ref =>
    dsimp only at h ⊢
    split_ifs at h ⊢
    all_goals first | rfl | (simp at h)

theorem bFlags_decodeCPRrelativeAt (ext : Ext) (a : aircraft) (fflag surface : Nat)
    (ref : ℚ × ℚ) :
    (decodeCPRrelativeAt ext a fflag surface ref).2.bFlags =
      if (decodeCPRrelativeAt ext a fflag surface ref).1 = 0 then
        a.bFlags ||| (MODES_ACFLAGS_LATLON_VALID ||| MODES_ACFLAGS_LATLON_REL_OK)
      else clearBits a.bFlags MODES_ACFLAGS_LATLON_REL_OK := by
  unfold decodeCPRrelativeAt
  lift_lets
  intros
  split_ifs <;> first | rfl | (exfalso; simp_all)

theorem relative_reference_none (M : ModesState) (a : aircraft)
    (h : cprRelativeReference M a = none) :
    a.bFlags &&& MODES_ACFLAGS_LATLON_REL_OK = 0 := by
  unfold cprRelativeReference at h
  by_contra hne
  rw [if_pos hne] at h
  cases h

theorem clear_REL_REL (x : Nat) :
    clearBits x MODES_ACFLAGS_LATLON_REL_OK &&& MODES_ACFLAGS_LATLON_REL_OK = 0 := by
  unfold clearBits
  rw [Nat.and_assoc]
  exact Nat.and_zero x

theorem clear_AOG_REL (x : Nat) :
    clearBits x (MODES_ACFLAGS_LLBOTH_VALID ||| MODES_ACFLAGS_AOG) &&&
      MODES_ACFLAGS_LATLON_REL_OK = x &&& MODES_ACFLAGS_LATLON_REL_OK := by
  unfold clearBits
  rw [Nat.and_assoc]
  rfl

theorem clear_AOG_AOG (x : Nat) :
    clearBits x (MODES_ACFLAGS_LLBOTH_VALID ||| MODES_ACFLAGS_AOG) &&&
      (MODES_ACFLAGS_LLBOTH_VALID ||| MODES_ACFLAGS_AOG) = 0 := by
  unfold clearBits
  rw [Nat.and_assoc]
  exact Nat.and_zero x

theorem clear_REL_AOG (x : Nat) :
    clearBits x MODES_ACFLAGS_LATLON_REL_OK &&&
      (MODES_ACFLAGS_LLBOTH_VALID ||| MODES_ACFLAGS_AOG) =
      x &&& (MODES_ACFLAGS_LLBOTH_VALID ||| MODES_ACFLAGS_AOG) := by
  unfold clearBits
  rw [Nat.and_assoc]
  rfl

theorem or_REL_REL (x : Nat) :
    (x ||| (MODES_ACFLAGS_LATLON_VALID ||| MODES_ACFLAGS_LATLON_REL_OK)) &&&
      MODES_ACFLAGS_LATLON_REL_OK = MODES_ACFLAGS_LATLON_REL_OK := by
  rw [and_or_mask, show (MODES_ACFLAGS_LATLON_VALID ||| MODES_ACFLAGS_LATLON_REL_OK) &&&
    MODES_ACFLAGS_LATLON_REL_OK = MODES_ACFLAGS_LATLON_REL_OK from by decide]
  apply Nat.eq_of_testBit_eq
  intro i
  rw [Nat.testBit_or, Nat.testBit_and]
  cases (MODES_ACFLAGS_LATLON_REL_OK).testBit i <;> simp

theorem REL_decodeCPRrelative (ext : Ext) (M : ModesState) (a : aircraft)
    (fflag surface : Nat) :
    (decodeCPRrelative ext M a fflag surface).2.bFlags &&& MODES_ACFLAGS_LATLON_REL_OK =
      if (decodeCPRrelative ext M a fflag surface).1 = 0 then MODES_ACFLAGS_LATLON_REL_OK
      else 0 := by
  unfold decodeCPRrelative
  cases h : cprRelativeReference M a with
  | none =>
    dsimp only
    rw [if_neg (by decide)]
    exact relative_reference_none M a h
  | some ref =>
    dsimp only
    rw [bFlags_decodeCPRrelativeAt]
    split_ifs
    · exact or_REL_REL _
    · exact clear_REL_REL _

theorem AOG_decodeCPRrelative (ext : Ext) (M : ModesState) (a : aircraft)
    (fflag surface : Nat) :
    (decodeCPRrelative ext M a fflag surface).2.bFlags &&&
        (MODES_ACFLAGS_LLBOTH_VALID ||| MODES_ACFLAGS_AOG) =
      a.bFlags &&& (MODES_ACFLAGS_LLBOTH_VALID ||| MODES_ACFLAGS_AOG) := by
  unfold decodeCPRrelative
  cases cprRelativeReference M a with
  | none => rfl
  | some ref =>
    dsimp only
    rw [bFlags_decodeCPRrelativeAt]
    split_ifs
    · exact keepMask _ _ _ (by decide)
    · exact clear_REL_AOG _

theorem AOG_decodeCPR (ext : Ext) (M : ModesState) (now : Nat) (a : aircraft)
    (fflag surface : Nat) :
    (decodeCPR ext M now a fflag surface).2.bFlags &&&
        (MODES_ACFLAGS_LLBOTH_VALID ||| MODES_ACFLAGS_AOG) =
      a.bFlags &&& (MODES_ACFLAGS_LLBOTH_VALID ||| MODES_ACFLAGS_AOG) := by
  by_cases h : (decodeCPR ext M now a fflag surface).1 = 0
  · rw [bFlags_decodeCPR_ok ext M now a fflag surface h]
    exact keepMask _ _ _ (by decide)
  · rw [decodeCPR_fail_same ext M now a fflag surface h]

/-- The flag words that `receiveCPR` leaves, on the record `s` that holds the new sample:
the air/ground and CPR-half bits are those of before, `LATLON_REL_OK` is set in the record
if one of the two decodes returns 0 and clear if none does, and the message record gains at
most `LATLON_VALID`. -/
theorem bFlags_receiveCPR (ext : Ext) (M : ModesState) (now ms : Nat) (a : aircraft)
    (mm : modesMessage) :
    (receiveCPR ext M now ms a mm).1.bFlags &&&
        (MODES_ACFLAGS_LLBOTH_VALID ||| MODES_ACFLAGS_AOG) =
      a.bFlags &&& (MODES_ACFLAGS_LLBOTH_VALID ||| MODES_ACFLAGS_AOG) ∧
    (receiveCPR ext M now ms a mm).2.bFlags &&&
        (MODES_ACFLAGS_LLBOTH_VALID ||| MODES_ACFLAGS_AOG ||| MODES_ACFLAGS_LATLON_REL_OK) =
      mm.bFlags &&&
        (MODES_ACFLAGS_LLBOTH_VALID ||| MODES_ACFLAGS_AOG ||| MODES_ACFLAGS_LATLON_REL_OK) ∧
    (receiveCPR ext M now ms a mm).1.bFlags &&& MODES_ACFLAGS_LATLON_REL_OK =
      if mm.bFlags &&& MODES_ACFLAGS_LLEITHER_VALID = 0 then
        a.bFlags &&& MODES_ACFLAGS_LATLON_REL_OK
      else if (globalCPRCondition ext (receiveCPRSample ms a mm) mm = true ∧
          (decodeCPR ext M now (receiveCPRSample ms a mm)
            (mm.bFlags &&& MODES_ACFLAGS_LLODD_VALID) (mm.bFlags &&& MODES_ACFLAGS_AOG)).1 = 0) ∨
          (decodeCPRrelative ext M (receiveCPRSample ms a mm)
            (mm.bFlags &&& MODES_ACFLAGS_LLODD_VALID) (mm.bFlags &&& MODES_ACFLAGS_AOG)).1 = 0
      then MODES_ACFLAGS_LATLON_REL_OK
      else 0 := by
  unfold receiveCPR
  by_cases hs : mm.bFlags &&& MODES_ACFLAGS_LLEITHER_VALID = 0
  · rw [if_neg (not_not.mpr hs), if_pos hs]
    exact ⟨rfl, rfl, rfl⟩
  · rw [if_pos hs, if_neg hs]
    dsimp only
    by_cases hg : globalCPRCondition ext (receiveCPRSample ms a mm) mm = true
    · by_cases hd : (decodeCPR ext M now (receiveCPRSample ms a mm)
          (mm.bFlags &&& MODES_ACFLAGS_LLODD_VALID) (mm.bFlags &&& MODES_ACFLAGS_AOG)).1 = 0
      · simp only [hg, hd, if_true, decide_True, true_and, true_or]
        refine ⟨?_, keepMask _ _ _ (by decide), ?_⟩
        · rw [AOG_decodeCPR, bFlags_receiveCPRSample]
        · rw [bFlags_decodeCPR_ok ext M now _ _ _ hd]
          exact or_REL_REL _
      · simp only [hg, hd, if_true, decide_False, Bool.false_eq_true, if_false, and_false,
          false_or, decodeCPR_fail_same ext M now _ _ _ hd]
        by_cases hl : (decodeCPRrelative ext M (receiveCPRSample ms a mm)
            (mm.bFlags &&& MODES_ACFLAGS_LLODD_VALID) (mm.bFlags &&& MODES_ACFLAGS_AOG)).1 = 0
        · simp only [hl, decide_True, if_true]
          refine ⟨?_, keepMask _ _ _ (by decide), ?_⟩
          · rw [AOG_decodeCPRrelative, bFlags_receiveCPRSample]
          · rw [REL_decodeCPRrelative, if_pos hl]
        · simp only [hl, decide_False, Bool.false_eq_true, if_false]
          refine ⟨?_, trivial, ?_⟩
          · rw [AOG_decodeCPRrelative, bFlags_receiveCPRSample]
          · rw [REL_decodeCPRrelative, if_neg hl]
    · simp only [hg, Bool.false_eq_true, if_false, false_and, false_or]
      by_cases hl : (decodeCPRrelative ext M (receiveCPRSample ms a mm)
          (mm.bFlags &&& MODES_ACFLAGS_LLODD_VALID) (mm.bFlags &&& MODES_ACFLAGS_AOG)).1 = 0
      · simp only [hl, decide_True, if_true]
        refine ⟨?_, keepMask _ _ _ (by decide), ?_⟩
        · rw [AOG_decodeCPRrelative, bFlags_receiveCPRSample]
        · rw [REL_decodeCPRrelative, if_pos hl]
      · simp only [hl, decide_False, Bool.false_eq_true, if_false]
        refine ⟨?_, trivial, ?_⟩
        · rw [AOG_decodeCPRrelative, bFlags_receiveCPRSample]
        · rw [REL_decodeCPRrelative, if_neg hl]

theorem msg_receiveCPR (ext : Ext) (M : ModesState) (now ms : Nat) (a : aircraft)
    (mm : modesMessage) (m : Nat) (hm : MODES_ACFLAGS_LATLON_VALID &&& m = 0) :
    (receiveCPR ext M now ms a mm).2.bFlags &&& m = mm.bFlags &&& m := by
  unfold receiveCPR
  split_ifs with h
  · dsimp only
    split_ifs <;> first | rfl | exact keepMask _ _ _ hm
  · rfl

/-- C29, amended: after `interactiveReceiveData` on a CRC-valid message, every bit set in
the message's `bFlags` is set in the `bFlags` of the record `r` it returns.  Of the bits
that were set in the record `a` found for the address, every one other than `LLEVEN_VALID`,
`LLODD_VALID`, `AOG` and `LATLON_REL_OK` is set in `r`; `LLEVEN_VALID`, `LLODD_VALID` and
`AOG` are in `r` those of the message alone when the message has `AOG_VALID` and an `AOG`
bit other than that of `a` (the test of line 340), and those of `a` and the message
together when not; `LATLON_REL_OK` is in `r` that of `a` and the message together when the
message carries no CPR sample, is set when one of the two decodes of lines 359..371 returns
0, and is that of the message alone when none does.  The decodes run on the record that
holds the new sample. -/
theorem flags_kept_except_clearable (ext : Ext) (M : ModesState) (now ms : Nat)
    (lockOk : Bool) (mm : modesMessage) (hok : mm.crcok ≠ 0) :
    ∃ r, (interactiveReceiveData ext M now ms lockOk mm).2.2 = some r ∧
      (∀ i, mm.bFlags.testBit i = true → r.bFlags.testBit i = true) ∧
      (∀ a, interactiveFindAircraft M.aircrafts mm.addr = some a →
        (∀ i, i < 32 → MODES_ACFLAGS_CLEARABLE.testBit i = false →
          a.bFlags.testBit i = true → r.bFlags.testBit i = true) ∧
        r.bFlags &&& (MODES_ACFLAGS_LLBOTH_VALID ||| MODES_ACFLAGS_AOG) =
          (if mm.bFlags &&& MODES_ACFLAGS_AOG_VALID ≠ 0 ∧
              (a.bFlags ^^^ mm.bFlags) &&& MODES_ACFLAGS_AOG ≠ 0
            then mm.bFlags else a.bFlags ||| mm.bFlags) &&&
            (MODES_ACFLAGS_LLBOTH_VALID ||| MODES_ACFLAGS_AOG) ∧
        r.bFlags &&& MODES_ACFLAGS_LATLON_REL_OK =
          (if mm.bFlags &&& MODES_ACFLAGS_LLEITHER_VALID = 0 then a.bFlags ||| mm.bFlags
            else if
              (globalCPRCondition ext (receiveCPRSample ms (receiveAOG (receiveMotion
                  (receiveSquawk (receiveAltitude (receiveCallsign (receiveSeen now a mm)
                    mm) mm) mm) mm) mm) mm) mm = true ∧
                (decodeCPR ext M now (receiveCPRSample ms (receiveAOG (receiveMotion
                  (receiveSquawk (receiveAltitude (receiveCallsign (receiveSeen now a mm)
                    mm) mm) mm) mm) mm) mm)
                  (mm.bFlags &&& MODES_ACFLAGS_LLODD_VALID)
                  (mm.bFlags &&& MODES_ACFLAGS_AOG)).1 = 0) ∨
              (decodeCPRrelative ext M (receiveCPRSample ms (receiveAOG (receiveMotion
                  (receiveSquawk (receiveAltitude (receiveCallsign (receiveSeen now a mm)
                    mm) mm) mm) mm) mm) mm)
                (mm.bFlags &&& MODES_ACFLAGS_LLODD_VALID)
                (mm.bFlags &&& MODES_ACFLAGS_AOG)).1 = 0
            then MODES_ACFLAGS_LATLON_REL_OK
            else mm.bFlags) &&& MODES_ACFLAGS_LATLON_REL_OK) := by
  rcases interactiveReceiveData_aircrafts ext M now ms lockOk mm hok with
    ⟨hnone, -, hr⟩ | ⟨a, hsome, -, hr⟩
  · refine ⟨_, hr, ?_, ?_⟩
    · intro i hi
      exact (keeps_receiveUpdate ext M now ms _ _).2 i
        (bits_interactiveCreateAircraft ext M.heapNext mm i hi)
    · intro a ha
      rw [hnone] at ha
      cases ha
  · refine ⟨_, hr, (keeps_receiveUpdate ext M now ms a mm).2, ?_⟩
    intro a0 ha0
    rw [hsome] at ha0
    cases ha0
    refine ⟨(keeps_receiveUpdate ext M now ms a mm).1, ?_, ?_⟩
    · unfold receiveUpdate
      dsimp only
      rw [bFlags_receiveFlags, and_or_mask, (bFlags_receiveCPR ext M now ms _ mm).1,
        msg_receiveCPR ext M now ms _ mm _ (by decide), bFlags_receiveStages]
      split_ifs
      · rw [clear_AOG_AOG, Nat.zero_or]
      · rw [and_or_mask]
    · unfold receiveUpdate
      dsimp only
      rw [bFlags_receiveFlags, and_or_mask, (bFlags_receiveCPR ext M now ms _ mm).2.2,
        msg_receiveCPR ext M now ms _ mm _ (by decide)]
      have hst : (receiveAOG (receiveMotion (receiveSquawk (receiveAltitude (receiveCallsign
          (receiveSeen now a mm) mm) mm) mm) mm) mm).bFlags &&& MODES_ACFLAGS_LATLON_REL_OK =
          a.bFlags &&& MODES_ACFLAGS_LATLON_REL_OK := by
        rw [bFlags_receiveStages]
        split_ifs
        · exact clear_AOG_REL _
        · rfl
      by_cases hs : mm.bFlags &&& MODES_ACFLAGS_LLEITHER_VALID = 0
      · rw [if_pos hs, if_pos hs, hst, and_or_mask]
      · rw [if_neg hs, if_neg hs]
        split_ifs
        · apply Nat.eq_of_testBit_eq
          intro i
          simp only [Nat.testBit_or, Nat.testBit_and]
          cases (MODES_ACFLAGS_LATLON_REL_OK).testBit i <;> simp
        · rw [Nat.zero_or]

theorem flags_kept_except_clearable_witness :
    ∃ r, (interactiveReceiveData extZero modesOldEven 1700000000 1700000000000 true
        messageGround).2.2 = some r ∧
      (∀ i, messageGround.bFlags.testBit i = true → r.bFlags.testBit i = true) ∧
      (∀ i, i < 32 → MODES_ACFLAGS_CLEARABLE.testBit i = false →
        (MODES_ACFLAGS_LLEVEN_VALID ||| MODES_ACFLAGS_AOG_VALID).testBit i = true →
          r.bFlags.testBit i = true) ∧
      r.bFlags &&& (MODES_ACFLAGS_LLBOTH_VALID ||| MODES_ACFLAGS_AOG) =
        messageGround.bFlags &&& (MODES_ACFLAGS_LLBOTH_VALID ||| MODES_ACFLAGS_AOG) ∧
      r.bFlags &&& MODES_ACFLAGS_LATLON_REL_OK = 0 :=
  match flags_kept_except_clearable extZero modesOldEven 1700000000 1700000000000 true
    messageGround (by decide) with
  | ⟨r, h1, h2, h3⟩ =>
    have ha : interactiveFindAircraft modesOldEven.aircrafts messageGround.addr =
        some (modesOldEven.aircrafts.headD (aircraft.zero 0)) := by decide!
    ⟨r, h1, h2, (h3 _ ha).1, (h3 _ ha).2.1.trans (by decide!),
      (h3 _ ha).2.2.trans (by decide!)⟩

/-! ### The message count of a record -/

theorem and_two_pow_eq (x n : Nat) : x &&& 2 ^ n = if x.testBit n = true then 2 ^ n else 0 := by
  apply Nat.eq_of_testBit_eq
  intro i
  by_cases hx : x.testBit n = true
  · simp only [hx, if_true, Nat.testBit_and, Nat.testBit_two_pow]
    by_cases hi : n = i
    · subst hi; simp [hx]
    · simp [hi]
  · simp only [hx, Nat.testBit_and, Nat.testBit_two_pow]
    by_cases hi : n = i
    · subst hi; simp [hx]
    · simp [hi]

theorem modeC_test_iff (f : Nat) :
    f &&& (MODEAC_MSG_MODEC_HIT ||| MODEAC_MSG_MODEC_OLD) = MODEAC_MSG_MODEC_OLD ↔
      (f &&& MODEAC_MSG_MODEC_OLD ≠ 0 ∧ f &&& MODEAC_MSG_MODEC_HIT = 0) := by
  have e1 : MODEAC_MSG_MODEC_HIT = 2 ^ 3 := by decide
  have e2 : MODEAC_MSG_MODEC_OLD = 2 ^ 5 := by decide
  rw [Nat.and_or_distrib_left, e1, e2, and_two_pow_eq, and_two_pow_eq]
  by_cases h3 : f.testBit 3 = true <;> by_cases h5 : f.testBit 5 = true <;>
    simp [h3, h5]

theorem modeC_old_iff (f : Nat) :
    f &&& MODEAC_MSG_MODEC_OLD = MODEAC_MSG_MODEC_OLD ↔ f &&& MODEAC_MSG_MODEC_OLD ≠ 0 := by
  have e2 : MODEAC_MSG_MODEC_OLD = 2 ^ 5 := by decide
  rw [e2, and_two_pow_eq]
  by_cases h5 : f.testBit 5 = true <;> simp [h5]

theorem clear_modeA_hit_K (f : Nat) :
    clearBits f MODEAC_MSG_MODEA_HIT &&& (MODEAC_MSG_MODEC_HIT ||| MODEAC_MSG_MODEC_OLD) =
      f &&& (MODEAC_MSG_MODEC_HIT ||| MODEAC_MSG_MODEC_OLD) := by
  unfold clearBits
  rw [Nat.and_assoc]
  rfl

theorem clear_modeC_hit_K (f : Nat) :
    clearBits f MODEAC_MSG_MODEC_HIT &&& (MODEAC_MSG_MODEC_HIT ||| MODEAC_MSG_MODEC_OLD) =
      f &&& MODEAC_MSG_MODEC_OLD := by
  unfold clearBits
  rw [Nat.and_assoc]
  rfl

theorem clear_modeC_old (f : Nat) :
    clearBits f MODEAC_MSG_MODEC_OLD &&& MODEAC_MSG_MODEC_OLD = 0 := by
  unfold clearBits
  rw [Nat.and_assoc]
  exact Nat.and_zero f

theorem count_receiveStages (now : Nat) (a : aircraft) (mm : modesMessage) :
    (receiveAOG (receiveMotion (receiveSquawk (receiveAltitude (receiveCallsign
      (receiveSeen now a mm) mm) mm) mm) mm) mm).messages = a.messages + 1 ∧
    (receiveAOG (receiveMotion (receiveSquawk (receiveAltitude (receiveCallsign
      (receiveSeen now a mm) mm) mm) mm) mm) mm).modeACflags &&&
        (MODEAC_MSG_MODEC_HIT ||| MODEAC_MSG_MODEC_OLD) =
      (if mm.bFlags &&& MODES_ACFLAGS_ALTITUDE_VALID ≠ 0 ∧ a.modeCcount ≠ 0 ∧
          a.altitude ≠ mm.altitude
       then a.modeACflags &&& MODEAC_MSG_MODEC_OLD
       else a.modeACflags &&& (MODEAC_MSG_MODEC_HIT ||| MODEAC_MSG_MODEC_OLD)) := by
  have h1 : ∀ (a : aircraft), countFields (receiveAOG a mm) = countFields a := by
    intro a; unfold receiveAOG; split_ifs <;> rfl
  have h2 : ∀ (a : aircraft), countFields (receiveMotion a mm) = countFields a := by
    intro a; rfl
  have h3 : ∀ (a : aircraft), (receiveSquawk a mm).messages = a.messages ∧
      (receiveSquawk a mm).modeACflags &&& (MODEAC_MSG_MODEC_HIT ||| MODEAC_MSG_MODEC_OLD) =
        a.modeACflags &&& (MODEAC_MSG_MODEC_HIT ||| MODEAC_MSG_MODEC_OLD) := by
    intro a
    unfold receiveSquawk
    split_ifs with h
    · dsimp only
      split_ifs
      · exact ⟨rfl, clear_modeA_hit_K _⟩
      · exact ⟨rfl, rfl⟩
    · exact ⟨rfl, rfl⟩
  have h4 : ∀ (a : aircraft), (receiveAltitude a mm).messages = a.messages ∧
      (receiveAltitude a mm).modeACflags &&& (MODEAC_MSG_MODEC_HIT ||| MODEAC_MSG_MODEC_OLD) =
        (if mm.bFlags &&& MODES_ACFLAGS_ALTITUDE_VALID ≠ 0 ∧ a.modeCcount ≠ 0 ∧
            a.altitude ≠ mm.altitude
         then a.modeACflags &&& MODEAC_MSG_MODEC_OLD
         else a.modeACflags &&& (MODEAC_MSG_MODEC_HIT ||| MODEAC_MSG_MODEC_OLD)) := by
    intro a
    unfold receiveAltitude
    by_cases hv : mm.bFlags &&& MODES_ACFLAGS_ALTITUDE_VALID ≠ 0
    · rw [if_pos hv]
      dsimp only
      by_cases hc : a.modeCcount ≠ 0 ∧ a.altitude ≠ mm.altitude
      · rw [if_pos hc, if_pos ⟨hv, hc⟩]
        exact ⟨rfl, clear_modeC_hit_K _⟩
      · rw [if_neg hc, if_neg (fun hh => hc hh.2)]
        exact ⟨rfl, rfl⟩
    · rw [if_neg hv, if_neg (fun hh => hv hh.1)]
      exact ⟨rfl, rfl⟩
  have h5 : ∀ (a : aircraft), countFields (receiveCallsign a mm) = countFields a ∧
      (receiveCallsign a mm).modeCcount = a.modeCcount ∧
      (receiveCallsign a mm).altitude = a.altitude := by
    intro a; unfold receiveCallsign; split_ifs <;> exact ⟨rfl, rfl, rfl⟩
  have c1 := h1 (receiveMotion (receiveSquawk (receiveAltitude (receiveCallsign
      (receiveSeen now a mm) mm) mm) mm) mm)
  have c2 := h2 (receiveSquawk (receiveAltitude (receiveCallsign
      (receiveSeen now a mm) mm) mm) mm)
  have c3 := h3 (receiveAltitude (receiveCallsign (receiveSeen now a mm) mm) mm)
  have c4 := h4 (receiveCallsign (receiveSeen now a mm) mm)
  have c5 := h5 (receiveSeen now a mm)
  unfold countFields at c1 c2 c5
  simp only [Prod.mk.injEq] at c1 c2 c5
  rw [c1.1, c1.2, c2.1, c2.2, c3.1, c3.2, c4.1, c4.2, c5.1.1, c5.1.2, c5.2.1, c5.2.2]
  exact ⟨rfl, rfl⟩

theorem count_decodeCPR (ext : Ext) (M : ModesState) (now : Nat) (a : aircraft)
    (fflag surface : Nat) :
    countFields (decodeCPR ext M now a fflag surface).2 = countFields a := by
  unfold decodeCPR
  cases cprReference M now a surface with
  | none => rfl
  | some ref => dsimp only; split_ifs <;> rfl

theorem count_decodeCPRrelativeAt (ext : Ext) (a : aircraft) (fflag surface : Nat) (ref : ℚ × ℚ) :
    countFields (decodeCPRrelativeAt ext a fflag surface ref).2 = countFields a := by
  unfold decodeCPRrelativeAt
  lift_lets; intros; split_ifs <;> rfl

theorem count_decodeCPRrelative (ext : Ext) (M : ModesState) (a : aircraft) (fflag surface : Nat) :
    countFields (decodeCPRrelative ext M a fflag surface).2 = countFields a := by
  unfold decodeCPRrelative
  cases cprRelativeReference M a with
  | none => rfl
  | some ref => exact count_decodeCPRrelativeAt ext a fflag surface ref

theorem count_receiveCPRSample (ms : Nat) (a : aircraft) (mm : modesMessage) :
    countFields (receiveCPRSample ms a mm) = countFields a := by
  unfold receiveCPRSample; split_ifs <;> rfl

theorem count_receiveCPR (ext : Ext) (M : ModesState) (now ms : Nat) (a : aircraft)
    (mm : modesMessage) :
    countFields (receiveCPR ext M now ms a mm).1 = countFields a := by
  unfold receiveCPR
  split_ifs with h
  · dsimp only
    split_ifs <;>
      simp only [count_decodeCPR ext, count_decodeCPRrelative ext, count_receiveCPRSample]
  · rfl

theorem count_receiveFlags (a : aircraft) (mm : modesMessage) :
    (receiveFlags a mm).messages =
      (if mm.msgtype = 32 ∧ a.modeACflags &&&
          (MODEAC_MSG_MODEC_HIT ||| MODEAC_MSG_MODEC_OLD) = MODEAC_MSG_MODEC_OLD
       then 1 else a.messages) ∧
    (receiveFlags a mm).modeACflags =
      (if mm.msgtype = 32 ∧ a.modeACflags &&&
          (MODEAC_MSG_MODEC_HIT ||| MODEAC_MSG_MODEC_OLD) = MODEAC_MSG_MODEC_OLD
       then clearBits a.modeACflags MODEAC_MSG_MODEC_OLD else a.modeACflags) := by
  unfold receiveFlags
  dsimp only
  split_ifs <;> exact ⟨rfl, rfl⟩

theorem count_receiveUpdate (ext : Ext) (M : ModesState) (now ms : Nat) (a : aircraft)
    (mm : modesMessage) :
    (modeCReset a mm →
      (receiveUpdate ext M now ms a mm).1.messages = 1 ∧
      (receiveUpdate ext M now ms a mm).1.modeACflags &&& MODEAC_MSG_MODEC_OLD = 0) ∧
    (¬ modeCReset a mm → (receiveUpdate ext M now ms a mm).1.messages = a.messages + 1) := by
  have hs := count_receiveStages now a mm
  have hc := count_receiveCPR ext M now ms (receiveAOG (receiveMotion (receiveSquawk
    (receiveAltitude (receiveCallsign (receiveSeen now a mm) mm) mm) mm) mm) mm) mm
  have ht := (ring_receiveCPR ext M now ms (receiveAOG (receiveMotion (receiveSquawk
    (receiveAltitude (receiveCallsign (receiveSeen now a mm) mm) mm) mm) mm) mm) mm).2
  unfold countFields at hc
  simp only [Prod.mk.injEq] at hc
  have hf := count_receiveFlags (receiveCPR ext M now ms (receiveAOG (receiveMotion (receiveSquawk
    (receiveAltitude (receiveCallsign (receiveSeen now a mm) mm) mm) mm) mm) mm) mm).1
    (receiveCPR ext M now ms (receiveAOG (receiveMotion (receiveSquawk
    (receiveAltitude (receiveCallsign (receiveSeen now a mm) mm) mm) mm) mm) mm) mm).2
  rw [ht, hc.1, hc.2, hs.1, hs.2] at hf
  have hu : (receiveUpdate ext M now ms a mm).1 =
      receiveFlags (receiveCPR ext M now ms (receiveAOG (receiveMotion (receiveSquawk
        (receiveAltitude (receiveCallsign (receiveSeen now a mm) mm) mm) mm) mm) mm) mm).1
        (receiveCPR ext M now ms (receiveAOG (receiveMotion (receiveSquawk
        (receiveAltitude (receiveCallsign (receiveSeen now a mm) mm) mm) mm) mm) mm) mm).2 := rfl
  rw [hu]
  have hiff : (mm.msgtype = 32 ∧
      (if mm.bFlags &&& MODES_ACFLAGS_ALTITUDE_VALID ≠ 0 ∧ a.modeCcount ≠ 0 ∧
          a.altitude ≠ mm.altitude
       then a.modeACflags &&& MODEAC_MSG_MODEC_OLD
       else a.modeACflags &&& (MODEAC_MSG_MODEC_HIT ||| MODEAC_MSG_MODEC_OLD)) =
        MODEAC_MSG_MODEC_OLD) ↔ modeCReset a mm := by
    unfold modeCReset
    by_cases halt : mm.bFlags &&& MODES_ACFLAGS_ALTITUDE_VALID ≠ 0 ∧ a.modeCcount ≠ 0 ∧
        a.altitude ≠ mm.altitude
    · rw [if_pos halt, modeC_old_iff]
      constructor
      · rintro ⟨h1, h2⟩; exact ⟨h1, h2, Or.inr halt⟩
      · rintro ⟨h1, h2, -⟩; exact ⟨h1, h2⟩
    · rw [if_neg halt, modeC_test_iff]
      constructor
      · rintro ⟨h1, h2, h3⟩; exact ⟨h1, h2, Or.inl h3⟩
      · rintro ⟨h1, h2, h3 | h3⟩
        · exact ⟨h1, h2, h3⟩
        · exact absurd h3 halt
  constructor
  · intro hr
    rw [hf.1, hf.2, if_pos (hiff.mpr hr), if_pos (hiff.mpr hr)]
    exact ⟨rfl, clear_modeC_old _⟩
  · intro hr
    rw [hf.1, if_neg (fun h => hr (hiff.mp h))]

theorem writeAircraft_split (l : List aircraft) (addr : Nat) (a a1 : aircraft)
    (h : interactiveFindAircraft l addr = some a) :
    ∃ pre post, l = pre ++ a :: post ∧ writeAircraft addr a1 l = pre ++ a1 :: post ∧
      ∀ b ∈ pre, b.addr ≠ addr := by
  induction l with
  | nil => simp [interactiveFindAircraft] at h
  | cons b l ih =>
    unfold interactiveFindAircraft at h
    unfold writeAircraft
    by_cases hb : b.addr = addr
    · rw [if_pos hb] at h
      rw [if_pos hb]
      cases h
      exact ⟨[], l, rfl, rfl, fun _ hx => absurd hx (List.not_mem_nil _)⟩
    · rw [if_neg hb] at h
      rw [if_neg hb]
      obtain ⟨pre, post, h1, h2, h3⟩ := ih h
      refine ⟨b :: pre, post, by rw [h1]; rfl, by rw [h2]; rfl, ?_⟩
      intro x hx
      rcases List.mem_cons.mp hx with hx | hx
      · rw [hx]; exact hb
      · exact h3 x hx

theorem create_no_reset (ext : Ext) (ptr : Nat) (mm : modesMessage) :
    (interactiveCreateAircraft ext ptr mm).1.messages = 0 := by
  unfold interactiveCreateAircraft
  dsimp only
  split_ifs <;> rfl

/-! ### The frame scan of `modesReadFromClient` (C25, C26) -/

theorem byteAt_append_length (pre rest : List Nat) :
    byteAt (pre ++ rest) pre.length = byteAt rest 0 := by
  unfold byteAt
  rw [List.getD_append_right _ _ _ _ (le_refl _), Nat.sub_self]

theorem byteAt_append_succ (pre rest : List Nat) :
    byteAt (pre ++ rest) (pre.length + 1) = byteAt rest 1 := by
  unfold byteAt
  rw [List.getD_append_right _ _ _ _ (by omega)]
  congr 1
  omega

theorem beastEscape_cons_esc (us : List Nat) :
    beastEscape (0x1A :: us) = 0x1A :: 0x1A :: beastEscape us := by
  simp [beastEscape]

theorem beastEscape_cons_ne (u : Nat) (us : List Nat) (h : u ≠ 0x1A) :
    beastEscape (u :: us) = u :: beastEscape us := by
  simp [beastEscape, h]

theorem beastEscape_length (us : List Nat) :
    (beastEscape us).length = us.length + us.count 0x1A := by
  induction us with
  | nil => rfl
  | cons u us ih =>
    by_cases h : u = 0x1A
    · subst h
      rw [beastEscape_cons_esc, List.length_cons, List.length_cons, ih, List.count_cons_self,
        List.length_cons]
      omega
    · rw [beastEscape_cons_ne u us h, List.length_cons, ih,
        List.count_cons_of_ne (fun hh => h hh.symm), List.length_cons]
      omega

theorem scanEscapes_ge (buf : List Nat) (endp : Nat) :
    ∀ (r p e : Nat), e ≤ scanEscapes buf endp r p e := by
  intro r
  induction r with
  | zero => intro p e; exact le_refl _
  | succ r ih =>
    intro p e
    unfold scanEscapes
    split_ifs
    · omega
    · exact le_trans (by omega) (ih (p + 2) (e + 1))
    · exact ih (p + 1) e

theorem scanEscapes_complete (tail : List Nat) (endp : Nat) :
    ∀ (us pre : List Nat), pre.length + (beastEscape us).length ≤ endp →
      scanEscapes (pre ++ (beastEscape us ++ tail)) endp us.length pre.length
        (pre.length + us.length) = pre.length + (beastEscape us).length := by
  intro us
  induction us with
  | nil => intro pre _; rfl
  | cons u us ih =>
    intro pre hle
    have hl := beastEscape_length us
    rw [List.length_cons]
    unfold scanEscapes
    rw [byteAt_append_length]
    by_cases h : u = 0x1A
    · subst h
      rw [beastEscape_cons_esc] at hle ⊢
      simp only [List.length_cons] at hle ⊢
      have hb : byteAt (0x1A :: 0x1A :: beastEscape us ++ tail) 0 = 0x1A := rfl
      rw [hb, if_pos rfl, if_neg (by omega)]
      have hlen : (pre ++ [0x1A, 0x1A]).length = pre.length + 2 := by simp
      have := ih (pre ++ [0x1A, 0x1A]) (by rw [hlen]; omega)
      rw [hlen] at this
      simp only [List.append_assoc, List.cons_append, List.nil_append] at this ⊢
      have e1 : pre.length + (us.length + 1) + 1 = pre.length + 2 + us.length := by omega
      rw [e1, this]
      omega
    · rw [beastEscape_cons_ne u us h] at hle ⊢
      simp only [List.length_cons] at hle ⊢
      have hb : byteAt (u :: beastEscape us ++ tail) 0 = u := rfl
      rw [hb, if_neg (fun hh => h hh.symm)]
      have hlen : (pre ++ [u]).length = pre.length + 1 := by simp
      have := ih (pre ++ [u]) (by rw [hlen]; omega)
      rw [hlen] at this
      simp only [List.append_assoc, List.cons_append, List.nil_append] at this ⊢
      have e1 : pre.length + (us.length + 1) = pre.length + 1 + us.length := by omega
      rw [e1, this]
      omega

theorem scanEscapes_partial (post : List Nat) :
    ∀ (us pre X : List Nat), X <+: beastEscape us → X.length < (beastEscape us).length →
      pre.length + X.length <
        scanEscapes (pre ++ (X ++ post)) (pre.length + X.length) us.length pre.length
          (pre.length + us.length) := by
  intro us
  induction us with
  | nil =>
    intro pre X _ hlt
    exact absurd hlt (by simp [beastEscape])
  | cons u us ih =>
    intro pre X hpre hlt
    cases X with
    | nil =>
      have := scanEscapes_ge (pre ++ ([] ++ post)) (pre.length + ([] : List Nat).length)
        (u :: us).length pre.length (pre.length + (u :: us).length)
      simp only [List.length_cons, List.length_nil] at this ⊢
      omega
    | cons x X =>
      simp only [List.length_cons]
      unfold scanEscapes
      rw [byteAt_append_length]
      have hb : byteAt (x :: X ++ post) 0 = x := rfl
      rw [hb]
      by_cases h : u = 0x1A
      · subst h
        rw [beastEscape_cons_esc] at hpre hlt
        have hx : x = 0x1A := (List.cons_prefix_cons.mp hpre).1
        have hX := (List.cons_prefix_cons.mp hpre).2
        subst hx
        rw [if_pos rfl]
        simp only [List.length_cons] at hlt ⊢
        split_ifs with hbr
        · omega
        · cases X with
          | nil =>
            simp only [List.length_nil] at hbr
            omega
          | cons y Y =>
            have hy : y = 0x1A := (List.cons_prefix_cons.mp hX).1
            have hY := (List.cons_prefix_cons.mp hX).2
            subst hy
            simp only [List.length_cons] at hlt ⊢
            have hlen : (pre ++ [0x1A, 0x1A]).length = pre.length + 2 := by simp
            have := ih (pre ++ [0x1A, 0x1A]) Y hY (by omega)
            rw [hlen] at this
            simp only [List.append_assoc, List.cons_append, List.nil_append] at this ⊢
            have e1 : pre.length + (us.length + 1) + 1 = pre.length + 2 + us.length := by
              omega
            have e2 : pre.length + (Y.length + 1 + 1) = pre.length + 2 + Y.length := by omega
            rw [e1, e2]
            exact this
      · rw [beastEscape_cons_ne u us h] at hpre hlt
        have hx : x = u := (List.cons_prefix_cons.mp hpre).1
        have hX := (List.cons_prefix_cons.mp hpre).2
        subst hx
        rw [if_neg (fun hh => h hh.symm)]
        simp only [List.length_cons] at hlt ⊢
        have hlen : (pre ++ [x]).length = pre.length + 1 := by simp
        have := ih (pre ++ [x]) X hX (by omega)
        rw [hlen] at this
        simp only [List.append_assoc, List.cons_append, List.nil_append] at this ⊢
        have e1 : pre.length + (us.length + 1) = pre.length + 1 + us.length := by omega
        have e2 : pre.length + (X.length + 1) = pre.length + 1 + X.length := by omega
        rw [e1, e2]
        exact this

theorem memchr1A_here (buf : List Nat) (e left : Nat) (h : byteAt buf e = 0x1A)
    (hl : left ≠ 0) : memchr1A buf e left = some e := by
  obtain ⟨k, rfl⟩ := Nat.exists_eq_succ_of_ne_zero hl
  unfold memchr1A
  rw [if_pos h]

theorem beastFrameLen_wellFormed (f : BeastFrame) (h : f.wellFormed) :
    beastFrameLen f.ty = some (f.body.length + 1) ∧ f.ty ≠ 0x1A := by
  rcases h with ⟨h1, h2⟩ | ⟨h1, h2⟩ | ⟨h1, h2⟩ <;> rw [h1, h2] <;> exact ⟨rfl, by decide⟩

theorem encodeBeastFrame_length (f : BeastFrame) :
    (encodeBeastFrame f).length = (beastEscape f.body).length + 2 := rfl

theorem scanFrames_frames {σ : Type} (handler : σ → List Nat → σ) (tail : List Nat)
    (endp : Nat) :
    ∀ (frames : List BeastFrame) (pre buf : List Nat) (st : σ) (fullmsg : Bool) (fuel : Nat),
      (∀ f ∈ frames, f.wellFormed) →
      buf = pre ++ (encodeBeastFrames frames ++ tail) →
      pre.length + (encodeBeastFrames frames).length ≤ endp →
      scanFrames handler buf endp (fuel + frames.length) pre.length (endp - pre.length) st
          fullmsg =
        scanFrames handler buf endp fuel (pre.length + (encodeBeastFrames frames).length)
          (endp - (pre.length + (encodeBeastFrames frames).length))
          ((framePointers frames tail).foldl handler st) (fullmsg || !frames.isEmpty) := by
  intro frames
  induction frames with
  | nil =>
    intro pre buf st fullmsg fuel _ _ _
    simp [encodeBeastFrames, framePointers]
  | cons f fs ih =>
    intro pre buf st fullmsg fuel hwf hbuf hle
    have hf := beastFrameLen_wellFormed f (hwf f (List.mem_cons_self _ _))
    have henc : encodeBeastFrames (f :: fs) = encodeBeastFrame f ++ encodeBeastFrames fs := rfl
    have hlenf := encodeBeastFrame_length f
    rw [henc, List.length_append] at hle
    have hb1 : buf = pre ++ (0x1A :: f.ty :: (beastEscape f.body ++
        (encodeBeastFrames fs ++ tail))) := by
      rw [hbuf, henc]
      simp [encodeBeastFrame]
    have hb2 : buf = (pre ++ [0x1A]) ++ (beastEscape (f.ty :: f.body) ++
        (encodeBeastFrames fs ++ tail)) := by
      rw [hb1, beastEscape_cons_ne f.ty f.body hf.2]
      simp
    have hb3 : buf = (pre ++ encodeBeastFrame f) ++ (encodeBeastFrames fs ++ tail) := by
      rw [hb1]
      simp [encodeBeastFrame]
    have h0 : byteAt buf pre.length = 0x1A := by
      rw [hb1, byteAt_append_length]; rfl
    have h1 : byteAt buf (pre.length + 1) = f.ty := by
      rw [hb1, byteAt_append_succ]; rfl
    have hdrop : buf.drop (pre.length + 1) =
        f.ty :: (beastEscape f.body ++ (encodeBeastFrames fs ++ tail)) := by
      rw [hb1]
      have : pre ++ (0x1A :: f.ty :: (beastEscape f.body ++ (encodeBeastFrames fs ++ tail))) =
          (pre ++ [0x1A]) ++ (f.ty :: (beastEscape f.body ++ (encodeBeastFrames fs ++ tail))) := by
        simp
      rw [this]
      exact List.drop_left' (by simp)
    have hlen1 : (pre ++ [0x1A]).length = pre.length + 1 := by simp
    have hesc : scanEscapes buf endp (f.body.length + 1) (pre.length + 1)
        (pre.length + 1 + (f.body.length + 1)) = pre.length + (encodeBeastFrame f).length := by
      have := scanEscapes_complete (encodeBeastFrames fs ++ tail) endp (f.ty :: f.body)
        (pre ++ [0x1A]) (by
          rw [hlen1, beastEscape_cons_ne f.ty f.body hf.2, List.length_cons]
          omega)
      rw [← hb2, hlen1, List.length_cons, beastEscape_cons_ne f.ty f.body hf.2,
        List.length_cons] at this
      rw [this, hlenf]
      omega
    have hfuel : fuel + (f :: fs).length = (fuel + fs.length) + 1 := by
      rw [List.length_cons]; omega
    rw [hfuel, scanFrames]
    rw [if_neg (by omega), memchr1A_here buf pre.length _ h0 (by omega)]
    dsimp only
    rw [h1, hf.1]
    dsimp only
    rw [hesc, if_neg (by omega), hdrop]
    have hlen3 : (pre ++ encodeBeastFrame f).length = pre.length + (encodeBeastFrame f).length := by
      simp
    have := ih (pre ++ encodeBeastFrame f) buf
      (handler st (f.ty :: (beastEscape f.body ++ (encodeBeastFrames fs ++ tail)))) true fuel
      (fun g hg => hwf g (List.mem_cons_of_mem _ hg)) hb3 (by rw [hlen3]; omega)
    rw [hlen3] at this
    rw [this, henc, List.length_append]
    simp only [framePointers, List.foldl_cons, Bool.true_or, List.isEmpty_cons, Bool.not_false,
      Bool.or_true, Nat.add_assoc]

theorem scanFrames_left_zero {σ : Type} (handler : σ → List Nat → σ) (buf : List Nat)
    (endp fuel e : Nat) (st : σ) (fullmsg : Bool) :
    scanFrames handler buf endp fuel e 0 st fullmsg = (st, fullmsg, e) := by
  cases fuel with
  | zero => rfl
  | succ k => rw [scanFrames, if_pos rfl]

theorem encodeBeastFrames_append (fs1 fs2 : List BeastFrame) :
    encodeBeastFrames (fs1 ++ fs2) = encodeBeastFrames fs1 ++ encodeBeastFrames fs2 := by
  induction fs1 with
  | nil => rfl
  | cons f fs ih =>
    rw [List.cons_append]
    show encodeBeastFrame f ++ encodeBeastFrames (fs ++ fs2) = _
    rw [ih]
    show _ = (encodeBeastFrame f ++ encodeBeastFrames fs) ++ encodeBeastFrames fs2
    rw [List.append_assoc]

theorem encodeBeastFrames_length_ge (frames : List BeastFrame) :
    2 * frames.length ≤ (encodeBeastFrames frames).length := by
  induction frames with
  | nil => exact le_refl _
  | cons f fs ih =>
    show 2 * (f :: fs).length ≤ (encodeBeastFrame f ++ encodeBeastFrames fs).length
    rw [List.length_append, encodeBeastFrame_length, List.length_cons]
    omega

theorem scanFrames_after_frames {σ : Type} (handler : σ → List Nat → σ) (st : σ)
    (frames : List BeastFrame) (tail : List Nat) (endp : Nat)
    (hwf : ∀ f ∈ frames, f.wellFormed)
    (hle : (encodeBeastFrames frames).length ≤ endp) :
    scanFrames handler (encodeBeastFrames frames ++ tail) endp (endp + 1) 0 endp st false =
      scanFrames handler (encodeBeastFrames frames ++ tail) endp (endp + 1 - frames.length)
        (encodeBeastFrames frames).length (endp - (encodeBeastFrames frames).length)
        ((framePointers frames tail).foldl handler st) (!frames.isEmpty) := by
  have hge := encodeBeastFrames_length_ge frames
  have := scanFrames_frames handler tail endp frames [] (encodeBeastFrames frames ++ tail) st
    false (endp + 1 - frames.length) hwf rfl (by rw [List.length_nil]; omega)
  rw [List.length_nil, Nat.zero_add, Nat.sub_zero, Bool.false_or,
    show endp + 1 - frames.length + frames.length = endp + 1 by omega] at this
  exact this

/-- C25: for every buffer that is the concatenation of well-formed escaped Beast frames, the
scan of `modesReadFromClient` hands every frame, in order and once, to `decodeBinMessage`
(as the pointer to its type byte), and leaves `buflen = 0`; for each frame the loop over the
escapes computes the end offset `8 + payload length + number of doubled 0x1A` from the type
byte. -/
theorem scan_complete_frames {σ : Type} (handler : σ → List Nat → σ) (st : σ)
    (frames : List BeastFrame) (stale : List Nat) (hwf : ∀ f ∈ frames, f.wellFormed) :
    (scanClientBuffer handler st (encodeBeastFrames frames ++ 0 :: stale)
      (encodeBeastFrames frames).length).1 =
        (framePointers frames (0 :: stale)).foldl handler st ∧
    (scanClientBuffer handler st (encodeBeastFrames frames ++ 0 :: stale)
      (encodeBeastFrames frames).length).2.2.1 = 0 ∧
    (∀ fs1 f fs2, frames = fs1 ++ f :: fs2 →
      scanEscapes (encodeBeastFrames frames ++ 0 :: stale) (encodeBeastFrames frames).length
        (f.body.length - 7 + 8) ((encodeBeastFrames fs1).length + 1)
        ((encodeBeastFrames fs1).length + 1 + (f.body.length - 7 + 8)) =
      (encodeBeastFrames fs1).length + 1 + (8 + (f.body.length - 7) + f.body.count 0x1A)) := by
  have hscan := scanFrames_after_frames handler st frames (0 :: stale)
    (encodeBeastFrames frames).length hwf (le_refl _)
  rw [Nat.sub_self, scanFrames_left_zero] at hscan
  refine ⟨?_, ?_, ?_⟩
  · unfold scanClientBuffer
    dsimp only
    rw [hscan]
    split_ifs <;> rfl
  · unfold scanClientBuffer
    dsimp only
    rw [hscan]
    dsimp only
    cases frames with
    | nil => rfl
    | cons f fs =>
      rw [if_pos (by rfl)]
      exact Nat.sub_self _
  · intro fs1 f fs2 hsplit
    have hf := hwf f (by rw [hsplit]; exact List.mem_append_right _ (List.mem_cons_self _ _))
    have hty := (beastFrameLen_wellFormed f hf).2
    have h7 : 7 ≤ f.body.length := by
      rcases hf with ⟨-, h⟩ | ⟨-, h⟩ | ⟨-, h⟩ <;> omega
    have henc : encodeBeastFrames frames ++ 0 :: stale =
        (encodeBeastFrames fs1 ++ [0x1A]) ++ (beastEscape (f.ty :: f.body) ++
          (encodeBeastFrames fs2 ++ 0 :: stale)) := by
      rw [hsplit, encodeBeastFrames_append, beastEscape_cons_ne f.ty f.body hty]
      show (encodeBeastFrames fs1 ++ (encodeBeastFrame f ++ encodeBeastFrames fs2)) ++ _ = _
      simp [encodeBeastFrame]
    have hlen : (encodeBeastFrames frames).length =
        (encodeBeastFrames fs1).length + ((beastEscape f.body).length + 2) +
          (encodeBeastFrames fs2).length := by
      rw [hsplit, encodeBeastFrames_append, List.length_append]
      show _ + (encodeBeastFrame f ++ encodeBeastFrames fs2).length = _
      rw [List.length_append, encodeBeastFrame_length]
      omega
    have hlen1 : (encodeBeastFrames fs1 ++ [0x1A]).length = (encodeBeastFrames fs1).length + 1 := by
      simp
    have := scanEscapes_complete (encodeBeastFrames fs2 ++ 0 :: stale)
      (encodeBeastFrames frames).length (f.ty :: f.body) (encodeBeastFrames fs1 ++ [0x1A]) (by
        rw [hlen1, beastEscape_cons_ne f.ty f.body hty, List.length_cons, hlen]
        omega)
    rw [← henc, hlen1, List.length_cons, beastEscape_cons_ne f.ty f.body hty, List.length_cons,
      beastEscape_length] at this
    rw [show f.body.length - 7 + 8 = f.body.length + 1 by omega, this]
    omega

theorem scan_complete_frames_witness :
    (scanClientBuffer (fun (st : List (List Nat)) p => st ++ [p.take 3]) []
      (encodeBeastFrames framesTwo ++ 0 :: [0x1A, 0x33])
      (encodeBeastFrames framesTwo).length).1 = [[0x32, 0x1A, 0x1A], [0x31, 0, 0]] ∧
    (scanClientBuffer (fun (st : List (List Nat)) p => st ++ [p.take 3]) []
      (encodeBeastFrames framesTwo ++ 0 :: [0x1A, 0x33])
      (encodeBeastFrames framesTwo).length).2.2.1 = 0 :=
  ⟨(scan_complete_frames (fun (st : List (List Nat)) p => st ++ [p.take 3]) [] framesTwo
      [0x1A, 0x33] (by simp [framesTwo, BeastFrame.wellFormed, frameDF4])).1.trans (by decide),
   (scan_complete_frames (fun (st : List (List Nat)) p => st ++ [p.take 3]) [] framesTwo
      [0x1A, 0x33] (by simp [framesTwo, BeastFrame.wellFormed, frameDF4])).2.1⟩

/-- C26: a buffer of one or more complete well-formed Beast frames followed by a non-empty
proper prefix `part` of another well-formed frame.  The scan hands the complete frames to
the handler.  When `part` has at least two bytes, the buffer it leaves holds exactly the
bytes of `part`.  When `part` is the single byte `0x1A`, the scan leaves `buflen = 0`: the
byte is dropped. -/
theorem scan_partial_frame {σ : Type} (handler : σ → List Nat → σ) (st : σ)
    (frames : List BeastFrame) (g : BeastFrame) (part stale : List Nat)
    (hwf : ∀ f ∈ frames, f.wellFormed) (hne : frames ≠ []) (hg : g.wellFormed)
    (hpre : part <+: encodeBeastFrame g) (hlt : part.length < (encodeBeastFrame g).length)
    (h1 : 1 ≤ part.length) :
    (scanClientBuffer handler st (encodeBeastFrames frames ++ (part ++ 0 :: stale))
      ((encodeBeastFrames frames).length + part.length)).1 =
        (framePointers frames (part ++ 0 :: stale)).foldl handler st ∧
    (2 ≤ part.length →
      (scanClientBuffer handler st (encodeBeastFrames frames ++ (part ++ 0 :: stale))
        ((encodeBeastFrames frames).length + part.length)).2.2.1 = part.length ∧
      (scanClientBuffer handler st (encodeBeastFrames frames ++ (part ++ 0 :: stale))
        ((encodeBeastFrames frames).length + part.length)).2.1.take part.length = part) ∧
    (part.length = 1 →
      (scanClientBuffer handler st (encodeBeastFrames frames ++ (part ++ 0 :: stale))
        ((encodeBeastFrames frames).length + part.length)).2.2.1 = 0) := by
  have hge := encodeBeastFrames_length_ge frames
  have hfl : 1 ≤ frames.length := List.length_pos.mpr hne
  have hemp : (!frames.isEmpty) = true := by
    cases frames with
    | nil => exact absurd rfl hne
    | cons f fs => rfl
  have hscan := scanFrames_after_frames handler st frames (part ++ 0 :: stale)
    ((encodeBeastFrames frames).length + part.length) hwf (by omega)
  rw [hemp, show (encodeBeastFrames frames).length + part.length -
    (encodeBeastFrames frames).length = part.length by omega] at hscan
  obtain ⟨k, hk⟩ : ∃ k, (encodeBeastFrames frames).length + part.length + 1 - frames.length =
      k + 2 := ⟨(encodeBeastFrames frames).length + part.length + 1 - frames.length - 2, by omega⟩
  rw [hk] at hscan
  have hgt := beastFrameLen_wellFormed g hg
  -- the first byte of the partial frame
  obtain ⟨x, X, hpart⟩ : ∃ x X, part = x :: X := by
    cases part with
    | nil => simp at h1
    | cons x X => exact ⟨x, X, rfl⟩
  subst hpart
  have hx : x = 0x1A := (List.cons_prefix_cons.mp hpre).1
  have hX : X <+: g.ty :: beastEscape g.body := (List.cons_prefix_cons.mp hpre).2
  subst hx
  have h0 : byteAt (encodeBeastFrames frames ++ (0x1A :: X ++ 0 :: stale))
      (encodeBeastFrames frames).length = 0x1A := by
    rw [byteAt_append_length]; rfl
  cases X with
  | nil =>
    have hb1 : byteAt (encodeBeastFrames frames ++ (0x1A :: [] ++ 0 :: stale))
        ((encodeBeastFrames frames).length + 1) = 0 := by
      rw [byteAt_append_succ]; rfl
    have hnone : beastFrameLen 0 = none := rfl
    have hstep : scanFrames handler (encodeBeastFrames frames ++ (0x1A :: [] ++ 0 :: stale))
        ((encodeBeastFrames frames).length + [0x1A].length) (k + 2)
        (encodeBeastFrames frames).length [0x1A].length
        ((framePointers frames (0x1A :: [] ++ 0 :: stale)).foldl handler st) true =
        ((framePointers frames (0x1A :: [] ++ 0 :: stale)).foldl handler st, true,
          (encodeBeastFrames frames).length + 1) := by
      rw [scanFrames, if_neg (by simp), memchr1A_here _ _ _ h0 (by simp)]
      dsimp only
      rw [hb1, hnone]
      dsimp only
      rw [show (encodeBeastFrames frames).length + [0x1A].length -
          ((encodeBeastFrames frames).length + 1) = 0 by simp, scanFrames_left_zero]
    rw [hstep] at hscan
    unfold scanClientBuffer
    dsimp only
    rw [hscan]
    refine ⟨rfl, fun h2 => absurd h2 (by simp), fun _ => ?_⟩
    dsimp only
    rw [if_pos rfl]
    simp
  | cons y Y =>
    have hy : y = g.ty := (List.cons_prefix_cons.mp hX).1
    have hY : Y <+: beastEscape g.body := (List.cons_prefix_cons.mp hX).2
    subst hy
    have hb1 : byteAt (encodeBeastFrames frames ++ (0x1A :: g.ty :: Y ++ 0 :: stale))
        ((encodeBeastFrames frames).length + 1) = g.ty := by
      rw [byteAt_append_succ]; rfl
    have hlen1 : (encodeBeastFrames frames ++ [0x1A]).length =
        (encodeBeastFrames frames).length + 1 := by simp
    have hbuf : encodeBeastFrames frames ++ (0x1A :: g.ty :: Y ++ 0 :: stale) =
        (encodeBeastFrames frames ++ [0x1A]) ++ ((g.ty :: Y) ++ 0 :: stale) := by simp
    have hpart := scanEscapes_partial (0 :: stale) (g.ty :: g.body)
      (encodeBeastFrames frames ++ [0x1A]) (g.ty :: Y)
      (by rw [beastEscape_cons_ne g.ty g.body hgt.2]; exact List.cons_prefix_cons.mpr ⟨rfl, hY⟩)
      (by
        rw [beastEscape_cons_ne g.ty g.body hgt.2]
        rw [encodeBeastFrame_length] at hlt
        simp only [List.length_cons] at hlt ⊢
        omega)
    rw [← hbuf, hlen1, List.length_cons] at hpart
    simp only [List.length_cons] at hpart
    rw [show (encodeBeastFrames frames).length + 1 + (Y.length + 1) =
      (encodeBeastFrames frames).length + (Y.length + 1 + 1) by omega] at hpart
    have hstep : scanFrames handler (encodeBeastFrames frames ++ (0x1A :: g.ty :: Y ++ 0 :: stale))
        ((encodeBeastFrames frames).length + (0x1A :: g.ty :: Y).length) (k + 2)
        (encodeBeastFrames frames).length (0x1A :: g.ty :: Y).length
        ((framePointers frames (0x1A :: g.ty :: Y ++ 0 :: stale)).foldl handler st) true =
        ((framePointers frames (0x1A :: g.ty :: Y ++ 0 :: stale)).foldl handler st, true,
          (encodeBeastFrames frames).length) := by
      rw [scanFrames, if_neg (by simp), memchr1A_here _ _ _ h0 (by simp)]
      dsimp only
      rw [hb1, hgt.1]
      dsimp only
      simp only [List.length_cons]
      rw [if_pos hpart]
    rw [hstep] at hscan
    unfold scanClientBuffer
    dsimp only
    rw [hscan]
    refine ⟨rfl, fun _ => ?_, fun h2 => absurd h2 (by simp)⟩
    dsimp only
    rw [if_pos rfl]
    dsimp only
    constructor
    · simp only [List.length_cons]
      omega
    · simp only [List.length_cons]
      rw [show (encodeBeastFrames frames).length + (Y.length + 1 + 1) -
        (encodeBeastFrames frames).length = Y.length + 1 + 1 by omega,
        List.drop_left, List.take_append_of_le_length (by simp)]
      simp

theorem scan_partial_frame_witness :
    (scanClientBuffer (fun (st : List (List Nat)) p => st ++ [p.take 3]) []
      (encodeBeastFrames framesTwo ++ ([0x1A] ++ 0 :: []))
      ((encodeBeastFrames framesTwo).length + [0x1A].length)).2.2.1 = 0 ∧
    (scanClientBuffer (fun (st : List (List Nat)) p => st ++ [p.take 3]) []
      (encodeBeastFrames framesTwo ++ ([0x1A, 0x33, 0x1A] ++ 0 :: []))
      ((encodeBeastFrames framesTwo).length + [0x1A, 0x33, 0x1A].length)).2.2.1 =
        [0x1A, 0x33, 0x1A].length ∧
    (scanClientBuffer (fun (st : List (List Nat)) p => st ++ [p.take 3]) []
      (encodeBeastFrames framesTwo ++ ([0x1A, 0x33, 0x1A] ++ 0 :: []))
      ((encodeBeastFrames framesTwo).length + [0x1A, 0x33, 0x1A].length)).2.1.take
        [0x1A, 0x33, 0x1A].length = [0x1A, 0x33, 0x1A] :=
  ⟨(scan_partial_frame (fun (st : List (List Nat)) p => st ++ [p.take 3]) [] framesTwo
      frameLong [0x1A] [] (by simp [framesTwo, BeastFrame.wellFormed, frameDF4])
      (List.cons_ne_nil _ _)
      (by simp [frameLong, BeastFrame.wellFormed, frameOdd]) (by decide) (by decide)
      (by decide)).2.2 rfl,
   (scan_partial_frame (fun (st : List (List Nat)) p => st ++ [p.take 3]) [] framesTwo
      frameLong [0x1A, 0x33, 0x1A] [] (by simp [framesTwo, BeastFrame.wellFormed, frameDF4])
      (List.cons_ne_nil _ _) (by simp [frameLong, BeastFrame.wellFormed, frameOdd])
      (by decide) (by decide) (by decide)).2.1 (by decide)⟩

/-! ### The bound on the iterations of the frame scan -/

theorem memchr1A_bounds (buf : List Nat) :
    ∀ (left e i : Nat), memchr1A buf e left = some i → e ≤ i ∧ i < e + left := by
  intro left
  induction left with
  | zero => intro e i h; simp [memchr1A] at h
  | succ k ih =>
    intro e i h
    unfold memchr1A at h
    split_ifs at h
    · cases h
      omega
    · have := ih (e + 1) i h
      omega

/-- The bound on the iterations of `scanFrames` is never used up: with `left = endp - e`,
any two bounds above `left` give the same result. -/
theorem scanFrames_fuel {σ : Type} (handler : σ → List Nat → σ) (buf : List Nat)
    (endp : Nat) :
    ∀ (f1 f2 e left : Nat) (st : σ) (fm : Bool), left < f1 → left < f2 → e + left = endp →
      scanFrames handler buf endp f1 e left st fm =
        scanFrames handler buf endp f2 e left st fm := by
  intro f1
  induction f1 with
  | zero => intro f2 e left st fm h; omega
  | succ k ih =>
    intro f2 e left st fm h1 h2 he
    obtain ⟨m, rfl⟩ := Nat.exists_eq_succ_of_ne_zero (by omega : f2 ≠ 0)
    rw [scanFrames, scanFrames]
    by_cases hl : left = 0
    · rw [if_pos hl, if_pos hl]
    · rw [if_neg hl, if_neg hl]
      cases hm : memchr1A buf e left with
      | none => rfl
      | some i =>
        have hb := memchr1A_bounds buf left e i hm
        dsimp only
        cases beastFrameLen (byteAt buf (i + 1)) with
        | none =>
          dsimp only
          exact ih m (i + 1) (endp - (i + 1)) st fm (by omega) (by omega) (by omega)
        | some n =>
          dsimp only
          have hge := scanEscapes_ge buf endp n (i + 1) (i + 1 + n)
          split_ifs with hgt
          · rfl
          · exact ih m _ _ _ _ (by omega) (by omega) (by omega)

/-! ### Short frames and the uninitialised message array (C27) -/

theorem checksumSpecStep_take (msg : List Nat) (n off acc i : Nat) (h : i / 8 < n) :
    checksumSpecStep (msg.take n) off acc i = checksumSpecStep msg off acc i := by
  unfold checksumSpecStep msgBit
  rw [byteAt_take msg n (i / 8) h]

theorem modesChecksum_short_take (msg : List Nat) :
    modesChecksum (msg.take 7) 56 = modesChecksum msg 56 := by
  have h1 := modesChecksumLoop_eq (msg.take 7) 56 32 0 0 (byteAt (msg.take 7) 0)
    (fun h => absurd rfl h)
  have h2 := modesChecksumLoop_eq msg 56 32 0 0 (byteAt msg 0) (fun h => absurd rfl h)
  have hf : (List.range' 0 32).foldl (checksumSpecStep (msg.take 7) 56) 0 =
      (List.range' 0 32).foldl (checksumSpecStep msg 56) 0 := by
    apply List.foldl_ext
    intro a i hi
    have : i < 32 := by
      have := List.mem_range'_1.mp hi
      omega
    exact checksumSpecStep_take msg 7 56 a i (by omega)
  unfold modesChecksum
  simp only [show (56 : Nat) - 24 = 32 from rfl, show ((56 : Nat) = 112) = False by simp,
    if_false, show (112 : Nat) - 56 = 56 from rfl]
  have e1 : ((0 : Nat) + 7) / 8 = 0 := rfl
  have e2 : (56 : Nat) + 0 = 56 := rfl
  have e3 : ((0 : Nat) + 32 + 7) / 8 = 4 := rfl
  rw [e1, e2, e3] at h1 h2
  rw [h1, h2, hf]
  simp only [byteAt_take msg 7 4 (by decide), byteAt_take msg 7 5 (by decide),
    byteAt_take msg 7 6 (by decide)]

theorem lenByType_short (b : Nat) (h : b < 128) : modesMessageLenByType (b >>> 3) = 56 := by
  unfold modesMessageLenByType
  have : b >>> 3 < 16 := by
    rw [Nat.shiftRight_eq_div_pow]
    have : (2 : Nat) ^ 3 = 8 := rfl
    omega
  have h2 : (b >>> 3) &&& 0x10 = 0 := by
    generalize b >>> 3 = x at this
    interval_cases x <;> rfl
  rw [h2]
  rfl

theorem decodeModesHeader_short (cache : IcaoCache) (now : Nat) (mm : modesMessage)
    (msg : List Nat) (h : byteAt msg 0 < 128) :
    decodeModesHeader cache now mm msg =
      (withMsg (decodeModesHeader cache now mm (msg.take 7)).1 (msg.take 14),
       (decodeModesHeader cache now mm (msg.take 7)).2) := by
  have hc : modesChecksum (msg.take 14) 56 = modesChecksum (msg.take 7) 56 := by
    have := modesChecksum_short_take (msg.take 14)
    rw [List.take_take] at this
    exact this.symm
  have ht : (msg.take 7).take 14 = msg.take 7 := by
    rw [List.take_take]
    rfl
  unfold decodeModesHeader
  simp only [withMsg, MODES_LONG_MSG_BYTES, ht, byteAt_take msg 14 0 (by decide),
    byteAt_take msg 14 1 (by decide), byteAt_take msg 14 2 (by decide),
    byteAt_take msg 14 3 (by decide), byteAt_take msg 7 0 (by decide),
    byteAt_take msg 7 1 (by decide), byteAt_take msg 7 2 (by decide),
    byteAt_take msg 7 3 (by decide), lenByType_short _ h, hc]
  split_ifs <;> rfl

theorem decodeVS_withMsg (mm : modesMessage) (m : List Nat)
    (h0 : byteAt m 0 = byteAt mm.msg 0) :
    decodeVS (withMsg mm m) = withMsg (decodeVS mm) m := by
  unfold decodeVS withMsg
  dsimp only
  rw [h0]
  split_ifs <;> rfl

theorem decodeCA_withMsg (mm : modesMessage) (m : List Nat) :
    decodeCA (withMsg mm m) = withMsg (decodeCA mm) m := by
  unfold decodeCA withMsg
  dsimp only
  split_ifs <;> rfl

theorem decodeDF5Squawk_withMsg (mm : modesMessage) (m : List Nat)
    (h2 : byteAt m 2 = byteAt mm.msg 2) (h3 : byteAt m 3 = byteAt mm.msg 3) :
    decodeDF5Squawk (withMsg mm m) = withMsg (decodeDF5Squawk mm) m := by
  unfold decodeDF5Squawk decodeSquawk withMsg
  dsimp only
  rw [h2, h3]
  split_ifs <;> rfl

theorem decodeAltitude13_withMsg (ext : Ext) (mm : modesMessage) (m : List Nat)
    (h2 : byteAt m 2 = byteAt mm.msg 2) (h3 : byteAt m 3 = byteAt mm.msg 3) :
    decodeAltitude13 ext (withMsg mm m) = withMsg (decodeAltitude13 ext mm) m := by
  unfold decodeAltitude13 withMsg
  dsimp only
  rw [h2, h3]
  split_ifs <;> rfl

theorem decodeFS_withMsg (mm : modesMessage) (m : List Nat)
    (h0 : byteAt m 0 = byteAt mm.msg 0) :
    decodeFS (withMsg mm m) = withMsg (decodeFS mm) m := by
  unfold decodeFS withMsg
  dsimp only
  rw [h0]
  split_ifs <;> rfl

theorem decodeSquitter_withMsg (ext : Ext) (mm : modesMessage) (m : List Nat)
    (ht : mm.msgtype < 16) :
    decodeSquitter ext (withMsg mm m) = withMsg (decodeSquitter ext mm) m := by
  have h1 : ¬ (mm.msgtype = 17 ∨ (mm.msgtype = 18 ∧ (mm.ca = 0 ∨ mm.ca = 1 ∨ mm.ca = 6))) := by
    omega
  unfold decodeSquitter withMsg
  dsimp only
  rw [if_neg h1, if_neg h1]

theorem decodeCommB_withMsg (mm : modesMessage) (m : List Nat) (ht : mm.msgtype < 16) :
    decodeCommB (withMsg mm m) = withMsg (decodeCommB mm) m := by
  have h1 : ¬ (mm.msgtype = 20 ∨ mm.msgtype = 21) := by omega
  unfold decodeCommB withMsg
  dsimp only
  rw [if_neg h1, if_neg h1]

/-- The field stages of `decodeModesMessage` on a record of a DF below 16 read the bytes 0, 2
and 3 of the frame copy only. -/
theorem fields_withMsg (ext : Ext) (mm : modesMessage) (m : List Nat) (ht : mm.msgtype < 16)
    (h0 : byteAt m 0 = byteAt mm.msg 0) (h2 : byteAt m 2 = byteAt mm.msg 2)
    (h3 : byteAt m 3 = byteAt mm.msg 3) :
    decodeCommB (decodeSquitter ext (decodeFS (decodeAltitude13 ext (decodeDF5Squawk
      (decodeCA (decodeVS (withMsg mm m))))))) =
    withMsg (decodeCommB (decodeSquitter ext (decodeFS (decodeAltitude13 ext (decodeDF5Squawk
      (decodeCA (decodeVS mm))))))) m := by
  have p1 := header_proj (header_decodeVS mm)
  have p2 := header_proj (header_decodeCA (decodeVS mm))
  have p3 := header_proj (header_decodeDF5Squawk (decodeCA (decodeVS mm)))
  have p4 := header_proj (header_decodeAltitude13 ext (decodeDF5Squawk (decodeCA (decodeVS mm))))
  have p5 := header_proj (header_decodeFS
    (decodeAltitude13 ext (decodeDF5Squawk (decodeCA (decodeVS mm)))))
  have p6 := header_proj (header_decodeSquitter ext (decodeFS
    (decodeAltitude13 ext (decodeDF5Squawk (decodeCA (decodeVS mm))))))
  rw [decodeVS_withMsg mm m h0, decodeCA_withMsg,
    decodeDF5Squawk_withMsg _ m (by rw [p2.1, p1.1]; exact h2) (by rw [p2.1, p1.1]; exact h3),
    decodeAltitude13_withMsg ext _ m (by rw [p3.1, p2.1, p1.1]; exact h2)
      (by rw [p3.1, p2.1, p1.1]; exact h3),
    decodeFS_withMsg _ m (by rw [p4.1, p3.1, p2.1, p1.1]; exact h0),
    decodeSquitter_withMsg ext _ m
      (by rw [p5.2.2.1, p4.2.2.1, p3.2.2.1, p2.2.2.1, p1.2.2.1]; exact ht),
    decodeCommB_withMsg _ m
      (by rw [p6.2.2.1, p5.2.2.1, p4.2.2.1, p3.2.2.1, p2.2.2.1, p1.2.2.1]; exact ht)]

theorem decodeModesHeader_msgtype (cache : IcaoCache) (now : Nat) (mm : modesMessage)
    (msg : List Nat) :
    (decodeModesHeader cache now mm msg).1.msgtype =
        byteAt (msg.take MODES_LONG_MSG_BYTES) 0 >>> 3 ∧
      (decodeModesHeader cache now mm msg).1.msgbits =
        modesMessageLenByType (byteAt (msg.take MODES_LONG_MSG_BYTES) 0 >>> 3) := by
  unfold decodeModesHeader
  lift_lets; intros; split_ifs <;> exact ⟨rfl, rfl⟩

theorem shiftRight3_lt (b : Nat) (h : b < 128) : b >>> 3 < 16 := by
  rw [Nat.shiftRight_eq_div_pow]
  have : (2 : Nat) ^ 3 = 8 := rfl
  omega

/-- A frame of a DF below 16 is decoded from its first seven bytes: the record
`decodeModesMessage` returns is the one of the frame cut to seven bytes, but for the
copy `msg`, and the cache is the same. -/
theorem decodeModesMessage_short (ext : Ext) (cache : IcaoCache) (now : Nat)
    (mm : modesMessage) (msg : List Nat) (h : byteAt msg 0 < 128) :
    decodeModesMessage ext cache now mm msg =
      (withMsg (decodeModesMessage ext cache now mm (msg.take 7)).1 (msg.take 14),
       (decodeModesMessage ext cache now mm (msg.take 7)).2) := by
  have hh := decodeModesHeader_short cache now mm msg h
  have h7 : byteAt (msg.take 7) 0 < 128 := by rw [byteAt_take msg 7 0 (by decide)]; exact h
  have ht := (decodeModesHeader_msgtype cache now mm (msg.take 7)).1
  have hm := decodeModesHeader_msg cache now mm (msg.take 7)
  have e14 : (msg.take 7).take MODES_LONG_MSG_BYTES = msg.take 7 := by
    rw [List.take_take]
    rfl
  rw [e14] at ht hm
  rw [byteAt_take msg 7 0 (by decide)] at ht
  have hlt : (decodeModesHeader cache now mm (msg.take 7)).1.msgtype < 16 := by
    rw [ht]
    exact shiftRight3_lt _ h
  unfold decodeModesMessage
  dsimp only
  rw [hh]
  by_cases hc : (decodeModesHeader cache now mm (msg.take 7)).1.crcok = 0
  · have hc2 : (withMsg (decodeModesHeader cache now mm (msg.take 7)).1 (msg.take 14)).crcok
        = 0 := hc
    rw [if_pos hc2, if_pos hc]
  · have hc2 : ¬ (withMsg (decodeModesHeader cache now mm (msg.take 7)).1 (msg.take 14)).crcok
        = 0 := hc
    rw [if_neg hc2, if_neg hc]
    rw [fields_withMsg ext _ (msg.take 14) hlt
      (by rw [hm, byteAt_take msg 14 0 (by decide), byteAt_take msg 7 0 (by decide)])
      (by rw [hm, byteAt_take msg 14 2 (by decide), byteAt_take msg 7 2 (by decide)])
      (by rw [hm, byteAt_take msg 14 3 (by decide), byteAt_take msg 7 3 (by decide)])]

theorem receiveCPR_withMsg (ext : Ext) (M : ModesState) (now ms : Nat) (a : aircraft)
    (mm : modesMessage)
    (m : List Nat) :
    receiveCPR ext M now ms a (withMsg mm m) =
      ((receiveCPR ext M now ms a mm).1, withMsg (receiveCPR ext M now ms a mm).2 m) := by
  have e0 : (withMsg mm m).bFlags = mm.bFlags := rfl
  have e1 : receiveCPRSample ms a (withMsg mm m) = receiveCPRSample ms a mm := rfl
  have e2 : ∀ x, globalCPRCondition ext x (withMsg mm m) = globalCPRCondition ext x mm :=
    fun _ => rfl
  unfold receiveCPR
  simp only [e0, e1, e2]
  split_ifs <;> rfl

theorem receiveUpdate_withMsg (ext : Ext) (M : ModesState) (now ms : Nat) (a : aircraft)
    (mm : modesMessage) (m : List Nat) :
    receiveUpdate ext M now ms a (withMsg mm m) =
      ((receiveUpdate ext M now ms a mm).1, withMsg (receiveUpdate ext M now ms a mm).2 m) := by
  have e : receiveAOG (receiveMotion (receiveSquawk (receiveAltitude (receiveCallsign
      (receiveSeen now a (withMsg mm m)) (withMsg mm m)) (withMsg mm m)) (withMsg mm m))
      (withMsg mm m)) (withMsg mm m) =
    receiveAOG (receiveMotion (receiveSquawk (receiveAltitude (receiveCallsign
      (receiveSeen now a mm) mm) mm) mm) mm) mm := rfl
  unfold receiveUpdate
  dsimp only
  rw [e, receiveCPR_withMsg ext]
  rfl

theorem interactiveCreateAircraft_withMsg (ext : Ext) (p : Nat) (mm : modesMessage)
    (m : List Nat) :
    interactiveCreateAircraft ext p (withMsg mm m) =
      ((interactiveCreateAircraft ext p mm).1,
        withMsg (interactiveCreateAircraft ext p mm).2 m) := by
  unfold interactiveCreateAircraft withMsg
  dsimp only
  split_ifs <;> rfl

/-- The frame copy `msg` of the record is read by `interactiveReceiveData` for the frame log
only: with another copy, the record it leaves is the same but for the copy, and the
aircraft list and the record returned are the same. -/
theorem interactiveReceiveData_withMsg (ext : Ext) (M : ModesState) (now ms : Nat)
    (lockOk : Bool) (mm : modesMessage) (m : List Nat) :
    (interactiveReceiveData ext M now ms lockOk (withMsg mm m)).2.1 =
      withMsg (interactiveReceiveData ext M now ms lockOk mm).2.1 m ∧
    (interactiveReceiveData ext M now ms lockOk (withMsg mm m)).2.2 =
      (interactiveReceiveData ext M now ms lockOk mm).2.2 ∧
    (interactiveReceiveData ext M now ms lockOk (withMsg mm m)).1.aircrafts =
      (interactiveReceiveData ext M now ms lockOk mm).1.aircrafts := by
  have ha : (withMsg mm m).addr = mm.addr := rfl
  have hc : (withMsg mm m).crcok = mm.crcok := rfl
  unfold interactiveReceiveData
  rw [ha, hc]
  by_cases h0 : mm.crcok = 0
  · rw [if_pos h0, if_pos h0]
    exact ⟨rfl, rfl, rfl⟩
  · rw [if_neg h0, if_neg h0]
    cases interactiveFindAircraft M.aircrafts mm.addr with
    | none =>
      dsimp only
      rw [interactiveCreateAircraft_withMsg, receiveUpdate_withMsg ext]
      exact ⟨rfl, rfl, rfl⟩
    | some a =>
      dsimp only
      rw [receiveUpdate_withMsg ext]
      exact ⟨rfl, rfl, rfl⟩

theorem useModesMessage_withMsg (ext : Ext) (M : ModesState) (now ms : Nat)
    (lockOk : Bool) (mm : modesMessage) (m : List Nat) :
    (useModesMessage ext M now ms lockOk (withMsg mm m)).2.1 =
      withMsg (useModesMessage ext M now ms lockOk mm).2.1 m ∧
    (useModesMessage ext M now ms lockOk (withMsg mm m)).2.2 =
      (useModesMessage ext M now ms lockOk mm).2.2 ∧
    (useModesMessage ext M now ms lockOk (withMsg mm m)).1.aircrafts =
      (useModesMessage ext M now ms lockOk mm).1.aircrafts := by
  have hc : (withMsg mm m).crcok = mm.crcok := rfl
  have ht : (withMsg mm m).msgtype = mm.msgtype := rfl
  unfold useModesMessage
  rw [hc, ht]
  by_cases h0 : mm.crcok ≠ 0
  · rw [if_pos h0, if_pos h0]
    exact interactiveReceiveData_withMsg ext _ now ms lockOk mm m
  · rw [if_neg h0, if_neg h0]
    exact ⟨rfl, rfl, rfl⟩

theorem useModesMessage_msgbits (ext : Ext) (M : ModesState) (now ms : Nat) (lockOk : Bool)
    (mm : modesMessage) :
    (useModesMessage ext M now ms lockOk mm).2.1.msgbits = mm.msgbits := by
  have hc : ∀ (M : ModesState) (a : aircraft) (mm : modesMessage),
      (receiveCPR ext M now ms a mm).2.msgbits = mm.msgbits := by
    intro M a mm
    unfold receiveCPR
    dsimp only
    split_ifs <;> rfl
  have hn : ∀ (p : Nat) (mm : modesMessage),
      (interactiveCreateAircraft ext p mm).2.msgbits = mm.msgbits := by
    intro p mm
    unfold interactiveCreateAircraft
    dsimp only
    split_ifs <;> rfl
  have hi : ∀ (M : ModesState),
      (interactiveReceiveData ext M now ms lockOk mm).2.1.msgbits = mm.msgbits := by
    intro M
    unfold interactiveReceiveData
    split_ifs
    · rfl
    · cases interactiveFindAircraft M.aircrafts mm.addr with
      | none =>
        dsimp only
        unfold receiveUpdate
        dsimp only
        rw [hc, hn]
      | some a =>
        dsimp only
        unfold receiveUpdate
        dsimp only
        rw [hc]
  unfold useModesMessage
  split_ifs
  · exact hi _
  · exact hi _
  · rfl

theorem decodeModesMessage_short_msgbits (ext : Ext) (cache : IcaoCache) (now : Nat)
    (mm : modesMessage) (msg : List Nat) (h : byteAt msg 0 < 128) :
    (decodeModesMessage ext cache now mm msg).1.msgbits = 56 := by
  have h1 := (header_proj (header_decodeModesMessage ext cache now mm msg)).2.1
  have h14 : byteAt (msg.take MODES_LONG_MSG_BYTES) 0 = byteAt msg 0 :=
    byteAt_take msg 14 0 (by decide)
  rw [h1, (decodeModesHeader_msgtype cache now mm msg).2, h14]
  exact lenByType_short _ h

/-- What `decodeBinMessage` does with a frame of type `'2'` whose payload has a DF below 16:
the payload alone is decoded, and the bytes the array `msg` held are carried in the copy
`msg` of the record only. -/
theorem decodeBinMessage_short (ext : Ext)
    (decodeModeAMessage : modesMessage → Nat → modesMessage) (M : ModesState) (now ms : Nat)
    (lockOk : Bool) (stack : List Nat) (T s : Nat) (P rest : List Nat)
    (hP : P.length = 7) (hdf : byteAt P 0 < 128) (hT : T < 2 ^ 48) :
    decodeBinMessage ext decodeModeAMessage M now ms lockOk stack
        (0x32 :: (beastEscape (bigEndian48 T ++ s :: P) ++ rest)) =
      ((useModesMessage ext
          { M with icao_cache := (decodeModesMessage ext M.icao_cache now
            { modesMessage.zero with timestampMsg := T, signalLevel := s } P).2 }
          now ms lockOk
          (withMsg (decodeModesMessage ext M.icao_cache now
            { modesMessage.zero with timestampMsg := T, signalLevel := s } P).1
            ((P ++ (stack.take MODES_LONG_MSG_BYTES).drop 7).take 14))).1,
       some (useModesMessage ext
          { M with icao_cache := (decodeModesMessage ext M.icao_cache now
            { modesMessage.zero with timestampMsg := T, signalLevel := s } P).2 }
          now ms lockOk
          (withMsg (decodeModesMessage ext M.icao_cache now
            { modesMessage.zero with timestampMsg := T, signalLevel := s } P).1
            ((P ++ (stack.take MODES_LONG_MSG_BYTES).drop 7).take 14))).2.1) := by
  have hl : P.length = binMessageLen M.mode_ac 0x32 := by
    rw [hP]; unfold binMessageLen; simp; rfl
  have hr := readBinMessage_escape M.mode_ac stack 0x32 T s P rest (by decide) hT hl
  rw [hP] at hr
  have h0 : byteAt (P ++ (stack.take MODES_LONG_MSG_BYTES).drop 7) 0 < 128 := by
    have : byteAt (P ++ (stack.take MODES_LONG_MSG_BYTES).drop 7) 0 = byteAt P 0 := by
      unfold byteAt
      rw [List.getD_append _ _ _ _ (by omega)]
    rw [this]; exact hdf
  have ht : (P ++ (stack.take MODES_LONG_MSG_BYTES).drop 7).take 7 = P := by
    rw [← hP, List.take_left]
  have hd := decodeModesMessage_short ext M.icao_cache now
    { modesMessage.zero with timestampMsg := T, signalLevel := s }
    (P ++ (stack.take MODES_LONG_MSG_BYTES).drop 7) h0
  rw [ht] at hd
  unfold decodeBinMessage
  have h1 : (7 : Nat) ≠ 0 := by decide
  have h2 : (7 : Nat) ≠ MODEAC_MSG_BYTES := by decide
  simp only [hr, if_pos h1, if_neg h2, ne_eq, not_false_eq_true, hd]

/-- C27: `decodeBinMessage` reads seven payload bytes of a frame of type `'2'` into its
uninitialised array `msg`, but `decodeModesMessage` draws the bit length from the DF of
the first byte.  The code at the failing input: the type `'2'` frame whose payload is the
first half `8D 48 40 D6 20 2C C3` of a DF 17 frame gives a record of 112 bits, and the
bytes 7..13 that the array held decide the CRC verdict and whether an aircraft with
callsign `KLM1023` is created.  What holds: for every seven byte payload of a DF below 16
(first byte below `0x80`) the record has 56 bits, its copy `msg` starts with the payload,
and, but for the rest of `msg`, the record and the aircraft list are the same whatever the
array held. -/
theorem short_frame_length_from_DF (ext : Ext)
    (decodeModeAMessage : modesMessage → Nat → modesMessage) (M : ModesState) (now ms : Nat)
    (lockOk : Bool) (stack1 stack2 : List Nat) (T s : Nat) (P rest : List Nat)
    (hP : P.length = 7) (hdf : byteAt P 0 < 128) (hT : T < 2 ^ 48) :
    ((decodeBinMessage extZero (fun m _ => m) ModesState.init 1000 1000000 true stackDF17
      beastShortDF17).2.map (fun mm => (mm.msgbits, mm.crcok, mm.crc, mm.msg)) =
      some (112, 1, 0, frameDF17) ∧
    (decodeBinMessage extZero (fun m _ => m) ModesState.init 1000 1000000 true
      (List.replicate 14 0) beastShortDF17).2.map (fun mm => (mm.msgbits, mm.crcok, mm.msg)) =
      some (112, 0, frameDF17.take 7 ++ List.replicate 7 0) ∧
    (decodeBinMessage extZero (fun m _ => m) ModesState.init 1000 1000000 true stackDF17
      beastShortDF17).1.aircrafts.map (fun a => (a.addr, a.flight.take 8)) =
      [(0x4840D6, "KLM1023 ".toList)] ∧
    (decodeBinMessage extZero (fun m _ => m) ModesState.init 1000 1000000 true
      (List.replicate 14 0) beastShortDF17).1.aircrafts = []) ∧
    ∃ mm1 mm2,
      (decodeBinMessage ext decodeModeAMessage M now ms lockOk stack1
        (0x32 :: (beastEscape (bigEndian48 T ++ s :: P) ++ rest))).2 = some mm1 ∧
      (decodeBinMessage ext decodeModeAMessage M now ms lockOk stack2
        (0x32 :: (beastEscape (bigEndian48 T ++ s :: P) ++ rest))).2 = some mm2 ∧
      mm1.msgbits = 56 ∧ mm1.msg.take 7 = P ∧
      withMsg mm1 [] = withMsg mm2 [] ∧
      (decodeBinMessage ext decodeModeAMessage M now ms lockOk stack1
        (0x32 :: (beastEscape (bigEndian48 T ++ s :: P) ++ rest))).1.aircrafts =
      (decodeBinMessage ext decodeModeAMessage M now ms lockOk stack2
        (0x32 :: (beastEscape (bigEndian48 T ++ s :: P) ++ rest))).1.aircrafts := by
  refine ⟨by decide!, ?_⟩
  rw [decodeBinMessage_short ext decodeModeAMessage M now ms lockOk stack1 T s P rest hP hdf hT,
    decodeBinMessage_short ext decodeModeAMessage M now ms lockOk stack2 T s P rest hP hdf hT]
  refine ⟨_, _, rfl, rfl, ?_, ?_, ?_, ?_⟩
  · rw [useModesMessage_msgbits]
    exact decodeModesMessage_short_msgbits ext _ now _ P hdf
  · have hu := useModesMessage_rx ext { M with icao_cache :=
        (decodeModesMessage ext M.icao_cache now
          { modesMessage.zero with timestampMsg := T, signalLevel := s } P).2 } now ms lockOk
      (withMsg (decodeModesMessage ext M.icao_cache now
        { modesMessage.zero with timestampMsg := T, signalLevel := s } P).1
        ((P ++ (stack1.take MODES_LONG_MSG_BYTES).drop 7).take 14))
    unfold rxFields at hu
    simp only [Prod.mk.injEq] at hu
    rw [hu.2.2]
    show ((P ++ (stack1.take MODES_LONG_MSG_BYTES).drop 7).take 14).take 7 = P
    rw [List.take_take, show min 7 14 = 7 from rfl, ← hP, List.take_left]
  · rw [(useModesMessage_withMsg ext _ now ms lockOk _ _).1,
      (useModesMessage_withMsg ext _ now ms lockOk _ _).1]
    rfl
  · rw [(useModesMessage_withMsg ext _ now ms lockOk _ _).2.2,
      (useModesMessage_withMsg ext _ now ms lockOk _ _).2.2]

theorem short_frame_length_from_DF_witness :
    frameDF4.length = 7 ∧ byteAt frameDF4 0 < 128 ∧
    ∃ mm1 mm2,
      (decodeBinMessage extZero (fun m _ => m) ModesState.init 1000 1000000 true
        (List.replicate 14 0)
        (0x32 :: (beastEscape (bigEndian48 5 ++ 9 :: frameDF4) ++ []))).2 = some mm1 ∧
      (decodeBinMessage extZero (fun m _ => m) ModesState.init 1000 1000000 true
        (List.replicate 14 0xEE)
        (0x32 :: (beastEscape (bigEndian48 5 ++ 9 :: frameDF4) ++ []))).2 = some mm2 ∧
      mm1.msgbits = 56 ∧ mm1.msg.take 7 = frameDF4 ∧
      withMsg mm1 [] = withMsg mm2 [] ∧
      (decodeBinMessage extZero (fun m _ => m) ModesState.init 1000 1000000 true
        (List.replicate 14 0)
        (0x32 :: (beastEscape (bigEndian48 5 ++ 9 :: frameDF4) ++ []))).1.aircrafts =
      (decodeBinMessage extZero (fun m _ => m) ModesState.init 1000 1000000 true
        (List.replicate 14 0xEE)
        (0x32 :: (beastEscape (bigEndian48 5 ++ 9 :: frameDF4) ++ []))).1.aircrafts :=
  ⟨by decide, by decide,
    (short_frame_length_from_DF extZero (fun m _ => m) ModesState.init 1000 1000000 true
      (List.replicate 14 0) (List.replicate 14 0xEE) 5 9 frameDF4 [] (by decide) (by decide)
      (by decide)).2⟩

/-! ### The Mode C value and the altitude fields (C40) -/

theorem clear_hit_hit (f : Nat) :
    clearBits f MODEAC_MSG_MODEC_HIT &&& MODEAC_MSG_MODEC_HIT = 0 := by
  unfold clearBits
  rw [Nat.and_assoc]
  exact Nat.and_zero f

theorem clear_modeA_hit_hit (f : Nat) :
    clearBits f MODEAC_MSG_MODEA_HIT &&& MODEAC_MSG_MODEC_HIT =
      f &&& MODEAC_MSG_MODEC_HIT := by
  unfold clearBits
  rw [Nat.and_assoc]
  rfl

theorem clear_old_hit (f : Nat) :
    clearBits f MODEAC_MSG_MODEC_OLD &&& MODEAC_MSG_MODEC_HIT =
      f &&& MODEAC_MSG_MODEC_HIT := by
  unfold clearBits
  rw [Nat.and_assoc]
  rfl

theorem alt_receiveAltitude (a : aircraft) (mm : modesMessage) :
    altFields (receiveAltitude a mm) = altAfter a mm := by
  unfold receiveAltitude altAfter
  by_cases hv : mm.bFlags &&& MODES_ACFLAGS_ALTITUDE_VALID ≠ 0
  · rw [if_pos hv, if_pos hv]
    unfold altFields
    dsimp only
    by_cases hc : a.modeCcount ≠ 0 ∧ a.altitude ≠ mm.altitude
    · simp only [if_pos hc, clear_hit_hit]
    · simp only [if_neg hc]
  · rw [if_neg hv, if_neg hv]

theorem alt_receiveStages (now : Nat) (a : aircraft) (mm : modesMessage) :
    altFields (receiveAOG (receiveMotion (receiveSquawk (receiveAltitude (receiveCallsign
      (receiveSeen now a mm) mm) mm) mm) mm) mm) = altAfter a mm := by
  have h1 : ∀ (a : aircraft), altFields (receiveAOG a mm) = altFields a := by
    intro a; unfold receiveAOG; split_ifs <;> rfl
  have h2 : ∀ (a : aircraft), altFields (receiveMotion a mm) = altFields a := by
    intro a; rfl
  have h3 : ∀ (a : aircraft), altFields (receiveSquawk a mm) = altFields a := by
    intro a
    unfold receiveSquawk altFields
    split_ifs with h
    · dsimp only
      split_ifs
      · rw [clear_modeA_hit_hit]
      · rfl
    · rfl
  have h5 : ∀ (a : aircraft), altAfter (receiveCallsign a mm) mm = altAfter a mm := by
    intro a; unfold receiveCallsign; split_ifs <;> rfl
  have h6 : altAfter (receiveSeen now a mm) mm = altAfter a mm := rfl
  rw [h1, h2, h3, alt_receiveAltitude, h5, h6]

theorem alt_decodeCPR (ext : Ext) (M : ModesState) (now : Nat) (a : aircraft)
    (fflag surface : Nat) :
    altFields (decodeCPR ext M now a fflag surface).2 = altFields a := by
  unfold decodeCPR
  cases cprReference M now a surface with
  | none => rfl
  | some ref => dsimp only; split_ifs <;> rfl

theorem alt_decodeCPRrelativeAt (ext : Ext) (a : aircraft) (fflag surface : Nat) (ref : ℚ × ℚ) :
    altFields (decodeCPRrelativeAt ext a fflag surface ref).2 = altFields a := by
  unfold decodeCPRrelativeAt
  lift_lets; intros; split_ifs <;> rfl

theorem alt_decodeCPRrelative (ext : Ext) (M : ModesState) (a : aircraft) (fflag surface : Nat) :
    altFields (decodeCPRrelative ext M a fflag surface).2 = altFields a := by
  unfold decodeCPRrelative
  cases cprRelativeReference M a with
  | none => rfl
  | some ref => exact alt_decodeCPRrelativeAt ext a fflag surface ref

theorem alt_receiveCPRSample (ms : Nat) (a : aircraft) (mm : modesMessage) :
    altFields (receiveCPRSample ms a mm) = altFields a := by
  unfold receiveCPRSample; split_ifs <;> rfl

theorem alt_receiveCPR (ext : Ext) (M : ModesState) (now ms : Nat) (a : aircraft)
    (mm : modesMessage) :
    altFields (receiveCPR ext M now ms a mm).1 = altFields a := by
  unfold receiveCPR
  split_ifs with h
  · dsimp only
    split_ifs <;>
      simp only [alt_decodeCPR ext, alt_decodeCPRrelative ext, alt_receiveCPRSample]
  · rfl

theorem alt_receiveFlags (a : aircraft) (mm : modesMessage) :
    altFields (receiveFlags a mm) = altFields a := by
  unfold receiveFlags altFields
  dsimp only
  split_ifs
  · dsimp only
    rw [clear_old_hit]
  · rfl

/-- The altitude fields of the record `interactiveReceiveData` leaves are the ones of the
altitude handling of lines 301..313. -/
theorem alt_receiveUpdate (ext : Ext) (M : ModesState) (now ms : Nat) (a : aircraft)
    (mm : modesMessage) :
    altFields (receiveUpdate ext M now ms a mm).1 = altAfter a mm := by
  unfold receiveUpdate
  dsimp only
  rw [alt_receiveFlags, alt_receiveCPR ext, alt_receiveStages]

/-- The message record that `receiveUpdate` leaves has the altitude and the altitude flag of
the one it was given. -/
theorem receiveUpdate_altitude (ext : Ext) (M : ModesState) (now ms : Nat) (a : aircraft)
    (mm : modesMessage) :
    (receiveUpdate ext M now ms a mm).2.altitude = mm.altitude ∧
    (receiveUpdate ext M now ms a mm).2.bFlags &&& MODES_ACFLAGS_ALTITUDE_VALID =
      mm.bFlags &&& MODES_ACFLAGS_ALTITUDE_VALID := by
  have e : ∀ x : Nat, (x ||| MODES_ACFLAGS_LATLON_VALID) &&& MODES_ACFLAGS_ALTITUDE_VALID =
      x &&& MODES_ACFLAGS_ALTITUDE_VALID := by
    intro x
    rw [Nat.and_comm, Nat.and_or_distrib_left]
    have : MODES_ACFLAGS_ALTITUDE_VALID &&& MODES_ACFLAGS_LATLON_VALID = 0 := by decide
    rw [this, Nat.or_zero, Nat.and_comm]
  have h : ∀ a, (receiveCPR ext M now ms a mm).2.altitude = mm.altitude ∧
      (receiveCPR ext M now ms a mm).2.bFlags &&& MODES_ACFLAGS_ALTITUDE_VALID =
        mm.bFlags &&& MODES_ACFLAGS_ALTITUDE_VALID := by
    intro a
    unfold receiveCPR
    dsimp only
    split_ifs <;> first | exact ⟨rfl, rfl⟩ | exact ⟨rfl, e _⟩
  exact h _

/-- The record and the message that `interactiveReceiveData` works on for a CRC-valid
message: the record found for the address and the message itself, or the new record and
the message as `interactiveCreateAircraft` left it.  The call leaves the message record and
returns the aircraft record of `receiveUpdate`, which is in the list. -/
theorem interactiveReceiveData_update (ext : Ext) (M : ModesState) (now ms : Nat)
    (lockOk : Bool) (mm : modesMessage) (hok : mm.crcok ≠ 0) :
    ∃ a0 m0,
      ((interactiveFindAircraft M.aircrafts mm.addr = none ∧
          a0 = (interactiveCreateAircraft ext M.heapNext mm).1 ∧
          m0 = (interactiveCreateAircraft ext M.heapNext mm).2) ∨
        (interactiveFindAircraft M.aircrafts mm.addr = some a0 ∧ m0 = mm)) ∧
      (interactiveReceiveData ext M now ms lockOk mm).2.1 = (receiveUpdate ext M now ms a0 m0).2 ∧
      (interactiveReceiveData ext M now ms lockOk mm).2.2 =
        some (receiveUpdate ext M now ms a0 m0).1 ∧
      (receiveUpdate ext M now ms a0 m0).1 ∈
        (interactiveReceiveData ext M now ms lockOk mm).1.aircrafts := by
  unfold interactiveReceiveData
  rw [if_neg hok]
  cases hfind : interactiveFindAircraft M.aircrafts mm.addr with
  | none =>
    exact ⟨_, _, Or.inl ⟨rfl, rfl, rfl⟩, rfl, rfl, List.mem_cons_self _ _⟩
  | some a =>
    refine ⟨a, mm, Or.inr ⟨rfl, rfl⟩, rfl, rfl, ?_⟩
    obtain ⟨pre, post, -, h2, -⟩ :=
      writeAircraft_split M.aircrafts mm.addr a (receiveUpdate ext M now ms a mm).1 hfind
    dsimp only
    rw [h2]
    exact List.mem_append_right _ (List.mem_cons_self _ _)

/-- C40: when `interactiveReceiveData` accepts a message and leaves it with a valid altitude
of at least 0 feet, the record it returns, which is in the aircraft list, holds that
altitude and `modeC = (altitude + 49) / 100` in truncating division, and
`|altitude - 100 * modeC| <= 50`.  The `int`s are unbounded integers here: the sum
`altitude + 49` is taken not to overflow. -/
theorem modeC_nearest_quantum (ext : Ext) (M : ModesState) (now ms : Nat) (lockOk : Bool)
    (mm : modesMessage) (hok : mm.crcok ≠ 0)
    (hvalid : (interactiveReceiveData ext M now ms lockOk mm).2.1.bFlags &&&
      MODES_ACFLAGS_ALTITUDE_VALID ≠ 0)
    (hpos : 0 ≤ (interactiveReceiveData ext M now ms lockOk mm).2.1.altitude) :
    ∃ r, (interactiveReceiveData ext M now ms lockOk mm).2.2 = some r ∧
      r ∈ (interactiveReceiveData ext M now ms lockOk mm).1.aircrafts ∧
      r.altitude = (interactiveReceiveData ext M now ms lockOk mm).2.1.altitude ∧
      r.modeC = Int.tdiv (r.altitude + 49) 100 ∧
      |r.altitude - 100 * r.modeC| ≤ 50 := by
  obtain ⟨a0, m0, -, h1, h2, h3⟩ := interactiveReceiveData_update ext M now ms lockOk mm hok
  rw [h1] at hvalid hpos
  rw [h1]
  have hu := receiveUpdate_altitude ext M now ms a0 m0
  rw [hu.2] at hvalid
  rw [hu.1] at hpos
  have ha := alt_receiveUpdate ext M now ms a0 m0
  unfold altFields altAfter at ha
  rw [if_pos hvalid] at ha
  simp only [Prod.mk.injEq] at ha
  refine ⟨_, h2, h3, by rw [ha.1, hu.1], by rw [ha.2.1, ha.1], ?_⟩
  rw [ha.2.1, ha.1, Int.tdiv_eq_ediv (by omega) (by decide), abs_le]
  constructor <;> omega

theorem modeC_nearest_quantum_witness :
    ∃ r, (interactiveReceiveData extZero modesModeC 1700000001 1700000001000 true
        messageModeC).2.2 = some r ∧
      r ∈ (interactiveReceiveData extZero modesModeC 1700000001 1700000001000 true
        messageModeC).1.aircrafts ∧
      r.altitude = (interactiveReceiveData extZero modesModeC 1700000001 1700000001000 true
        messageModeC).2.1.altitude ∧
      r.modeC = Int.tdiv (r.altitude + 49) 100 ∧
      |r.altitude - 100 * r.modeC| ≤ 50 :=
  modeC_nearest_quantum extZero modesModeC 1700000001 1700000001000 true messageModeC
    (by decide) (by decide!) (by decide!)

/-! ### The Mode C bookkeeping and the message counter (C30, C33) -/

theorem clear_keeps_mask (x k m : Nat) (h : (0xFFFFFFFF ^^^ k) &&& m = m) :
    clearBits x k &&& m = x &&& m := by
  unfold clearBits
  rw [Nat.and_assoc, h]

theorem modeACflags_receiveStages (now : Nat) (a : aircraft) (mm : modesMessage) (m : Nat)
    (h1 : (0xFFFFFFFF ^^^ MODEAC_MSG_MODEC_HIT) &&& m = m)
    (h2 : (0xFFFFFFFF ^^^ MODEAC_MSG_MODEA_HIT) &&& m = m) :
    (receiveAOG (receiveMotion (receiveSquawk (receiveAltitude (receiveCallsign
      (receiveSeen now a mm) mm) mm) mm) mm) mm).modeACflags &&& m = a.modeACflags &&& m := by
  have e1 : ∀ (a : aircraft), (receiveAOG a mm).modeACflags = a.modeACflags := by
    intro a; unfold receiveAOG; split_ifs <;> rfl
  have e2 : ∀ (a : aircraft), (receiveMotion a mm).modeACflags = a.modeACflags := by
    intro a; rfl
  have e3 : ∀ (a : aircraft), (receiveSquawk a mm).modeACflags &&& m =
      a.modeACflags &&& m := by
    intro a
    unfold receiveSquawk
    split_ifs
    · dsimp only
      split_ifs
      · exact clear_keeps_mask _ _ _ h2
      · rfl
    · rfl
  have e4 : ∀ (a : aircraft), (receiveAltitude a mm).modeACflags &&& m =
      a.modeACflags &&& m := by
    intro a
    unfold receiveAltitude
    split_ifs
    · dsimp only
      split_ifs
      · exact clear_keeps_mask _ _ _ h1
      · rfl
    · rfl
  have e5 : ∀ (a : aircraft), (receiveCallsign a mm).modeACflags = a.modeACflags := by
    intro a; unfold receiveCallsign; split_ifs <;> rfl
  have e6 : (receiveSeen now a mm).modeACflags = a.modeACflags := rfl
  rw [e1, e2, e3, e4, e5, e6]

theorem modeACflags_receiveUpdate (ext : Ext) (M : ModesState) (now ms : Nat) (a : aircraft)
    (mm : modesMessage) :
    (receiveUpdate ext M now ms a mm).1.modeACflags &&& MODEAC_MSG_FLAG =
      a.modeACflags &&& MODEAC_MSG_FLAG ∧
    ((receiveUpdate ext M now ms a mm).1.modeACflags &&& MODEAC_MSG_MODEC_OLD = 0 ∨
      (receiveUpdate ext M now ms a mm).1.modeACflags &&& MODEAC_MSG_MODEC_OLD =
        a.modeACflags &&& MODEAC_MSG_MODEC_OLD) := by
  have hc := count_receiveCPR ext M now ms (receiveAOG (receiveMotion (receiveSquawk
    (receiveAltitude (receiveCallsign (receiveSeen now a mm) mm) mm) mm) mm) mm) mm
  unfold countFields at hc
  simp only [Prod.mk.injEq] at hc
  have hf := (count_receiveFlags (receiveCPR ext M now ms (receiveAOG (receiveMotion
    (receiveSquawk (receiveAltitude (receiveCallsign (receiveSeen now a mm) mm) mm) mm) mm) mm)
    mm).1 (receiveCPR ext M now ms (receiveAOG (receiveMotion (receiveSquawk
    (receiveAltitude (receiveCallsign (receiveSeen now a mm) mm) mm) mm) mm) mm) mm).2).2
  rw [hc.2] at hf
  have hF := modeACflags_receiveStages now a mm MODEAC_MSG_FLAG (by decide) (by decide)
  have hO := modeACflags_receiveStages now a mm MODEAC_MSG_MODEC_OLD (by decide) (by decide)
  unfold receiveUpdate
  dsimp only
  rw [hf]
  split_ifs
  · refine ⟨?_, Or.inl ?_⟩
    · rw [clear_keeps_mask _ _ _ (by decide), hF]
    · unfold clearBits
      rw [Nat.and_assoc]
      exact Nat.and_zero _
  · exact ⟨hF, Or.inr hO⟩

theorem messages_receiveUpdate (ext : Ext) (M : ModesState) (now ms : Nat) (a : aircraft)
    (mm : modesMessage) : (receiveUpdate ext M now ms a mm).1.messages ≠ 0 := by
  by_cases h : modeCReset a mm
  · rw [((count_receiveUpdate ext M now ms a mm).1 h).1]
    decide
  · rw [(count_receiveUpdate ext M now ms a mm).2 h]
    omega

/-- The record that `receiveUpdate` leaves keeps the Mode C bookkeeping. -/
theorem ModeCInv_receiveUpdate (ext : Ext) (M : ModesState) (now ms : Nat) (a : aircraft)
    (mm : modesMessage)
    (h1 : a.modeACflags &&& MODEAC_MSG_FLAG ≠ 0 → a.modeCcount = 0)
    (h2 : a.modeACflags &&& MODEAC_MSG_FLAG = 0 →
      a.modeACflags &&& MODEAC_MSG_MODEC_OLD = 0 ∧
      (a.modeACflags &&& MODEAC_MSG_MODEC_HIT ≠ 0 → a.modeCcount ≠ 0)) :
    ModeCInv (receiveUpdate ext M now ms a mm).1 := by
  have ha := alt_receiveUpdate ext M now ms a mm
  unfold altAfter altFields at ha
  obtain ⟨hF, hO⟩ := modeACflags_receiveUpdate ext M now ms a mm
  refine ⟨messages_receiveUpdate ext M now ms a mm, ?_, ?_⟩
  · intro hf
    rw [hF] at hf
    have hc := h1 hf
    split_ifs at ha with hv hch
    · simp only [Prod.mk.injEq] at ha
      exact ha.2.2.1
    · simp only [Prod.mk.injEq] at ha
      rw [ha.2.2.1]
      exact hc
    · simp only [Prod.mk.injEq] at ha
      rw [ha.2.2.1]
      exact hc
  · intro hf
    rw [hF] at hf
    obtain ⟨ho, hh⟩ := h2 hf
    constructor
    · rcases hO with h | h
      · exact h
      · rw [h]; exact ho
    · split_ifs at ha with hv hch
      · simp only [Prod.mk.injEq] at ha
        intro hne
        exact absurd ha.2.2.2 hne
      · simp only [Prod.mk.injEq] at ha
        rw [ha.2.2.1, ha.2.2.2]
        exact hh
      · simp only [Prod.mk.injEq] at ha
        rw [ha.2.2.1, ha.2.2.2]
        exact hh

theorem ModeCInv_create (ext : Ext) (M : ModesState) (now ms : Nat) (ptr : Nat)
    (mm : modesMessage) :
    ModeCInv (receiveUpdate ext M now ms (interactiveCreateAircraft ext ptr mm).1
      (interactiveCreateAircraft ext ptr mm).2).1 := by
  apply ModeCInv_receiveUpdate
  · intro _
    unfold interactiveCreateAircraft
    dsimp only
    split_ifs <;> rfl
  · intro hf
    unfold interactiveCreateAircraft at hf ⊢
    dsimp only at hf ⊢
    split_ifs at hf ⊢
    · exact absurd hf
        (show (MODEAC_MSG_FLAG ||| MODEAC_MSG_MODEA_ONLY) &&& MODEAC_MSG_FLAG ≠ 0 from by decide)
    · exact absurd hf (show MODEAC_MSG_FLAG &&& MODEAC_MSG_FLAG ≠ 0 from by decide)
    · exact ⟨Nat.zero_and _, fun h => absurd (Nat.zero_and _) h⟩

/-- The call `interactiveReceiveData` keeps the Mode C bookkeeping on every record of the list. -/
theorem ModeCInv_receive (ext : Ext) (M : ModesState) (now ms : Nat) (lockOk : Bool)
    (mm : modesMessage) (hinv : ∀ b ∈ M.aircrafts, ModeCInv b) :
    ∀ b ∈ (interactiveReceiveData ext M now ms lockOk mm).1.aircrafts, ModeCInv b := by
  by_cases hok : mm.crcok = 0
  · unfold interactiveReceiveData
    rw [if_pos hok]
    exact hinv
  · rcases interactiveReceiveData_aircrafts ext M now ms lockOk mm hok with
      ⟨-, hl, -⟩ | ⟨a, hsome, hl, -⟩
    · rw [hl]
      intro b hb
      rcases List.mem_cons.mp hb with h | h
      · rw [h]
        exact ModeCInv_create ext M now ms M.heapNext mm
      · exact hinv b h
    · obtain ⟨pre, post, h1, h2, -⟩ :=
        writeAircraft_split M.aircrafts mm.addr a (receiveUpdate ext M now ms a mm).1 hsome
      rw [hl, h2]
      have ha : ModeCInv a := hinv a (by rw [h1]; simp)
      intro b hb
      rcases List.mem_append.mp hb with h | h
      · exact hinv b (by rw [h1]; exact List.mem_append_left _ h)
      · rcases List.mem_cons.mp h with h | h
        · rw [h]
          exact ModeCInv_receiveUpdate ext M now ms a mm ha.2.1 ha.2.2
        · exact hinv b (by rw [h1]; exact List.mem_append_right _ (List.mem_cons_of_mem _ h))

theorem or_keeps_mask (x v m : Nat) (h : v &&& m = 0) : (x ||| v) &&& m = x &&& m := by
  rw [Nat.and_comm, Nat.and_or_distrib_left, Nat.and_comm m v, h, Nat.or_zero, Nat.and_comm]

theorem ModeCInv_writeAt (L : List aircraft) (i : Nat) (f : aircraft → aircraft)
    (hL : ∀ j, j < L.length → ModeCInv (aircraftAt L j))
    (hf : i < L.length → ModeCInv (f (aircraftAt L i))) :
    ∀ j, j < (writeAt L i f).length → ModeCInv (aircraftAt (writeAt L i f) j) := by
  intro j hj
  rw [length_writeAt] at hj
  rw [aircraftAt_writeAt]
  split_ifs with h
  · exact hf h.2
  · exact hL j hj

theorem ModeCInv_setModeAcount (v : Nat) (a : aircraft) (h : ModeCInv a) :
    ModeCInv (setModeAcount v a) := h

theorem ModeCInv_or_other (v : Nat) (a : aircraft) (h : ModeCInv a)
    (hF : v &&& MODEAC_MSG_FLAG = 0) (hO : v &&& MODEAC_MSG_MODEC_OLD = 0)
    (hH : v &&& MODEAC_MSG_MODEC_HIT = 0) : ModeCInv (orModeACflags v a) := by
  unfold ModeCInv orModeACflags
  dsimp only
  rw [or_keeps_mask _ _ _ hF, or_keeps_mask _ _ _ hO, or_keeps_mask _ _ _ hH]
  exact h

theorem ModeCInv_or_modeA (v : Nat) (a : aircraft) (h : ModeCInv a)
    (ha : a.modeACflags &&& MODEAC_MSG_FLAG ≠ 0) (hF : v &&& MODEAC_MSG_FLAG = 0) :
    ModeCInv (orModeACflags v a) := by
  unfold ModeCInv orModeACflags
  dsimp only
  rw [or_keeps_mask _ _ _ hF]
  exact ⟨h.1, h.2.1, fun h0 => absurd h0 ha⟩

theorem ModeCInv_setModeCcount (v : Nat) (a : aircraft) (h : ModeCInv a)
    (ha : a.modeACflags &&& MODEAC_MSG_FLAG = 0) (hv : v ≠ 0) :
    ModeCInv (setModeCcount v a) := by
  unfold ModeCInv setModeCcount
  dsimp only
  exact ⟨h.1, fun h0 => absurd ha h0, fun _ => ⟨(h.2.2 ha).1, fun _ => hv⟩⟩

theorem ModeCInv_or_hit (a : aircraft) (h : ModeCInv a)
    (ha : a.modeACflags &&& MODEAC_MSG_FLAG = 0) (hc : a.modeCcount ≠ 0) :
    ModeCInv (orModeACflags MODEAC_MSG_MODEC_HIT a) := by
  unfold ModeCInv orModeACflags
  dsimp only
  rw [or_keeps_mask _ _ _ (show MODEAC_MSG_MODEC_HIT &&& MODEAC_MSG_FLAG = 0 from by decide),
    or_keeps_mask _ _ _ (show MODEAC_MSG_MODEC_HIT &&& MODEAC_MSG_MODEC_OLD = 0 from by decide)]
  exact ⟨h.1, fun h0 => absurd ha h0, fun _ => ⟨(h.2.2 ha).1, fun _ => hc⟩⟩

theorem updateModeASquawk_inv (L : List aircraft) (ia ib : Nat)
    (hL : ∀ j, j < L.length → ModeCInv (aircraftAt L j)) :
    ∀ j, j < (updateModeASquawk L ia ib).length →
      ModeCInv (aircraftAt (updateModeASquawk L ia ib) j) := by
  unfold updateModeASquawk
  dsimp only
  have s1 := ModeCInv_writeAt L ib (setModeAcount (aircraftAt L ia).messages) hL
    (fun h => ModeCInv_setModeAcount _ _ (hL ib h))
  have s2 := ModeCInv_writeAt _ ib (orModeACflags MODEAC_MSG_MODEA_HIT) s1
    (fun h => ModeCInv_or_other _ _ (s1 ib h) (by decide) (by decide) (by decide))
  have s3 := ModeCInv_writeAt _ ia (orModeACflags MODEAC_MSG_MODEA_HIT) s2
    (fun h => ModeCInv_or_other _ _ (s2 ia h) (by decide) (by decide) (by decide))
  have s4 := ModeCInv_writeAt _ ia (orModeACflags MODEAC_MSG_MODES_HIT) s3
    (fun h => ModeCInv_or_other _ _ (s3 ia h) (by decide) (by decide) (by decide))
  split_ifs
  · exact s4
  · exact s3
  · exact hL

theorem flag_writeAt_setC (L : List aircraft) (i j v : Nat) :
    (aircraftAt (writeAt L i (setModeCcount v)) j).modeACflags &&& MODEAC_MSG_FLAG =
      (aircraftAt L j).modeACflags &&& MODEAC_MSG_FLAG :=
  (modeAKey_fields _ _ (modeAKey_writeAt_setC L i j v)).2.2.2

theorem flag_writeAt_or (L : List aircraft) (i j v : Nat) (hv : v &&& MODEAC_MSG_FLAG = 0) :
    (aircraftAt (writeAt L i (orModeACflags v)) j).modeACflags &&& MODEAC_MSG_FLAG =
      (aircraftAt L j).modeACflags &&& MODEAC_MSG_FLAG :=
  (modeAKey_fields _ _ (modeAKey_writeAt_or L i j v hv)).2.2.2

theorem updateModeCAltitude_inv (L : List aircraft) (ia ib : Nat)
    (hL : ∀ j, j < L.length → ModeCInv (aircraftAt L j))
    (hia : ia < L.length)
    (ha : (aircraftAt L ia).modeACflags &&& MODEAC_MSG_FLAG ≠ 0)
    (hb : (aircraftAt L ib).modeACflags &&& MODEAC_MSG_FLAG = 0) :
    ∀ j, j < (updateModeCAltitude L ia ib).length →
      ModeCInv (aircraftAt (updateModeCAltitude L ia ib) j) := by
  unfold updateModeCAltitude
  dsimp only
  have hm : (aircraftAt L ia).messages ≠ 0 := (hL ia hia).1
  have s1 := ModeCInv_writeAt L ib (setModeCcount (aircraftAt L ia).messages) hL
    (fun h => ModeCInv_setModeCcount _ _ (hL ib h) hb hm)
  have s2 := ModeCInv_writeAt _ ib (orModeACflags MODEAC_MSG_MODEC_HIT) s1
    (fun h => by
      rw [length_writeAt] at h
      apply ModeCInv_or_hit _ (s1 ib (by rw [length_writeAt]; exact h))
      · rw [flag_writeAt_setC]; exact hb
      · rw [aircraftAt_writeAt, if_pos ⟨rfl, h⟩]
        exact hm)
  have s3 := ModeCInv_writeAt _ ia (orModeACflags MODEAC_MSG_MODEC_HIT) s2
    (fun h => by
      apply ModeCInv_or_modeA _ _ (s2 ia h) _ (by decide)
      rw [flag_writeAt_or _ _ _ _ (by decide), flag_writeAt_setC]
      exact ha)
  have s4 := ModeCInv_writeAt _ ia
    (orModeACflags (MODEAC_MSG_MODES_HIT ||| MODEAC_MSG_MODEC_OLD)) s3
    (fun h => by
      apply ModeCInv_or_modeA _ _ (s3 ia h) _ (by decide)
      rw [flag_writeAt_or _ _ _ _ (by decide), flag_writeAt_or _ _ _ _ (by decide),
        flag_writeAt_setC]
      exact ha)
  split_ifs
  · exact s4
  · exact s3
  · exact hL

theorem updateModeAStep_inv (L : List aircraft) (ia ib : Nat)
    (hL : ∀ j, j < L.length → ModeCInv (aircraftAt L j))
    (hia : ia < L.length)
    (ha : (aircraftAt L ia).modeACflags &&& MODEAC_MSG_FLAG ≠ 0) :
    ∀ j, j < (updateModeAStep ia L ib).length →
      ModeCInv (aircraftAt (updateModeAStep ia L ib) j) := by
  unfold updateModeAStep
  split_ifs with hb
  · apply updateModeCAltitude_inv _ _ _ (updateModeASquawk_inv L ia ib hL)
    · rw [updateModeASquawk_length]; exact hia
    · rw [(modeAKey_fields _ _ (updateModeASquawk_key L ia ib ia)).2.2.2]; exact ha
    · rw [(modeAKey_fields _ _ (updateModeASquawk_key L ia ib ib)).2.2.2]; exact hb
  · exact hL

theorem foldl_step_inv (ia : Nat) (is : List Nat) (L : List aircraft)
    (hL : ∀ j, j < L.length → ModeCInv (aircraftAt L j))
    (hia : ia < L.length)
    (ha : (aircraftAt L ia).modeACflags &&& MODEAC_MSG_FLAG ≠ 0) :
    ∀ j, j < (is.foldl (updateModeAStep ia) L).length →
      ModeCInv (aircraftAt (is.foldl (updateModeAStep ia) L) j) := by
  induction is generalizing L with
  | nil => exact hL
  | cons i is ih =>
    rw [List.foldl_cons]
    apply ih _ (updateModeAStep_inv L ia i hL hia ha)
    · rw [updateModeAStep_length]; exact hia
    · rw [(modeAKey_fields _ _ (updateModeAStep_key L ia i ia)).2.2.2]; exact ha

theorem mem_iff_aircraftAt (L : List aircraft) (b : aircraft) :
    b ∈ L ↔ ∃ j, j < L.length ∧ aircraftAt L j = b := by
  unfold aircraftAt
  constructor
  · intro h
    obtain ⟨j, hj, e⟩ := List.mem_iff_getElem.mp h
    exact ⟨j, hj, by rw [List.getD_eq_getElem _ _ hj]; exact e⟩
  · rintro ⟨j, hj, e⟩
    rw [List.getD_eq_getElem _ _ hj] at e
    rw [← e]
    exact List.getElem_mem _

/-- The call `interactiveUpdateAircraftModeA(a)` for a Mode A/C record `a` of the list, as at
line 249 of `interactive.c`, keeps the Mode C bookkeeping on every record of the list. -/
theorem ModeCInv_updateModeA (L : List aircraft) (ia : Nat)
    (hL : ∀ b ∈ L, ModeCInv b) (hia : ia < L.length)
    (ha : (aircraftAt L ia).modeACflags &&& MODEAC_MSG_FLAG ≠ 0) :
    ∀ b ∈ interactiveUpdateAircraftModeA L ia, ModeCInv b := by
  intro b hb
  obtain ⟨j, hj, e⟩ := (mem_iff_aircraftAt _ b).mp hb
  rw [← e]
  unfold interactiveUpdateAircraftModeA at hj ⊢
  exact foldl_step_inv ia _ L
    (fun j hj => hL _ ((mem_iff_aircraftAt L _).mpr ⟨j, hj, rfl⟩)) hia ha j hj

theorem modeCReset_iff (a : aircraft) (mm : modesMessage) (h : ModeCInv a) :
    modeCReset a mm ↔
      (mm.msgtype = 32 ∧ a.modeACflags &&& MODEAC_MSG_MODEC_OLD ≠ 0 ∧
        a.modeACflags &&& MODEAC_MSG_MODEC_HIT = 0) := by
  unfold modeCReset
  constructor
  · rintro ⟨h32, hold, hh | ⟨-, hc, -⟩⟩
    · exact ⟨h32, hold, hh⟩
    · exfalso
      by_cases hf : a.modeACflags &&& MODEAC_MSG_FLAG = 0
      · exact hold (h.2.2 hf).1
      · exact hc (h.2.1 hf)
  · rintro ⟨h32, hold, hh⟩
    exact ⟨h32, hold, Or.inl hh⟩

/-- C30: on a list whose records have the Mode C bookkeeping of the sources (`ModeCInv`),
`interactiveReceiveData` on a CRC-valid message replaces the record `a` it finds for the
address by a record `r` and leaves every other record of the list as it is; when the
message is a Mode A/C message (DF 32) and `a` has `MODEC_OLD` set and `MODEC_HIT` clear,
`r.messages` is 1 and `MODEC_OLD` is clear in `r`, and otherwise
`r.messages = a.messages + 1`; a new record is put at the head with `messages = 1`.  The
sweep only removes records, and `interactiveUpdateAircraftModeA` leaves every message count as it
is.  The bookkeeping holds again on the list that `interactiveReceiveData` leaves, and on the
list that `interactiveUpdateAircraftModeA` leaves when called for a Mode A/C record. -/
theorem messages_counter_step (ext : Ext) (M : ModesState) (now ms : Nat) (lockOk : Bool)
    (mm : modesMessage) (hok : mm.crcok ≠ 0) (hinv : ∀ b ∈ M.aircrafts, ModeCInv b) :
    (∀ a, interactiveFindAircraft M.aircrafts mm.addr = some a →
      ∃ r pre post, (interactiveReceiveData ext M now ms lockOk mm).2.2 = some r ∧
        M.aircrafts = pre ++ a :: post ∧
        (interactiveReceiveData ext M now ms lockOk mm).1.aircrafts = pre ++ r :: post ∧
        (mm.msgtype = 32 ∧ a.modeACflags &&& MODEAC_MSG_MODEC_OLD ≠ 0 ∧
            a.modeACflags &&& MODEAC_MSG_MODEC_HIT = 0 →
          r.messages = 1 ∧ r.modeACflags &&& MODEAC_MSG_MODEC_OLD = 0) ∧
        (¬ (mm.msgtype = 32 ∧ a.modeACflags &&& MODEAC_MSG_MODEC_OLD ≠ 0 ∧
            a.modeACflags &&& MODEAC_MSG_MODEC_HIT = 0) →
          r.messages = a.messages + 1)) ∧
    (interactiveFindAircraft M.aircrafts mm.addr = none →
      ∃ r, (interactiveReceiveData ext M now ms lockOk mm).2.2 = some r ∧
        (interactiveReceiveData ext M now ms lockOk mm).1.aircrafts = r :: M.aircrafts ∧
        r.messages = 1) ∧
    (∀ b ∈ (interactiveRemoveStaleAircrafts M now lockOk).aircrafts, b ∈ M.aircrafts) ∧
    (∀ ia j, (aircraftAt (interactiveUpdateAircraftModeA M.aircrafts ia) j).messages =
      (aircraftAt M.aircrafts j).messages) ∧
    (∀ b ∈ (interactiveReceiveData ext M now ms lockOk mm).1.aircrafts, ModeCInv b) ∧
    (∀ ia, ia < M.aircrafts.length →
      (aircraftAt M.aircrafts ia).modeACflags &&& MODEAC_MSG_FLAG ≠ 0 →
      ∀ b ∈ interactiveUpdateAircraftModeA M.aircrafts ia, ModeCInv b) := by
  refine ⟨?_, ?_, ?_, ?_, ModeCInv_receive ext M now ms lockOk mm hinv,
    fun ia hia ha => ModeCInv_updateModeA M.aircrafts ia hinv hia ha⟩
  · intro a ha
    rcases interactiveReceiveData_aircrafts ext M now ms lockOk mm hok with
      ⟨hnone, -, -⟩ | ⟨a0, hsome, hl, hr⟩
    · rw [hnone] at ha
      cases ha
    · have haa : a0 = a := by
        rw [hsome] at ha
        exact Option.some.inj ha
      subst haa
      obtain ⟨pre, post, h1, h2, -⟩ :=
        writeAircraft_split M.aircrafts mm.addr a0 (receiveUpdate ext M now ms a0 mm).1 hsome
      have hi : ModeCInv a0 := hinv a0 (by rw [h1]; simp)
      have hc := count_receiveUpdate ext M now ms a0 mm
      rw [modeCReset_iff a0 mm hi] at hc
      exact ⟨_, pre, post, hr, h1, by rw [hl, h2], hc.1, hc.2⟩
  · intro hnone
    rcases interactiveReceiveData_aircrafts ext M now ms lockOk mm hok with
      ⟨-, hl, hr⟩ | ⟨a0, hsome, -, -⟩
    · refine ⟨_, hr, hl, ?_⟩
      have hc := count_receiveUpdate ext M now ms (interactiveCreateAircraft ext M.heapNext mm).1
        (interactiveCreateAircraft ext M.heapNext mm).2
      by_cases hreset : modeCReset (interactiveCreateAircraft ext M.heapNext mm).1
          (interactiveCreateAircraft ext M.heapNext mm).2
      · exact (hc.1 hreset).1
      · rw [hc.2 hreset, create_no_reset]
    · rw [hnone] at hsome
      cases hsome
  · intro b hb
    unfold interactiveRemoveStaleAircrafts at hb
    split_ifs at hb
    · dsimp only at hb
      rw [removeStaleLoop_eq, List.nil_append] at hb
      exact (List.mem_filter.mp hb).1
    · exact hb
  · intro ia j
    unfold interactiveUpdateAircraftModeA
    exact (modeAKey_fields _ _ (foldl_step_key ia _ M.aircrafts j)).1

theorem messages_counter_step_witness :
    (∀ b ∈ modesModeCOld.aircrafts,
      b.messages = 20 ∧ b.modeACflags &&& MODEAC_MSG_MODEC_OLD ≠ 0 ∧
        b.modeACflags &&& MODEAC_MSG_MODEC_HIT = 0) ∧
    messageModeA.msgtype = 32 ∧
    ∃ r pre post, (interactiveReceiveData extZero modesModeCOld 1700000001 1700000001000 true
        messageModeA).2.2 = some r ∧
      modesModeCOld.aircrafts =
        pre ++ modesModeCOld.aircrafts.headD (aircraft.zero 0) :: post ∧
      (interactiveReceiveData extZero modesModeCOld 1700000001 1700000001000 true
        messageModeA).1.aircrafts = pre ++ r :: post ∧
      r.messages = 1 ∧ r.modeACflags &&& MODEAC_MSG_MODEC_OLD = 0 :=
  ⟨by decide, rfl,
    match (messages_counter_step extZero modesModeCOld 1700000001 1700000001000 true
      messageModeA (by decide) (by unfold ModeCInv; decide)).1
        (modesModeCOld.aircrafts.headD (aircraft.zero 0)) (by decide) with
    | ⟨r, pre, post, h1, h2, h3, h4, _⟩ =>
      ⟨r, pre, post, h1, h2, h3, h4 ⟨rfl, by decide, by decide⟩⟩⟩

/-- C33: after `interactiveReceiveData` processes a CRC-valid message with a valid altitude
that differs from the altitude of the record `a` found for its address, the record it
returns, which is in the aircraft list, has a Mode C hit count of 0, `MODEC_HIT` clear and
the altitude of the message.  The record `a` is one whose `MODEC_HIT`, if set, comes with
a hit count, as lines 224 and 225 of `interactive.c` set the two together on a Mode S
record and lines 303..310 clear them together (`ModeCInv`).  A record made for the message
has a hit count of 0 and `MODEC_HIT` clear as well, and the altitude of the message record
as `interactiveCreateAircraft` leaves it, if that is valid. -/
theorem altitude_change_resets_modeC (ext : Ext) (M : ModesState) (now ms : Nat)
    (lockOk : Bool) (mm : modesMessage) (hok : mm.crcok ≠ 0) :
    (∀ a, interactiveFindAircraft M.aircrafts mm.addr = some a →
      mm.bFlags &&& MODES_ACFLAGS_ALTITUDE_VALID ≠ 0 →
      a.altitude ≠ mm.altitude →
      (a.modeACflags &&& MODEAC_MSG_MODEC_HIT ≠ 0 → a.modeCcount ≠ 0) →
      ∃ r, (interactiveReceiveData ext M now ms lockOk mm).2.2 = some r ∧
        r ∈ (interactiveReceiveData ext M now ms lockOk mm).1.aircrafts ∧
        r.modeCcount = 0 ∧ r.modeACflags &&& MODEAC_MSG_MODEC_HIT = 0 ∧
        r.altitude = mm.altitude) ∧
    (interactiveFindAircraft M.aircrafts mm.addr = none →
      ∃ r, (interactiveReceiveData ext M now ms lockOk mm).2.2 = some r ∧
        r ∈ (interactiveReceiveData ext M now ms lockOk mm).1.aircrafts ∧
        r.modeCcount = 0 ∧ r.modeACflags &&& MODEAC_MSG_MODEC_HIT = 0 ∧
        ((interactiveReceiveData ext M now ms lockOk mm).2.1.bFlags &&&
            MODES_ACFLAGS_ALTITUDE_VALID ≠ 0 →
          r.altitude = (interactiveReceiveData ext M now ms lockOk mm).2.1.altitude)) := by
  obtain ⟨a0, m0, hcase, h1, h2, h3⟩ :=
    interactiveReceiveData_update ext M now ms lockOk mm hok
  have ha := alt_receiveUpdate ext M now ms a0 m0
  unfold altAfter altFields at ha
  constructor
  · intro a hfind hvalid hdiff hhit
    rcases hcase with ⟨hnone, -, -⟩ | ⟨hsome, hm⟩
    · rw [hnone] at hfind
      cases hfind
    · rw [hfind] at hsome
      cases hsome
      subst hm
      rw [if_pos hvalid] at ha
      simp only [Prod.mk.injEq] at ha
      refine ⟨_, h2, h3, ?_, ?_, ha.1⟩
      · rw [ha.2.2.1]
        by_cases hc : a0.modeCcount ≠ 0
        · rw [if_pos ⟨hc, hdiff⟩]
        · rw [if_neg (fun h => hc h.1)]
          exact not_not.mp hc
      · rw [ha.2.2.2]
        by_cases hc : a0.modeCcount ≠ 0
        · rw [if_pos ⟨hc, hdiff⟩]
        · rw [if_neg (fun h => hc h.1)]
          by_contra hne
          exact hc (hhit hne)
  · intro hfind
    rcases hcase with ⟨-, hca, hcm⟩ | ⟨hsome, -⟩
    · have hc0 : a0.modeCcount = 0 := by
        rw [hca]
        unfold interactiveCreateAircraft
        dsimp only
        split_ifs <;> rfl
      have hh0 : a0.modeACflags &&& MODEAC_MSG_MODEC_HIT = 0 := by
        rw [hca]
        unfold interactiveCreateAircraft
        dsimp only
        split_ifs
        · show (MODEAC_MSG_FLAG ||| MODEAC_MSG_MODEA_ONLY) &&& MODEAC_MSG_MODEC_HIT = 0
          decide
        · show MODEAC_MSG_FLAG &&& MODEAC_MSG_MODEC_HIT = 0
          decide
        · exact Nat.zero_and _
      have hu := receiveUpdate_altitude ext M now ms a0 m0
      have hno : ¬ (a0.modeCcount ≠ 0 ∧ a0.altitude ≠ m0.altitude) := fun h => h.1 hc0
      have hkeep : (receiveUpdate ext M now ms a0 m0).1.modeCcount = 0 ∧
          (receiveUpdate ext M now ms a0 m0).1.modeACflags &&& MODEAC_MSG_MODEC_HIT = 0 := by
        by_cases hv : m0.bFlags &&& MODES_ACFLAGS_ALTITUDE_VALID ≠ 0
        · rw [if_pos hv, if_neg hno, if_neg hno] at ha
          simp only [Prod.mk.injEq] at ha
          exact ⟨ha.2.2.1.trans hc0, ha.2.2.2.trans hh0⟩
        · rw [if_neg hv] at ha
          simp only [Prod.mk.injEq] at ha
          exact ⟨ha.2.2.1.trans hc0, ha.2.2.2.trans hh0⟩
      refine ⟨_, h2, h3, hkeep.1, hkeep.2, ?_⟩
      intro hvalid
      rw [h1, hu.2] at hvalid
      rw [h1, hu.1]
      rw [if_pos hvalid] at ha
      simp only [Prod.mk.injEq] at ha
      exact ha.1
    · rw [hfind] at hsome
      cases hsome

theorem altitude_change_resets_modeC_witness :
    (aircraftAt modesModeSHit.aircrafts 1).altitude = 37900 ∧
    (aircraftAt modesModeSHit.aircrafts 1).modeCcount = 5 ∧
    (aircraftAt modesModeSHit.aircrafts 1).modeACflags &&& MODEAC_MSG_MODEC_HIT ≠ 0 ∧
    messageOdd.altitude = 38000 ∧
    ∃ r, (interactiveReceiveData extZero modesModeSHit 1700000001 1700000001000 true
        messageOdd).2.2 = some r ∧
      r ∈ (interactiveReceiveData extZero modesModeSHit 1700000001 1700000001000 true
        messageOdd).1.aircrafts ∧
      r.modeCcount = 0 ∧ r.modeACflags &&& MODEAC_MSG_MODEC_HIT = 0 ∧
      r.altitude = messageOdd.altitude :=
  ⟨by decide!, by decide!, by decide!, by decide!,
    (altitude_change_resets_modeC extZero modesModeSHit 1700000001 1700000001000 true
      messageOdd (by decide)).1 (aircraftAt modesModeSHit.aircrafts 1) (by decide!)
      (by decide!) (by decide!) (fun _ => by decide!)⟩

/-! ### A change of the air/ground state (C34) -/

theorem decodeModesHeader_bFlags (cache : IcaoCache) (now : Nat) (mm : modesMessage)
    (msg : List Nat) : (decodeModesHeader cache now mm msg).1.bFlags = mm.bFlags := by
  unfold decodeModesHeader
  lift_lets; intros; split_ifs <;> rfl

theorem decodeVS_LL (mm : modesMessage) :
    (decodeVS mm).bFlags &&& MODES_ACFLAGS_LLEITHER_VALID =
      mm.bFlags &&& MODES_ACFLAGS_LLEITHER_VALID := by
  unfold decodeVS
  split_ifs <;> first | rfl | exact keepLL mm.bFlags _ (by decide)

theorem decodeSquawk_LL (mm : modesMessage) (f : Nat) :
    (decodeSquawk mm f).bFlags &&& MODES_ACFLAGS_LLEITHER_VALID =
      mm.bFlags &&& MODES_ACFLAGS_LLEITHER_VALID := by
  unfold decodeSquawk
  split_ifs <;> first | rfl | exact keepLL mm.bFlags _ (by decide)

theorem decodeDF5Squawk_LL (mm : modesMessage) :
    (decodeDF5Squawk mm).bFlags &&& MODES_ACFLAGS_LLEITHER_VALID =
      mm.bFlags &&& MODES_ACFLAGS_LLEITHER_VALID := by
  unfold decodeDF5Squawk
  split_ifs <;> first | rfl | exact decodeSquawk_LL mm _

theorem decodeAltitude13_LL (ext : Ext) (mm : modesMessage) :
    (decodeAltitude13 ext mm).bFlags &&& MODES_ACFLAGS_LLEITHER_VALID =
      mm.bFlags &&& MODES_ACFLAGS_LLEITHER_VALID := by
  unfold decodeAltitude13
  dsimp only
  split_ifs <;> first | rfl | exact keepLL mm.bFlags _ (by decide)

theorem decodeFS_LL (mm : modesMessage) :
    (decodeFS mm).bFlags &&& MODES_ACFLAGS_LLEITHER_VALID =
      mm.bFlags &&& MODES_ACFLAGS_LLEITHER_VALID := by
  unfold decodeFS
  dsimp only
  split_ifs <;>
    first
      | rfl
      | exact (keepLL _ _ (by decide)).trans (keepLL mm.bFlags _ (by decide))

theorem decodeCommB_LL (mm : modesMessage) :
    (decodeCommB mm).bFlags &&& MODES_ACFLAGS_LLEITHER_VALID =
      mm.bFlags &&& MODES_ACFLAGS_LLEITHER_VALID := by
  unfold decodeCommB
  split_ifs <;> first | rfl | exact keepLL mm.bFlags _ (by decide)

/-- The CPR flags after the extended squitter stage: as before, or with the one parity flag
of a position message added. -/
theorem decodeExtendedSquitter_LL (ext : Ext) (mm : modesMessage) (msg : List Nat) :
    (decodeExtendedSquitter ext mm msg).bFlags &&& MODES_ACFLAGS_LLEITHER_VALID =
      mm.bFlags &&& MODES_ACFLAGS_LLEITHER_VALID ∨
    (decodeExtendedSquitter ext mm msg).bFlags &&& MODES_ACFLAGS_LLEITHER_VALID =
      (mm.bFlags ||| (if byteAt msg 6 &&& 0x04 ≠ 0 then MODES_ACFLAGS_LLODD_VALID
        else MODES_ACFLAGS_LLEVEN_VALID)) &&& MODES_ACFLAGS_LLEITHER_VALID := by
  have hp := fun (m : modesMessage) (t : Nat) => (decodePosition_cpr ext m msg t).2.2
  generalize (if byteAt msg 6 &&& 0x04 ≠ 0 then MODES_ACFLAGS_LLODD_VALID
    else MODES_ACFLAGS_LLEVEN_VALID) = P at hp ⊢
  unfold decodeExtendedSquitter
  dsimp only
  split_ifs <;>
    first
      | exact Or.inl rfl
      | exact Or.inl (keepLL mm.bFlags _ (by decide))
      | exact Or.inl (decodeVelocity_cpr ext _ msg _)
      | exact Or.inl (decodeSquawk_LL _ _)
      | exact Or.inr (hp _ _)

theorem decodeSquitter_LL (ext : Ext) (mm : modesMessage) :
    (decodeSquitter ext mm).bFlags &&& MODES_ACFLAGS_LLEITHER_VALID =
      mm.bFlags &&& MODES_ACFLAGS_LLEITHER_VALID ∨
    (decodeSquitter ext mm).bFlags &&& MODES_ACFLAGS_LLEITHER_VALID =
      (mm.bFlags ||| (if byteAt mm.msg 6 &&& 0x04 ≠ 0 then MODES_ACFLAGS_LLODD_VALID
        else MODES_ACFLAGS_LLEVEN_VALID)) &&& MODES_ACFLAGS_LLEITHER_VALID := by
  unfold decodeSquitter
  by_cases h : mm.msgtype = 17 ∨ (mm.msgtype = 18 ∧ (mm.ca = 0 ∨ mm.ca = 1 ∨ mm.ca = 6))
  · rw [if_pos h]
    exact decodeExtendedSquitter_LL ext mm mm.msg
  · rw [if_neg h]
    exact Or.inl rfl

/-- A record without CPR flags comes out of `decodeModesMessage` with at most one of
`LLEVEN_VALID` and `LLODD_VALID`. -/
theorem decodeModesMessage_one_half (ext : Ext) (cache : IcaoCache) (now : Nat)
    (mm : modesMessage) (msg : List Nat)
    (hentry : mm.bFlags &&& MODES_ACFLAGS_LLEITHER_VALID = 0) :
    (decodeModesMessage ext cache now mm msg).1.bFlags &&& MODES_ACFLAGS_LLEITHER_VALID ≠
      MODES_ACFLAGS_LLBOTH_VALID := by
  have h0 := decodeModesHeader_bFlags cache now mm msg
  unfold decodeModesMessage
  dsimp only
  split_ifs
  · rw [h0, hentry]
    decide
  · rw [decodeCommB_LL]
    have hpre : (decodeFS (decodeAltitude13 ext (decodeDF5Squawk (decodeCA (decodeVS
        (decodeModesHeader cache now mm msg).1))))).bFlags &&& MODES_ACFLAGS_LLEITHER_VALID
        = 0 := by
      rw [decodeFS_LL, decodeAltitude13_LL, decodeDF5Squawk_LL, (decodeCA_fields _).2.2.2,
        decodeVS_LL, h0, hentry]
    rcases decodeSquitter_LL ext (decodeFS (decodeAltitude13 ext (decodeDF5Squawk
      (decodeCA (decodeVS (decodeModesHeader cache now mm msg).1))))) with h | h
    · rw [h, hpre]
      decide
    · rw [h, or_parity_LL _ _ hpre]
      split_ifs <;> decide

theorem clear_AOG_LL (x : Nat) :
    clearBits x (MODES_ACFLAGS_LLBOTH_VALID ||| MODES_ACFLAGS_AOG) &&&
      MODES_ACFLAGS_LLEITHER_VALID = 0 := by
  unfold clearBits
  rw [Nat.and_assoc]
  exact Nat.and_zero x

theorem clear_REL_LL (x : Nat) :
    clearBits x MODES_ACFLAGS_LATLON_REL_OK &&& MODES_ACFLAGS_LLEITHER_VALID =
      x &&& MODES_ACFLAGS_LLEITHER_VALID := by
  unfold clearBits
  rw [Nat.and_assoc]
  rfl

theorem or_LL (x y : Nat) :
    (x ||| y) &&& MODES_ACFLAGS_LLEITHER_VALID =
      (x &&& MODES_ACFLAGS_LLEITHER_VALID) ||| (y &&& MODES_ACFLAGS_LLEITHER_VALID) := by
  rw [Nat.and_comm, Nat.and_or_distrib_left, Nat.and_comm, Nat.and_comm y]

theorem LL_decodeCPR (ext : Ext) (M : ModesState) (now : Nat) (a : aircraft) (fflag surface : Nat) :
    (decodeCPR ext M now a fflag surface).2.bFlags &&& MODES_ACFLAGS_LLEITHER_VALID =
      a.bFlags &&& MODES_ACFLAGS_LLEITHER_VALID := by
  unfold decodeCPR
  cases cprReference M now a surface with
  | none => rfl
  | some ref =>
    dsimp only
    split_ifs <;> first | rfl | exact keepLL a.bFlags _ (by decide)

theorem LL_decodeCPRrelativeAt (ext : Ext) (a : aircraft) (fflag surface : Nat) (ref : ℚ × ℚ) :
    (decodeCPRrelativeAt ext a fflag surface ref).2.bFlags &&& MODES_ACFLAGS_LLEITHER_VALID =
      a.bFlags &&& MODES_ACFLAGS_LLEITHER_VALID := by
  unfold decodeCPRrelativeAt
  lift_lets; intros
  split_ifs <;> first | exact clear_REL_LL a.bFlags | exact keepLL a.bFlags _ (by decide)

theorem LL_decodeCPRrelative (ext : Ext) (M : ModesState) (a : aircraft) (fflag surface : Nat) :
    (decodeCPRrelative ext M a fflag surface).2.bFlags &&& MODES_ACFLAGS_LLEITHER_VALID =
      a.bFlags &&& MODES_ACFLAGS_LLEITHER_VALID := by
  unfold decodeCPRrelative
  cases cprRelativeReference M a with
  | none => rfl
  | some ref => exact LL_decodeCPRrelativeAt ext a fflag surface ref

theorem LL_receiveCPR (ext : Ext) (M : ModesState) (now ms : Nat) (a : aircraft)
    (mm : modesMessage) :
    (receiveCPR ext M now ms a mm).1.bFlags &&& MODES_ACFLAGS_LLEITHER_VALID =
      a.bFlags &&& MODES_ACFLAGS_LLEITHER_VALID ∧
    (receiveCPR ext M now ms a mm).2.bFlags &&& MODES_ACFLAGS_LLEITHER_VALID =
      mm.bFlags &&& MODES_ACFLAGS_LLEITHER_VALID := by
  unfold receiveCPR
  split_ifs with h
  · dsimp only
    split_ifs <;> refine ⟨?_, ?_⟩ <;>
      first
        | rfl
        | exact keepLL mm.bFlags _ (by decide)
        | simp only [LL_decodeCPR ext, LL_decodeCPRrelative ext, bFlags_receiveCPRSample]
  · exact ⟨rfl, rfl⟩

/-- C34: when a CRC-valid message carries a valid air/ground bit that differs from the bit
of the record `a` found for its address, and at most one CPR half, the test of line 359
for the global decode fails on the record as it is after the sample was stored, and the
record `interactiveReceiveData` returns, which is in the aircraft list, has just the CPR
flags of the message, so not both halves.  Every record that `decodeModesMessage` makes from a
record without CPR flags carries at most one half. -/
theorem aog_change_drops_cpr_halves (ext : Ext) (M : ModesState) (now ms : Nat)
    (lockOk : Bool) (mm : modesMessage) (a : aircraft) (hok : mm.crcok ≠ 0)
    (hfind : interactiveFindAircraft M.aircrafts mm.addr = some a)
    (haog : mm.bFlags &&& MODES_ACFLAGS_AOG_VALID ≠ 0)
    (hdiff : (a.bFlags ^^^ mm.bFlags) &&& MODES_ACFLAGS_AOG ≠ 0)
    (hone : mm.bFlags &&& MODES_ACFLAGS_LLEITHER_VALID ≠ MODES_ACFLAGS_LLBOTH_VALID) :
    (∀ cache t mm0 msg, mm0.bFlags &&& MODES_ACFLAGS_LLEITHER_VALID = 0 →
      (decodeModesMessage ext cache t mm0 msg).1.bFlags &&& MODES_ACFLAGS_LLEITHER_VALID ≠
        MODES_ACFLAGS_LLBOTH_VALID) ∧
    globalCPRCondition ext (receiveCPRSample ms (receiveAOG (receiveMotion (receiveSquawk
      (receiveAltitude (receiveCallsign (receiveSeen now a mm) mm) mm) mm) mm) mm) mm) mm
      = false ∧
    ∃ r, (interactiveReceiveData ext M now ms lockOk mm).2.2 = some r ∧
      r ∈ (interactiveReceiveData ext M now ms lockOk mm).1.aircrafts ∧
      r.bFlags &&& MODES_ACFLAGS_LLEITHER_VALID =
        mm.bFlags &&& MODES_ACFLAGS_LLEITHER_VALID ∧
      r.bFlags &&& MODES_ACFLAGS_LLEITHER_VALID ≠ MODES_ACFLAGS_LLBOTH_VALID := by
  have hs := bFlags_receiveStages now a mm
  rw [if_pos ⟨haog, hdiff⟩] at hs
  have hs0 : (receiveAOG (receiveMotion (receiveSquawk (receiveAltitude (receiveCallsign
      (receiveSeen now a mm) mm) mm) mm) mm) mm).bFlags &&& MODES_ACFLAGS_LLEITHER_VALID
      = 0 := by
    rw [hs]
    exact clear_AOG_LL a.bFlags
  refine ⟨fun cache t mm0 msg h => decodeModesMessage_one_half ext cache t mm0 msg h, ?_, ?_⟩
  · unfold globalCPRCondition
    rw [decide_eq_false_iff_not]
    rintro ⟨h, -⟩
    rw [or_LL, bFlags_receiveCPRSample, hs0, Nat.or_zero] at h
    exact hone h
  · obtain ⟨a0, m0, hcase, -, h2, h3⟩ :=
      interactiveReceiveData_update ext M now ms lockOk mm hok
    rcases hcase with ⟨hnone, -, -⟩ | ⟨hsome, hm⟩
    · rw [hnone] at hfind
      cases hfind
    · rw [hfind] at hsome
      cases hsome
      subst hm
      have hr : (receiveUpdate ext M now ms a m0).1.bFlags &&& MODES_ACFLAGS_LLEITHER_VALID =
          m0.bFlags &&& MODES_ACFLAGS_LLEITHER_VALID := by
        unfold receiveUpdate
        dsimp only
        rw [bFlags_receiveFlags, or_LL, (LL_receiveCPR ext M now ms _ m0).1,
          (LL_receiveCPR ext M now ms _ m0).2, hs0, Nat.zero_or]
      exact ⟨_, h2, h3, hr, by rw [hr]; exact hone⟩

theorem aog_change_drops_cpr_halves_witness :
    (∀ cache t mm0 msg, mm0.bFlags &&& MODES_ACFLAGS_LLEITHER_VALID = 0 →
      (decodeModesMessage extZero cache t mm0 msg).1.bFlags &&& MODES_ACFLAGS_LLEITHER_VALID ≠
        MODES_ACFLAGS_LLBOTH_VALID) ∧
    globalCPRCondition extZero (receiveCPRSample 1700000000000 (receiveAOG (receiveMotion
      (receiveSquawk (receiveAltitude (receiveCallsign (receiveSeen 1700000000
        { aircraft.zero 0 with
          addr := 0x40621D, seen := 1699999999, messages := 100,
          even_cprlat := 93000, even_cprlon := 51372,
          even_cprtime := 1700000000000 - 4294967296,
          bFlags := MODES_ACFLAGS_LLEVEN_VALID ||| MODES_ACFLAGS_AOG_VALID }
        messageGround) messageGround) messageGround) messageGround) messageGround)
        messageGround) messageGround) messageGround = false ∧
    ∃ r, (interactiveReceiveData extZero modesOldEven 1700000000 1700000000000 true
        messageGround).2.2 = some r ∧
      r ∈ (interactiveReceiveData extZero modesOldEven 1700000000 1700000000000 true
        messageGround).1.aircrafts ∧
      r.bFlags &&& MODES_ACFLAGS_LLEITHER_VALID =
        messageGround.bFlags &&& MODES_ACFLAGS_LLEITHER_VALID ∧
      r.bFlags &&& MODES_ACFLAGS_LLEITHER_VALID ≠ MODES_ACFLAGS_LLBOTH_VALID :=
  aog_change_drops_cpr_halves extZero modesOldEven 1700000000 1700000000000 true
    messageGround _ (by decide) (by decide!) (by decide) (by decide) (by decide)

/-! ### The table of longitude zones (C35) -/

theorem cprNLFunction_eq_count (lat : ℚ) :
    cprNLFunction lat = nlCount nlThresholds 59 |lat| := by
  have habs : (if lat < 0 then -lat else lat) = |lat| := by
    split_ifs with h
    · exact (abs_of_neg h).symm
    · exact (abs_of_nonneg (not_lt.mp h)).symm
  unfold cprNLFunction
  rw [habs]
  rfl

theorem nlCount_le (l : List ℚ) : ∀ (v : Int) (x : ℚ), nlCount l v x ≤ v := by
  induction l with
  | nil => intro v x; exact le_refl _
  | cons t r ih =>
    intro v x
    unfold nlCount
    split_ifs
    · exact le_refl _
    · have := ih (v - 1) x
      omega

theorem nlCount_ge (l : List ℚ) : ∀ (v : Int) (x : ℚ), v - l.length ≤ nlCount l v x := by
  induction l with
  | nil => intro v x; simp [nlCount]
  | cons t r ih =>
    intro v x
    unfold nlCount
    split_ifs
    · simp only [List.length_cons, Nat.cast_add, Nat.cast_one]
      omega
    · have := ih (v - 1) x
      simp only [List.length_cons, Nat.cast_add, Nat.cast_one]
      omega

theorem nlCount_mono (l : List ℚ) :
    ∀ (v : Int) (x y : ℚ), x ≤ y → nlCount l v y ≤ nlCount l v x := by
  induction l with
  | nil => intro v x y _; exact le_refl _
  | cons t r ih =>
    intro v x y hxy
    unfold nlCount
    by_cases hx : x < t
    · rw [if_pos hx]
      split_ifs
      · exact le_refl _
      · have := nlCount_le r (v - 1) y
        omega
    · rw [if_neg hx, if_neg (fun hy => hx (lt_of_le_of_lt hxy hy))]
      exact ih (v - 1) x y hxy

theorem nlCount_last (l : List ℚ) :
    ∀ (v : Int) (x : ℚ), (∀ t ∈ l, t ≤ x) → nlCount l v x = v - l.length := by
  induction l with
  | nil => intro v x _; simp [nlCount]
  | cons t r ih =>
    intro v x h
    unfold nlCount
    rw [if_neg (not_lt.mpr (h t (List.mem_cons_self _ _))),
      ih (v - 1) x (fun s hs => h s (List.mem_cons_of_mem _ hs))]
    simp only [List.length_cons, Nat.cast_add, Nat.cast_one]
    omega

theorem nlThresholds_le : ∀ t ∈ nlThresholds, t ≤ 87 := by
  decide!

/-- C35: `cprNLFunction` is symmetric about the equator, returns a value in 1..59 for every
latitude, is non-increasing in `|lat|`, returns 59 at latitude 0 and 1 for every latitude
with `|lat| >= 87`. -/
theorem cprNLFunction_step_function (lat : ℚ) :
    cprNLFunction (-lat) = cprNLFunction lat ∧
    1 ≤ cprNLFunction lat ∧ cprNLFunction lat ≤ 59 ∧
    (∀ lat2 : ℚ, |lat| ≤ |lat2| → cprNLFunction lat2 ≤ cprNLFunction lat) ∧
    cprNLFunction 0 = 59 ∧
    (87 ≤ |lat| → cprNLFunction lat = 1) := by
  have hlen : (nlThresholds.length : Int) = 58 := rfl
  refine ⟨?_, ?_, ?_, ?_, ?_, ?_⟩
  · rw [cprNLFunction_eq_count, cprNLFunction_eq_count, abs_neg]
  · rw [cprNLFunction_eq_count]
    have := nlCount_ge nlThresholds 59 |lat|
    omega
  · rw [cprNLFunction_eq_count]
    exact nlCount_le nlThresholds 59 |lat|
  · intro lat2 h
    rw [cprNLFunction_eq_count, cprNLFunction_eq_count]
    exact nlCount_mono nlThresholds 59 _ _ h
  · decide!
  · intro h
    rw [cprNLFunction_eq_count,
      nlCount_last nlThresholds 59 |lat| (fun t ht => le_trans (nlThresholds_le t ht) h), hlen]
    rfl

theorem cprNLFunction_step_function_witness :
    cprNLFunction (-(88 : ℚ)) = cprNLFunction 88 ∧
    1 ≤ cprNLFunction 88 ∧ cprNLFunction 88 ≤ 59 ∧
    cprNLFunction (-89) ≤ cprNLFunction 88 ∧
    cprNLFunction 88 = 1 :=
  have h := cprNLFunction_step_function 88
  ⟨h.1, h.2.1, h.2.2.1, h.2.2.2.1 (-89) (by norm_num [abs_of_pos, abs_of_neg]),
    h.2.2.2.2.2 (by norm_num [abs_of_pos])⟩

/-! ### The divisors of `cprModFunction` (C37) -/

theorem cprNFunction_le (lat : ℚ) (fflag : Nat) : cprNFunction lat fflag ≤ 59 := by
  have h := nlCount_le nlThresholds 59 |lat|
  rw [← cprNLFunction_eq_count] at h
  unfold cprNFunction
  dsimp only
  split_ifs <;> omega

theorem truncQ_ge_one (x : ℚ) (h : 1 ≤ x) : 1 ≤ truncQ x := by
  unfold truncQ
  rw [if_pos (by linarith)]
  exact Int.le_floor.mpr (by exact_mod_cast h)

theorem cprRelativeDlat_ge (fflag surface : Nat) : 3 / 2 ≤ cprRelativeDlat fflag surface := by
  unfold cprRelativeDlat
  split_ifs <;> norm_num

theorem cprDlonFunction_ge (lat : ℚ) (fflag surface : Nat) :
    90 / 59 ≤ cprDlonFunction lat fflag surface := by
  have h1 := cprNFunction_pos lat fflag
  have h59 := cprNFunction_le lat fflag
  have hq1 : (0 : ℚ) < (cprNFunction lat fflag : ℚ) := by
    exact_mod_cast (by omega : (0 : Int) < cprNFunction lat fflag)
  have hq59 : (cprNFunction lat fflag : ℚ) ≤ 59 := by exact_mod_cast h59
  unfold cprDlonFunction
  rw [le_div_iff₀ hq1]
  split_ifs <;> linarith

theorem cprLatitudesWith_eq (md : Int → Int → Int) (ext : Ext) (a : aircraft) (surface : Nat)
    (r : ℚ) (hmd : ∀ x b, 1 ≤ b → md x b = cprModFunction x b) :
    cprLatitudesWith md ext a surface r = cprLatitudes ext a surface r := by
  unfold cprLatitudesWith cprLatitudes
  simp only [hmd _ 60 (by decide), hmd _ 59 (by decide)]

theorem cprLongitudeWith_eq (md : Int → Int → Int) (a : aircraft) (fflag surface : Nat)
    (rlat0 rlat1 rlon : ℚ) (hmd : ∀ x b, 1 ≤ b → md x b = cprModFunction x b) :
    cprLongitudeWith md a fflag surface rlat0 rlat1 rlon =
      cprLongitude a fflag surface rlat0 rlat1 rlon := by
  unfold cprLongitudeWith cprLongitude
  simp only [hmd _ _ (cprNFunction_pos _ _)]

theorem decodeCPRWith_eq (md : Int → Int → Int) (ext : Ext) (M : ModesState) (now : Nat)
    (a : aircraft) (fflag surface : Nat) (hmd : ∀ x b, 1 ≤ b → md x b = cprModFunction x b) :
    decodeCPRWith md ext M now a fflag surface = decodeCPR ext M now a fflag surface := by
  unfold decodeCPRWith decodeCPR
  cases cprReference M now a surface with
  | none => rfl
  | some ref =>
    dsimp only
    rw [cprLatitudesWith_eq md ext a surface _ hmd]
    simp only [cprLongitudeWith_eq md a fflag surface _ _ _ hmd]

theorem cprRelativeCellWith_eq (md : Int → Int → Int) (ext : Ext) (r Dl v : ℚ)
    (hmd : ∀ x b, 1 ≤ b → md x b = cprModFunction x b) (hDl : 1 ≤ truncQ Dl) :
    cprRelativeCellWith md ext r Dl v = cprRelativeCell ext r Dl v := by
  unfold cprRelativeCellWith cprRelativeCell
  simp only [hmd _ _ hDl]

theorem decodeCPRrelativeWith_eq (md : Int → Int → Int) (ext : Ext) (M : ModesState)
    (a : aircraft) (fflag surface : Nat)
    (hrnd : ∀ x : ℚ, 1 ≤ x → 1 ≤ ext.rnd x)
    (hmd : ∀ x b, 1 ≤ b → md x b = cprModFunction x b) :
    decodeCPRrelativeWith md ext M a fflag surface =
      decodeCPRrelative ext M a fflag surface := by
  have hlat : 1 ≤ truncQ (ext.rnd (cprRelativeDlat fflag surface)) :=
    truncQ_ge_one _ (hrnd _ (le_trans (by norm_num) (cprRelativeDlat_ge fflag surface)))
  have hlon : ∀ rlat, 1 ≤ truncQ (ext.rnd (cprDlonFunction rlat fflag surface)) := fun rlat =>
    truncQ_ge_one _ (hrnd _ (le_trans (by norm_num) (cprDlonFunction_ge rlat fflag surface)))
  unfold decodeCPRrelativeWith decodeCPRrelative
  cases cprRelativeReference M a with
  | none => rfl
  | some ref =>
    dsimp only
    unfold decodeCPRrelativeAtWith decodeCPRrelativeAt
    simp only [cprRelativeCellWith_eq md ext _ _ _ hmd hlat,
      cprRelativeCellWith_eq md ext _ _ _ hmd (hlon _)]

/-- C37: every call of `cprModFunction` made by `decodeCPR` and `decodeCPRrelative` has a
divisor of at least 1, for every aircraft record, parity flag and surface flag.  Whatever a
function `md` returns for divisors below 1, the two decoders run with `md` in the place of
`cprModFunction` return what they return with `cprModFunction`, as long as `md` agrees with
it for the divisors from 1 upwards.  The divisors are 60, 59, `cprNFunction(...)`, which
is at least 1, and the integer parts of `AirDlat` and `AirDlon`, whose quotients are at
least 3/2 and 90/59; the rounding of a `double` operation is taken to keep a value that is
at least 1 at least 1. -/
theorem cprModFunction_divisors (md : Int → Int → Int) (ext : Ext) (M : ModesState)
    (now : Nat) (a : aircraft) (fflag surface : Nat)
    (hrnd : ∀ x : ℚ, 1 ≤ x → 1 ≤ ext.rnd x)
    (hmd : ∀ x b, 1 ≤ b → md x b = cprModFunction x b) :
    decodeCPRWith md ext M now a fflag surface = decodeCPR ext M now a fflag surface ∧
    decodeCPRrelativeWith md ext M a fflag surface =
      decodeCPRrelative ext M a fflag surface ∧
    (∀ rlat ff, 1 ≤ cprNFunction rlat ff) ∧
    1 ≤ truncQ (ext.rnd (cprRelativeDlat fflag surface)) ∧
    (∀ rlat, 1 ≤ truncQ (ext.rnd (cprDlonFunction rlat fflag surface))) ∧
    3 / 2 ≤ cprRelativeDlat fflag surface ∧
    (∀ rlat, 90 / 59 ≤ cprDlonFunction rlat fflag surface) :=
  ⟨decodeCPRWith_eq md ext M now a fflag surface hmd,
    decodeCPRrelativeWith_eq md ext M a fflag surface hrnd hmd,
    fun rlat ff => cprNFunction_pos rlat ff,
    truncQ_ge_one _ (hrnd _ (le_trans (by norm_num) (cprRelativeDlat_ge fflag surface))),
    fun rlat =>
      truncQ_ge_one _ (hrnd _ (le_trans (by norm_num) (cprDlonFunction_ge rlat fflag surface))),
    cprRelativeDlat_ge fflag surface,
    fun rlat => cprDlonFunction_ge rlat fflag surface⟩

theorem cprModFunction_divisors_witness :
    decodeCPRWith (fun x b => if 1 ≤ b then cprModFunction x b else 0) extZero
        ModesState.init 1000 aircraftPair 0 0 =
      decodeCPR extZero ModesState.init 1000 aircraftPair 0 0 ∧
    decodeCPRrelativeWith (fun x b => if 1 ≤ b then cprModFunction x b else 0) extZero
        modesUser aircraftNear 1 0 =
      decodeCPRrelative extZero modesUser aircraftNear 1 0 ∧
    (1 : Int) ≤ truncQ (extZero.rnd (cprRelativeDlat 1 0)) :=
  have h := cprModFunction_divisors (fun x b => if 1 ≤ b then cprModFunction x b else 0)
    extZero modesUser 1000 aircraftNear 1 0 (fun _ hx => hx) (fun _ _ hb => if_pos hb)
  ⟨(cprModFunction_divisors (fun x b => if 1 ≤ b then cprModFunction x b else 0)
    extZero ModesState.init 1000 aircraftPair 0 0 (fun _ hx => hx)
    (fun _ _ hb => if_pos hb)).1, h.2.1, h.2.2.2.1⟩

/-! ### Collisions in the ICAO cache (C32) -/

/-- C32: for two different addresses `a` and `b`, `addRecentlySeenICAOAddr(b)` leaves the
answer of `ICAOAddressWasRecentlySeen(a)` as it was when the hashes differ, and makes it 0
when the hashes are equal; the hash is the one of the specification and is below 1024, so
both words of its slot lie in the 2048 words of the cache. -/
theorem cache_collision_overwrites (cache : IcaoCache) (now t a b : Nat) (hne : a ≠ b) :
    (ICAOCacheHashAddress b ≠ ICAOCacheHashAddress a →
      ICAOAddressWasRecentlySeen (addRecentlySeenICAOAddr cache now b) t a =
        ICAOAddressWasRecentlySeen cache t a) ∧
    (ICAOCacheHashAddress b = ICAOCacheHashAddress a →
      ICAOAddressWasRecentlySeen (addRecentlySeenICAOAddr cache now b) t a = 0) ∧
    ICAOCacheHashAddress a = hashSpec a ∧
    ICAOCacheHashAddress a < MODES_ICAO_CACHE_LEN ∧
    ICAOCacheHashAddress a * 2 + 1 < 2 * MODES_ICAO_CACHE_LEN := by
  have hspec : ICAOCacheHashAddress a = hashSpec a := by
    unfold ICAOCacheHashAddress hashSpec hashRound
    exact Nat.and_pow_two_sub_one_eq_mod _ 10
  have hlt : ICAOCacheHashAddress a < MODES_ICAO_CACHE_LEN := by
    rw [hspec]
    unfold hashSpec
    exact Nat.mod_lt _ (by decide)
  refine ⟨?_, ?_, hspec, hlt, by omega⟩
  · intro h
    have hs := addRecentlySeenICAOAddr_other_slot cache now b a h
    unfold ICAOAddressWasRecentlySeen
    dsimp only
    rw [hs.1, hs.2]
  · intro h
    have hs := addRecentlySeenICAOAddr_slot cache now b
    rw [h] at hs
    unfold ICAOAddressWasRecentlySeen
    dsimp only
    rw [hs.1, if_neg (fun hh => hne hh.2.1.symm)]

theorem cache_collision_overwrites_witness :
    ICAOAddressWasRecentlySeen (addRecentlySeenICAOAddr cacheEmpty 1000 0x4840D6) 1010
      0x4840D6 = 1 ∧
    ICAOAddressWasRecentlySeen (addRecentlySeenICAOAddr
      (addRecentlySeenICAOAddr cacheEmpty 1000 0x4840D6) 1005 0x40013B) 1010 0x4840D6 = 0 ∧
    ICAOAddressWasRecentlySeen (addRecentlySeenICAOAddr
      (addRecentlySeenICAOAddr cacheEmpty 1000 0x4840D6) 1005 0x40621D) 1010 0x4840D6 = 1 ∧
    ICAOCacheHashAddress 0x4840D6 = 518 :=
  ⟨by decide,
    (cache_collision_overwrites (addRecentlySeenICAOAddr cacheEmpty 1000 0x4840D6) 1005 1010
      0x4840D6 0x40013B (by decide)).2.1 (by decide),
    ((cache_collision_overwrites (addRecentlySeenICAOAddr cacheEmpty 1000 0x4840D6) 1005 1010
      0x4840D6 0x40621D (by decide)).1 (by decide)).trans (by decide),
    by decide⟩

/-! ### The address overlaid on the checksum (C31) -/

theorem modesChecksum_long (msg : List Nat) :
    modesChecksum msg 112 = (checksumRows msg 0 88 ^^^
      ((byteAt msg 11 <<< 16) ||| (byteAt msg 12 <<< 8) ||| byteAt msg 13)) &&& 0xFFFFFF := by
  have h := modesChecksumLoop_eq msg 0 88 0 0 (byteAt msg 0) (fun h => absurd rfl h)
  have e1 : ((0 : Nat) + 7) / 8 = 0 := rfl
  have e2 : (0 : Nat) + 0 = 0 := rfl
  have e3 : ((0 : Nat) + 88 + 7) / 8 = 11 := rfl
  rw [e1, e2, e3] at h
  unfold modesChecksum checksumRows
  simp only [show (112 : Nat) - 24 = 88 from rfl, if_true, h]

theorem modesChecksum_short (msg : List Nat) :
    modesChecksum msg 56 = (checksumRows msg 56 32 ^^^
      ((byteAt msg 4 <<< 16) ||| (byteAt msg 5 <<< 8) ||| byteAt msg 6)) &&& 0xFFFFFF := by
  have h := modesChecksumLoop_eq msg 56 32 0 0 (byteAt msg 0) (fun h => absurd rfl h)
  have e1 : ((0 : Nat) + 7) / 8 = 0 := rfl
  have e2 : (56 : Nat) + 0 = 56 := rfl
  have e3 : ((0 : Nat) + 32 + 7) / 8 = 4 := rfl
  rw [e1, e2, e3] at h
  unfold modesChecksum checksumRows
  simp only [show (56 : Nat) - 24 = 32 from rfl, show ((56 : Nat) = 112) = False by simp,
    if_false, show (112 : Nat) - 56 = 56 from rfl, h]

/-- The rows part of the checksum reads the bytes before the trailer only. -/
theorem checksumRows_congr (m1 m2 : List Nat) (off n : Nat)
    (h : ∀ j, j < (n + 7) / 8 → byteAt m1 j = byteAt m2 j) :
    checksumRows m1 off n = checksumRows m2 off n := by
  unfold checksumRows
  apply List.foldl_ext
  intro a i hi
  have hlt : i < n := by
    have := List.mem_range'_1.mp hi
    omega
  unfold checksumSpecStep msgBit
  rw [h (i / 8) (by omega)]

theorem xor_concat (k a b c d : Nat) (hb : b < 2 ^ k) (hd : d < 2 ^ k) :
    (2 ^ k * a + b) ^^^ (2 ^ k * c + d) = 2 ^ k * (a ^^^ c) + (b ^^^ d) := by
  apply Nat.eq_of_testBit_eq
  intro j
  rw [Nat.testBit_xor, Nat.testBit_mul_pow_two_add a hb, Nat.testBit_mul_pow_two_add c hd,
    Nat.testBit_mul_pow_two_add (a ^^^ c) (Nat.xor_lt_two_pow hb hd)]
  split_ifs
  · rw [Nat.testBit_xor]
  · rw [Nat.testBit_xor]

theorem be24_xor (x y z A : Nat) (hy : y < 256) (hz : z < 256) :
    ((x ^^^ (A >>> 16) % 256) <<< 16) ||| ((y ^^^ (A >>> 8) % 256) <<< 8) |||
        (z ^^^ A % 256) =
      ((x <<< 16) ||| (y <<< 8) ||| z) ^^^ (A % 2 ^ 24) := by
  have h1 : (A >>> 16) % 256 < 256 := Nat.mod_lt _ (by decide)
  have h2 : (A >>> 8) % 256 < 256 := Nat.mod_lt _ (by decide)
  have h3 : A % 256 < 256 := Nat.mod_lt _ (by decide)
  have hy2 : y ^^^ (A >>> 8) % 256 < 2 ^ 8 := Nat.xor_lt_two_pow hy h2
  have hz2 : z ^^^ A % 256 < 2 ^ 8 := Nat.xor_lt_two_pow hz h3
  rw [be24_eq _ _ _ hy2 hz2, be24_eq _ _ _ hy hz]
  have hA : A % 2 ^ 24 = 2 ^ 8 * (2 ^ 8 * ((A >>> 16) % 256) + (A >>> 8) % 256) + A % 256 := by
    rw [Nat.shiftRight_eq_div_pow, Nat.shiftRight_eq_div_pow]
    norm_num
    omega
  have e1 : x * 65536 + y * 256 + z = 2 ^ 8 * (2 ^ 8 * x + y) + z := by ring
  have e2 : (x ^^^ (A >>> 16) % 256) * 65536 + (y ^^^ (A >>> 8) % 256) * 256 + (z ^^^ A % 256)
      = 2 ^ 8 * (2 ^ 8 * (x ^^^ (A >>> 16) % 256) + (y ^^^ (A >>> 8) % 256)) +
        (z ^^^ A % 256) := by ring
  rw [hA, e1, e2, xor_concat 8 _ _ _ _ hz h3, xor_concat 8 _ _ _ _ hy h2]

theorem byteAt_append_add (pre rest : List Nat) (k : Nat) :
    byteAt (pre ++ rest) (pre.length + k) = byteAt rest k := by
  unfold byteAt
  rw [List.getD_append_right _ _ _ _ (by omega)]
  congr 1
  omega

theorem byteAt_xorTrailer (m : List Nat) (A : Nat) (h3 : 3 ≤ m.length) :
    (∀ j, j < m.length - 3 → byteAt (xorTrailer m A) j = byteAt m j) ∧
    byteAt (xorTrailer m A) (m.length - 3) = byteAt m (m.length - 3) ^^^ (A >>> 16) % 256 ∧
    byteAt (xorTrailer m A) (m.length - 3 + 1) =
      byteAt m (m.length - 2) ^^^ (A >>> 8) % 256 ∧
    byteAt (xorTrailer m A) (m.length - 3 + 2) = byteAt m (m.length - 1) ^^^ A % 256 := by
  have hl : (m.take (m.length - 3)).length = m.length - 3 := by
    rw [List.length_take]; omega
  have hk := fun k => byteAt_append_add (m.take (m.length - 3))
    [byteAt m (m.length - 3) ^^^ (A >>> 16) % 256,
     byteAt m (m.length - 2) ^^^ (A >>> 8) % 256,
     byteAt m (m.length - 1) ^^^ A % 256] k
  rw [hl] at hk
  refine ⟨?_, ?_, ?_, ?_⟩
  · intro j hj
    unfold xorTrailer byteAt
    rw [List.getD_append _ _ _ _ (by rw [hl]; exact hj)]
    exact byteAt_take m (m.length - 3) j hj
  · exact hk 0
  · exact hk 1
  · exact hk 2

/-- C31: for every message `m` of 7 or 14 bytes and every 24-bit value `A`, XORing `A`,
most significant byte first, into the last three bytes of `m` changes the syndrome by
exactly `A`; so a message with syndrome 0 whose trailer is overlaid with `A` has the
syndrome `A`. -/
theorem trailer_xor_shifts_syndrome (m : List Nat) (A : Nat)
    (hlen : m.length = 7 ∨ m.length = 14) (hbytes : ∀ b ∈ m, b < 256) (hA : A < 2 ^ 24) :
    modesChecksum (xorTrailer m A) (8 * m.length) = modesChecksum m (8 * m.length) ^^^ A ∧
    (modesChecksum m (8 * m.length) = 0 →
      modesChecksum (xorTrailer m A) (8 * m.length) = A) := by
  have hb := byteAt_lt m hbytes
  have hmask : A &&& 0xFFFFFF = A := by
    have := Nat.and_pow_two_sub_one_eq_mod A 24
    rw [Nat.mod_eq_of_lt hA] at this
    exact this
  have hmod : A % 2 ^ 24 = A := Nat.mod_eq_of_lt hA
  have key : modesChecksum (xorTrailer m A) (8 * m.length) =
      modesChecksum m (8 * m.length) ^^^ A := by
    rcases hlen with hl | hl
    · obtain ⟨h0, h1, h2, h3⟩ := byteAt_xorTrailer m A (by omega)
      rw [hl] at h0 h1 h2 h3
      rw [hl, show 8 * 7 = 56 from rfl, modesChecksum_short, modesChecksum_short,
        checksumRows_congr (xorTrailer m A) m 56 32 (fun j hj => h0 j (by omega)), h1, h2, h3,
        be24_xor _ _ _ A (hb 5) (hb 6), hmod, ← Nat.xor_assoc, Nat.and_xor_distrib_right,
        hmask]
    · obtain ⟨h0, h1, h2, h3⟩ := byteAt_xorTrailer m A (by omega)
      rw [hl] at h0 h1 h2 h3
      rw [hl, show 8 * 14 = 112 from rfl, modesChecksum_long, modesChecksum_long,
        checksumRows_congr (xorTrailer m A) m 0 88 (fun j hj => h0 j (by omega)), h1, h2, h3,
        be24_xor _ _ _ A (hb 12) (hb 13), hmod, ← Nat.xor_assoc, Nat.and_xor_distrib_right,
        hmask]
  refine ⟨key, ?_⟩
  intro hz
  rw [key, hz, Nat.zero_xor]

theorem trailer_xor_shifts_syndrome_witness :
    modesChecksum frameDF17 112 = 0 ∧
    xorTrailer frameDF17 0x4840D6 =
      [0x8D, 0x48, 0x40, 0xD6, 0x20, 0x2C, 0xC3, 0x71, 0xC3, 0x2C, 0xE0, 0x1F, 0x20, 0x4E] ∧
    modesChecksum (xorTrailer frameDF17 0x4840D6) (8 * frameDF17.length) = 0x4840D6 :=
  ⟨by decide, by decide,
    (trailer_xor_shifts_syndrome frameDF17 0x4840D6 (Or.inr rfl) (by decide) (by decide)).2
      (by decide)⟩

/-! ### Termination of the frame scan (C39) -/

/-- The loop `scanFrames` is the repetition of `scanIteration`. -/
theorem scanFrames_iteration {σ : Type} (handler : σ → List Nat → σ) (buf : List Nat)
    (endp fuel e left : Nat) (st : σ) (fm : Bool) :
    scanFrames handler buf endp (fuel + 1) e left st fm =
      (match scanIteration handler buf endp e left st fm with
       | ScanStep.done st1 fm1 e1 => (st1, fm1, e1)
       | ScanStep.stop st1 fm1 e1 => (st1, fm1, e1)
       | ScanStep.next e1 left1 st1 fm1 => scanFrames handler buf endp fuel e1 left1 st1 fm1) := by
  rw [scanFrames]
  unfold scanIteration
  by_cases hl : left = 0
  · rw [if_pos hl, if_pos hl]
  · rw [if_neg hl, if_neg hl]
    cases memchr1A buf e left with
    | none => rfl
    | some i =>
      dsimp only
      cases beastFrameLen (byteAt buf (i + 1)) with
      | none => rfl
      | some n =>
        dsimp only
        split_ifs <;> rfl

/-- An evaluation of the loop after which the loop goes on has moved `e` forward by at least
one byte and left `left` as the distance from `e` to the end of the data. -/
theorem scanIteration_progress {σ : Type} (handler : σ → List Nat → σ) (buf : List Nat)
    (endp e left : Nat) (st : σ) (fm : Bool) (he : e + left = endp)
    (e1 left1 : Nat) (st1 : σ) (fm1 : Bool)
    (h : scanIteration handler buf endp e left st fm = ScanStep.next e1 left1 st1 fm1) :
    e + 1 ≤ e1 ∧ e1 + left1 = endp := by
  unfold scanIteration at h
  by_cases hl : left = 0
  · rw [if_pos hl] at h
    cases h
  · rw [if_neg hl] at h
    cases hm : memchr1A buf e left with
    | none =>
      rw [hm] at h
      cases h
    | some i =>
      have hb := memchr1A_bounds buf left e i hm
      rw [hm] at h
      dsimp only at h
      cases hf : beastFrameLen (byteAt buf (i + 1)) with
      | none =>
        rw [hf] at h
        dsimp only at h
        cases h
        omega
      | some n =>
        rw [hf] at h
        dsimp only at h
        have hge := scanEscapes_ge buf endp n (i + 1) (i + 1 + n)
        split_ifs at h with hgt
        cases h
        omega

theorem scanBodyRuns_le {σ : Type} (handler : σ → List Nat → σ) (buf : List Nat)
    (endp : Nat) :
    ∀ (fuel e left : Nat) (st : σ) (fm : Bool), e + left = endp →
      scanBodyRuns handler buf endp fuel e left st fm ≤ left := by
  intro fuel
  induction fuel with
  | zero => intro e left st fm _; exact Nat.zero_le _
  | succ k ih =>
    intro e left st fm he
    rw [scanBodyRuns]
    cases hs : scanIteration handler buf endp e left st fm with
    | done st1 fm1 e1 => exact Nat.zero_le _
    | stop st1 fm1 e1 =>
      dsimp only
      unfold scanIteration at hs
      by_cases hl : left = 0
      · rw [if_pos hl] at hs
        cases hs
      · omega
    | next e1 left1 st1 fm1 =>
      dsimp only
      have hp := scanIteration_progress handler buf endp e left st fm he e1 left1 st1 fm1 hs
      have := ih e1 left1 st1 fm1 hp.2
      omega

theorem scanBodyRuns_fuel {σ : Type} (handler : σ → List Nat → σ) (buf : List Nat)
    (endp : Nat) :
    ∀ (f1 f2 e left : Nat) (st : σ) (fm : Bool), left < f1 → left < f2 → e + left = endp →
      scanBodyRuns handler buf endp f1 e left st fm =
        scanBodyRuns handler buf endp f2 e left st fm := by
  intro f1
  induction f1 with
  | zero => intro f2 e left st fm h; omega
  | succ k ih =>
    intro f2 e left st fm h1 h2 he
    obtain ⟨m, rfl⟩ := Nat.exists_eq_succ_of_ne_zero (by omega : f2 ≠ 0)
    rw [scanBodyRuns, scanBodyRuns]
    cases hs : scanIteration handler buf endp e left st fm with
    | done st1 fm1 e1 => rfl
    | stop st1 fm1 e1 => rfl
    | next e1 left1 st1 fm1 =>
      dsimp only
      have hp := scanIteration_progress handler buf endp e left st fm he e1 left1 st1 fm1 hs
      rw [ih m e1 left1 st1 fm1 (by omega) (by omega) hp.2]

/-- C39: the frame-scan loop of `modesReadFromClient` terminates on every buffer content.
From a state with `left` bytes between `e` and the end of the data, an evaluation of the
loop after which the loop goes on has moved `e` forward by at least one byte (and `left` is
again the distance to the end); the body runs at most `left` times, whatever bound is put
on the evaluations; and the bound `left + 1` is never used up: every larger bound gives the
same count and the same final state.  `scanClientBuffer` starts the loop with `e = 0`,
`left = buflen` and the bound `buflen + 1`. -/
theorem scan_loop_terminates {σ : Type} (handler : σ → List Nat → σ) (buf : List Nat)
    (endp e left : Nat) (st : σ) (fm : Bool) (he : e + left = endp) :
    (∀ e1 left1 st1 fm1,
      scanIteration handler buf endp e left st fm = ScanStep.next e1 left1 st1 fm1 →
        e + 1 ≤ e1 ∧ e1 + left1 = endp) ∧
    (∀ fuel, scanBodyRuns handler buf endp fuel e left st fm ≤ left) ∧
    (∀ fuel, left < fuel →
      scanBodyRuns handler buf endp fuel e left st fm =
        scanBodyRuns handler buf endp (left + 1) e left st fm ∧
      scanFrames handler buf endp fuel e left st fm =
        scanFrames handler buf endp (left + 1) e left st fm) ∧
    (∀ fuel, scanFrames handler buf endp (fuel + 1) e left st fm =
      (match scanIteration handler buf endp e left st fm with
       | ScanStep.done st1 fm1 e1 => (st1, fm1, e1)
       | ScanStep.stop st1 fm1 e1 => (st1, fm1, e1)
       | ScanStep.next e1 left1 st1 fm1 =>
         scanFrames handler buf endp fuel e1 left1 st1 fm1)) :=
  ⟨fun e1 left1 st1 fm1 h =>
      scanIteration_progress handler buf endp e left st fm he e1 left1 st1 fm1 h,
    fun fuel => scanBodyRuns_le handler buf endp fuel e left st fm he,
    fun fuel hf =>
      ⟨scanBodyRuns_fuel handler buf endp fuel (left + 1) e left st fm hf (by omega) he,
        scanFrames_fuel handler buf endp fuel (left + 1) e left st fm hf (by omega) he⟩,
    fun fuel => scanFrames_iteration handler buf endp fuel e left st fm⟩

theorem scan_loop_terminates_witness :
    scanBodyRuns (fun (n : Nat) _ => n + 1) [0x1A, 0x41, 0x1A, 0x42, 0x1A] 5 6 0 5 0 false = 3 ∧
    (∀ fuel, scanBodyRuns (fun (n : Nat) _ => n + 1) [0x1A, 0x41, 0x1A, 0x42, 0x1A] 5 fuel 0 5 0
      false ≤ 5) ∧
    scanFrames (fun (n : Nat) _ => n + 1) [0x1A, 0x41, 0x1A, 0x42, 0x1A] 5 100 0 5 0 false =
      (0, false, 5) :=
  ⟨by decide,
    (scan_loop_terminates (fun (n : Nat) _ => n + 1) [0x1A, 0x41, 0x1A, 0x42, 0x1A] 5 0 5 0
      false rfl).2.1,
    ((scan_loop_terminates (fun (n : Nat) _ => n + 1) [0x1A, 0x41, 0x1A, 0x42, 0x1A] 5 0 5 0
      false rfl).2.2.1 100 (by decide)).2.trans (by decide)⟩

/-! ### The checksum as a polynomial remainder (C36) -/

theorem xor_xor_cancel (a b g : Nat) : (a ^^^ g) ^^^ (b ^^^ g) = a ^^^ b := by
  rw [Nat.xor_assoc, Nat.xor_comm b g, ← Nat.xor_assoc g, Nat.xor_self, Nat.zero_xor]

theorem xor_right_swap (a b g : Nat) : (a ^^^ b) ^^^ g = (a ^^^ g) ^^^ b := by
  rw [Nat.xor_assoc, Nat.xor_comm b g, ← Nat.xor_assoc]

theorem gf2Step_xor (a b k : Nat) : gf2Step (a ^^^ b) k = gf2Step a k ^^^ gf2Step b k := by
  unfold gf2Step
  rw [Nat.testBit_xor]
  by_cases ha : a.testBit k = true <;> by_cases hb : b.testBit k = true
  · simp only [ha, hb, Bool.xor_self, Bool.false_eq_true, if_false, if_true]
    rw [xor_xor_cancel]
  · simp only [Bool.not_eq_true] at hb
    simp only [ha, hb, Bool.xor_false, Bool.false_eq_true, if_false, if_true]
    rw [xor_right_swap]
  · simp only [Bool.not_eq_true] at ha
    simp only [ha, hb, Bool.false_xor, Bool.false_eq_true, if_false, if_true]
    rw [Nat.xor_assoc]
  · simp only [Bool.not_eq_true] at ha hb
    simp only [ha, hb, Bool.xor_self, Bool.false_eq_true, if_false]

theorem gf2Fold_xor (ks : List Nat) :
    ∀ a b : Nat, ks.foldl gf2Step (a ^^^ b) = ks.foldl gf2Step a ^^^ ks.foldl gf2Step b := by
  induction ks with
  | nil => intro a b; rfl
  | cons k ks ih =>
    intro a b
    rw [List.foldl_cons, List.foldl_cons, List.foldl_cons, gf2Step_xor, ih]

/-- The remainder is additive: the remainder of a sum (XOR) is the sum of the remainders. -/
theorem gf2Mod_xor (a b n : Nat) : gf2Mod (a ^^^ b) n = gf2Mod a n ^^^ gf2Mod b n :=
  gf2Fold_xor _ a b

theorem gf2Fold_small (ks : List Nat) (hks : ∀ k ∈ ks, 24 ≤ k) (t : Nat) (ht : t < 2 ^ 24) :
    ks.foldl gf2Step t = t := by
  induction ks with
  | nil => rfl
  | cons k ks ih =>
    have hk := hks k (List.mem_cons_self _ _)
    have hbit : t.testBit k = false :=
      Nat.testBit_lt_two_pow (lt_of_lt_of_le ht (Nat.pow_le_pow_right (by decide) hk))
    rw [List.foldl_cons]
    unfold gf2Step
    rw [hbit]
    exact ih (fun j hj => hks j (List.mem_cons_of_mem _ hj))

/-- A polynomial of degree below 24 is its own remainder. -/
theorem gf2Mod_small (t n : Nat) (ht : t < 2 ^ 24) : gf2Mod t n = t := by
  unfold gf2Mod
  apply gf2Fold_small _ _ t ht
  intro k hk
  have := List.mem_range'_1.mp (List.mem_reverse.mp hk)
  omega

theorem gf2Mod_zero (n : Nat) : gf2Mod 0 n = 0 := gf2Mod_small 0 n (by decide)

/-- The rows of the table: row `i` is the remainder of `x^(111 - i)`; the rows from 56 on are
also the remainders of the 56-bit positions. -/
theorem table_rows :
    (∀ i, i < 88 → modes_checksum_table.getD i 0 = gf2Mod (2 ^ (111 - i)) 112) ∧
    (∀ i, i < 32 → modes_checksum_table.getD (56 + i) 0 = gf2Mod (2 ^ (55 - i)) 56) := by
  decide!

theorem msgTerm_fold_acc (msg : List Nat) (bits : Nat) (l : List Nat) :
    ∀ acc : Nat, l.foldl (msgTerm msg bits) acc = acc ^^^ l.foldl (msgTerm msg bits) 0 := by
  induction l with
  | nil => intro acc; exact (Nat.xor_zero acc).symm
  | cons i l ih =>
    intro acc
    rw [List.foldl_cons, List.foldl_cons, ih (msgTerm msg bits acc i),
      ih (msgTerm msg bits 0 i)]
    unfold msgTerm
    rw [Nat.zero_xor, Nat.xor_assoc]

/-- The remainder of the terms of the bits before the trailer is the XOR of their table
rows. -/
theorem gf2Mod_head (msg : List Nat) (bits off : Nat) (l : List Nat)
    (hrows : ∀ i ∈ l, modes_checksum_table.getD (off + i) 0 = gf2Mod (2 ^ (bits - 1 - i)) bits) :
    ∀ acc : Nat, gf2Mod (l.foldl (msgTerm msg bits) acc) bits =
      l.foldl (checksumSpecStep msg off) (gf2Mod acc bits) := by
  induction l with
  | nil => intro acc; rfl
  | cons i l ih =>
    intro acc
    rw [List.foldl_cons, List.foldl_cons,
      ih (fun j hj => hrows j (List.mem_cons_of_mem _ hj)) (msgTerm msg bits acc i)]
    congr 1
    unfold msgTerm checksumSpecStep
    rw [gf2Mod_xor, hrows i (List.mem_cons_self _ _)]
    cases msgBit msg i with
    | false =>
      simp only [Bool.toNat_false, Nat.zero_shiftLeft, Bool.false_eq_true, if_false]
      rw [gf2Mod_zero, Nat.xor_zero]
    | true =>
      simp only [Bool.toNat_true, Nat.one_shiftLeft, if_true]

theorem byte_bits :
    (∀ b, b < 256 → (List.range' 0 8).foldl
      (fun acc r => acc ^^^ ((b.testBit (7 - r)).toNat <<< (23 - r))) 0 = b <<< 16) ∧
    (∀ b, b < 256 → (List.range' 0 8).foldl
      (fun acc r => acc ^^^ ((b.testBit (7 - r)).toNat <<< (15 - r))) 0 = b <<< 8) ∧
    (∀ b, b < 256 → (List.range' 0 8).foldl
      (fun acc r => acc ^^^ ((b.testBit (7 - r)).toNat <<< (7 - r))) 0 = b) := by
  decide!

theorem be24_xor_or (x y z : Nat) (hy : y < 256) (hz : z < 256) :
    (x <<< 16) ^^^ (y <<< 8) ^^^ z = (x <<< 16) ||| (y <<< 8) ||| z := by
  rw [be24_eq _ _ _ hy hz]
  have hy8 : y < 2 ^ 8 := hy
  have hz8 : z < 2 ^ 8 := hz
  have h0 : (0 : Nat) < 2 ^ 8 := by decide
  have e1 : x <<< 16 = 2 ^ 8 * (2 ^ 8 * x + 0) + 0 := by
    rw [Nat.shiftLeft_eq]; ring
  have e2 : y <<< 8 = 2 ^ 8 * (2 ^ 8 * 0 + y) + 0 := by
    rw [Nat.shiftLeft_eq]; ring
  have s1 : (2 ^ 8 * x + 0) ^^^ (2 ^ 8 * 0 + y) = 2 ^ 8 * x + y := by
    rw [xor_concat 8 x 0 0 y h0 hy8, Nat.xor_zero, Nat.zero_xor]
  have s2 : (2 ^ 8 * (2 ^ 8 * x + 0) + 0) ^^^ (2 ^ 8 * (2 ^ 8 * 0 + y) + 0) =
      2 ^ 8 * (2 ^ 8 * x + y) + 0 := by
    rw [xor_concat 8 _ 0 _ 0 h0 h0, s1, Nat.xor_zero]
  have s3 : (2 ^ 8 * (2 ^ 8 * x + y) + 0) ^^^ (2 ^ 8 * 0 + z) = 2 ^ 8 * (2 ^ 8 * x + y) + z := by
    rw [xor_concat 8 _ 0 0 z h0 hz8, Nat.xor_zero, Nat.zero_xor]
  have e3 : z = 2 ^ 8 * 0 + z := by ring
  rw [e1, e2, s2]
  nth_rewrite 1 [e3]
  rw [s3]
  ring

theorem msgPoly_tail_long (msg : List Nat) (hb : ∀ i, byteAt msg i < 256) :
    (List.range' 88 24).foldl (msgTerm msg 112) 0 =
      (byteAt msg 11 <<< 16) ||| (byteAt msg 12 <<< 8) ||| byteAt msg 13 := by
  have h1 := byte_bits.1 (byteAt msg 11) (hb 11)
  have h2 := byte_bits.2.1 (byteAt msg 12) (hb 12)
  have h3 := byte_bits.2.2 (byteAt msg 13) (hb 13)
  have hs : List.range' 88 24 = List.range' 88 8 ++ (List.range' 96 8 ++ List.range' 104 8) := by
    decide
  rw [hs, List.foldl_append, List.foldl_append, msgTerm_fold_acc msg 112 (List.range' 104 8),
    msgTerm_fold_acc msg 112 (List.range' 96 8), ← be24_xor_or _ _ _ (hb 12) (hb 13),
    ← h1, ← h2, ← h3]
  simp only [List.range', List.foldl, msgTerm, msgBit, Nat.reduceDiv, Nat.reduceMod,
    Nat.reduceSub, Nat.reduceAdd]

theorem msgPoly_tail_short (msg : List Nat) (hb : ∀ i, byteAt msg i < 256) :
    (List.range' 32 24).foldl (msgTerm msg 56) 0 =
      (byteAt msg 4 <<< 16) ||| (byteAt msg 5 <<< 8) ||| byteAt msg 6 := by
  have h1 := byte_bits.1 (byteAt msg 4) (hb 4)
  have h2 := byte_bits.2.1 (byteAt msg 5) (hb 5)
  have h3 := byte_bits.2.2 (byteAt msg 6) (hb 6)
  have hs : List.range' 32 24 = List.range' 32 8 ++ (List.range' 40 8 ++ List.range' 48 8) := by
    decide
  rw [hs, List.foldl_append, List.foldl_append, msgTerm_fold_acc msg 56 (List.range' 48 8),
    msgTerm_fold_acc msg 56 (List.range' 40 8), ← be24_xor_or _ _ _ (hb 5) (hb 6),
    ← h1, ← h2, ← h3]
  simp only [List.range', List.foldl, msgTerm, msgBit, Nat.reduceDiv, Nat.reduceMod,
    Nat.reduceSub, Nat.reduceAdd]

theorem table_lt (i : Nat) : modes_checksum_table.getD i 0 < 2 ^ 24 := by
  have hall : ∀ x ∈ modes_checksum_table, x < 2 ^ 24 := by decide
  rw [List.getD_eq_getElem?_getD]
  by_cases hi : i < modes_checksum_table.length
  · rw [List.getElem?_eq_getElem hi]
    exact hall _ (List.getElem_mem hi)
  · rw [List.getElem?_eq_none (by omega)]
    decide

theorem checksumRows_lt (msg : List Nat) (off n : Nat) : checksumRows msg off n < 2 ^ 24 := by
  unfold checksumRows
  have key : ∀ (l : List Nat) (acc : Nat), acc < 2 ^ 24 →
      l.foldl (checksumSpecStep msg off) acc < 2 ^ 24 := by
    intro l
    induction l with
    | nil => intro acc h; exact h
    | cons i l ih =>
      intro acc h
      rw [List.foldl_cons]
      apply ih
      unfold checksumSpecStep
      split_ifs
      · exact Nat.xor_lt_two_pow h (table_lt _)
      · exact h
  exact key _ 0 (by decide)

/-- C36: for every message of 112 or 56 bits, `modesChecksum` is the remainder of the
message, read as a polynomial over GF(2) with the first bit as the highest coefficient,
on division by the generator `0x1FFF409`; and each table row `i < 88` is the remainder of
`x^(111 - i)`. -/
theorem modesChecksum_is_remainder (msg : List Nat) (bits : Nat)
    (hlen : (bits = 112 ∧ msg.length = 14) ∨ (bits = 56 ∧ msg.length = 7))
    (hbytes : ∀ b ∈ msg, b < 256) :
    modesChecksum msg bits = gf2Mod (msgPoly msg bits) bits ∧
    modesChecksum msg bits < 2 ^ 24 ∧
    (∀ i, i < 88 → modes_checksum_table.getD i 0 = gf2Mod (2 ^ (111 - i)) 112) := by
  have hb := byteAt_lt msg hbytes
  refine ⟨?_, modesChecksum_lt msg bits, table_rows.1⟩
  rcases hlen with ⟨rfl, -⟩ | ⟨rfl, -⟩
  · have hs : List.range' 0 112 = List.range' 0 88 ++ List.range' 88 24 := by decide
    have hrem : (byteAt msg 11 <<< 16) ||| (byteAt msg 12 <<< 8) ||| byteAt msg 13 < 2 ^ 24 := by
      rw [be24_eq _ _ _ (hb 12) (hb 13)]
      have := hb 11
      have := hb 12
      have := hb 13
      omega
    have hhead := gf2Mod_head msg 112 0 (List.range' 0 88)
      (fun i hi => by
        have hlt : i < 88 := by
          have := List.mem_range'_1.mp hi
          omega
        rw [Nat.zero_add]
        exact table_rows.1 i hlt) 0
    rw [gf2Mod_zero] at hhead
    unfold msgPoly
    rw [hs, List.foldl_append, msgTerm_fold_acc msg 112 (List.range' 88 24), gf2Mod_xor, hhead,
      msgPoly_tail_long msg hb, gf2Mod_small _ 112 hrem, modesChecksum_long]
    have hx : checksumRows msg 0 88 ^^^
        ((byteAt msg 11 <<< 16) ||| (byteAt msg 12 <<< 8) ||| byteAt msg 13) < 2 ^ 24 :=
      Nat.xor_lt_two_pow (checksumRows_lt msg 0 88) hrem
    have hm := Nat.and_pow_two_sub_one_eq_mod (checksumRows msg 0 88 ^^^
        ((byteAt msg 11 <<< 16) ||| (byteAt msg 12 <<< 8) ||| byteAt msg 13)) 24
    rw [Nat.mod_eq_of_lt hx] at hm
    exact hm
  · have hs : List.range' 0 56 = List.range' 0 32 ++ List.range' 32 24 := by decide
    have hrem : (byteAt msg 4 <<< 16) ||| (byteAt msg 5 <<< 8) ||| byteAt msg 6 < 2 ^ 24 := by
      rw [be24_eq _ _ _ (hb 5) (hb 6)]
      have := hb 4
      have := hb 5
      have := hb 6
      omega
    have hhead := gf2Mod_head msg 56 56 (List.range' 0 32)
      (fun i hi => by
        have hlt : i < 32 := by
          have := List.mem_range'_1.mp hi
          omega
        exact table_rows.2 i hlt) 0
    rw [gf2Mod_zero] at hhead
    unfold msgPoly
    rw [hs, List.foldl_append, msgTerm_fold_acc msg 56 (List.range' 32 24), gf2Mod_xor, hhead,
      msgPoly_tail_short msg hb, gf2Mod_small _ 56 hrem, modesChecksum_short]
    have hx : checksumRows msg 56 32 ^^^
        ((byteAt msg 4 <<< 16) ||| (byteAt msg 5 <<< 8) ||| byteAt msg 6) < 2 ^ 24 :=
      Nat.xor_lt_two_pow (checksumRows_lt msg 56 32) hrem
    have hm := Nat.and_pow_two_sub_one_eq_mod (checksumRows msg 56 32 ^^^
        ((byteAt msg 4 <<< 16) ||| (byteAt msg 5 <<< 8) ||| byteAt msg 6)) 24
    rw [Nat.mod_eq_of_lt hx] at hm
    exact hm

theorem modesChecksum_is_remainder_witness :
    msgPoly frameDF4 56 = 0x200005381CCDF8 ∧
    gf2Mod (msgPoly frameDF4 56) 56 = modesChecksum frameDF4 56 ∧
    gf2Mod (msgPoly frameDF17 112) 112 = 0 :=
  ⟨by decide,
    (modesChecksum_is_remainder frameDF4 56 (Or.inr ⟨rfl, rfl⟩) (by decide)).1.symm,
    ((modesChecksum_is_remainder frameDF17 112 (Or.inl ⟨rfl, rfl⟩) (by decide)).1.symm).trans
      (by decide)⟩

/-! ### The frame log and the aircraft list (C38) -/

theorem id_receiveStages (now : Nat) (a : aircraft) (mm : modesMessage) :
    idFields (receiveAOG (receiveMotion (receiveSquawk (receiveAltitude (receiveCallsign
      (receiveSeen now a mm) mm) mm) mm) mm) mm) = (a.ptr, now) := by
  have h1 : ∀ (a : aircraft), idFields (receiveAOG a mm) = idFields a := by
    intro a; unfold receiveAOG; split_ifs <;> rfl
  have h2 : ∀ (a : aircraft), idFields (receiveMotion a mm) = idFields a := by
    intro a; rfl
  have h3 : ∀ (a : aircraft), idFields (receiveSquawk a mm) = idFields a := by
    intro a; unfold receiveSquawk; split_ifs <;> rfl
  have h4 : ∀ (a : aircraft), idFields (receiveAltitude a mm) = idFields a := by
    intro a; unfold receiveAltitude; split_ifs <;> rfl
  have h5 : ∀ (a : aircraft), idFields (receiveCallsign a mm) = idFields a := by
    intro a; unfold receiveCallsign; split_ifs <;> rfl
  rw [h1, h2, h3, h4, h5]
  rfl

theorem id_decodeCPR (ext : Ext) (M : ModesState) (now : Nat) (a : aircraft) (fflag surface : Nat) :
    idFields (decodeCPR ext M now a fflag surface).2 = idFields a := by
  unfold decodeCPR
  cases cprReference M now a surface with
  | none => rfl
  | some ref => dsimp only; split_ifs <;> rfl

theorem id_decodeCPRrelativeAt (ext : Ext) (a : aircraft) (fflag surface : Nat) (ref : ℚ × ℚ) :
    idFields (decodeCPRrelativeAt ext a fflag surface ref).2 = idFields a := by
  unfold decodeCPRrelativeAt
  lift_lets; intros; split_ifs <;> rfl

theorem id_decodeCPRrelative (ext : Ext) (M : ModesState) (a : aircraft) (fflag surface : Nat) :
    idFields (decodeCPRrelative ext M a fflag surface).2 = idFields a := by
  unfold decodeCPRrelative
  cases cprRelativeReference M a with
  | none => rfl
  | some ref => exact id_decodeCPRrelativeAt ext a fflag surface ref

theorem id_receiveCPRSample (ms : Nat) (a : aircraft) (mm : modesMessage) :
    idFields (receiveCPRSample ms a mm) = idFields a := by
  unfold receiveCPRSample; split_ifs <;> rfl

theorem id_receiveCPR (ext : Ext) (M : ModesState) (now ms : Nat) (a : aircraft)
    (mm : modesMessage) :
    idFields (receiveCPR ext M now ms a mm).1 = idFields a := by
  unfold receiveCPR
  split_ifs with h
  · dsimp only
    split_ifs <;>
      simp only [id_decodeCPR ext, id_decodeCPRrelative ext, id_receiveCPRSample]
  · rfl

theorem id_receiveFlags (a : aircraft) (mm : modesMessage) :
    idFields (receiveFlags a mm) = idFields a := by
  unfold receiveFlags
  dsimp only
  split_ifs <;> rfl

/-- A message leaves its aircraft record at its allocation and sets `seen` to the time of
the call. -/
theorem id_receiveUpdate (ext : Ext) (M : ModesState) (now ms : Nat) (a : aircraft)
    (mm : modesMessage) :
    (receiveUpdate ext M now ms a mm).1.ptr = a.ptr ∧
      (receiveUpdate ext M now ms a mm).1.seen = now := by
  have h : idFields (receiveUpdate ext M now ms a mm).1 = (a.ptr, now) := by
    unfold receiveUpdate
    dsimp only
    rw [id_receiveFlags, id_receiveCPR ext, id_receiveStages]
  unfold idFields at h
  simp only [Prod.mk.injEq] at h
  exact h

theorem ptr_interactiveCreateAircraft (ext : Ext) (p : Nat) (mm : modesMessage) :
    (interactiveCreateAircraft ext p mm).1.ptr = p := by
  unfold interactiveCreateAircraft
  dsimp only
  split_ifs <;> rfl

/-- The frame log after `receiveLog` with the lock: as it was, or with one entry at its head
that refers to the record. -/
theorem receiveLog_cases (pDF : List stDF) (a : aircraft) (mm : modesMessage) :
    receiveLog pDF true a mm = pDF ∨
    ∃ e, receiveLog pDF true a mm = e :: pDF ∧ e.pAircraft = a.ptr ∧ e.addr = mm.addr ∧
      e.seen = a.seen := by
  unfold receiveLog interactiveCreateDF
  by_cases h : mm.msgtype < 32 ∨ a.messages > 15
  · rw [if_pos h]
    exact Or.inr ⟨_, rfl, rfl, rfl, rfl⟩
  · rw [if_neg h]
    exact Or.inl rfl

/-- The state `interactiveReceiveData` leaves for a CRC-valid message, with the lock: a new
record at the head of the list, allocated at `heapNext`, or the record found for the
address replaced; the record has the address of the message and `seen = now`, and the frame
log is as `receiveLog` leaves it for that record. -/
theorem interactiveReceiveData_state (ext : Ext) (M : ModesState) (now ms : Nat)
    (mm : modesMessage) (hok : mm.crcok ≠ 0) :
    ∃ r m,
      r.addr = mm.addr ∧ m.addr = mm.addr ∧ r.seen = now ∧
      (interactiveReceiveData ext M now ms true mm).1.pDF = receiveLog M.pDF true r m ∧
      ((interactiveFindAircraft M.aircrafts mm.addr = none ∧ r.ptr = M.heapNext ∧
          (interactiveReceiveData ext M now ms true mm).1.aircrafts = r :: M.aircrafts ∧
          (interactiveReceiveData ext M now ms true mm).1.heapNext = M.heapNext + 1) ∨
        (∃ a pre post, interactiveFindAircraft M.aircrafts mm.addr = some a ∧
          r.ptr = a.ptr ∧ M.aircrafts = pre ++ a :: post ∧
          (interactiveReceiveData ext M now ms true mm).1.aircrafts = pre ++ r :: post ∧
          (interactiveReceiveData ext M now ms true mm).1.heapNext = M.heapNext)) := by
  unfold interactiveReceiveData
  rw [if_neg hok]
  cases hfind : interactiveFindAircraft M.aircrafts mm.addr with
  | none =>
    have hc := addr_interactiveCreateAircraft ext M.heapNext mm
    have hu := addr_receiveUpdate ext M now ms (interactiveCreateAircraft ext M.heapNext mm).1
      (interactiveCreateAircraft ext M.heapNext mm).2
    have hi := id_receiveUpdate ext M now ms (interactiveCreateAircraft ext M.heapNext mm).1
      (interactiveCreateAircraft ext M.heapNext mm).2
    refine ⟨_, _, hu.1.trans hc.1, hu.2.trans hc.2, hi.2, rfl, Or.inl ⟨rfl, ?_, rfl, rfl⟩⟩
    rw [hi.1, ptr_interactiveCreateAircraft]
  | some a =>
    have hu := addr_receiveUpdate ext M now ms a mm
    have hi := id_receiveUpdate ext M now ms a mm
    have ha := find_some_addr M.aircrafts mm.addr a hfind
    obtain ⟨pre, post, h1, h2, -⟩ :=
      writeAircraft_split M.aircrafts mm.addr a (receiveUpdate ext M now ms a mm).1 hfind
    exact ⟨_, _, hu.1.trans ha.1, hu.2, hi.2, rfl,
      Or.inr ⟨a, pre, post, rfl, hi.1, h1, h2, rfl⟩⟩

theorem LogInv_mono (M : ModesState) (c c1 : Nat) (h : LogInv M c) (hc : c ≤ c1) :
    LogInv M c1 := by
  obtain ⟨h1, h2, h3, h4, h5⟩ := h
  exact ⟨h1, h2, fun a ha => ⟨(h3 a ha).1, le_trans (h3 a ha).2 hc⟩, h4, h5⟩

theorem LogInv_seen_le (M : ModesState) (c : Nat) (h : LogInv M c) :
    ∀ e ∈ M.pDF, e.seen ≤ c := by
  intro e he
  obtain ⟨a, ha, -, -, hs⟩ := h.2.2.2.1 e he
  exact le_trans hs (h.2.2.1 a ha).2

theorem log_receive (pDF : List stDF) (L1 : List aircraft) (r : aircraft) (m : modesMessage)
    (now : Nat) (hold : ∀ e ∈ pDF, ∃ a ∈ L1, RefersTo e a)
    (hsorted : pDF.Pairwise (fun e1 e2 => e2.seen ≤ e1.seen))
    (hle : ∀ e ∈ pDF, e.seen ≤ now) (hr : r ∈ L1) (hseen : r.seen = now)
    (haddr : r.addr = m.addr) :
    (∀ e ∈ receiveLog pDF true r m, ∃ a ∈ L1, RefersTo e a) ∧
    (receiveLog pDF true r m).Pairwise (fun e1 e2 => e2.seen ≤ e1.seen) := by
  rcases receiveLog_cases pDF r m with h | ⟨e, h, hp, ha, hs⟩
  · rw [h]
    exact ⟨hold, hsorted⟩
  · rw [h]
    constructor
    · intro x hx
      rcases List.mem_cons.mp hx with hx | hx
      · rw [hx]
        exact ⟨r, hr, hp, by rw [ha, haddr], by rw [hs]⟩
      · exact hold x hx
    · rw [List.pairwise_cons]
      refine ⟨?_, hsorted⟩
      intro x hx
      rw [hs, hseen]
      exact hle x hx

/-- The state after `interactiveReceiveData`, at a time no earlier than the clock of the
run, satisfies the invariant at that time. -/
theorem LogInv_receive (ext : Ext) (M : ModesState) (now ms : Nat) (mm : modesMessage)
    (c : Nat) (h : LogInv M c) (hc : c ≤ now) :
    LogInv (interactiveReceiveData ext M now ms true mm).1 now := by
  by_cases hok : mm.crcok = 0
  · have e : (interactiveReceiveData ext M now ms true mm).1 = M := by
      unfold interactiveReceiveData
      rw [if_pos hok]
    rw [e]
    exact LogInv_mono M c now h hc
  · have hle := LogInv_seen_le M c h
    obtain ⟨h1, h2, h3, h4, h5⟩ := h
    obtain ⟨r, m, hra, hma, hrs, hpDF, hcase⟩ :=
      interactiveReceiveData_state ext M now ms mm hok
    rcases hcase with ⟨hnone, hptr, hl, hheap⟩ | ⟨a, pre, post, hsome, hptr, hM, hl, hheap⟩
    · have hlog := log_receive M.pDF (r :: M.aircrafts) r m now
        (fun e he => by
          obtain ⟨a, ha, href⟩ := h4 e he
          exact ⟨a, List.mem_cons_of_mem _ ha, href⟩)
        h5 (fun e he => le_trans (hle e he) hc) (List.mem_cons_self _ _) hrs (hra.trans hma.symm)
      refine ⟨?_, ?_, ?_, ?_, ?_⟩
      · rw [hl]
        unfold NoDupAddr
        rw [List.map_cons, List.nodup_cons]
        refine ⟨?_, h1⟩
        rw [hra]
        exact (find_none_iff M.aircrafts mm.addr).mp hnone
      · rw [hl, List.map_cons, List.nodup_cons]
        refine ⟨?_, h2⟩
        intro hmem
        obtain ⟨a, ha, hpa⟩ := List.mem_map.mp hmem
        have := (h3 a ha).1
        omega
      · intro a ha
        rw [hl] at ha
        rw [hheap]
        rcases List.mem_cons.mp ha with ha | ha
        · rw [ha]
          exact ⟨by omega, by omega⟩
        · exact ⟨by have := (h3 a ha).1; omega, le_trans (h3 a ha).2 hc⟩
      · rw [hpDF, hl]
        exact hlog.1
      · rw [hpDF]
        exact hlog.2
    · have haa := find_some_addr M.aircrafts mm.addr a hsome
      have hmem : ∀ x, x ∈ pre ++ r :: post ↔ (x ∈ pre ∨ x = r ∨ x ∈ post) := by
        intro x
        rw [List.mem_append, List.mem_cons]
      have hmemM : ∀ x, x ∈ M.aircrafts ↔ (x ∈ pre ∨ x = a ∨ x ∈ post) := by
        intro x
        rw [hM, List.mem_append, List.mem_cons]
      have hlog := log_receive M.pDF (pre ++ r :: post) r m now
        (fun e he => by
          obtain ⟨x, hx, href⟩ := h4 e he
          rcases (hmemM x).mp hx with hx | hx | hx
          · exact ⟨x, (hmem x).mpr (Or.inl hx), href⟩
          · refine ⟨r, (hmem r).mpr (Or.inr (Or.inl rfl)), ?_⟩
            rw [hx] at href
            have hsa := (h3 a haa.2).2
            exact ⟨href.1.trans hptr.symm, href.2.1.trans (haa.1.trans hra.symm),
              by have := href.2.2; omega⟩
          · exact ⟨x, (hmem x).mpr (Or.inr (Or.inr hx)), href⟩)
        h5 (fun e he => le_trans (hle e he) hc) ((hmem r).mpr (Or.inr (Or.inl rfl))) hrs
        (hra.trans hma.symm)
      refine ⟨?_, ?_, ?_, ?_, ?_⟩
      · rw [hl]
        unfold NoDupAddr at h1 ⊢
        rw [hM] at h1
        simp only [List.map_append, List.map_cons] at h1 ⊢
        rw [hra, ← haa.1]
        exact h1
      · rw [hl]
        rw [hM] at h2
        simp only [List.map_append, List.map_cons] at h2 ⊢
        rw [hptr]
        exact h2
      · intro x hx
        rw [hl] at hx
        rw [hheap]
        rcases (hmem x).mp hx with hx | hx | hx
        · exact ⟨(h3 x ((hmemM x).mpr (Or.inl hx))).1,
            le_trans (h3 x ((hmemM x).mpr (Or.inl hx))).2 hc⟩
        · rw [hx, hptr, hrs]
          exact ⟨(h3 a haa.2).1, le_refl _⟩
        · exact ⟨(h3 x ((hmemM x).mpr (Or.inr (Or.inr hx)))).1,
            le_trans (h3 x ((hmemM x).mpr (Or.inr (Or.inr hx)))).2 hc⟩
      · rw [hpDF, hl]
        exact hlog.1
      · rw [hpDF]
        exact hlog.2

/-- With the lock, `interactiveRemoveStaleDF` keeps the entries up to the first stale one. -/
theorem removeStaleDFLoop_eq (now : Nat) (ttl : Int) (l : List stDF) :
    ∀ kept, removeStaleDFLoop now ttl kept l =
      kept ++ l.takeWhile (fun e => decide ((now : Int) - (e.seen : Int) ≤ ttl)) := by
  induction l with
  | nil => intro kept; simp [removeStaleDFLoop]
  | cons e l ih =>
    intro kept
    unfold removeStaleDFLoop
    by_cases h : ((now : Int) - (e.seen : Int)) > ttl
    · have h2 : ¬ ((now : Int) - (e.seen : Int) ≤ ttl) := by omega
      rw [if_pos h, List.takeWhile_cons_of_neg (by simpa using h2), List.append_nil]
    · have h2 : (now : Int) - (e.seen : Int) ≤ ttl := by omega
      rw [if_neg h, ih, List.takeWhile_cons_of_pos (by simpa using h2), List.append_assoc]
      rfl

/-- The state after a sweep that runs: the fresh head of the frame log and the fresh records
of the aircraft list. -/
theorem sweep_state (M : ModesState) (now : Nat) (h : M.last_cleanup_time ≠ now) :
    (interactiveRemoveStaleAircrafts M now true).pDF =
      M.pDF.takeWhile (fun e => decide ((now : Int) - (e.seen : Int) ≤ M.interactive_delete_ttl)) ∧
    (interactiveRemoveStaleAircrafts M now true).aircrafts =
      M.aircrafts.filter
        (fun a => decide (((now : Int) - (a.seen : Int)) ≤ M.interactive_delete_ttl)) ∧
    (interactiveRemoveStaleAircrafts M now true).heapNext = M.heapNext := by
  unfold interactiveRemoveStaleAircrafts
  rw [if_pos h]
  refine ⟨?_, ?_, rfl⟩
  · show interactiveRemoveStaleDF M now true = _
    unfold interactiveRemoveStaleDF
    rw [if_pos rfl, removeStaleDFLoop_eq, List.nil_append]
  · show removeStaleLoop now M.interactive_delete_ttl [] M.aircrafts = _
    rw [removeStaleLoop_eq, List.nil_append]

/-- The state after `interactiveRemoveStaleAircrafts`, at a time no earlier than the clock of
the run, satisfies the invariant at that time. -/
theorem LogInv_sweep (M : ModesState) (now c : Nat) (h : LogInv M c) (hc : c ≤ now) :
    LogInv (interactiveRemoveStaleAircrafts M now true) now := by
  by_cases hrun : M.last_cleanup_time ≠ now
  · obtain ⟨hp, ha, hh⟩ := sweep_state M now hrun
    obtain ⟨h1, h2, h3, h4, h5⟩ := h
    refine ⟨?_, ?_, ?_, ?_, ?_⟩
    · unfold NoDupAddr at h1 ⊢
      rw [ha]
      exact h1.sublist ((List.filter_sublist _).map _)
    · rw [ha]
      exact h2.sublist ((List.filter_sublist _).map _)
    · intro a hmem
      rw [ha] at hmem
      rw [hh]
      have := h3 a (List.mem_filter.mp hmem).1
      exact ⟨this.1, le_trans this.2 hc⟩
    · intro e he
      rw [hp] at he
      have hfresh : (now : Int) - (e.seen : Int) ≤ M.interactive_delete_ttl := by
        simpa using List.mem_takeWhile_imp he
      obtain ⟨a, hmem, href⟩ := h4 e ((List.takeWhile_sublist _).subset he)
      refine ⟨a, ?_, href⟩
      rw [ha, List.mem_filter]
      refine ⟨hmem, ?_⟩
      have hs := href.2.2
      simp only [decide_eq_true_eq]
      omega
    · rw [hp]
      exact h5.sublist (List.takeWhile_sublist _)
  · have e : interactiveRemoveStaleAircrafts M now true = M := by
      unfold interactiveRemoveStaleAircrafts
      rw [if_neg hrun]
    rw [e]
    exact LogInv_mono M c now h hc

theorem findDFLoop_none (l : List stDF) (addr : Nat) (h : ∀ e ∈ l, e.addr ≠ addr) :
    findDFLoop l addr = none := by
  induction l with
  | nil => rfl
  | cons e l ih =>
    unfold findDFLoop
    rw [if_neg (h e (List.mem_cons_self _ _))]
    exact ih (fun x hx => h x (List.mem_cons_of_mem _ hx))

/-- A record that the sweep removes leaves no entry in the frame log: no entry holds its
pointer or its address. -/
theorem swept_leaves_no_entry (M : ModesState) (now c : Nat) (h : LogInv M c) (hc : c ≤ now)
    (s : aircraft) (hs : s ∈ M.aircrafts)
    (hgone : s ∉ (interactiveRemoveStaleAircrafts M now true).aircrafts) :
    ∀ e ∈ (interactiveRemoveStaleAircrafts M now true).pDF,
      e.pAircraft ≠ s.ptr ∧ e.addr ≠ s.addr := by
  have hinv := LogInv_sweep M now c h hc
  have hsub : ∀ a ∈ (interactiveRemoveStaleAircrafts M now true).aircrafts, a ∈ M.aircrafts := by
    intro a ha
    unfold interactiveRemoveStaleAircrafts at ha
    split_ifs at ha
    · dsimp only at ha
      rw [removeStaleLoop_eq, List.nil_append] at ha
      exact (List.mem_filter.mp ha).1
    · exact ha
  intro e he
  obtain ⟨a, ha, hp, haddr, -⟩ := hinv.2.2.2.1 e he
  constructor
  · intro heq
    have : a = s :=
      List.inj_on_of_nodup_map h.2.1 (hsub a ha) hs (hp.symm.trans heq)
    rw [this] at ha
    exact hgone ha
  · intro heq
    have : a = s :=
      List.inj_on_of_nodup_map h.1 (hsub a ha) hs (haddr.symm.trans heq)
    rw [this] at ha
    exact hgone ha

/-- The invariant holds along every run with a non-decreasing clock. -/
theorem LogInv_run (ext : Ext) (evs : List TrackerEvent) :
    ∀ (M : ModesState) (c now : Nat), LogInv M c →
      (c :: evs.map TrackerEvent.time).Pairwise (fun t1 t2 => t1 ≤ t2) →
      c ≤ now → (∀ t ∈ evs.map TrackerEvent.time, t ≤ now) →
      LogInv (trackerRun ext M evs) now := by
  induction evs with
  | nil =>
    intro M c now h _ hc _
    exact LogInv_mono M c now h hc
  | cons ev evs ih =>
    intro M c now h hsorted hc hnow
    rw [List.map_cons, List.pairwise_cons] at hsorted
    have hcev : c ≤ ev.time := hsorted.1 _ (List.mem_cons_self _ _)
    have hstep : LogInv (trackerStep ext M ev) ev.time := by
      cases ev with
      | receive t ms mm => exact LogInv_receive ext M t ms mm c h hcev
      | sweep t => exact LogInv_sweep M t c h hcev
    unfold trackerRun
    rw [List.foldl_cons]
    exact ih (trackerStep ext M ev) ev.time now hstep hsorted.2
      (hnow _ (by rw [List.map_cons]; exact List.mem_cons_self _ _))
      (fun t ht => hnow t (by rw [List.map_cons]; exact List.mem_cons_of_mem _ ht))

/-- C38: in a single-threaded run that starts with an empty aircraft list and an empty frame
log, with a non-decreasing clock and the frame-log lock always obtained, after every
`interactiveReceiveData` and every `interactiveRemoveStaleAircrafts` each frame-log entry
refers to an aircraft record that is in the list (it holds its pointer and its address) and
has `seen` no later than that record, and the log is ordered by `seen`, non-increasing from
the head; a record that a sweep at a time `now` no earlier than the run removes leaves no
entry with its pointer, and `interactiveFindDF` returns `NULL` for its address. -/
theorem frame_log_refers_to_live_aircraft (ext : Ext) (M0 : ModesState)
    (evs : List TrackerEvent) (now : Nat)
    (hempty : M0.aircrafts = [] ∧ M0.pDF = [])
    (hclock : (evs.map TrackerEvent.time).Pairwise (fun t1 t2 => t1 ≤ t2))
    (hnow : ∀ t ∈ evs.map TrackerEvent.time, t ≤ now) :
    (∀ e ∈ (trackerRun ext M0 evs).pDF, ∃ a ∈ (trackerRun ext M0 evs).aircrafts,
      RefersTo e a) ∧
    (trackerRun ext M0 evs).pDF.Pairwise (fun e1 e2 => e2.seen ≤ e1.seen) ∧
    (∀ s ∈ (trackerRun ext M0 evs).aircrafts,
      s ∉ (interactiveRemoveStaleAircrafts (trackerRun ext M0 evs) now true).aircrafts →
        (∀ e ∈ (interactiveRemoveStaleAircrafts (trackerRun ext M0 evs) now true).pDF,
          e.pAircraft ≠ s.ptr) ∧
        interactiveFindDF (interactiveRemoveStaleAircrafts (trackerRun ext M0 evs) now true).pDF
          true s.addr = none) := by
  have h0 : LogInv M0 0 := by
    unfold LogInv NoDupAddr
    rw [hempty.1, hempty.2]
    exact ⟨List.nodup_nil, List.nodup_nil, fun a ha => absurd ha (List.not_mem_nil a),
      fun e he => absurd he (List.not_mem_nil e), List.Pairwise.nil⟩
  have hrun := LogInv_run ext evs M0 0 now h0
    (List.pairwise_cons.mpr ⟨fun t _ => Nat.zero_le t, hclock⟩) (Nat.zero_le now) hnow
  refine ⟨hrun.2.2.2.1, hrun.2.2.2.2, ?_⟩
  intro s hs hgone
  have hno := swept_leaves_no_entry (trackerRun ext M0 evs) now now hrun (le_refl _) s hs hgone
  refine ⟨fun e he => (hno e he).1, ?_⟩
  unfold interactiveFindDF
  rw [if_pos rfl]
  exact findDFLoop_none _ _ (fun e he => (hno e he).2)

theorem frame_log_refers_to_live_aircraft_witness :
    ((interactiveRemoveStaleAircrafts (trackerRun extZero ModesState.init
        [TrackerEvent.receive 1000 1000000 messageDF17,
         TrackerEvent.receive 1200 1200000 messageOdd]) 1350 true).aircrafts.map
      (fun a => a.addr) = [0x40621D]) ∧
    (∀ e ∈ (trackerRun extZero ModesState.init
        [TrackerEvent.receive 1000 1000000 messageDF17,
         TrackerEvent.receive 1200 1200000 messageOdd]).pDF,
      ∃ a ∈ (trackerRun extZero ModesState.init
        [TrackerEvent.receive 1000 1000000 messageDF17,
         TrackerEvent.receive 1200 1200000 messageOdd]).aircrafts, RefersTo e a) ∧
    (trackerRun extZero ModesState.init
        [TrackerEvent.receive 1000 1000000 messageDF17,
         TrackerEvent.receive 1200 1200000 messageOdd]).pDF.Pairwise
      (fun e1 e2 => e2.seen ≤ e1.seen) ∧
    (∀ s ∈ (trackerRun extZero ModesState.init
        [TrackerEvent.receive 1000 1000000 messageDF17,
         TrackerEvent.receive 1200 1200000 messageOdd]).aircrafts,
      s ∉ (interactiveRemoveStaleAircrafts (trackerRun extZero ModesState.init
        [TrackerEvent.receive 1000 1000000 messageDF17,
         TrackerEvent.receive 1200 1200000 messageOdd]) 1350 true).aircrafts →
        (∀ e ∈ (interactiveRemoveStaleAircrafts (trackerRun extZero ModesState.init
            [TrackerEvent.receive 1000 1000000 messageDF17,
             TrackerEvent.receive 1200 1200000 messageOdd]) 1350 true).pDF,
          e.pAircraft ≠ s.ptr) ∧
        interactiveFindDF (interactiveRemoveStaleAircrafts (trackerRun extZero ModesState.init
            [TrackerEvent.receive 1000 1000000 messageDF17,
             TrackerEvent.receive 1200 1200000 messageOdd]) 1350 true).pDF
          true s.addr = none) :=
  ⟨by decide!,
    frame_log_refers_to_live_aircraft extZero ModesState.init
      [TrackerEvent.receive 1000 1000000 messageDF17,
       TrackerEvent.receive 1200 1200000 messageOdd] 1350 ⟨rfl, rfl⟩ (by decide) (by decide)⟩

end Ppup1090
